import Mathlib

/-!
# Odin statement checker and SSA interpreter: a shallow embedding

Sources embedded here:

* `src/checker/stmt.c`: `check_stmt_list`, `check_is_terminating_list`,
  `check_has_break_list`, `check_has_break`, `check_is_terminating`,
  `check_assignment_variable`, `check_valid_type_match_type`, `check_stmt`,
  `check_when_stmt`, `check_stmt_internal`;
* `src/vm/vm.cpp`: `vm_store_integer`, `vm_store`, `vm_load_integer`, `vm_load`,
  `vm_back_frame`, `vm_set_value`, `vm_push_frame`, `vm_pop_frame`,
  `vm_call_procedure`, `vm_exact_value`, `vm_operand_value`,
  `vm_lookup_procedure`, `vm_exec_instr`.

Conventions.

* An `AstNode *` is a value of the inductive type `AstNode`; a pointer that the
  source tests against `NULL` is an `Option AstNode`; an `AstNodeArray` is a
  `List AstNode`.
* A `GB_ASSERT`/`GB_PANIC` that fires, and a read through a pointer or union
  member the source did not check, is the result `none`.
* The macros `case_ast_node(x, Kind, node)` / `case_end` of the parser are
  `case AstNode_Kind: { ast_node(x, Kind, node); ... } break;`, where
  `ast_node` asserts `node->kind == AstNode_Kind`.
-/

namespace Odin

/-! ## Tokens and the syntax tree -/

/-- Source position of a token (`TokenPos`). -/
structure TokenPos where
  file : String
  line : Nat
  column : Nat
deriving DecidableEq, Repr, Inhabited

/-- The token kinds the statement checker and the interpreter dispatch on. -/
inductive TokenKind where
  | Token_Invalid
  | Token_Ident
  | Token_Integer
  | Token_Float
  | Token_String
  | Token_Eq
  | Token_Not
  | Token_Add
  | Token_Sub
  | Token_Mul
  | Token_Quo
  | Token_Mod
  | Token_And
  | Token_Or
  | Token_Xor
  | Token_AndNot
  | Token_Shl
  | Token_Shr
  | Token_CmpAnd
  | Token_CmpOr
  | Token_AddEq
  | Token_SubEq
  | Token_MulEq
  | Token_QuoEq
  | Token_ModEq
  | Token_AndEq
  | Token_OrEq
  | Token_XorEq
  | Token_AndNotEq
  | Token_ShlEq
  | Token_ShrEq
  | Token_CmpAndEq
  | Token_CmpOrEq
  | Token_Increment
  | Token_Decrement
  | Token_CmpEq
  | Token_NotEq
  | Token_Lt
  | Token_Gt
  | Token_LtEq
  | Token_GtEq
  | Token_break
  | Token_continue
  | Token_fallthrough
  | Token_return
deriving DecidableEq, Repr, Inhabited

/-- A lexical token (`Token`): kind, text and position. -/
structure Token where
  kind : TokenKind
  string : String
  pos : TokenPos
deriving DecidableEq, Repr, Inhabited

/-- The syntax tree (`AstNode`), with the node kinds `stmt.c` inspects and the
fields it reads.  Expression kinds come first, then statements, then
declarations. -/
inductive AstNode where
  | Ident (token : Token)
  | BasicLit (token : Token)
  | BinaryExpr (op : Token) (left right : AstNode)
  | CallExpr (proc : AstNode) (args : List AstNode)
  | SelectorExpr (expr selector : AstNode)
  | ParenExpr (expr : AstNode)
  | FieldValue (field value : AstNode)
  | CompoundLit (type : Option AstNode) (elems : List AstNode)
  | BadStmt
  | EmptyStmt
  | ExprStmt (expr : AstNode)
  | TagStmt (token : Token) (stmt : AstNode)
  | IncDecStmt (op : Token) (expr : AstNode)
  | AssignStmt (op : Token) (lhs rhs : List AstNode)
  | BlockStmt (stmts : List AstNode)
  | IfStmt (init : Option AstNode) (cond body : AstNode) (else_stmt : Option AstNode)
  | WhenStmt (cond : AstNode) (body else_stmt : Option AstNode)
  | ReturnStmt (token : Token) (results : List AstNode)
  | ForStmt (init cond post : Option AstNode) (body : AstNode)
  | CaseClause (token : Token) (list stmts : List AstNode)
  | MatchStmt (init tag : Option AstNode) (body : AstNode)
  | TypeMatchStmt (tag var body : AstNode)
  | DeferStmt (token : Token) (stmt : AstNode)
  | BranchStmt (token : Token)
  | UsingStmt (token : Token) (node : AstNode)
  | PushAllocator (expr body : AstNode)
  | PushContext (expr body : AstNode)
  | BadDecl
  | VarDecl (names : List AstNode) (type : Option AstNode) (values : List AstNode)
  | ConstDecl (names values : List AstNode)
  | TypeDecl (name type : AstNode)
  | ProcDecl (name type : AstNode) (body : Option AstNode)
deriving Repr, Inhabited

/-- The test `n->kind == AstNode_EmptyStmt`. -/
def AstNode.is_EmptyStmt : AstNode → Bool
  | .EmptyStmt => true
  | _ => false

/-- The test `n->kind == AstNode_CallExpr`. -/
def AstNode.is_CallExpr : AstNode → Bool
  | .CallExpr _ _ => true
  | _ => false

/-- The test `n->kind == AstNode_Ident`. -/
def AstNode.is_Ident : AstNode → Bool
  | .Ident _ => true
  | _ => false

/-- The test `n->kind == AstNode_CaseClause`. -/
def AstNode.is_CaseClause : AstNode → Bool
  | .CaseClause _ _ _ => true
  | _ => false

/-! ## Termination analysis (`stmt.c` lines 38-170) -/

mutual

/-- `check_has_break(stmt, implicit)`: only `BranchStmt`, `BlockStmt`, `IfStmt`
and `CaseClause` have a case; every other kind reaches `return false`. -/
def check_has_break : AstNode → Bool → Bool
  | .BranchStmt token, implicit =>
      if token.kind = TokenKind.Token_break then implicit else false
  | .BlockStmt stmts, implicit => check_has_break_list stmts implicit
  | .IfStmt _ _ body else_stmt, implicit =>
      if check_has_break body implicit || check_has_break_else else_stmt implicit then true
      else false
  | .CaseClause _ _ stmts, implicit => check_has_break_list stmts implicit
  | _, _ => false

/-- `check_has_break_list(stmts, implicit)`: the first statement with a break
makes the loop return true. -/
def check_has_break_list : List AstNode → Bool → Bool
  | [], _ => false
  | stmt :: rest, implicit =>
      if check_has_break stmt implicit then true else check_has_break_list rest implicit

/-- The operand `stmt->IfStmt.else_stmt != NULL && check_has_break(else_stmt, implicit)`. -/
def check_has_break_else : Option AstNode → Bool → Bool
  | none, _ => false
  | some else_stmt, implicit => check_has_break else_stmt implicit

end

/-- The C operator `a && b` on results that may have failed: `b` is evaluated
only when `a` returned true. -/
def and_then (a b : Option Bool) : Option Bool :=
  match a with
  | some true => b
  | some false => some false
  | none => none

mutual

/-- `check_is_terminating(node)`.  `none` is an assertion failure or an
unchecked access: a match body that is not a `BlockStmt` of `CaseClause`s, or a
`WhenStmt` with an `else` and a `NULL` body. -/
def check_is_terminating : AstNode → Option Bool
  | .ReturnStmt _ _ => some true
  | .BlockStmt stmts => check_is_terminating_list stmts
  | .ExprStmt expr => check_is_terminating expr
  | .IfStmt _ _ body (some else_stmt) =>
      and_then (check_is_terminating body) (check_is_terminating else_stmt)
  | .IfStmt _ _ _ none => some false
  | .WhenStmt _ (some body) (some else_stmt) =>
      and_then (check_is_terminating body) (check_is_terminating else_stmt)
  | .WhenStmt _ none (some _) => none
  | .WhenStmt _ _ none => some false
  | .ForStmt _ cond _ body =>
      if cond.isNone && !check_has_break body true then some true else some false
  | .MatchStmt _ _ (.BlockStmt stmts) => check_is_terminating_clauses stmts false
  | .MatchStmt _ _ _ => none
  | .TypeMatchStmt _ _ (.BlockStmt stmts) => check_is_terminating_clauses stmts false
  | .TypeMatchStmt _ _ _ => none
  | .PushAllocator _ body => check_is_terminating body
  | .PushContext _ body => check_is_terminating body
  | _ => some false

/-- `check_is_terminating_list(stmts)`.  The source scans from the last index
down to the first statement that is not an `EmptyStmt`; on a list that is the
head exactly when everything after it is empty. -/
def check_is_terminating_list : List AstNode → Option Bool
  | [] => some false
  | stmt :: rest =>
      if rest.all AstNode.is_EmptyStmt then
        (if stmt.is_EmptyStmt then some false else check_is_terminating stmt)
      else check_is_terminating_list rest

/-- The clause loop of the `MatchStmt` and `TypeMatchStmt` cases (the two
bodies are the same text), with `has_default` as the loop variable. -/
def check_is_terminating_clauses : List AstNode → Bool → Option Bool
  | [], has_default => some has_default
  | .CaseClause _ list stmts :: rest, has_default =>
      match check_is_terminating_list stmts with
      | none => none
      | some t =>
          let has_default := if list.length = 0 then true else has_default
          if !t || check_has_break_list stmts true then some false
          else check_is_terminating_clauses rest has_default
  | _ :: _, _ => none

end

/-! ## Words of the specification used to state the termination claims -/

/-- The last statement of a list that is not an `EmptyStmt`, if there is one. -/
def last_non_empty (stmts : List AstNode) : Option AstNode :=
  stmts.reverse.find? (fun s => !s.is_EmptyStmt)

/-- The expression list (`cc->list`) of a case clause. -/
def AstNode.clause_list : AstNode → List AstNode
  | .CaseClause _ list _ => list
  | _ => []

/-- The statement list (`cc->stmts`) of a case clause. -/
def AstNode.clause_stmts : AstNode → List AstNode
  | .CaseClause _ _ stmts => stmts
  | _ => []

/-- A `break` can be reached from the statement by going down only through
block statement lists, `if` bodies and else branches, and case clause statement
lists. -/
inductive ReachesBreak : AstNode → Prop where
  | branch (token : Token) (h : token.kind = TokenKind.Token_break) :
      ReachesBreak (.BranchStmt token)
  | block (stmts : List AstNode) (s : AstNode) (hs : s ∈ stmts) (h : ReachesBreak s) :
      ReachesBreak (.BlockStmt stmts)
  | if_body (init : Option AstNode) (cond body : AstNode) (else_stmt : Option AstNode)
      (h : ReachesBreak body) : ReachesBreak (.IfStmt init cond body else_stmt)
  | if_else (init : Option AstNode) (cond body e : AstNode)
      (h : ReachesBreak e) : ReachesBreak (.IfStmt init cond body (some e))
  | clause (token : Token) (list stmts : List AstNode) (s : AstNode) (hs : s ∈ stmts)
      (h : ReachesBreak s) : ReachesBreak (.CaseClause token list stmts)

/-! ## Concrete programs -/

/-- A token at a line and column of `main.odin`, for the concrete programs. -/
def tok (kind : TokenKind) (string : String) (line column : Nat) : Token :=
  ⟨kind, string, ⟨"main.odin", line, column⟩⟩

/-- The statement `return;`. -/
def stmt_return (line column : Nat) : AstNode :=
  .ReturnStmt (tok .Token_return "return" line column) []

/-- An integer literal. -/
def lit (text : String) (line column : Nat) : AstNode :=
  .BasicLit (tok .Token_Integer text line column)

/-- The clauses `case 1: return; case 2: return;`. -/
def clauses_no_default : List AstNode :=
  [.CaseClause (tok .Token_Ident "case" 2 1) [lit "1" 2 6] [stmt_return 2 9],
   .CaseClause (tok .Token_Ident "case" 3 1) [lit "2" 3 6] [stmt_return 3 9]]

/-- The clauses `case 1: return; case 2: return; default: return;`. -/
def clauses_with_default : List AstNode :=
  clauses_no_default ++ [.CaseClause (tok .Token_Ident "default" 4 1) [] [stmt_return 4 10]]


/-! ## Types (`Type`)

A `Type *` is represented by its base type: `base_type` and
`get_enum_base_type` (type utilities, not part of the two source files) are the
identity on this representation.  A `Type *` that may be `NULL` is an
`Option Ty`. -/

/-- The kinds of basic types (`Basic.kind`). -/
inductive BasicKind where
  | Basic_Invalid
  | Basic_bool
  | Basic_i8
  | Basic_u8
  | Basic_i16
  | Basic_u16
  | Basic_i32
  | Basic_u32
  | Basic_i64
  | Basic_u64
  | Basic_f32
  | Basic_f64
  | Basic_int
  | Basic_uint
  | Basic_rawptr
  | Basic_string
  | Basic_any
deriving DecidableEq, Repr, Inhabited

/-- The kinds of record types (`Record.kind`). -/
inductive TypeRecordKind where
  | TypeRecord_Struct
  | TypeRecord_Enum
  | TypeRecord_RawUnion
  | TypeRecord_Union
deriving DecidableEq, Repr, Inhabited

/-- The types of the language (`Type`); a record lists its field types in field
order, a procedure type its
parameter and result tuples (`NULL` when it has none). -/
inductive Ty where
  | Basic (kind : BasicKind)
  | Pointer (elem : Ty)
  | Array (elem : Ty) (count : Nat)
  | Vector (elem : Ty) (count : Nat)
  | Slice (elem : Ty)
  | Record (kind : TypeRecordKind) (fields : List Ty)
  | Tuple (vars : List Ty)
  | Proc (params results : Option Ty)
deriving Repr, Inhabited

/-- The type `t_int`. -/
def t_int : Ty := .Basic .Basic_int

/-- The type `t_bool`. -/
def t_bool : Ty := .Basic .Basic_bool

/-- The type `t_invalid`. -/
def t_invalid : Ty := .Basic .Basic_Invalid

/-- The test `type == t_invalid`. -/
def is_t_invalid : Option Ty → Bool
  | some (.Basic .Basic_Invalid) => true
  | _ => false

/-- `is_type_pointer(type)`. -/
def is_type_pointer : Option Ty → Bool
  | some (.Pointer _) => true
  | _ => false

/-- `type_deref(type)`: the element type of a pointer, any other type as it is. -/
def type_deref : Option Ty → Option Ty
  | some (.Pointer elem) => some elem
  | t => t

/-- `is_type_union(type)`. -/
def is_type_union : Option Ty → Bool
  | some (.Record .TypeRecord_Union _) => true
  | _ => false

/-- `is_type_struct(type)`. -/
def is_type_struct : Option Ty → Bool
  | some (.Record .TypeRecord_Struct _) => true
  | _ => false

/-- `is_type_enum(type)`. -/
def is_type_enum : Option Ty → Bool
  | some (.Record .TypeRecord_Enum _) => true
  | _ => false

/-- `is_type_raw_union(type)`. -/
def is_type_raw_union : Option Ty → Bool
  | some (.Record .TypeRecord_RawUnion _) => true
  | _ => false

/-- `is_type_any(type)`. -/
def is_type_any : Option Ty → Bool
  | some (.Basic .Basic_any) => true
  | _ => false

/-- The field types `bt->Record.fields[i]->type` of a record type. -/
def record_fields : Option Ty → List Ty
  | some (.Record _ fields) => fields
  | _ => []

/-! ## The statement checker: data (`stmt.c`) -/

/-- `Stmt_BreakAllowed = GB_BIT(0)`. -/
def Stmt_BreakAllowed : Nat := 1

/-- `Stmt_ContinueAllowed = GB_BIT(1)`. -/
def Stmt_ContinueAllowed : Nat := 2

/-- `Stmt_FallthroughAllowed = GB_BIT(2)`. -/
def Stmt_FallthroughAllowed : Nat := 4

/-- The `u32` operation `flags & (~bit)`. -/
def clear_flag (flags bit : Nat) : Nat := flags &&& (0xFFFFFFFF ^^^ bit)

/-- The test `(flags & bit) != 0`. -/
def has_flag (flags bit : Nat) : Bool := (flags &&& bit) != 0

/-- Modelled from the spec: the `stmt_state_flags` bit `bounds_check`, one of the
two bits of the bitset; the enumeration is declared in the parser. -/
def StmtStateFlag_bounds_check : Nat := 1

/-- Modelled from the spec: the `stmt_state_flags` bit `no_bounds_check`; the
enumeration is declared in the parser. -/
def StmtStateFlag_no_bounds_check : Nat := 2

/-- Addressing modes of an operand. -/
inductive AddressingMode where
  | Addressing_Invalid
  | Addressing_NoValue
  | Addressing_Value
  | Addressing_Variable
  | Addressing_Constant
  | Addressing_Type
deriving DecidableEq, Repr, Inhabited

/-- A compile-time constant (`ExactValue`); a compound value is identified by
the address of its literal. -/
inductive ExactValue where
  | Invalid
  | Bool (value_bool : Bool)
  | String (value_string : String)
  | Integer (value_integer : Int)
  | Float (value_float : Int)
  | Pointer (value_pointer : Int)
  | Compound (value_compound : Nat)
deriving DecidableEq, Repr, Inhabited

/-- The kind of expression `check_expr_base` reports. -/
inductive ExprKind where
  | Expr_Expr
  | Expr_Stmt
deriving DecidableEq, Repr, Inhabited

/-- An operand (`Operand`): mode, type, value and expression. -/
structure Operand where
  mode : AddressingMode
  type : Option Ty
  value : ExactValue
  expr : AstNode
deriving Repr, Inhabited

/-- The diagnostics of `stmt.c`, one constructor per message text, with the
values the text is formatted with (an expression for `expr_to_string`, a type
for `type_to_string`). -/
inductive Message where
  | is_not_an_expression
  | expression_is_not_used (expr : AstNode)
  | tag_statements_not_supported
  | unknown_inc_dec_operation (op : String)
  | non_numeric_type
  | missing_lhs
  | assignment_count_mismatch (lhs_count rhs_count : Nat)
  | assignment_operation_requires_single (op : String)
  | unknown_assignment_operation (op : String)
  | cannot_assign_to (expr : AstNode)
  | non_boolean_condition_in_if
  | invalid_else_in_if
  | non_constant_boolean_when_condition
  | invalid_body_for_when
  | invalid_else_in_when
  | return_within_defer
  | expected_return_values (result_count : Nat)
  | no_return_values_expected
  | non_boolean_condition_in_for
  | expected_case_clause
  | multiple_default_clauses (first : TokenPos)
  | duplicate_case (expr : AstNode) (previous : TokenPos)
  | invalid_type_match_type (type : Option Ty)
  | unknown_tag_type (type : Option Ty)
  | duplicate_type_case (expr : AstNode) (previous : TokenPos)
  | defer_declaration
  | break_not_allowed
  | continue_not_allowed
  | fallthrough_illegal_position
  | invalid_branch_statement (text : String)
  | using_unknown_entity
  | namespace_collision (expr : AstNode) (name : String)
  | namespace_collision_at (expr : AstNode) (name : String) (found decl : TokenPos)
  | namespace_collision_name (using_name name : String)
  | using_requires_struct_or_raw_union
  | using_constant
  | using_procedure
  | using_implicit_value
  | using_nil
  | using_invalid_entity
  | using_one_variable_of_same_type
  | using_invalid_ast
  | declaration_name_not_identifier (name : AstNode)
deriving Repr, Inhabited

/-- What checking leaves behind, in order: a diagnostic (`error`, `error_node`)
with its position, or a call of `check_stmt` on a node with the flags it was
given and what that call left behind in turn. -/
inductive Event where
  | error (pos : TokenPos) (msg : Message)
  | stmt (node : AstNode) (flags : Nat) (events : List Event)
deriving Repr, Inhabited

/-- The checker (`Checker`).  `info` is everything the collaborators own (the
scope graph with the current scope, entities, uses, the type-info table, their
own diagnostics); the other fields are the context fields `stmt.c` reads and
writes itself, and `log` is the record of the current `check_stmt` call. -/
structure Checker (σ : Type) where
  info : σ
  stmt_state_flags : Nat
  in_defer : Bool
  proc_stack : List Ty
  log : List Event

/-- An entry of the `seen` multimap of the `MatchStmt` case. -/
structure TypeAndToken where
  type : Option Ty
  token : Token
deriving Repr, Inhabited

/-- Modelled from the spec: the `seen` multimap keyed by the hashed exact value
(`map.c` is not part of the source files): the entries, most recently inserted
first. -/
abbrev MapTypeAndToken := List (Nat × TypeAndToken)

/-- `map_type_and_token_get`: an entry under the key, if there is one. -/
def map_type_and_token_get (seen : MapTypeAndToken) (key : Nat) : Option TypeAndToken :=
  (seen.find? (fun e => e.1 = key)).map (fun e => e.2)

/-- `map_type_and_token_multi_get_all`: every entry under the key. -/
def map_type_and_token_multi_get_all (seen : MapTypeAndToken) (key : Nat) :
    List TypeAndToken :=
  (seen.filter (fun e => e.1 = key)).map (fun e => e.2)

/-- `map_type_and_token_multi_insert`. -/
def map_type_and_token_multi_insert (seen : MapTypeAndToken) (key : Nat)
    (tap : TypeAndToken) : MapTypeAndToken :=
  (key, tap) :: seen

/-- The kinds of entities (`EntityKind`). -/
inductive EntityKind where
  | Entity_Invalid
  | Entity_Constant
  | Entity_Variable
  | Entity_TypeName
  | Entity_Procedure
  | Entity_Builtin
  | Entity_ImportName
  | Entity_Nil
  | Entity_ImplicitValue
deriving DecidableEq, Repr, Inhabited

/-- An entity (`Entity`), with the fields `stmt.c` reads and writes in the
`UsingStmt` case.  `ImportName_scope` holds the values
`ImportName.scope->elements.entries.e[i].value` of an import name, in order. -/
inductive Entity where
  | mk (kind : EntityKind) (token : Token) (type : Option Ty) (using_parent : Option Entity)
      (using_expr : Option AstNode) (ImportName_scope : List Entity)

/-- `e->kind`. -/
def Entity.kind : Entity → EntityKind
  | .mk kind _ _ _ _ _ => kind

/-- `e->token`. -/
def Entity.token : Entity → Token
  | .mk _ token _ _ _ _ => token

/-- `e->type`. -/
def Entity.type : Entity → Option Ty
  | .mk _ _ type _ _ _ => type

/-- `e->using_parent`. -/
def Entity.using_parent : Entity → Option Entity
  | .mk _ _ _ using_parent _ _ => using_parent

/-- `e->using_expr`. -/
def Entity.using_expr : Entity → Option AstNode
  | .mk _ _ _ _ using_expr _ => using_expr

/-- The entities of `e->ImportName.scope`. -/
def Entity.ImportName_scope : Entity → List Entity
  | .mk _ _ _ _ _ entries => entries

/-- The assignment `f->using_parent = e`. -/
def Entity.set_using_parent : Entity → Entity → Entity
  | .mk kind token type _ using_expr entries, e => .mk kind token type (some e) using_expr entries

/-- The assignment `uvar->using_expr = expr`. -/
def Entity.set_using_expr : Entity → AstNode → Entity
  | .mk kind token type using_parent _ entries, expr =>
      .mk kind token type using_parent (some expr) entries

/-- Modelled from the spec: `make_entity_using_variable(a, parent, token, type)`
(the entity table is not part of the source files): "synthesise per-field
`using_variable` entities with parent = e". -/
def make_entity_using_variable (parent : Entity) (token : Token) (type : Option Ty) : Entity :=
  .mk .Entity_Variable token type (some parent) none []

/-- Modelled from the spec: a scope (the scope table is not part of the source
files): "mapping from name to entity; parent pointer; ordered `elements` for
deterministic iteration".  The elements are in insertion order. -/
inductive Scope where
  | mk (elements : List (String × Entity)) (parent : Option Scope)

/-- `s->elements.entries`. -/
def Scope.elements : Scope → List (String × Entity)
  | .mk elements _ => elements

/-- `s->parent`. -/
def Scope.parent : Scope → Option Scope
  | .mk _ parent => parent

/-- Modelled from the spec: the entity a name is mapped to by the elements of a
scope. -/
def map_entity_get (elements : List (String × Entity)) (name : String) : Option Entity :=
  (elements.find? (fun en => en.1 = name)).map (fun en => en.2)

mutual

/-- Modelled from the spec: `scope_lookup_entity(s, name)`: the entity the name
is mapped to in the scope or, failing that, in the nearest parent that maps
it. -/
def scope_lookup_entity : Scope → String → Option Entity
  | .mk elements parent, name =>
      match map_entity_get elements name with
      | some e => some e
      | none => scope_lookup_parent parent name

/-- The lookup in the parent of a scope, if it has one. -/
def scope_lookup_parent : Option Scope → String → Option Entity
  | none, _ => none
  | some s, name => scope_lookup_entity s name

end

/-- Modelled from the spec: `scope_insert_entity(s, entity)`: when the scope
already maps the entity's name, the entity found is returned and the scope is
left as it is; otherwise the entity is added under its name and `NULL` is
returned. -/
def scope_insert_entity (s : Scope) (entity : Entity) : Scope × Option Entity :=
  match map_entity_get s.elements entity.token.string with
  | some found => (s, some found)
  | none => (.mk (s.elements ++ [(entity.token.string, entity)]) s.parent, none)

/-- The collaborators of the statement checker (expression checker, scope and
entity tables, type predicates on the basic-type table, parser helpers).  Each
one reads the checker and returns the new `info` with its result.
`context_scope` and `set_context_scope` read and write the contents of the
current scope `c->context.scope` in `info`; `Record_fields` and
`Record_other_fields` are the entities `t->Record.fields` and
`t->Record.other_fields` of a record type, and `map_scope_get` is the scope
`map_scope_get(&c->info.scopes, hash_pointer(t->Record.node))` of a record;
`entity_flags_used` reads `(e->flags & EntityFlag_Used) != 0` and
`or_entity_flags_used` is the write `e->flags |= EntityFlag_Used*used` in the
entity table. -/
structure Collaborators (σ : Type) where
  stmt_state_flags : AstNode → Nat
  ast_node_token : AstNode → Token
  is_ast_node_decl : AstNode → Bool
  is_type_boolean : Option Ty → Bool
  is_type_numeric : Option Ty → Bool
  are_types_identical : Option Ty → Option Ty → Bool
  hash_exact_value : ExactValue → Nat
  hash_pointer : Option Ty → Nat
  t_allocator : Ty
  t_context : Ty
  check_scope_decls : Checker σ → List AstNode → σ
  check_open_scope : Checker σ → AstNode → σ
  check_close_scope : Checker σ → σ
  check_expr : Checker σ → AstNode → σ × Operand
  check_expr_base : Checker σ → AstNode → σ × Operand × ExprKind
  check_multi_expr : Checker σ → AstNode → σ × Operand
  check_expr_or_type : Checker σ → AstNode → σ × Operand
  check_binary_expr : Checker σ → Operand → AstNode → σ × Operand
  check_assignment : Checker σ → Operand → Option Ty → String → σ × Operand
  add_entity_definition : Checker σ → AstNode → Option Entity → σ
  entity_flags_used : σ → Entity → Bool
  or_entity_flags_used : σ → Entity → Bool → σ
  convert_to_typed : Checker σ → Operand → Option Ty → σ × Operand
  check_comparison : Checker σ → Operand → Operand → Token → σ × Operand
  check_init_variables : Checker σ → List Ty → Nat → List AstNode → σ
  check_var_decl_node : Checker σ → AstNode → σ
  check_proc_decl : Checker σ → AstNode → σ
  bind_type_match_var : Checker σ → AstNode → Ty → Bool → σ
  context_scope : σ → Scope
  set_context_scope : σ → Scope → σ
  unparen_expr : AstNode → AstNode
  check_selector : Checker σ → AstNode → σ × Option Entity
  Record_fields : σ → Option Ty → List Entity
  Record_other_fields : σ → Option Ty → List Entity
  map_scope_get : σ → Option Ty → Option Scope

variable {σ : Type}

/-- The checker with the collaborators' part replaced. -/
def Checker.set_info (c : Checker σ) (info : σ) : Checker σ := { c with info := info }

/-- `error(token, msg)`: a diagnostic at the token's position. -/
def error (c : Checker σ) (token : Token) (msg : Message) : Checker σ :=
  { c with log := c.log ++ [Event.error token.pos msg] }

/-- `error_node(node, msg)`: a diagnostic at the position of the node's token. -/
def error_node (C : Collaborators σ) (c : Checker σ) (node : AstNode) (msg : Message) :
    Checker σ :=
  error c (C.ast_node_token node) msg

/-- `check_open_scope(c, node)`. -/
def check_open_scope (C : Collaborators σ) (c : Checker σ) (node : AstNode) : Checker σ :=
  c.set_info (C.check_open_scope c node)

/-- `check_close_scope(c)`. -/
def check_close_scope (C : Collaborators σ) (c : Checker σ) : Checker σ :=
  c.set_info (C.check_close_scope c)

/-- `check_expr(c, &operand, expr)`. -/
def check_expr (C : Collaborators σ) (c : Checker σ) (expr : AstNode) :
    Checker σ × Operand :=
  let r := C.check_expr c expr
  (c.set_info r.1, r.2)

/-- `check_assignment(c, &operand, type, context_name)`. -/
def check_assignment (C : Collaborators σ) (c : Checker σ) (operand : Operand)
    (type : Option Ty) (context_name : String) : Checker σ × Operand :=
  let r := C.check_assignment c operand type context_name
  (c.set_info r.1, r.2)

/-! ## The statement checker: the cases of `check_stmt_internal` that do not
check a nested statement -/

/-- The `ExprStmt` case (lines 328-349). -/
def check_expr_stmt (C : Collaborators σ) (node expr : AstNode) (c : Checker σ) : Checker σ :=
  let r := C.check_expr_base c expr
  let c := c.set_info r.1
  let operand := r.2.1
  let kind := r.2.2
  match operand.mode with
  | .Addressing_Type => error_node C c node .is_not_an_expression
  | .Addressing_NoValue => c
  | _ =>
      if kind = .Expr_Stmt then c
      else if operand.expr.is_CallExpr then c
      else error_node C c node (.expression_is_not_used operand.expr)

/-- The `IncDecStmt` case (lines 357-394). -/
def check_inc_dec_stmt (C : Collaborators σ) (op : Token) (expr : AstNode) (c : Checker σ) :
    Checker σ :=
  let checked (kind : TokenKind) : Checker σ :=
    let op1 : Token := { op with kind := kind, string := op.string.take 1 }
    let r := check_expr C c expr
    let c := r.1
    let operand := r.2
    if operand.mode = .Addressing_Invalid then c
    else if !C.is_type_numeric operand.type then error c op .non_numeric_type
    else
      let basic_lit := AstNode.BasicLit { op with kind := .Token_Integer, string := "1" }
      let binary_expr := AstNode.BinaryExpr op1 expr basic_lit
      c.set_info (C.check_binary_expr c operand binary_expr).1
  match op.kind with
  | .Token_Increment => checked .Token_Add
  | .Token_Decrement => checked .Token_Sub
  | _ => error c op (.unknown_inc_dec_operation op.string)

/-- The loop over `as->rhs` of the `=` case: the operands, a tuple-typed
expression giving one operand per tuple variable.  `none` is the read of
`o.type->kind` through a `NULL` type. -/
def check_assign_rhs (C : Collaborators σ) :
    List AstNode → Checker σ → List Operand → Option (Checker σ × List Operand)
  | [], c, operands => some (c, operands)
  | rhs :: rest, c, operands =>
      let r := C.check_multi_expr c rhs
      let c := c.set_info r.1
      let o := r.2
      match o.type with
      | none => none
      | some (.Tuple vars) =>
          check_assign_rhs C rest c (operands ++ vars.map (fun t => { o with type := some t }))
      | some _ => check_assign_rhs C rest c (operands ++ [o])

/-- The test `node->kind == AstNode_Ident && str_eq(node->Ident.string,
str_lit("_"))`. -/
def is_blank_ident : AstNode → Bool
  | .Ident token => token.string = "_"
  | _ => false

/-- The entity `e` of `check_assignment_variable` (lines 191-199): the entity
the identifier `node` resolves to in the current scope, `NULL` for a node that
is not an identifier. -/
def assigned_entity (C : Collaborators σ) (c : Checker σ) (node : AstNode) : Option Entity :=
  match node with
  | .Ident token => scope_lookup_entity (C.context_scope c.info) token.string
  | _ => none

/-- The flag `used` of `check_assignment_variable` (lines 192-199): whether the
entity is a variable that is marked as used. -/
def assigned_entity_used (C : Collaborators σ) (c : Checker σ) : Option Entity → Bool
  | some e => if e.kind = .Entity_Variable then C.entity_flags_used c.info e else false
  | none => false

/-- The switch on `op_b.mode` of `check_assignment_variable` (lines 212-235):
nothing for a variable; for every other mode the expression of a selector is
checked and "Cannot assign to" is reported at the left-hand expression. -/
def check_assignable (C : Collaborators σ) (c : Checker σ) (op_b : Operand) : Checker σ :=
  match op_b.mode with
  | .Addressing_Variable => c
  | _ =>
      let c :=
        match op_b.expr with
        | .SelectorExpr expr _ => (check_expr C c expr).1
        | _ => c
      error_node C c op_b.expr (.cannot_assign_to op_b.expr)

/-- `check_assignment_variable(c, op_a, lhs)` (lines 172-244): the checker
after the call and the type returned (`NULL` is `none`). -/
def check_assignment_variable (C : Collaborators σ) (c : Checker σ) (op_a : Operand)
    (lhs : AstNode) : Checker σ × Option Ty :=
  if op_a.mode = .Addressing_Invalid ∨ is_t_invalid op_a.type then (c, none)
  else
    let node := C.unparen_expr lhs
    if is_blank_ident node then
      let c := c.set_info (C.add_entity_definition c node none)
      let r := check_assignment C c op_a none "assignment to `_` identifier"
      if r.2.mode = .Addressing_Invalid then (r.1, none) else (r.1, r.2.type)
    else
      let e := assigned_entity C c node
      let used := assigned_entity_used C c e
      let r := check_expr C c lhs
      let c :=
        match e with
        | some e => r.1.set_info (C.or_entity_flags_used r.1.info e used)
        | none => r.1
      let op_b := r.2
      if op_b.mode = .Addressing_Invalid ∨ is_t_invalid op_b.type then (c, none)
      else
        let c := check_assignable C c op_b
        let r := check_assignment C c op_a op_b.type "assignment"
        if r.2.mode = .Addressing_Invalid then (r.1, none) else (r.1, r.2.type)

/-- The loop `check_assignment_variable(c, &operands.e[i], lhs)` over the first
`gb_min(lhs.count, operands.count)` pairs. -/
def check_assign_pairs (C : Collaborators σ) :
    List AstNode → List Operand → Checker σ → Checker σ
  | lhs :: lrest, o :: orest, c =>
      check_assign_pairs C lrest orest (check_assignment_variable C c o lhs).1
  | _, _, c => c

/-- The binary operator of a compound assignment operator: the kinds strictly
between `Token__AssignOpBegin` and `Token__AssignOpEnd`, each shifted by
`Token_AddEq - Token_Add`. -/
def assign_op_base : TokenKind → Option TokenKind
  | .Token_AddEq => some .Token_Add
  | .Token_SubEq => some .Token_Sub
  | .Token_MulEq => some .Token_Mul
  | .Token_QuoEq => some .Token_Quo
  | .Token_ModEq => some .Token_Mod
  | .Token_AndEq => some .Token_And
  | .Token_OrEq => some .Token_Or
  | .Token_XorEq => some .Token_Xor
  | .Token_AndNotEq => some .Token_AndNot
  | .Token_ShlEq => some .Token_Shl
  | .Token_ShrEq => some .Token_Shr
  | .Token_CmpAndEq => some .Token_CmpAnd
  | .Token_CmpOrEq => some .Token_CmpOr
  | _ => none

/-- The `AssignStmt` case (lines 396-471).  The operand handed to
`check_binary_expr` is the source's `{Addressing_Invalid}`, whose `expr` is
still `NULL`; here it carries the expression about to be checked. -/
def check_assign_stmt (C : Collaborators σ) (op : Token) (lhs rhs : List AstNode)
    (c : Checker σ) : Option (Checker σ) :=
  match op.kind with
  | .Token_Eq =>
      match lhs with
      | [] => some (error c op .missing_lhs)
      | lhs0 :: _ =>
          match check_assign_rhs C rhs c [] with
          | none => none
          | some (c, operands) =>
              let lhs_count := lhs.length
              let rhs_count := operands.length
              let c := check_assign_pairs C lhs operands c
              if lhs_count ≠ rhs_count then
                some (error_node C c lhs0 (.assignment_count_mismatch lhs_count rhs_count))
              else some c
  | _ =>
      match lhs, rhs with
      | [lhs0], [rhs0] =>
          match assign_op_base op.kind with
          | none => some (error c op (.unknown_assignment_operation op.string))
          | some kind =>
              let binary_expr := AstNode.BinaryExpr { op with kind := kind } lhs0 rhs0
              let r := C.check_binary_expr c
                { mode := .Addressing_Invalid, type := none, value := .Invalid,
                  expr := binary_expr } binary_expr
              let c := c.set_info r.1
              let operand := r.2
              if operand.mode = .Addressing_Invalid then some c
              else some (check_assignment_variable C c operand lhs0).1
      | _, _ => some (error c op (.assignment_operation_requires_single op.string))

/-- The `ReturnStmt` case (lines 513-544).  `none` is the failed assertion
`c->proc_stack.count > 0`; the enclosing procedure is the last of the stack. -/
def check_return_stmt (C : Collaborators σ) (node : AstNode) (token : Token)
    (results : List AstNode) (c : Checker σ) : Option (Checker σ) :=
  match c.proc_stack.getLast? with
  | none => none
  | some proc_type =>
      if c.in_defer then some (error c token .return_within_defer)
      else
        let result_vars : List Ty :=
          match proc_type with
          | .Proc _ (some (.Tuple vars)) => vars
          | _ => []
        let result_count := result_vars.length
        if result_count > 0 then
          if results.length = 0 then
            some (error_node C c node (.expected_return_values result_count))
          else some (c.set_info (C.check_init_variables c result_vars result_count results))
        else
          match results with
          | r0 :: _ => some (error_node C c r0 .no_return_values_expected)
          | [] => some c

/-- The `BranchStmt` case (lines 858-880). -/
def check_branch_stmt (token : Token) (c : Checker σ) (flags : Nat) : Checker σ :=
  match token.kind with
  | .Token_break =>
      if (flags &&& Stmt_BreakAllowed) = 0 then error c token .break_not_allowed else c
  | .Token_continue =>
      if (flags &&& Stmt_ContinueAllowed) = 0 then error c token .continue_not_allowed else c
  | .Token_fallthrough =>
      if (flags &&& Stmt_FallthroughAllowed) = 0 then
        error c token .fallthrough_illegal_position
      else c
  | _ => error c token (.invalid_branch_statement token.string)

/-- `scope_insert_entity(c->context.scope, entity)`: the checker with the
current scope after the insertion, and the entity found. -/
def insert_in_context_scope (C : Collaborators σ) (c : Checker σ) (entity : Entity) :
    Checker σ × Option Entity :=
  let r := scope_insert_entity (C.context_scope c.info) entity
  match r.2 with
  | some found => (c, some found)
  | none => (c.set_info (C.set_context_scope c.info r.1), none)

/-- The loops over the fields of a type name of the `UsingStmt` case (lines
904-939): each field is inserted in the current scope and its `using_parent`
set; a collision is reported and the case returned from (`true`).  The scope
holds the pointer `f`, so the entity it holds has `using_parent` set. -/
def using_type_fields (C : Collaborators σ) (token : Token) (expr : AstNode) (e : Entity) :
    List Entity → Checker σ → Checker σ × Bool
  | [], c => (c, false)
  | f :: rest, c =>
      let r := insert_in_context_scope C c (f.set_using_parent e)
      match r.2 with
      | some found => (error r.1 token (.namespace_collision expr found.token.string), true)
      | none => using_type_fields C token expr e rest r.1

/-- The loop over the entries of the scope of an import name (lines 945-964). -/
def using_import_entries (C : Collaborators σ) (token : Token) (expr : AstNode) :
    List Entity → Checker σ → Checker σ
  | [], c => c
  | decl :: rest, c =>
      let r := insert_in_context_scope C c decl
      match r.2 with
      | some found =>
          error r.1 token
            (.namespace_collision_at expr found.token.string found.token.pos decl.token.pos)
      | none => using_import_entries C token expr rest r.1

/-- The loop over the entries of the scope of a record for a variable `e`
(lines 971-986 and 1037-1047): a using variable is made for each entry that is
a variable and inserted in the current scope; a collision is reported with the
message `collision` and the case returned from (`true`). -/
def using_variable_fields (C : Collaborators σ) (token : Token) (collision : String → Message)
    (e : Entity) (using_expr : Option AstNode) :
    List Entity → Checker σ → Checker σ × Bool
  | [], c => (c, false)
  | f :: rest, c =>
      if f.kind = .Entity_Variable then
        let uvar := make_entity_using_variable e f.token f.type
        let uvar :=
          match using_expr with
          | some expr => uvar.set_using_expr expr
          | none => uvar
        let r := insert_in_context_scope C c uvar
        match r.2 with
        | some prev => (error r.1 token (collision prev.token.string), true)
        | none => using_variable_fields C token collision e using_expr rest r.1
      else using_variable_fields C token collision e using_expr rest c

/-- The loop over `vd->names` of the `UsingStmt` case on a `VarDecl` (lines
1030-1053).  `none` is the assertion of `ast_node(i, Ident, item)`, the read of
`e->type` through `NULL`, or the assertion `found != NULL`. -/
def using_var_decl_names (C : Collaborators σ) (token : Token) :
    List AstNode → Checker σ → Option (Checker σ)
  | [], c => some c
  | item :: rest, c =>
      match item with
      | .Ident i =>
          match scope_lookup_entity (C.context_scope c.info) i.string with
          | none => none
          | some e =>
              let t := type_deref e.type
              if is_type_struct t || is_type_raw_union t then
                match C.map_scope_get c.info t with
                | none => none
                | some found =>
                    let r := using_variable_fields C token (.namespace_collision_name i.string)
                      e none (found.elements.map (fun en => en.2)) c
                    if r.2 then some r.1 else using_var_decl_names C token rest r.1
              else some (error c token .using_requires_struct_or_raw_union)
      | _ => none

/-- The entity `using` is applied to (lines 885-896): looked up in the current
scope for an identifier, given by `check_selector` for a selector expression
(then `is_selector` is set), `NULL` otherwise. -/
def using_expr_entity (C : Collaborators σ) (c : Checker σ) (expr : AstNode) :
    Checker σ × Option Entity × Bool :=
  match expr with
  | .Ident name => (c, scope_lookup_entity (C.context_scope c.info) name.string, false)
  | .SelectorExpr _ _ =>
      let r := C.check_selector c expr
      (c.set_info r.1, r.2, true)
  | _ => (c, none, false)

/-- The `switch (e->kind)` of the `UsingStmt` case on an expression (lines
903-1021).  `none` is the failed assertion `found != NULL`. -/
def using_entity (C : Collaborators σ) (token : Token) (expr : AstNode) (e : Entity)
    (is_selector : Bool) (c : Checker σ) : Option (Checker σ) :=
  match e.kind with
  | .Entity_TypeName =>
      let t := e.type
      if is_type_struct t || is_type_enum t then
        some (using_type_fields C token expr e (C.Record_other_fields c.info t) c).1
      else if is_type_union t then
        let r := using_type_fields C token expr e (C.Record_fields c.info t) c
        if r.2 then some r.1
        else some (using_type_fields C token expr e (C.Record_other_fields c.info t) r.1).1
      else some c
  | .Entity_ImportName => some (using_import_entries C token expr e.ImportName_scope c)
  | .Entity_Variable =>
      let t := type_deref e.type
      if is_type_struct t || is_type_raw_union t then
        match C.map_scope_get c.info t with
        | none => none
        | some found =>
            some (using_variable_fields C token (.namespace_collision expr) e
              (if is_selector then some expr else none)
              (found.elements.map (fun en => en.2)) c).1
      else some (error c token .using_requires_struct_or_raw_union)
  | .Entity_Constant => some (error c token .using_constant)
  | .Entity_Procedure => some (error c token .using_procedure)
  | .Entity_Builtin => some (error c token .using_procedure)
  | .Entity_ImplicitValue => some (error c token .using_implicit_value)
  | .Entity_Nil => some (error c token .using_nil)
  | .Entity_Invalid => some (error c token .using_invalid_entity)

/-- The `UsingStmt` case (lines 882-1057).  `none` is a failed assertion or a
read through `NULL`. -/
def check_using_stmt (C : Collaborators σ) (token : Token) (node : AstNode) (c : Checker σ) :
    Option (Checker σ) :=
  match node with
  | .ExprStmt es_expr =>
      let expr := C.unparen_expr es_expr
      let r := using_expr_entity C c expr
      match r.2.1 with
      | none => some (error r.1 token .using_unknown_entity)
      | some e => using_entity C token expr e r.2.2 r.1
  | .VarDecl names type values =>
      let c :=
        if names.length > 1 ∧ type.isSome then error c token .using_one_variable_of_same_type
        else c
      let c := c.set_info (C.check_var_decl_node c (.VarDecl names type values))
      using_var_decl_names C token names c
  | _ => some (error c token .using_invalid_ast)

/-- The `ProcDecl` case (lines 1093-1112). -/
def check_proc_decl (C : Collaborators σ) (node name : AstNode) (c : Checker σ) : Checker σ :=
  if !name.is_Ident then error_node C c name (.declaration_name_not_identifier name)
  else c.set_info (C.check_proc_decl c node)

/-- The scan for multiple `default` clauses of the `MatchStmt` and
`TypeMatchStmt` cases (lines 592-618 and 730-755; the two differ in the
capital of the message only), with `first_default` as the loop variable. -/
def check_multiple_defaults (C : Collaborators σ) :
    List AstNode → Option AstNode → Checker σ → Checker σ
  | [], _, c => c
  | stmt :: rest, first_default, c =>
      match stmt with
      | .CaseClause _ list _ =>
          if list.length = 0 then
            match first_default with
            | some first =>
                check_multiple_defaults C rest first_default
                  (error_node C c stmt (.multiple_default_clauses (C.ast_node_token first).pos))
            | none => check_multiple_defaults C rest (some stmt) c
          else check_multiple_defaults C rest first_default c
      | _ => check_multiple_defaults C rest first_default (error_node C c stmt .expected_case_clause)

/-- The token `Token eq = {Token_CmpEq}` of the `MatchStmt` case. -/
def cmp_eq_token : Token := { kind := .Token_CmpEq, string := "", pos := ⟨"", 0, 0⟩ }

/-- One round of the loop over `cc->list` of the `MatchStmt` case (lines
634-693), on the case expression `expr` with the tag operand `x`. -/
def check_case_expr (C : Collaborators σ) (x : Operand) (expr : AstNode)
    (st : Checker σ × MapTypeAndToken) : Checker σ × MapTypeAndToken :=
  let c := st.1
  let seen := st.2
  let eq := cmp_eq_token
  let r := check_expr C c expr
  let c := r.1
  let y := r.2
  if x.mode = .Addressing_Invalid ∨ y.mode = .Addressing_Invalid then (c, seen)
  else
    let r := C.convert_to_typed c y x.type
    let c := c.set_info r.1
    let y := r.2
    if y.mode = .Addressing_Invalid then (c, seen)
    else
      let r := C.check_comparison c y x eq
      let c := c.set_info r.1
      let z := r.2
      if z.mode = .Addressing_Invalid then (c, seen)
      else if y.mode ≠ .Addressing_Constant then (c, seen)
      else if y.value ≠ .Invalid then
        let key := C.hash_exact_value y.value
        let tap : TypeAndToken := { type := y.type, token := C.ast_node_token y.expr }
        match map_type_and_token_get seen key with
        | some _ =>
            let taps := map_type_and_token_multi_get_all seen key
            match taps.find? (fun tap => C.are_types_identical y.type tap.type) with
            | some found =>
                (error_node C c y.expr (.duplicate_case y.expr found.token.pos), seen)
            | none => (c, map_type_and_token_multi_insert seen key tap)
        | none => (c, map_type_and_token_multi_insert seen key tap)
      else (c, seen)

/-- The loop over `cc->list` of the `MatchStmt` case. -/
def check_case_exprs (C : Collaborators σ) (x : Operand) (list : List AstNode)
    (st : Checker σ × MapTypeAndToken) : Checker σ × MapTypeAndToken :=
  list.foldl (fun st expr => check_case_expr C x expr st) st

/-- `check_valid_type_match_type(type, &is_union_ptr, &is_any)` (lines 246-256):
the result with the two flags it sets. -/
def check_valid_type_match_type (type : Option Ty) : Bool × Bool × Bool :=
  if is_type_pointer type then
    (is_type_union (type_deref type), is_type_union (type_deref type), false)
  else if is_type_any type then (true, false, true)
  else (false, false, false)

/-! ## The statement checker: `check_stmt`, `check_stmt_list`, `check_stmt_internal` -/

/-- The context flags `check_stmt` sets before the dispatch (lines 262-275):
`in` are the node's flags and `out` the context's. -/
def enter_stmt_state_flags (node_flags out : Nat) : Nat :=
  if node_flags ≠ 0 then
    if (node_flags &&& StmtStateFlag_bounds_check) ≠ 0 then
      clear_flag (out ||| StmtStateFlag_bounds_check) StmtStateFlag_no_bounds_check
    else if (node_flags &&& StmtStateFlag_no_bounds_check) ≠ 0 then
      clear_flag (out ||| StmtStateFlag_no_bounds_check) StmtStateFlag_bounds_check
    else out
  else out

/-- `check_stmt(c, node, flags)` (lines 259-280) around the dispatch `internal`
on the node: the context flags are set from the node's, the dispatch runs, and
the previous flags are put back.  The call is recorded in the log with what
the dispatch left behind. -/
def check_stmt_with (C : Collaborators σ) (internal : Checker σ → Nat → Option (Checker σ))
    (node : AstNode) (c : Checker σ) (flags : Nat) : Option (Checker σ) :=
  let prev_stmt_state_flags := c.stmt_state_flags
  let c1 : Checker σ :=
    { c with
      stmt_state_flags := enter_stmt_state_flags (C.stmt_state_flags node) c.stmt_state_flags
      log := [] }
  match internal c1 flags with
  | none => none
  | some c2 =>
      some { c2 with
        stmt_state_flags := prev_stmt_state_flags
        log := c.log ++ [Event.stmt node flags c2.log] }

/-- `check_stmt_list(c, stmts, flags)` (lines 14-36) around its loop. -/
def check_stmt_list_with (C : Collaborators σ)
    (loop : Bool → Nat → Checker σ → Option (Checker σ))
    (stmts : List AstNode) (c : Checker σ) (flags : Nat) : Option (Checker σ) :=
  if stmts.length = 0 then some c
  else
    let c := c.set_info (C.check_scope_decls c stmts)
    let ft_ok := (flags &&& Stmt_FallthroughAllowed) != 0
    let f := clear_flag flags Stmt_FallthroughAllowed
    loop ft_ok f c

/-- The flags `new_flags` the loop of `check_stmt_list` gives the statement at
index `i` of `count`. -/
def stmt_list_new_flags (ft_ok : Bool) (f i count : Nat) : Nat :=
  if ft_ok && i + 1 = count then f ||| Stmt_FallthroughAllowed else f

/-- The tag operand of a `MatchStmt` (lines 578-590). -/
def check_match_tag (C : Collaborators σ) (tag : Option AstNode) (body : AstNode)
    (c : Checker σ) : Checker σ × Operand :=
  match tag with
  | some tag =>
      let r := check_expr C c tag
      check_assignment C r.1 r.2 none "match expression"
  | none =>
      (c, { mode := .Addressing_Constant, type := some t_bool, value := .Bool true,
            expr := .Ident { kind := .Token_Invalid, string := "true",
                             pos := (C.ast_node_token body).pos } })

/-- What one clause of a `TypeMatchStmt` does before its statements are checked
(lines 774-821). -/
inductive TypeCase where
  | skip
  | stop
  | check (case_type : Option Ty)

/-- The case type of a type-match clause (lines 774-821): `skip` is the
`continue` after an unknown tag type, `stop` the `break` after a duplicate. -/
def check_type_case (C : Collaborators σ) (x : Operand) (is_union_ptr is_any : Bool)
    (token : Token) (list : List AstNode) (seen : List Nat) (c : Checker σ) :
    Option (Checker σ × List Nat × TypeCase) :=
  let bt := type_deref x.type
  match list with
  | [] => some (c, seen, .check none)
  | type_expr :: _ =>
      let r := C.check_expr_or_type c type_expr
      let c := c.set_info r.1
      let y := r.2
      let dup (c : Checker σ) : Option (Checker σ × List Nat × TypeCase) :=
        let key := C.hash_pointer y.type
        if seen.contains key then
          some (error_node C c y.expr (.duplicate_type_case y.expr token.pos), seen, .stop)
        else some (c, key :: seen, .check y.type)
      if is_union_ptr then
        if !is_type_union bt then none
        else if (record_fields bt).any (fun f => C.are_types_identical (some f) y.type) then
          dup c
        else some (error_node C c y.expr (.unknown_tag_type y.type), seen, .skip)
      else if is_any then dup c
      else none

mutual

/-- `check_stmt_internal(c, node, flags)` (lines 321-1114). -/
def check_stmt_internal (C : Collaborators σ) :
    AstNode → Checker σ → Nat → Option (Checker σ)
  | .EmptyStmt, c, _ => some c
  | .BadStmt, c, _ => some c
  | .BadDecl, c, _ => some c
  | .ExprStmt expr, c, _ => some (check_expr_stmt C (.ExprStmt expr) expr c)
  | .TagStmt token stmt, c, flags =>
      let c := error_node C c (.TagStmt token stmt) .tag_statements_not_supported
      check_stmt_with C (check_stmt_internal C stmt) stmt c flags
  | .IncDecStmt op expr, c, _ => some (check_inc_dec_stmt C op expr c)
  | .AssignStmt op lhs rhs, c, _ => check_assign_stmt C op lhs rhs c
  | .BlockStmt stmts, c, flags =>
      let mod_flags := clear_flag flags Stmt_FallthroughAllowed
      let c := check_open_scope C c (.BlockStmt stmts)
      match check_stmt_list_with C (check_stmt_list_loop C stmts.length stmts 0) stmts c
          mod_flags with
      | none => none
      | some c => some (check_close_scope C c)
  | .IfStmt init cond body else_stmt, c, flags =>
      let mod_flags := clear_flag flags Stmt_FallthroughAllowed
      let c := check_open_scope C c (.IfStmt init cond body else_stmt)
      match check_stmt_opt C init c 0 with
      | none => none
      | some c =>
          let r := check_expr C c cond
          let c := r.1
          let operand := r.2
          let c :=
            if operand.mode ≠ .Addressing_Invalid ∧ !C.is_type_boolean operand.type then
              error_node C c cond .non_boolean_condition_in_if
            else c
          match check_stmt_with C (check_stmt_internal C body) body c mod_flags with
          | none => none
          | some c =>
              match check_if_else C else_stmt c mod_flags with
              | none => none
              | some c => some (check_close_scope C c)
  | .WhenStmt cond body else_stmt, c, flags =>
      let r := check_expr C c cond
      let c := r.1
      let operand := r.2
      if operand.mode ≠ .Addressing_Constant ∨ !C.is_type_boolean operand.type then
        some (error_node C c cond .non_constant_boolean_when_condition)
      else
        match body with
        | some (.BlockStmt stmts) =>
            if operand.value = .Bool true then
              check_stmt_list_with C (check_stmt_list_loop C stmts.length stmts 0) stmts c flags
            else
              match else_stmt with
              | none => some c
              | some (.BlockStmt estmts) =>
                  check_stmt_list_with C (check_stmt_list_loop C estmts.length estmts 0)
                    estmts c flags
              | some (.WhenStmt c2 b2 e2) => check_stmt_internal C (.WhenStmt c2 b2 e2) c flags
              | some e => some (error_node C c e .invalid_else_in_when)
        | _ => some (error_node C c cond .invalid_body_for_when)
  | .ReturnStmt token results, c, _ =>
      check_return_stmt C (.ReturnStmt token results) token results c
  | .ForStmt init cond post body, c, flags =>
      let mod_flags := clear_flag flags Stmt_FallthroughAllowed
      let new_flags := mod_flags ||| Stmt_BreakAllowed ||| Stmt_ContinueAllowed
      let c := check_open_scope C c (.ForStmt init cond post body)
      match check_stmt_opt C init c 0 with
      | none => none
      | some c =>
          let c :=
            match cond with
            | some cond =>
                let r := check_expr C c cond
                if r.2.mode ≠ .Addressing_Invalid ∧ !C.is_type_boolean r.2.type then
                  error_node C r.1 cond .non_boolean_condition_in_for
                else r.1
            | none => c
          match check_stmt_opt C post c 0 with
          | none => none
          | some c =>
              match check_stmt_with C (check_stmt_internal C body) body c new_flags with
              | none => none
              | some c => some (check_close_scope C c)
  | .MatchStmt init tag body, c, flags =>
      let mod_flags := clear_flag flags Stmt_FallthroughAllowed ||| Stmt_BreakAllowed
      let c := check_open_scope C c (.MatchStmt init tag body)
      match check_stmt_opt C init c 0 with
      | none => none
      | some c =>
          let r := check_match_tag C tag body c
          let c := r.1
          let x := r.2
          match body with
          | .BlockStmt stmts =>
              let c := check_multiple_defaults C stmts none c
              match check_match_clauses C x mod_flags stmts.length stmts 0 [] c with
              | none => none
              | some c => some (check_close_scope C c)
          | _ => none
  | .TypeMatchStmt tag var body, c, flags =>
      let mod_flags := clear_flag flags Stmt_FallthroughAllowed ||| Stmt_BreakAllowed
      let c := check_open_scope C c (.TypeMatchStmt tag var body)
      let r := check_expr C c tag
      let r := check_assignment C r.1 r.2 none "type match expression"
      let c := r.1
      let x := r.2
      let valid := check_valid_type_match_type x.type
      if !valid.1 then some (error_node C c x.expr (.invalid_type_match_type x.type))
      else
        match body with
        | .BlockStmt stmts =>
            let c := check_multiple_defaults C stmts none c
            if !var.is_Ident then some c
            else
              match check_type_match_clauses C x valid.2.1 valid.2.2 var mod_flags stmts [] c with
              | none => none
              | some c => some (check_close_scope C c)
        | _ => none
  | .DeferStmt token stmt, c, _ =>
      if C.is_ast_node_decl stmt then some (error c token .defer_declaration)
      else
        let out_in_defer := c.in_defer
        match check_stmt_with C (check_stmt_internal C stmt) stmt { c with in_defer := true } 0 with
        | none => none
        | some c => some { c with in_defer := out_in_defer }
  | .BranchStmt token, c, flags => some (check_branch_stmt token c flags)
  | .UsingStmt token node, c, _ => check_using_stmt C token node c
  | .PushAllocator expr body, c, flags =>
      let mod_flags := clear_flag flags Stmt_FallthroughAllowed
      let r := check_expr C c expr
      let r := check_assignment C r.1 r.2 (some C.t_allocator) "argument to push_allocator"
      check_stmt_with C (check_stmt_internal C body) body r.1 mod_flags
  | .PushContext expr body, c, flags =>
      let mod_flags := clear_flag flags Stmt_FallthroughAllowed
      let r := check_expr C c expr
      let r := check_assignment C r.1 r.2 (some C.t_context) "argument to push_context"
      check_stmt_with C (check_stmt_internal C body) body r.1 mod_flags
  | .VarDecl names type values, c, _ =>
      some (c.set_info (C.check_var_decl_node c (.VarDecl names type values)))
  | .ConstDecl _ _, c, _ => some c
  | .TypeDecl _ _, c, _ => some c
  | .ProcDecl name type body, c, _ => some (check_proc_decl C (.ProcDecl name type body) name c)
  | _, c, _ => some c

/-- The `else` of the `IfStmt` case (lines 494-504): `check_stmt` on an
`IfStmt` or a `BlockStmt`, a diagnostic on any other statement. -/
def check_if_else (C : Collaborators σ) :
    Option AstNode → Checker σ → Nat → Option (Checker σ)
  | none, c, _ => some c
  | some (.IfStmt i2 c2 b2 e2), c, mod_flags =>
      check_stmt_with C (check_stmt_internal C (.IfStmt i2 c2 b2 e2)) (.IfStmt i2 c2 b2 e2) c
        mod_flags
  | some (.BlockStmt stmts), c, mod_flags =>
      check_stmt_with C (check_stmt_internal C (.BlockStmt stmts)) (.BlockStmt stmts) c mod_flags
  | some e, c, _ => some (error_node C c e .invalid_else_in_if)

/-- The statement `if (s != NULL) { check_stmt(c, s, flags); }`. -/
def check_stmt_opt (C : Collaborators σ) : Option AstNode → Checker σ → Nat → Option (Checker σ)
  | none, c, _ => some c
  | some s, c, flags => check_stmt_with C (check_stmt_internal C s) s c flags

/-- The loop of `check_stmt_list` (lines 24-34) from index `i` on, over the
statements from that index; `count` is `stmts.count`. -/
def check_stmt_list_loop (C : Collaborators σ) (count : Nat) :
    List AstNode → Nat → Bool → Nat → Checker σ → Option (Checker σ)
  | [], _, _, _, c => some c
  | n :: rest, i, ft_ok, f, c =>
      if n.is_EmptyStmt then check_stmt_list_loop C count rest (i + 1) ft_ok f c
      else
        let new_flags := stmt_list_new_flags ft_ok f i count
        match check_stmt_with C (check_stmt_internal C n) n c new_flags with
        | none => none
        | some c => check_stmt_list_loop C count rest (i + 1) ft_ok f c

/-- The clause loop of the `MatchStmt` case (lines 624-703) from index `i` on;
`count` is `bs->stmts.count`. -/
def check_match_clauses (C : Collaborators σ) (x : Operand) (mod_flags count : Nat) :
    List AstNode → Nat → MapTypeAndToken → Checker σ → Option (Checker σ)
  | [], _, _, c => some c
  | .CaseClause token list stmts :: rest, i, seen, c =>
      let st := check_case_exprs C x list (c, seen)
      let c := check_open_scope C st.1 (.CaseClause token list stmts)
      let ft_flags := if i + 1 < count then mod_flags ||| Stmt_FallthroughAllowed else mod_flags
      match check_stmt_list_with C (check_stmt_list_loop C stmts.length stmts 0) stmts c
          ft_flags with
      | none => none
      | some c =>
          check_match_clauses C x mod_flags count rest (i + 1) st.2 (check_close_scope C c)
  | _ :: rest, i, seen, c => check_match_clauses C x mod_flags count rest (i + 1) seen c

/-- The clause loop of the `TypeMatchStmt` case (lines 765-840). -/
def check_type_match_clauses (C : Collaborators σ) (x : Operand) (is_union_ptr is_any : Bool)
    (var : AstNode) (mod_flags : Nat) :
    List AstNode → List Nat → Checker σ → Option (Checker σ)
  | [], _, c => some c
  | .CaseClause token list stmts :: rest, seen, c =>
      match check_type_case C x is_union_ptr is_any token list seen c with
      | none => none
      | some (c, seen, .skip) =>
          check_type_match_clauses C x is_union_ptr is_any var mod_flags rest seen c
      | some (c, _, .stop) => some c
      | some (c, seen, .check case_type) =>
          let c := check_open_scope C c (.CaseClause token list stmts)
          let c :=
            match case_type with
            | some t => c.set_info (C.bind_type_match_var c var t is_union_ptr)
            | none => c
          match check_stmt_list_with C (check_stmt_list_loop C stmts.length stmts 0) stmts c
              mod_flags with
          | none => none
          | some c =>
              check_type_match_clauses C x is_union_ptr is_any var mod_flags rest seen
                (check_close_scope C c)
  | _ :: rest, seen, c =>
      check_type_match_clauses C x is_union_ptr is_any var mod_flags rest seen c

end

/-- `check_stmt(c, node, flags)` (lines 259-280). -/
def check_stmt (C : Collaborators σ) (node : AstNode) (c : Checker σ) (flags : Nat) :
    Option (Checker σ) :=
  check_stmt_with C (check_stmt_internal C node) node c flags

/-- `check_stmt_list(c, stmts, flags)` (lines 14-36). -/
def check_stmt_list (C : Collaborators σ) (stmts : List AstNode) (c : Checker σ) (flags : Nat) :
    Option (Checker σ) :=
  check_stmt_list_with C (check_stmt_list_loop C stmts.length stmts 0) stmts c flags

/-- `check_when_stmt(c, ws, flags)` (lines 292-319): the `WhenStmt` case of
`check_stmt_internal` is this call and nothing else. -/
def check_when_stmt (C : Collaborators σ) (cond : AstNode) (body else_stmt : Option AstNode)
    (c : Checker σ) (flags : Nat) : Option (Checker σ) :=
  check_stmt_internal C (.WhenStmt cond body else_stmt) c flags

/-! ## Words of the specification used to state the checker claims -/

/-- The diagnostics of a list of events, those of nested calls not included. -/
def own_errors : List Event → List (TokenPos × Message)
  | [] => []
  | .error pos msg :: rest => (pos, msg) :: own_errors rest
  | .stmt _ _ _ :: rest => own_errors rest

/-- The calls of `check_stmt` of a list of events, nested calls not included:
the node and the flags of each. -/
def own_calls : List Event → List (AstNode × Nat)
  | [] => []
  | .error _ _ :: rest => own_calls rest
  | .stmt node flags _ :: rest => (node, flags) :: own_calls rest

/-- The flag a branch statement needs: `break` needs `BreakAllowed`, `continue`
needs `ContinueAllowed`, `fallthrough` needs `FallthroughAllowed`. -/
def required_flag : TokenKind → Option Nat
  | .Token_break => some Stmt_BreakAllowed
  | .Token_continue => some Stmt_ContinueAllowed
  | .Token_fallthrough => some Stmt_FallthroughAllowed
  | _ => none

/-- The statements of a list that are not `EmptyStmt`, in order from index `i`
on, each with the flags the loop of `check_stmt_list` computes for its index. -/
def checked_children (ft_ok : Bool) (f count : Nat) : List AstNode → Nat → List (AstNode × Nat)
  | [], _ => []
  | n :: rest, i =>
      if n.is_EmptyStmt then checked_children ft_ok f count rest (i + 1)
      else (n, stmt_list_new_flags ft_ok f i count) :: checked_children ft_ok f count rest (i + 1)

/-- The calls `check_stmt_list(stmts, flags)` makes: none for an empty list. -/
def stmt_list_calls (stmts : List AstNode) (flags : Nat) : List (AstNode × Nat) :=
  checked_children (has_flag flags Stmt_FallthroughAllowed)
    (clear_flag flags Stmt_FallthroughAllowed) stmts.length stmts 0

/-- The flags a `MatchStmt` checks the statement list of its clause at index `i`
with (`ft_flags`); `count` is the number of statements of the match body. -/
def match_ft_flags (mod_flags i count : Nat) : Nat :=
  if i + 1 < count then mod_flags ||| Stmt_FallthroughAllowed else mod_flags

/-- The calls of `check_stmt` on the statements of the case clauses of a match
body, clause after clause from index `i` on. -/
def match_clause_calls (mod_flags count : Nat) : List AstNode → Nat → List (AstNode × Nat)
  | [], _ => []
  | .CaseClause _ _ stmts :: rest, i =>
      stmt_list_calls stmts (match_ft_flags mod_flags i count) ++
        match_clause_calls mod_flags count rest (i + 1)
  | _ :: rest, i => match_clause_calls mod_flags count rest (i + 1)

/-- The call of `check_stmt` on an optional statement with the flags `0`. -/
def opt_call : Option AstNode → List (AstNode × Nat)
  | none => []
  | some s => [(s, 0)]

/-- The test for a "Duplicate case" diagnostic. -/
def is_duplicate_case : TokenPos × Message → Bool
  | (_, .duplicate_case _ _) => true
  | _ => false

/-- A value of the interpreter (`vmValue`).  The C union overlays `val_f32`,
`val_f64`, `val_ptr` and `val_int` on its first eight bytes: `val_int` is those
bytes read as an `i64`, and the other scalar members are views of the same
bytes.  `val_comp` is the array of components of a composite. -/
inductive vmValue where
  | mk (val_int : Int) (val_comp : List vmValue)
deriving Repr, Inhabited

/-- The member `val_int`. -/
def vmValue.val_int : vmValue → Int
  | .mk i _ => i

/-- The member `val_comp`. -/
def vmValue.val_comp : vmValue → List vmValue
  | .mk _ comp => comp

/-- The eight bytes of an `i64` as an unsigned number (two's complement). -/
def bits64 (i : Int) : Nat := (i % 2 ^ 64).toNat

/-- The `i64` whose bytes are the low eight bytes of `n`. -/
def of_bits64 (n : Nat) : Int :=
  if n % 2 ^ 64 < 2 ^ 63 then ((n % 2 ^ 64 : Nat) : Int) else ((n % 2 ^ 64 : Nat) : Int) - 2 ^ 64

/-- The member `val_f32`: the bit pattern of the low four bytes. -/
def vmValue.val_f32 (v : vmValue) : Nat := bits64 v.val_int % 2 ^ 32

/-- The member `val_f64`: the bit pattern of the eight bytes. -/
def vmValue.val_f64 (v : vmValue) : Nat := bits64 v.val_int

/-- The member `val_ptr`: the eight bytes as an address. -/
def vmValue.val_ptr (v : vmValue) : Nat := bits64 v.val_int

/-- The zero value `vmValue v = {}`. -/
def vmValue.zero : vmValue := .mk 0 []

/-- `vm_make_value_ptr(ptr)`. -/
def vm_make_value_ptr (ptr : Nat) : vmValue := .mk (of_bits64 ptr) []

/-- `vm_make_value_int(i)`. -/
def vm_make_value_int (i : Int) : vmValue := .mk i []

/-- Raw memory: the byte at each address. -/
abbrev Memory := Nat → Nat

/-- Write the low `n` bytes of the number `bits` at `dst`, least significant
byte first: `gb_memcopy(dst, &x, n)` for a scalar `x`. -/
def write_bytes (mem : Memory) (dst bits n : Nat) : Memory :=
  fun a => if dst ≤ a ∧ a < dst + n then bits / 256 ^ (a - dst) % 256 else mem a

/-- The number held by the `n` bytes at `ptr`, least significant byte first:
`gb_memcopy(&x, ptr, n)` into a zeroed scalar `x`. -/
def read_bytes (mem : Memory) (ptr : Nat) : Nat → Nat
  | 0 => 0
  | n + 1 => read_bytes mem ptr n + mem (ptr + n) % 256 * 256 ^ n

/-- `gb_memcopy(dst, src, n)` between two regions of memory. -/
def gb_memcopy (mem : Memory) (dst src n : Nat) : Memory :=
  fun a => if dst ≤ a ∧ a < dst + n then mem (src + (a - dst)) else mem a

/-- What the interpreter takes from its module: the target's size, alignment
and field offset of each type (`vm_type_size_of`, `vm_type_align_of`,
`vm_type_offset_of`, which forward to the type utilities). -/
structure VirtualMachine where
  vm_type_size_of : Ty → Nat
  vm_type_align_of : Ty → Nat
  vm_type_offset_of : Ty → Nat → Nat

/-- `vm_store_integer(vm, dst, val, store_bytes)`: asserts `dst != NULL`, then
copies `store_bytes` bytes of `val.val_int`. -/
def vm_store_integer (mem : Memory) (dst : Nat) (val : vmValue) (store_bytes : Nat) :
    Option Memory :=
  if dst = 0 then none else some (write_bytes mem dst (bits64 val.val_int) store_bytes)

/-- `vm_load_integer(vm, ptr, store_bytes)`: a zeroed value whose `val_int`
receives `store_bytes` bytes from `ptr`. -/
def vm_load_integer (mem : Memory) (ptr : Nat) (store_bytes : Nat) : vmValue :=
  .mk (of_bits64 (read_bytes mem ptr store_bytes)) []

/-- The loop of the `Type_Array` case of `vm_store` over the first `elem_count`
components, from index `i` on: each round writes the `i64` value 123 at the
element's address and then stores the element. -/
def vm_store_elems (store_elem : Memory → Nat → vmValue → Option Memory) (elem_size : Nat)
    (dst : Nat) : List vmValue → Nat → Memory → Option Memory
  | [], _, mem => some mem
  | member :: rest, i, mem =>
      let ptr := dst + elem_size * i
      match store_elem (write_bytes mem ptr 123 8) ptr member with
      | none => none
      | some mem1 => vm_store_elems store_elem elem_size dst rest (i + 1) mem1

mutual

/-- `vm_store(vm, dst, val, type)`.  `none` is a failed assertion (a `NULL`
destination of an integer store, a component index out of bounds, more
components than fields).  The cases that only print a TODO leave memory as it
is. -/
def vm_store (vm : VirtualMachine) : Ty → Memory → Nat → vmValue → Option Memory
  | .Basic kind, mem, dst, val =>
      let size := vm.vm_type_size_of (.Basic kind)
      match kind with
      | .Basic_bool | .Basic_i8 | .Basic_u8 | .Basic_i16 | .Basic_u16 | .Basic_i32
      | .Basic_u32 | .Basic_i64 | .Basic_u64 | .Basic_int | .Basic_uint =>
          vm_store_integer mem dst val size
      | .Basic_f32 => some (write_bytes mem dst val.val_f32 4)
      | .Basic_f64 => some (write_bytes mem dst val.val_f64 8)
      | .Basic_rawptr => some (write_bytes mem dst val.val_ptr 8)
      | .Basic_string =>
          match val.val_comp with
          | data :: count :: _ =>
              let word_size := vm.vm_type_size_of t_int
              vm_store_integer (gb_memcopy mem dst data.val_ptr word_size) (dst + word_size)
                count word_size
          | _ => none
      | .Basic_any =>
          match val.val_comp with
          | type_info :: data :: _ =>
              let word_size := vm.vm_type_size_of t_int
              let mem1 := gb_memcopy mem dst type_info.val_ptr word_size
              some (gb_memcopy mem1 (dst + word_size) data.val_ptr word_size)
          | _ => none
      | _ => some mem
  | .Record kind fields, mem, dst, val =>
      if kind = .TypeRecord_Struct then
        if fields.length ≥ val.val_comp.length then
          vm_store_fields vm (.Record kind fields) dst fields val.val_comp 0 mem
        else none
      else some mem
  | .Array elem count, mem, dst, val =>
      vm_store_elems (fun m ptr member => vm_store vm elem m ptr member)
        (vm.vm_type_size_of elem) dst (val.val_comp.take (min val.val_comp.length count)) 0 mem
  | _, mem, _, _ => some mem

/-- The loop of the `Type_Record` case of `vm_store` over the first
`min(val.val_comp.count, field_count)` fields, from index `i` on. -/
def vm_store_fields (vm : VirtualMachine) (type : Ty) (dst : Nat) :
    List Ty → List vmValue → Nat → Memory → Option Memory
  | f :: fields, member :: rest, i, mem =>
      match vm_store vm f mem (dst + vm.vm_type_offset_of type i) member with
      | none => none
      | some mem1 => vm_store_fields vm type dst fields rest (i + 1) mem1
  | _, _, _, mem => some mem

end

/-- The `i32` read `*cast(i32 *)p` widened to `i64`. -/
def read_i32 (mem : Memory) (p : Nat) : Int :=
  let n := read_bytes mem p 4
  if n < 2 ^ 31 then (n : Int) else (n : Int) - 2 ^ 32

mutual

/-- `vm_load(vm, ptr, type)`.  `none` is a `GB_PANIC`: a basic kind without a
case, an unknown word size, or a type kind other than `Type_Basic` and
`Type_Record`. -/
def vm_load (vm : VirtualMachine) : Ty → Memory → Nat → Option vmValue
  | .Basic kind, mem, ptr =>
      let size := vm.vm_type_size_of (.Basic kind)
      match kind with
      | .Basic_bool | .Basic_i8 | .Basic_u8 | .Basic_i16 | .Basic_u16 | .Basic_i32
      | .Basic_u32 | .Basic_i64 | .Basic_u64 | .Basic_int | .Basic_uint =>
          some (vm_load_integer mem ptr size)
      | .Basic_f32 => some (.mk (of_bits64 (read_bytes mem ptr 4)) [])
      | .Basic_f64 => some (.mk (of_bits64 (read_bytes mem ptr 8)) [])
      | .Basic_rawptr => some (.mk (of_bits64 (read_bytes mem ptr 8)) [])
      | .Basic_string =>
          let word_size := vm.vm_type_size_of t_int
          let p := read_bytes mem ptr 8
          let count_data := p + 1 * word_size
          if word_size = 4 then
            some (.mk 0 [vm_make_value_ptr p, vm_make_value_int (read_i32 mem count_data)])
          else if word_size = 8 then
            some (.mk 0 [vm_make_value_ptr p,
              vm_make_value_int (of_bits64 (read_bytes mem count_data 8))])
          else none
      | _ => none
  | .Record kind fields, mem, ptr =>
      if kind = .TypeRecord_Struct then
        match vm_load_fields vm (.Record kind fields) ptr mem fields 0 with
        | none => none
        | some comp => some (.mk 0 comp)
      else some vmValue.zero
  | _, _, _ => none

/-- The loop of the `Type_Record` case of `vm_load` over the fields, from index
`i` on: the loaded components in field order. -/
def vm_load_fields (vm : VirtualMachine) (type : Ty) (ptr : Nat) (mem : Memory) :
    List Ty → Nat → Option (List vmValue)
  | [], _ => some []
  | f :: fields, i =>
      match vm_load vm f mem (ptr + vm.vm_type_offset_of type i) with
      | none => none
      | some val =>
          match vm_load_fields vm type ptr mem fields (i + 1) with
          | none => none
          | some rest => some (val :: rest)

end

/-- A 64-bit target: the sizes of the basic types (a string and an `any` are
two words, an array is its elements in sequence, a record its fields in
sequence without padding). -/
def sizes64 : Ty → Nat
  | .Basic .Basic_Invalid => 0
  | .Basic .Basic_bool => 1
  | .Basic .Basic_i8 => 1
  | .Basic .Basic_u8 => 1
  | .Basic .Basic_i16 => 2
  | .Basic .Basic_u16 => 2
  | .Basic .Basic_i32 => 4
  | .Basic .Basic_u32 => 4
  | .Basic .Basic_f32 => 4
  | .Basic .Basic_string => 16
  | .Basic .Basic_any => 16
  | .Basic _ => 8
  | _ => 8

/-- An interpreter for the 64-bit target `sizes64`. -/
def vm64 : VirtualMachine :=
  { vm_type_size_of := sizes64
    vm_type_align_of := sizes64
    vm_type_offset_of := fun _ i => 8 * i }

/-- Memory with every byte zero. -/
def zero_memory : Memory := fun _ => 0

/-- The basic kinds `vm_store` and `vm_load` treat as integers: `bool` and the
integer types. -/
def is_integer_kind : BasicKind → Bool
  | .Basic_bool | .Basic_i8 | .Basic_u8 | .Basic_i16 | .Basic_u16 | .Basic_i32
  | .Basic_u32 | .Basic_i64 | .Basic_u64 | .Basic_int | .Basic_uint => true
  | _ => false

/-- `vm_load(dst, type)` performed after `vm_store(dst, val, type)`. -/
def vm_load_after_store (vm : VirtualMachine) (type : Ty) (mem : Memory) (dst : Nat)
    (val : vmValue) : Option vmValue :=
  (vm_store vm type mem dst val).bind (fun mem1 => vm_load vm type mem1 dst)

/-! ## Collaborators for the concrete programs

A small stand-in for the expression checker and the tables: integer literals
are constants of type `int` with their value, identifiers are `int` variables,
and nothing else is recorded. -/

/-- The token a diagnostic on a node is placed at: the node's own token, or
that of its first expression. -/
def first_token : AstNode → Token
  | .Ident token => token
  | .BasicLit token => token
  | .BinaryExpr _ left _ => first_token left
  | .CallExpr proc _ => first_token proc
  | .SelectorExpr _ selector => first_token selector
  | .ParenExpr expr => first_token expr
  | .ExprStmt expr => first_token expr
  | .TagStmt token _ => token
  | .IncDecStmt op _ => op
  | .AssignStmt op _ _ => op
  | .ReturnStmt token _ => token
  | .CaseClause token _ _ => token
  | .DeferStmt token _ => token
  | .BranchStmt token => token
  | .UsingStmt token _ => token
  | _ => default

/-- The expression inside its parentheses. -/
def unparen_expr : AstNode → AstNode
  | .ParenExpr expr => unparen_expr expr
  | e => e

/-- The integer a literal's text denotes, for the literals of the programs. -/
def toy_value (text : String) : Int :=
  if text = "0" then 0 else if text = "1" then 1 else if text = "2" then 2
  else if text = "3" then 3 else 4

/-- The operand of an expression: a literal is the constant it denotes. -/
def toy_operand (expr : AstNode) : Operand :=
  match expr with
  | .BasicLit token =>
      { mode := .Addressing_Constant, type := some t_int,
        value := .Integer (toy_value token.string), expr := expr }
  | _ => { mode := .Addressing_Variable, type := some t_int, value := .Invalid, expr := expr }

/-- A hash of exact values that tells the integers apart. -/
def toy_hash : ExactValue → Nat
  | .Invalid => 0
  | .Bool b => if b then 2 else 1
  | .Integer i => 3 + 2 * i.natAbs + (if i < 0 then 1 else 0)
  | _ => 0

/-- The stand-in collaborators. -/
def toy : Collaborators Unit :=
  { stmt_state_flags := fun _ => 0
    ast_node_token := first_token
    is_ast_node_decl := fun n =>
      match n with
      | .VarDecl _ _ _ | .ConstDecl _ _ | .TypeDecl _ _ | .ProcDecl _ _ _ | .BadDecl => true
      | _ => false
    is_type_boolean := fun t =>
      match t with
      | some (.Basic .Basic_bool) => true
      | _ => false
    is_type_numeric := fun t =>
      match t with
      | some (.Basic .Basic_int) => true
      | _ => false
    are_types_identical := fun a b =>
      match a, b with
      | some (.Basic k1), some (.Basic k2) => k1 = k2
      | _, _ => false
    hash_exact_value := toy_hash
    hash_pointer := fun _ => 0
    t_allocator := .Basic .Basic_rawptr
    t_context := .Basic .Basic_rawptr
    check_scope_decls := fun _ _ => ()
    check_open_scope := fun _ _ => ()
    check_close_scope := fun _ => ()
    check_expr := fun _ e => ((), toy_operand e)
    check_expr_base := fun _ e => ((), toy_operand e, .Expr_Expr)
    check_multi_expr := fun _ e => ((), toy_operand e)
    check_expr_or_type := fun _ e => ((), toy_operand e)
    check_binary_expr := fun _ _ e => ((), toy_operand e)
    check_assignment := fun _ o _ _ => ((), o)
    add_entity_definition := fun _ _ _ => ()
    entity_flags_used := fun _ _ => false
    or_entity_flags_used := fun _ _ _ => ()
    convert_to_typed := fun _ o t => ((), { o with type := t })
    check_comparison := fun _ z _ _ => ((), { z with type := some t_bool })
    check_init_variables := fun _ _ _ _ => ()
    check_var_decl_node := fun _ _ => ()
    check_proc_decl := fun _ _ => ()
    bind_type_match_var := fun _ _ _ _ => ()
    context_scope := fun _ => .mk [] none
    set_context_scope := fun _ _ => ()
    unparen_expr := unparen_expr
    check_selector := fun _ _ => ((), none)
    Record_fields := fun _ _ => []
    Record_other_fields := fun _ _ => []
    map_scope_get := fun _ _ => none }

/-- A checker inside a procedure without results, with an empty log. -/
def toy_checker : Checker Unit :=
  { info := (), stmt_state_flags := 0, in_defer := false,
    proc_stack := [.Proc none none], log := [] }

/-- The statement `fallthrough;`. -/
def stmt_fallthrough (line column : Nat) : AstNode :=
  .BranchStmt (tok .Token_fallthrough "fallthrough" line column)

/-- The match `match v { case 1: fallthrough; case 2: return; }`. -/
def match_fallthrough_last : AstNode :=
  .MatchStmt none (some (.Ident (tok .Token_Ident "v" 1 7)))
    (.BlockStmt
      [.CaseClause (tok .Token_Ident "case" 2 1) [lit "1" 2 6] [stmt_fallthrough 2 9],
       .CaseClause (tok .Token_Ident "case" 3 1) [lit "2" 3 6] [stmt_return 3 9]])

/-- The match `match v { case 1: fallthrough; return; case 2: return; }`. -/
def match_fallthrough_first : AstNode :=
  .MatchStmt none (some (.Ident (tok .Token_Ident "v" 1 7)))
    (.BlockStmt
      [.CaseClause (tok .Token_Ident "case" 2 1) [lit "1" 2 6]
        [stmt_fallthrough 2 9, stmt_return 2 22],
       .CaseClause (tok .Token_Ident "case" 3 1) [lit "2" 3 6] [stmt_return 3 9]])

/-- The stand-in collaborators with every node carrying `no_bounds_check`. -/
def toy_no_bounds_check : Collaborators Unit :=
  { toy with stmt_state_flags := fun _ => StmtStateFlag_no_bounds_check }

/-- A checker whose context has `bounds_check` set. -/
def toy_checker_bounds_check : Checker Unit :=
  { toy_checker with stmt_state_flags := StmtStateFlag_bounds_check }

/-- The statement ` = ;`, an assignment without a left side. -/
def stmt_assign_no_lhs : AstNode :=
  .AssignStmt (tok .Token_Eq "=" 1 1) [] []

/-- The result variables a procedure type declares: those of its result tuple,
none when it has no result tuple. -/
def declared_results : Ty → List Ty
  | .Proc _ (some (.Tuple vars)) => vars
  | _ => []

/-- A checker inside a procedure with two `int` results. -/
def toy_checker_two_results : Checker Unit :=
  { toy_checker with proc_stack := [.Proc none (some (.Tuple [t_int, t_int]))] }

/-- The flags a `ForStmt` checked with `flags` gives its body. -/
def for_body_flags (flags : Nat) : Nat :=
  clear_flag flags Stmt_FallthroughAllowed ||| Stmt_BreakAllowed ||| Stmt_ContinueAllowed

/-- The statement `break;`. -/
def stmt_break (line column : Nat) : AstNode :=
  .BranchStmt (tok .Token_break "break" line column)

/-- The statement `continue;`. -/
def stmt_continue (line column : Nat) : AstNode :=
  .BranchStmt (tok .Token_continue "continue" line column)

/-- The loop `for { break; continue; fallthrough; }`. -/
def for_with_branches : AstNode :=
  .ForStmt none none none
    (.BlockStmt [stmt_break 2 1, stmt_continue 3 1, stmt_fallthrough 4 1])

/-! ## The record of a check as a tree of calls -/

/-- The calls of `check_stmt` of a list of events, nested calls not included:
the node and the flags of each, with the events it left behind. -/
def own_stmts : List Event → List (AstNode × Nat × List Event)
  | [] => []
  | .error _ _ :: rest => own_stmts rest
  | .stmt node flags events :: rest => (node, flags, events) :: own_stmts rest

mutual

/-- Every call of `check_stmt` recorded in the event, nested calls included,
satisfies `Q` with its node, its flags and the events it left behind. -/
def Event.all_stmts (Q : AstNode → Nat → List Event → Prop) : Event → Prop
  | .error _ _ => True
  | .stmt node flags events => Q node flags events ∧ events_all_stmts Q events

/-- Every call of `check_stmt` recorded in the events, nested calls included,
satisfies `Q`. -/
def events_all_stmts (Q : AstNode → Nat → List Event → Prop) : List Event → Prop
  | [] => True
  | e :: rest => e.all_stmts Q ∧ events_all_stmts Q rest

end

/-- The events are what the dispatch `check_stmt_internal` leaves behind for the
node and the flags in some checker with an empty record; with `d` set, in a
checker with `in_defer` set. -/
def Called (C : Collaborators σ) (d : Bool) (node : AstNode) (flags : Nat)
    (events : List Event) : Prop :=
  ∃ c0 c2 : Checker σ, (d = true → c0.in_defer = true) ∧ c0.log = [] ∧
    check_stmt_internal C node c0 flags = some c2 ∧ c2.log = events

/-- From `c` to `c1` the context fields `in_defer`, `proc_stack` and
`stmt_state_flags` are kept and the record grows by diagnostics only. -/
def Reports (c c1 : Checker σ) : Prop :=
  c1.in_defer = c.in_defer ∧ c1.proc_stack = c.proc_stack ∧
  c1.stmt_state_flags = c.stmt_state_flags ∧
  ∃ evs, c1.log = c.log ++ evs ∧ own_calls evs = []

/-- From `c` to `c1` the context fields `in_defer`, `proc_stack` and
`stmt_state_flags` are kept and the record grows by diagnostics and by calls
of `check_stmt` that are each, nested calls included, what the dispatch leaves
behind for the recorded node and flags. -/
def Frame (C : Collaborators σ) (d : Bool) (c c1 : Checker σ) : Prop :=
  c1.in_defer = c.in_defer ∧ c1.proc_stack = c.proc_stack ∧
  c1.stmt_state_flags = c.stmt_state_flags ∧
  ∃ evs, c1.log = c.log ++ evs ∧ events_all_stmts (Called C d) evs

/-- Whenever the dispatch on `s` returns, it keeps the frame. -/
def CheckedFrame (C : Collaborators σ) (d : Bool) (s : AstNode) : Prop :=
  ∀ (c c1 : Checker σ) (flags : Nat), (d = true → c.in_defer = true) →
    check_stmt_internal C s c flags = some c1 → Frame C d c c1

/-- What the check of a branch statement directly in a `for` body leaves
behind: nothing for `break` and `continue`, the diagnostic for `fallthrough`. -/
def branch_in_for (token : Token) (events : List Event) : Prop :=
  (token.kind = .Token_break ∨ token.kind = .Token_continue → events = []) ∧
  (token.kind = .Token_fallthrough →
    events = [Event.error token.pos .fallthrough_illegal_position])

/-- What the check of a `ReturnStmt` inside a `defer` leaves behind: the
diagnostic that `return` is not allowed there, and nothing else. -/
def return_rejected (node : AstNode) (_ : Nat) (events : List Event) : Prop :=
  ∀ token results, node = .ReturnStmt token results →
    events = [Event.error token.pos .return_within_defer]

/-- The statement `defer { return; }`. -/
def defer_block_return : AstNode :=
  .DeferStmt (tok .Token_Ident "defer" 1 1) (.BlockStmt [stmt_return 2 3])

/-- The checker after `for_with_branches` was checked in `toy_checker`. -/
def checker_after_for : Checker Unit :=
  { toy_checker with log :=
      [Event.stmt (.BlockStmt [stmt_break 2 1, stmt_continue 3 1, stmt_fallthrough 4 1]) 3
        [Event.stmt (stmt_break 2 1) 3 [],
         Event.stmt (stmt_continue 3 1) 3 [],
         Event.stmt (stmt_fallthrough 4 1) 3
           [Event.error ⟨"main.odin", 4, 1⟩ .fallthrough_illegal_position]]] }

/-- The checker after `defer_block_return` was checked in `toy_checker`. -/
def checker_after_defer : Checker Unit :=
  { toy_checker with log :=
      [Event.stmt (.BlockStmt [stmt_return 2 3]) 0
        [Event.stmt (stmt_return 2 3) 0
          [Event.error ⟨"main.odin", 2, 3⟩ .return_within_defer]]] }

/-! ## Words for the `default` clauses of a match -/

/-- The test for a "multiple `default` clauses" diagnostic. -/
def is_multiple_default : TokenPos × Message → Bool
  | (_, .multiple_default_clauses _) => true
  | _ => false

/-- The "multiple `default` clauses" diagnostics of a list of events, in
order, with their positions. -/
def multiple_default_errors (events : List Event) : List (TokenPos × Message) :=
  (own_errors events).filter is_multiple_default

/-- The "Duplicate case" diagnostics of a list of events, in order. -/
def duplicate_case_errors (events : List Event) : List (TokenPos × Message) :=
  (own_errors events).filter is_duplicate_case

/-- The operands a right-hand operand stands for: one operand per tuple
variable for an operand of tuple type, the operand itself otherwise. -/
def fan_out (o : Operand) : List Operand :=
  match o.type with
  | some (.Tuple vars) => vars.map (fun t => { o with type := some t })
  | _ => [o]

/-- The operands of the right-hand side after fan-out: each expression is
checked with `check_multi_expr` in turn and its operand fanned out. -/
def fanned_out_operands (C : Collaborators σ) (rhs : List AstNode) (c : Checker σ) :
    Checker σ × List Operand :=
  rhs.foldl
    (fun st e => (st.1.set_info (C.check_multi_expr st.1 e).1,
      st.2 ++ fan_out (C.check_multi_expr st.1 e).2))
    (c, [])

/-- The pairs (operand `i`, lhs `i`) for `i < min(lhs_count, rhs_count)`, in
order. -/
def assignment_pairs (lhs : List AstNode) (operands : List Operand) :
    List (Operand × AstNode) :=
  (operands.take (min lhs.length operands.length)).zip
    (lhs.take (min lhs.length operands.length))

/-- The calls `check_assignment_variable(c, operand, lhs)` on a list of pairs,
in order. -/
def assign_variables (C : Collaborators σ) (pairs : List (Operand × AstNode)) (c : Checker σ) :
    Checker σ :=
  pairs.foldl (fun c p => (check_assignment_variable C c p.1 p.2).1) c

/-- The event is a "Cannot assign to" diagnostic. -/
def Event.is_cannot_assign : Event → Bool
  | .error _ (.cannot_assign_to _) => true
  | _ => false

/-- The statement `1 = 2;`. -/
def stmt_assign_to_literal : AstNode :=
  .AssignStmt (tok .Token_Eq "=" 1 3) [lit "1" 1 1] [lit "2" 1 5]

/-- The statement `a, b = 1;`. -/
def stmt_assign_two_one : AstNode :=
  .AssignStmt (tok .Token_Eq "=" 1 6)
    [.Ident (tok .Token_Ident "a" 1 1), .Ident (tok .Token_Ident "b" 1 4)] [lit "1" 1 8]

/-! ## Words for `when` -/

/-- The statements of the branch of a `WhenStmt` that is analysed, for a
statement checked in `c`: for a constant boolean condition and a body that is a
block, the statements of the body when the condition is true, otherwise those
of the `else` block, or the branch of the `else` `WhenStmt` checked after the
condition; no statement in every other case. -/
def when_branch (C : Collaborators σ) : AstNode → Checker σ → List AstNode
  | .WhenStmt cond body else_stmt, c =>
      if (check_expr C c cond).2.mode = .Addressing_Constant ∧
          C.is_type_boolean (check_expr C c cond).2.type then
        match body with
        | some (.BlockStmt stmts) =>
            if (check_expr C c cond).2.value = .Bool true then stmts
            else
              match else_stmt with
              | some (.BlockStmt estmts) => estmts
              | some (.WhenStmt c2 b2 e2) =>
                  when_branch C (.WhenStmt c2 b2 e2) (check_expr C c cond).1
              | _ => []
        | _ => []
      else []
  | _, _ => []

/-- The operand of an expression with the identifiers `true` and `false` as the
boolean constants. -/
def toy_bool_operand (expr : AstNode) : Operand :=
  match expr with
  | .Ident token =>
      if token.string = "true" then
        { mode := .Addressing_Constant, type := some t_bool, value := .Bool true, expr := expr }
      else if token.string = "false" then
        { mode := .Addressing_Constant, type := some t_bool, value := .Bool false, expr := expr }
      else toy_operand expr
  | _ => toy_operand expr

/-- The stand-in collaborators with the boolean constants `true` and `false`. -/
def toy_bool : Collaborators Unit :=
  { toy with check_expr := fun _ e => ((), toy_bool_operand e) }

/-- The statement `when false { return; } else { return; }`. -/
def when_false_else : AstNode :=
  .WhenStmt (.Ident (tok .Token_Ident "false" 1 6)) (some (.BlockStmt [stmt_return 2 3]))
    (some (.BlockStmt [stmt_return 4 3]))

/-- A `WhenStmt` with the condition `false`, a body that is not a block, and the
`else` block `{ return; }`. -/
def when_false_bad_body : AstNode :=
  .WhenStmt (.Ident (tok .Token_Ident "false" 1 6)) (some (stmt_return 2 3))
    (some (.BlockStmt [stmt_return 4 3]))

/-! ## Collaborators with a scope, for `using` -/

/-- The stand-in collaborators over a state that is the current scope: as
`toy`, with the current scope read from and written to the state. -/
def toy_scoped : Collaborators Scope :=
  { stmt_state_flags := fun _ => 0
    ast_node_token := first_token
    is_ast_node_decl := toy.is_ast_node_decl
    is_type_boolean := toy.is_type_boolean
    is_type_numeric := toy.is_type_numeric
    are_types_identical := toy.are_types_identical
    hash_exact_value := toy_hash
    hash_pointer := fun _ => 0
    t_allocator := .Basic .Basic_rawptr
    t_context := .Basic .Basic_rawptr
    check_scope_decls := fun c _ => c.info
    check_open_scope := fun c _ => c.info
    check_close_scope := fun c => c.info
    check_expr := fun c e => (c.info, toy_operand e)
    check_expr_base := fun c e => (c.info, toy_operand e, .Expr_Expr)
    check_multi_expr := fun c e => (c.info, toy_operand e)
    check_expr_or_type := fun c e => (c.info, toy_operand e)
    check_binary_expr := fun c _ e => (c.info, toy_operand e)
    check_assignment := fun c o _ _ => (c.info, o)
    add_entity_definition := fun c _ _ => c.info
    entity_flags_used := fun _ _ => false
    or_entity_flags_used := fun info _ _ => info
    convert_to_typed := fun c o t => (c.info, { o with type := t })
    check_comparison := fun c z _ _ => (c.info, { z with type := some t_bool })
    check_init_variables := fun c _ _ _ => c.info
    check_var_decl_node := fun c _ => c.info
    check_proc_decl := fun c _ => c.info
    bind_type_match_var := fun c _ _ _ => c.info
    context_scope := fun s => s
    set_context_scope := fun _ s => s
    unparen_expr := unparen_expr
    check_selector := fun c _ => (c.info, none)
    Record_fields := fun _ _ => []
    Record_other_fields := fun _ _ => []
    map_scope_get := fun _ _ => none }

/-- The entity `foo` defined in `main.odin` at line 1. -/
def entity_foo_original : Entity :=
  .mk .Entity_Variable (tok .Token_Ident "foo" 1 1) (some t_int) none none []

/-- The entity `bar` exported by `m`. -/
def entity_bar_exported : Entity :=
  .mk .Entity_Variable ⟨.Token_Ident, "bar", ⟨"m.odin", 1, 1⟩⟩ (some t_int) none none []

/-- The entity `foo` exported by `m`. -/
def entity_foo_exported : Entity :=
  .mk .Entity_Variable ⟨.Token_Ident, "foo", ⟨"m.odin", 2, 1⟩⟩ (some t_int) none none []

/-- The import name `m`, whose scope exports `bar` and `foo`. -/
def entity_import_m : Entity :=
  .mk .Entity_ImportName (tok .Token_Ident "m" 2 1) none none none
    [entity_bar_exported, entity_foo_exported]

/-- The current scope of scenario S4: it defines `foo` and the import name
`m`. -/
def scope_s4 : Scope :=
  .mk [("foo", entity_foo_original), ("m", entity_import_m)] none

/-- A checker in the scope of scenario S4. -/
def checker_s4 : Checker Scope :=
  { info := scope_s4, stmt_state_flags := 0, in_defer := false,
    proc_stack := [.Proc none none], log := [] }

/-- The statement `using m;` of scenario S4. -/
def stmt_using_m : AstNode :=
  .UsingStmt (tok .Token_Ident "using" 3 1) (.ExprStmt (.Ident (tok .Token_Ident "m" 3 7)))

/-- The checker after `stmt_using_m` was checked in `checker_s4`: `bar` is in
the scope and the collision on `foo` is reported. -/
def checker_after_s4 : Checker Scope :=
  { checker_s4 with
    info := .mk [("foo", entity_foo_original), ("m", entity_import_m),
      ("bar", entity_bar_exported)] none
    log := [Event.error ⟨"main.odin", 3, 1⟩
      (.namespace_collision_at (.Ident (tok .Token_Ident "m" 3 7)) "foo"
        ⟨"main.odin", 1, 1⟩ ⟨"m.odin", 2, 1⟩)] }
/-! ## The interpreter: SSA values and the state of the machine (`vm.cpp`)

The SSA types (`ssaValue`, `ssaInstr`, `ssaProcedure`, `ssaBlock`, `ssaModule`)
are declared outside `vm.cpp`; they are represented by the fields `vm.cpp`
reads.  An `ssaValue *` is used as a map key through `hash_pointer`: the field
`id` is that address.  A pointer to an `ssaBlock` is the index of the block in
the `blocks` of its procedure, `NULL` is `none`.  The procedure `&value->Proc`
of a procedure value is found by the address of the value.  An
`Array<vmValue>` is a list; its storage is outside the modelled memory. -/

/-- The kinds of conversion (`ssaConvKind`). -/
inductive ssaConvKind where
  | ssaConv_trunc
  | ssaConv_zext
  | ssaConv_fptrunc
  | ssaConv_fpext
  | ssaConv_fptoui
  | ssaConv_fptosi
  | ssaConv_uitofp
  | ssaConv_sitofp
  | ssaConv_ptrtoint
  | ssaConv_inttoptr
  | ssaConv_bitcast
deriving DecidableEq, Repr, Inhabited

mutual

/-- An SSA value (`ssaValue`): its address `id`, the type `ssa_type` returns
for it, and the fields of its kind. -/
inductive ssaValue where
  | Constant (id : Nat) (type : Ty) (value : ExactValue)
  | ConstantSlice (id : Nat) (type : Ty) (backing_array : ssaValue) (count : Int)
  | Nil (id : Nat) (type : Ty)
  | TypeName (id : Nat) (type : Ty)
  | Global (id : Nat) (type : Ty)
  | Param (id : Nat) (type : Ty)
  | Proc (id : Nat) (type : Ty)
  | Block (id : Nat)
  | Instr (id : Nat) (type : Ty) (instr : ssaInstr)

/-- An instruction (`ssaInstr`), with the operands `vm_exec_instr` reads. -/
inductive ssaInstr where
  | StartupRuntime
  | Comment
  | Local
  | ZeroInit (address : ssaValue)
  | Store (address value : ssaValue)
  | Load (address : ssaValue)
  | ArrayElementPtr (address elem_index : ssaValue)
  | StructElementPtr (address : ssaValue) (elem_index : Nat)
  | PtrOffset (address offset : ssaValue)
  | Phi
  | ArrayExtractValue (address : ssaValue) (index : Int)
  | StructExtractValue (address : ssaValue) (index : Int)
  | Jump (block : Option Nat)
  | If (cond : ssaValue) (true_block false_block : Option Nat)
  | Return (value : Option ssaValue)
  | Conv (kind : ssaConvKind) (value : ssaValue) (from_type to_type : Ty)
  | Unreachable
  | BinaryOp (op : TokenKind) (left right : ssaValue)
  | Call (value : ssaValue) (args : List ssaValue)
  | Select (cond true_value false_value : ssaValue)
  | VectorExtractElement
  | VectorInsertElement
  | VectorShuffle
  | BoundsCheck (pos : TokenPos) (index len : ssaValue)
  | SliceBoundsCheck (pos : TokenPos) (low high max : ssaValue) (is_substring : Bool)
  | Invalid

end

/-- The address of an SSA value, the key `hash_pointer(value)`. -/
def ssaValue.id : ssaValue → Nat
  | .Constant id _ _ => id
  | .ConstantSlice id _ _ _ => id
  | .Nil id _ => id
  | .TypeName id _ => id
  | .Global id _ => id
  | .Param id _ => id
  | .Proc id _ => id
  | .Block id => id
  | .Instr id _ _ => id

/-- `ssa_type(value)`: the type of an SSA value, `NULL` for a block. -/
def ssa_type : ssaValue → Option Ty
  | .Constant _ type _ => some type
  | .ConstantSlice _ type _ _ => some type
  | .Nil _ type => some type
  | .TypeName _ type => some type
  | .Global _ type => some type
  | .Param _ type => some type
  | .Proc _ type => some type
  | .Block _ => none
  | .Instr _ type _ => some type

/-- A basic block (`ssaBlock`): its instructions. -/
structure ssaBlock where
  instrs : List ssaValue

/-- A procedure (`ssaProcedure`). -/
structure ssaProcedure where
  name : String
  type : Ty
  params : List ssaValue
  blocks : List ssaBlock
  body : Option AstNode
  local_count : Nat

/-- The type and value of an expression (`TypeAndValue`). -/
structure TypeAndValue where
  type : Ty
  value : ExactValue

/-- The floating-point operations of the host, on bit patterns: the casts and
the arithmetic `vm.cpp` performs on `f32` and `f64`. -/
structure HostFloat where
  f32_of_f64 : Nat → Nat
  f64_of_f32 : Nat → Nat
  u64_of_f64 : Nat → Nat
  u64_of_f32 : Nat → Nat
  i64_of_f64 : Nat → Int
  i64_of_f32 : Nat → Int
  f64_of_u64 : Nat → Nat
  f32_of_u64 : Nat → Nat
  f64_of_i64 : Int → Nat
  f32_of_i64 : Int → Nat
  f32_binary : TokenKind → Nat → Nat → Nat
  f64_binary : TokenKind → Nat → Nat → Nat

/-- What the interpreter reads from its module (`vm->module`) and from the
host: the procedure at the address of a procedure value, `ssa_lookup_member`,
the checker's `type_and_value_of_expression`, the syntax node at the address a
compound constant holds, the index `lookup_field(t, name).index[0]`, the
`field_index` of each entry of `fields_in_src_order`, the bytes of the text of
a string, and the floating-point unit.  The entry `fields[k]` of a record has
`field_index` `k`. -/
structure ssaModule where
  procedure : Nat → Option ssaProcedure
  ssa_lookup_member : String → Option ssaValue
  type_and_value_of_expression : AstNode → Option TypeAndValue
  compound_lit : Nat → Option AstNode
  lookup_field : Ty → String → Option Nat
  fields_in_src_order : Ty → List Nat
  string_text : String → List Nat
  float : HostFloat

/-- A stack arena (`gbArena`). -/
structure gbArena where
  physical_start : Nat
  total_size : Nat
  total_allocated : Nat
  temp_count : Nat
deriving DecidableEq, Repr, Inhabited

/-- A checkpoint of the stack arena (`gbTempArenaMemory`): the level
`original_count` at which it was taken. -/
structure gbTempArenaMemory where
  original_count : Nat
deriving DecidableEq, Repr, Inhabited

/-- A frame (`vmFrame`).  The caller is the next frame of the frame stack; the
allocator of the frame is the stack allocator of the machine. -/
structure vmFrame where
  curr_proc : ssaProcedure
  curr_block : Option Nat
  instr_index : Nat
  values : List (Nat × vmValue)
  temp_arena_memory : gbTempArenaMemory
  locals : List Nat
  result : vmValue

/-- The state of the machine, the fields of `struct VirtualMachine` that
change: memory, the stack arena, the next address of the heap allocator, the
frame stack with the most recent frame first, the two maps, and the record of
the calls made (for each `call: name` line `vm_call_procedure` prints, the name
and the argument values). -/
structure vmState where
  mem : Memory
  stack_arena : gbArena
  heap : Nat
  frame_stack : List vmFrame
  globals : List (Nat × vmValue)
  const_compound_lits : List (Nat × vmValue)
  calls : List (String × List vmValue)

/-- Modelled from the spec: `map_get` of the generic map (`Map<vmValue>`, whose
source is not among the source files), the value stored under a key. -/
def map_get (map : List (Nat × vmValue)) (key : Nat) : Option vmValue :=
  match map.find? (fun e => e.1 == key) with
  | none => none
  | some e => some e.2

/-- Modelled from the spec: `map_set` of the generic map, which stores the
value under the key in place of any value stored there before. -/
def map_set (map : List (Nat × vmValue)) (key : Nat) (value : vmValue) :
    List (Nat × vmValue) :=
  (key, value) :: map.filter (fun e => e.1 != key)

/-- `vm_back_frame(vm)`: the most recent frame, `NULL` when there is none. -/
def vm_back_frame (st : vmState) : Option vmFrame := st.frame_stack.head?

/-- `vm_set_value(f, v, val)` for the most recent frame `f` and a value `v`
that is not `NULL`. -/
def vm_set_value (st : vmState) (v : Nat) (val : vmValue) : Option vmState :=
  match st.frame_stack with
  | [] => none
  | f :: rest =>
      some { st with frame_stack := { f with values := map_set f.values v val } :: rest }

/-- Modelled from the spec: `gb_align_forward`, the address rounded up to a
multiple of the alignment (`gb.h` is not among the source files). -/
def gb_align_forward (ptr alignment : Nat) : Nat :=
  (ptr + alignment - 1) / alignment * alignment

/-- `gb_zero_size(ptr, size)`. -/
def gb_zero_size (mem : Memory) (ptr size : Nat) : Memory :=
  fun a => if ptr ≤ a ∧ a < ptr + size then 0 else mem a

/-- Modelled from the spec: an allocation from the stack arena (the frame
arena of the spec, implemented in `gb.h`): a bump allocation of `size` bytes
at an aligned address, zeroed; the address is `NULL` and nothing changes when
the arena is out of memory. -/
def gb_arena_alloc (st : vmState) (size alignment : Nat) : Nat × vmState :=
  let arena := st.stack_arena
  if arena.total_allocated + (size + alignment) > arena.total_size then (0, st)
  else
    let ptr := gb_align_forward (arena.physical_start + arena.total_allocated) alignment
    (ptr, { st with
      stack_arena := { arena with total_allocated := arena.total_allocated + (size + alignment) }
      mem := gb_zero_size st.mem ptr size })

/-- Modelled from the spec: `gb_temp_arena_memory_begin`, which takes a
checkpoint of the arena at its present level. -/
def gb_temp_arena_memory_begin (arena : gbArena) : gbTempArenaMemory × gbArena :=
  ({ original_count := arena.total_allocated }, { arena with temp_count := arena.temp_count + 1 })

/-- Modelled from the spec: `gb_temp_arena_memory_end`, which releases a
checkpoint: the level of the arena goes back to that of the checkpoint.  It
asserts that the level is not below the checkpoint and that a checkpoint is
open. -/
def gb_temp_arena_memory_end (tmp : gbTempArenaMemory) (arena : gbArena) : Option gbArena :=
  if arena.total_allocated < tmp.original_count then none
  else if arena.temp_count = 0 then none
  else some { arena with total_allocated := tmp.original_count
                         temp_count := arena.temp_count - 1 }

/-- Modelled from the spec: an allocation of `size` bytes from the heap
allocator, at the next free address. -/
def heap_alloc (st : vmState) (size : Nat) : Nat × vmState :=
  (st.heap, { st with heap := st.heap + size })

/-- The size `sizeof(vmValue)` on the host: the five words of an
`Array<vmValue>`. -/
def sizeof_vmValue : Nat := 40

/-- `array_init(&args, vm->stack_allocator, capacity)` for an array of values:
its storage is taken from the stack arena with the default alignment of 16.
A later `array_add` writes to that storage, which faults when the allocation
failed. -/
def array_init_stack (st : vmState) (capacity : Nat) : Option vmState :=
  let r := gb_arena_alloc st (sizeof_vmValue * capacity) 16
  if r.1 = 0 ∧ 0 < capacity then none else some r.2

/-- Write the bytes of a text at `dst`: `gb_memcopy(dst, text, len)`. -/
def write_text (mem : Memory) (dst : Nat) (text : List Nat) : Memory :=
  fun a => if dst ≤ a ∧ a < dst + text.length then text.getD (a - dst) 0 % 256 else mem a

/-- `is_type_boolean(t)`. -/
def is_type_boolean : Ty → Bool
  | .Basic .Basic_bool => true
  | _ => false

/-- `is_type_integer(t)`. -/
def is_type_integer : Ty → Bool
  | .Basic .Basic_i8 | .Basic .Basic_u8 | .Basic .Basic_i16 | .Basic .Basic_u16
  | .Basic .Basic_i32 | .Basic .Basic_u32 | .Basic .Basic_i64 | .Basic .Basic_u64
  | .Basic .Basic_int | .Basic .Basic_uint => true
  | _ => false

/-- `is_type_float(t)`. -/
def is_type_float : Ty → Bool
  | .Basic .Basic_f32 | .Basic .Basic_f64 => true
  | _ => false

/-- `is_type_string(t)`. -/
def is_type_string : Ty → Bool
  | .Basic .Basic_string => true
  | _ => false

/-- `type->Proc.param_count` of a procedure type; `none` for another type. -/
def proc_param_count : Ty → Option Nat
  | .Proc (some (.Tuple vars)) _ => some vars.length
  | .Proc _ _ => some 0
  | _ => none

/-- `type->Proc.result_count` of a procedure type. -/
def proc_result_count : Ty → Nat
  | .Proc _ (some (.Tuple vars)) => vars.length
  | _ => 0
/-! ## The interpreter: constants, operands, instructions and calls (`vm.cpp`)

The recursion of `vm_exact_value` through the checker's table and the loop of
`vm_call_procedure` are bounded by a number of steps (`fuel`); a run that
needs more steps gives `none`, like a run that stops at a `GB_ASSERT` or a
`GB_PANIC`. -/

/-- The loop of the array case of `vm_exact_value` over the elements of the
literal, from index `i` on: each element is materialised with `ptr = NULL` and
assigned to `result.val_comp[i]`. -/
def exact_array_elems (m : ssaModule)
    (exact : ExactValue → Ty → vmState → Option (vmValue × vmState)) :
    List AstNode → Nat → List vmValue → vmState → Option (List vmValue × vmState)
  | [], _, comp, st => some (comp, st)
  | e :: rest, i, comp, st =>
      match m.type_and_value_of_expression e with
      | none => none
      | some tav =>
          match exact tav.value tav.type st with
          | none => none
          | some (elem, st1) =>
              if i < comp.length then
                exact_array_elems m exact rest (i + 1) (comp.set i elem) st1
              else none

/-- The loop of the struct case of `vm_exact_value` over the `FieldValue`
elements of the literal. -/
def exact_struct_named (m : ssaModule)
    (exact : ExactValue → Ty → vmState → Option (vmValue × vmState)) (t : Ty) (fields : List Ty) :
    List AstNode → List vmValue → vmState → Option (List vmValue × vmState)
  | [], comp, st => some (comp, st)
  | .FieldValue (.Ident name) value :: rest, comp, st =>
      match m.type_and_value_of_expression value with
      | none => none
      | some tav =>
          match m.lookup_field t name.string with
          | none => none
          | some k =>
              match fields.get? k with
              | none => none
              | some f =>
                  match exact tav.value f st with
                  | none => none
                  | some (elem, st1) =>
                      if k < comp.length then
                        exact_struct_named m exact t fields rest (comp.set k elem) st1
                      else none
  | _ :: _, _, _ => none

/-- The loop of the struct case of `vm_exact_value` over the fields in source
order, from index `i` on, for a literal without field names. -/
def exact_struct_positional (m : ssaModule)
    (exact : ExactValue → Ty → vmState → Option (vmValue × vmState)) (t : Ty) (fields : List Ty)
    (elems : List AstNode) : Nat → Nat → List vmValue → vmState →
    Option (List vmValue × vmState)
  | 0, _, comp, st => some (comp, st)
  | n + 1, i, comp, st =>
      match elems.get? i with
      | none => none
      | some e =>
          match m.type_and_value_of_expression e with
          | none => none
          | some tav =>
              match (m.fields_in_src_order t).get? i with
              | none => none
              | some k =>
                  match fields.get? k with
                  | none => none
                  | some f =>
                      match exact tav.value f st with
                      | none => none
                      | some (elem, st1) =>
                          if k < comp.length then
                            exact_struct_positional m exact t fields elems n (i + 1)
                              (comp.set k elem) st1
                          else none

/-- `map_set(&vm->const_compound_lits, hash_pointer(ptr), result)`. -/
def remember_lit (st : vmState) (ptr : Nat) (result : vmValue) : vmState :=
  { st with const_compound_lits := map_set st.const_compound_lits ptr result }

/-- `vm_exact_value(vm, ptr, value, t)`; `ptr` is the address of the constant
SSA value, `none` for `NULL`.  A member of `value` is read only under the kind
it belongs to. -/
def vm_exact_value (m : ssaModule) :
    Nat → Option Nat → ExactValue → Ty → vmState → Option (vmValue × vmState)
  | 0, _, _, _, _ => none
  | fuel + 1, ptr, value, t, st =>
      if is_type_boolean t then
        match value with
        | .Bool b => some (.mk (if b then 1 else 0) [], st)
        | _ => none
      else if is_type_integer t then
        match value with
        | .Integer i => some (.mk i [], st)
        | _ => none
      else if is_type_float t then
        match value, t with
        | .Float x, .Basic .Basic_f32 => some (.mk (of_bits64 (m.float.f32_of_f64 (bits64 x) % 2 ^ 32)) [], st)
        | .Float x, .Basic .Basic_f64 => some (.mk (of_bits64 (bits64 x)) [], st)
        | .Float _, _ => some (vmValue.zero, st)
        | _, _ => none
      else if is_type_pointer (some t) then
        match value with
        | .Pointer p => some (.mk (of_bits64 (bits64 p)) [], st)
        | _ => none
      else if is_type_string t then
        match value with
        | .String str =>
            let bytes := m.string_text str
            let r := heap_alloc st bytes.length
            let text := r.1
            let st1 := { r.2 with mem := write_text r.2.mem text bytes }
            some (.mk 0 [.mk (of_bits64 text) [], .mk bytes.length []], st1)
        | _ => none
      else
        match value with
        | .Compound lit =>
            match ptr.bind (map_get st.const_compound_lits) with
            | some found => some (found, st)
            | none =>
                match m.compound_lit lit with
                | some (.CompoundLit _ elems) =>
                    match t with
                    | .Array _ count =>
                        match elems with
                        | [] =>
                            match ptr with
                            | some p =>
                                some (vmValue.zero, remember_lit st p vmValue.zero)
                            | none => some (vmValue.zero, st)
                        | _ :: _ =>
                            match exact_array_elems m (vm_exact_value m fuel none) elems 0
                                (List.replicate count vmValue.zero) st with
                            | none => none
                            | some (comp, st1) =>
                                match ptr with
                                | some p =>
                                    some (.mk 0 comp, remember_lit st1 p (.mk 0 comp))
                                | none => some (.mk 0 comp, st1)
                    | .Record .TypeRecord_Struct fields =>
                        match elems with
                        | [] => some (vmValue.zero, st)
                        | .FieldValue field value :: rest =>
                            match exact_struct_named m (vm_exact_value m fuel none) t fields
                                (.FieldValue field value :: rest)
                                (List.replicate fields.length vmValue.zero) st with
                            | none => none
                            | some (comp, st1) => some (.mk 0 comp, st1)
                        | _ :: _ =>
                            match exact_struct_positional m (vm_exact_value m fuel none) t fields
                                elems fields.length 0
                                (List.replicate fields.length vmValue.zero) st with
                            | none => none
                            | some (comp, st1) => some (.mk 0 comp, st1)
                    | _ => none
                | _ => none
        | .Invalid => some (vmValue.zero, st)
        | _ => some (vmValue.zero, st)

/-- `vm_operand_value(vm, value)`. -/
def vm_operand_value (m : ssaModule) (fuel : Nat) :
    ssaValue → vmState → Option (vmValue × vmState)
  | .Constant id type value, st => vm_exact_value m fuel (some id) value type st
  | .ConstantSlice _ _ backing_array count, st =>
      match vm_operand_value m fuel backing_array st with
      | none => none
      | some (data, st1) => some (.mk 0 [data, .mk count [], .mk count []], st1)
  | .Nil _ _, _ => none
  | .TypeName _ _, _ => none
  | .Global id _, st =>
      match map_get st.globals id with
      | none => none
      | some v => some (v, st)
  | .Param id _, st =>
      match vm_back_frame st with
      | none => none
      | some f =>
          match map_get f.values id with
          | none => none
          | some v => some (v, st)
  | .Proc id _, st => some (.mk (of_bits64 id) [], st)
  | .Block _, _ => none
  | .Instr id _ _, st =>
      match vm_back_frame st with
      | none => none
      | some f =>
          match map_get f.values id with
          | none => some (vmValue.zero, st)
          | some v => some (v, st)

/-- The operands of a list, evaluated in order: the loop
`array_add(&args, vm_operand_value(vm, instr->Call.args[i]))`. -/
def vm_operand_values (m : ssaModule) (fuel : Nat) :
    List ssaValue → vmState → Option (List vmValue × vmState)
  | [], st => some ([], st)
  | a :: rest, st =>
      match vm_operand_value m fuel a st with
      | none => none
      | some (v, st1) =>
          match vm_operand_values m fuel rest st1 with
          | none => none
          | some (vs, st2) => some (v :: vs, st2)

/-- `vm_lookup_procedure(vm, name)`: asserts that the member is a
procedure. -/
def vm_lookup_procedure (m : ssaModule) (name : String) : Option ssaProcedure :=
  match m.ssa_lookup_member name with
  | some (.Proc id _) => m.procedure id
  | _ => none

/-- The address `cast(u8 *)base + offset` of pointer arithmetic. -/
def ptr_add (base : Nat) (offset : Int) : Nat := bits64 ((base : Int) + offset)

/-- The first `n` bytes of a value copied into a zeroed value:
`gb_memcopy(&dst, &src, n)`.  Up to eight bytes these are the low bytes of
`val_int`; the bytes beyond belong to the other members of the union, which
this representation does not hold. -/
def copy_low_bytes (src : vmValue) (n : Nat) : Option vmValue :=
  if n ≤ 8 then some (.mk (of_bits64 (bits64 src.val_int % 256 ^ n)) []) else none

/-- The conversion of the `ssaInstr_Conv` case: the value `dst` that is bound
to the instruction, for the source value `src` and the two sizes. -/
def vm_conv (m : ssaModule) (kind : ssaConvKind) (from_type to_type : Ty)
    (from_size to_size : Nat) (src : vmValue) : Option vmValue :=
  match kind with
  | .ssaConv_trunc => copy_low_bytes src to_size
  | .ssaConv_zext => copy_low_bytes src from_size
  | .ssaConv_fptrunc =>
      match from_type, to_type with
      | .Basic .Basic_f64, .Basic .Basic_f32 =>
          if from_size > to_size then
            some (.mk (of_bits64 (m.float.f32_of_f64 src.val_f64 % 2 ^ 32)) [])
          else none
      | _, _ => none
  | .ssaConv_fpext =>
      match from_type, to_type with
      | .Basic .Basic_f32, .Basic .Basic_f64 =>
          if from_size < to_size then some (.mk (of_bits64 (m.float.f64_of_f32 src.val_f32)) [])
          else none
      | _, _ => none
  | .ssaConv_fptoui =>
      match from_type with
      | .Basic .Basic_f64 => copy_low_bytes (.mk (of_bits64 (m.float.u64_of_f64 src.val_f64)) []) to_size
      | _ => copy_low_bytes (.mk (of_bits64 (m.float.u64_of_f32 src.val_f32)) []) to_size
  | .ssaConv_fptosi =>
      match from_type with
      | .Basic .Basic_f64 => copy_low_bytes (.mk (m.float.i64_of_f64 src.val_f64) []) to_size
      | _ => copy_low_bytes (.mk (m.float.i64_of_f32 src.val_f32) []) to_size
  | .ssaConv_uitofp =>
      match to_type with
      | .Basic .Basic_f64 => some (.mk (of_bits64 (m.float.f64_of_u64 (bits64 src.val_int))) [])
      | _ => some (.mk (of_bits64 (m.float.f32_of_u64 (bits64 src.val_int) % 2 ^ 32)) [])
  | .ssaConv_sitofp =>
      match to_type with
      | .Basic .Basic_f64 => some (.mk (of_bits64 (m.float.f64_of_i64 src.val_int)) [])
      | _ => some (.mk (of_bits64 (m.float.f32_of_i64 src.val_int % 2 ^ 32)) [])
  | .ssaConv_ptrtoint => some (.mk (of_bits64 src.val_ptr) [])
  | .ssaConv_inttoptr => some (.mk (of_bits64 (bits64 src.val_int)) [])
  | .ssaConv_bitcast => some src

/-- The test `gb_is_between(op, Token__ComparisonBegin+1, Token__ComparisonEnd-1)`. -/
def is_comparison_op : TokenKind → Bool
  | .Token_CmpEq | .Token_NotEq | .Token_Lt | .Token_Gt | .Token_LtEq | .Token_GtEq => true
  | _ => false

/-- The `i64` result of an arithmetic operation, with two's complement
wrap-around. -/
def wrap64 (i : Int) : Int := of_bits64 (bits64 i)

/-- The switch of the integer case of `ssaInstr_BinaryOp`: the `val_int` of the
result for the operand values `l` and `r`.  `Token_Quo` and `Token_Mod` are
`GB_PANIC`; a shift by a count outside `[0, 64)` is undefined in C; both are
`none`.  An operator without a case leaves the zero value. -/
def binary_op_integer (op : TokenKind) (l r : Int) : Option Int :=
  match op with
  | .Token_Add => some (wrap64 (l + r))
  | .Token_Sub => some (wrap64 (l - r))
  | .Token_And => some (of_bits64 (bits64 l &&& bits64 r))
  | .Token_Or => some (of_bits64 (bits64 l ||| bits64 r))
  | .Token_Xor => some (of_bits64 (bits64 l ^^^ bits64 r))
  | .Token_Shl => if 0 ≤ r ∧ r < 64 then some (wrap64 (l * 2 ^ r.toNat)) else none
  | .Token_Shr => if 0 ≤ r ∧ r < 64 then some (l / 2 ^ r.toNat) else none
  | .Token_Mul => some (wrap64 (l * r))
  | .Token_Not => some (of_bits64 (bits64 l ^^^ bits64 r))
  | .Token_AndNot => some (of_bits64 (bits64 l &&& (2 ^ 64 - 1 - bits64 r)))
  | .Token_Quo => none
  | .Token_Mod => none
  | _ => some 0

/-- The switches of the float case of `ssaInstr_BinaryOp`, for the type `t` of
the left operand: the result value.  `Token_Mod` is `GB_PANIC`. -/
def binary_op_float (m : ssaModule) (t : Ty) (op : TokenKind) (l r : vmValue) : Option vmValue :=
  match t with
  | .Basic .Basic_f32 =>
      match op with
      | .Token_Add | .Token_Sub | .Token_Mul | .Token_Quo =>
          some (.mk (of_bits64 (m.float.f32_binary op l.val_f32 r.val_f32 % 2 ^ 32)) [])
      | .Token_Mod => none
      | _ => some vmValue.zero
  | .Basic .Basic_f64 =>
      match op with
      | .Token_Add | .Token_Sub | .Token_Mul | .Token_Quo =>
          some (.mk (of_bits64 (m.float.f64_binary op l.val_f64 r.val_f64)) [])
      | .Token_Mod => none
      | _ => some vmValue.zero
  | _ => some vmValue.zero

/-- The value `v` of the arithmetic branch of `ssaInstr_BinaryOp`, for the
type `t` of the left operand. -/
def binary_op_value (m : ssaModule) (t : Ty) (op : TokenKind) (l r : vmValue) : Option vmValue :=
  if is_type_integer t then
    match binary_op_integer op l.val_int r.val_int with
    | none => none
    | some i => some (.mk i [])
  else if is_type_float t then binary_op_float m t op l r
  else none

/-- The component `s.val_comp[index]` of a composite; the index operator
asserts `0 <= index && index < count`. -/
def val_comp_at (s : vmValue) (index : Int) : Option vmValue :=
  if 0 ≤ index then s.val_comp.get? index.toNat else none

/-- The three leading arguments of a bounds-check call, built by
`vm_exact_value` from the position: the file name as a string, the line and
the column as `int`. -/
def position_args (m : ssaModule) (fuel : Nat) (pos : TokenPos) (st : vmState) :
    Option (List vmValue × vmState) :=
  match vm_exact_value m fuel none (.String pos.file) (.Basic .Basic_string) st with
  | none => none
  | some (file, st1) =>
      match vm_exact_value m fuel none (.Integer pos.line) t_int st1 with
      | none => none
      | some (line, st2) =>
          match vm_exact_value m fuel none (.Integer pos.column) t_int st2 with
          | none => none
          | some (column, st3) => some ([file, line, column], st3)

/-- The state with the most recent frame changed by `g`; `none` when there is
no frame. -/
def update_back_frame (st : vmState) (g : vmFrame → vmFrame) : Option vmState :=
  match st.frame_stack with
  | [] => none
  | f :: rest => some { st with frame_stack := g f :: rest }

/-- `vm_exec_instr(vm, value)`, with `vm_call_procedure` as `call`. -/
def vm_exec_instr (vm : VirtualMachine) (m : ssaModule) (fuel : Nat)
    (call : ssaProcedure → List vmValue → vmState → Option (vmValue × vmState))
    (value : ssaValue) (st : vmState) : Option vmState :=
  match value with
  | .Instr id type instr =>
      match instr with
      | .StartupRuntime => some st
      | .Comment => some st
      | .Local =>
          let size := max 1 (vm.vm_type_size_of type)
          let align := max 1 (vm.vm_type_align_of type)
          let r := gb_arena_alloc st size align
          if r.1 = 0 then none
          else
            match vm_set_value r.2 id (vm_make_value_ptr r.1) with
            | none => none
            | some st1 => update_back_frame st1 (fun f => { f with locals := f.locals ++ [r.1] })
      | .ZeroInit address =>
          match type_deref (ssa_type address) with
          | none => none
          | some t =>
              match vm_operand_value m fuel address st with
              | none => none
              | some (addr, st1) =>
                  some { st1 with mem := gb_zero_size st1.mem addr.val_ptr (vm.vm_type_size_of t) }
      | .Store address val =>
          match vm_operand_value m fuel address st with
          | none => none
          | some (addr, st1) =>
              match vm_operand_value m fuel val st1 with
              | none => none
              | some (v, st2) =>
                  match ssa_type val with
                  | none => none
                  | some t =>
                      match vm_store vm t st2.mem addr.val_ptr v with
                      | none => none
                      | some mem1 => some { st2 with mem := mem1 }
      | .Load address =>
          match vm_operand_value m fuel address st with
          | none => none
          | some (addr, st1) =>
              match vm_load vm type st1.mem addr.val_ptr with
              | none => none
              | some v => vm_set_value st1 id v
      | .ArrayElementPtr address elem_index =>
          match vm_operand_value m fuel address st with
          | none => none
          | some (addr, st1) =>
              match vm_operand_value m fuel elem_index st1 with
              | none => none
              | some (index, st2) =>
                  match type_deref (ssa_type address) with
                  | none => none
                  | some t =>
                      vm_set_value st2 id (vm_make_value_ptr
                        (ptr_add addr.val_ptr (index.val_int * vm.vm_type_size_of t)))
      | .StructElementPtr address elem_index =>
          match vm_operand_value m fuel address st with
          | none => none
          | some (addr, st1) =>
              match type_deref (ssa_type address) with
              | none => none
              | some t =>
                  vm_set_value st1 id (vm_make_value_ptr
                    (ptr_add addr.val_ptr (vm.vm_type_offset_of t elem_index)))
      | .PtrOffset address offset =>
          match type_deref (ssa_type address) with
          | none => none
          | some t =>
              match vm_operand_value m fuel address st with
              | none => none
              | some (addr, st1) =>
                  match vm_operand_value m fuel offset st1 with
                  | none => none
                  | some (off, st2) =>
                      vm_set_value st2 id (vm_make_value_ptr
                        (ptr_add addr.val_ptr (off.val_int * vm.vm_type_size_of t)))
      | .Phi => none
      | .ArrayExtractValue address index =>
          match vm_operand_value m fuel address st with
          | none => none
          | some (s, st1) =>
              match val_comp_at s index with
              | none => none
              | some v => vm_set_value st1 id v
      | .StructExtractValue address index =>
          match vm_operand_value m fuel address st with
          | none => none
          | some (s, st1) =>
              match val_comp_at s index with
              | none => none
              | some v => vm_set_value st1 id v
      | .Jump block =>
          update_back_frame st (fun f => { f with curr_block := block, instr_index := 0 })
      | .If cond true_block false_block =>
          match vm_operand_value m fuel cond st with
          | none => none
          | some (c, st1) =>
              update_back_frame st1 (fun f =>
                { f with curr_block := if c.val_int ≠ 0 then true_block else false_block
                         instr_index := 0 })
      | .Return none =>
          update_back_frame st (fun f => { f with result := vmValue.zero, curr_block := none })
      | .Return (some v) =>
          match vm_operand_value m fuel v st with
          | none => none
          | some (result, st1) =>
              update_back_frame st1 (fun f => { f with result := result, curr_block := none })
      | .Conv kind v from_type to_type =>
          match vm_operand_value m fuel v st with
          | none => none
          | some (src, st1) =>
              match vm_conv m kind from_type to_type (vm.vm_type_size_of from_type)
                  (vm.vm_type_size_of to_type) src with
              | none => none
              | some dst => vm_set_value st1 id dst
      | .Unreachable => none
      | .BinaryOp op left right =>
          match ssa_type left with
          | none => none
          | some t =>
              if is_comparison_op op then vm_set_value st id (vm_make_value_int 1)
              else
                match vm_operand_value m fuel left st with
                | none => none
                | some (l, st1) =>
                    match vm_operand_value m fuel right st1 with
                    | none => none
                    | some (r, st2) =>
                        match binary_op_value m t op l r with
                        | none => none
                        | some v => vm_set_value st2 id v
      | .Call callee args =>
          match array_init_stack st args.length with
          | none => none
          | some st0 =>
              match vm_operand_values m fuel args st0 with
              | none => none
              | some (vs, st1) =>
                  match vm_operand_value m fuel callee st1 with
                  | none => none
                  | some (proc, st2) =>
                      if proc.val_ptr = 0 then none
                      else
                        match m.procedure proc.val_ptr with
                        | none => none
                        | some p =>
                            match call p vs st2 with
                            | none => none
                            | some (result, st3) => vm_set_value st3 id result
      | .Select cond true_value false_value =>
          match vm_operand_value m fuel cond st with
          | none => none
          | some (c, st1) =>
              match vm_operand_value m fuel (if c.val_int ≠ 0 then true_value else false_value)
                  st1 with
              | none => none
              | some (v, st2) => vm_set_value st2 id v
      | .VectorExtractElement => some st
      | .VectorInsertElement => some st
      | .VectorShuffle => some st
      | .BoundsCheck pos index len =>
          match array_init_stack st 5 with
          | none => none
          | some st0 =>
              match position_args m fuel pos st0 with
              | none => none
              | some (position, st1) =>
                  match vm_operand_values m fuel [index, len] st1 with
                  | none => none
                  | some (indices, st2) =>
                      match vm_lookup_procedure m "__bounds_check_error" with
                      | none => none
                      | some proc =>
                          match call proc (position ++ indices) st2 with
                          | none => none
                          | some (_, st3) => some st3
      | .SliceBoundsCheck pos low high max is_substring =>
          match array_init_stack st 7 with
          | none => none
          | some st0 =>
              match position_args m fuel pos st0 with
              | none => none
              | some (position, st1) =>
                  match vm_operand_values m fuel
                      (if is_substring then [low, high] else [low, high, max]) st1 with
                  | none => none
                  | some (indices, st2) =>
                      match vm_lookup_procedure m
                          (if is_substring then "__substring_expr_error"
                           else "__slice_expr_error") with
                      | none => none
                      | some proc =>
                          match call proc (position ++ indices) st2 with
                          | none => none
                          | some (_, st3) => some st3
      | .Invalid => none
  | _ => none

/-- `vm_push_frame(vm, proc)`: the new frame starts at the first block
(`proc->blocks[0]`, which the index operator checks) and holds a checkpoint of
the stack arena. -/
def vm_push_frame (st : vmState) (proc : ssaProcedure) : Option vmState :=
  match proc.blocks with
  | [] => none
  | _ :: _ =>
      let r := gb_temp_arena_memory_begin st.stack_arena
      some { st with
        stack_arena := r.2
        frame_stack :=
          { curr_proc := proc, curr_block := some 0, instr_index := 0, values := [],
            temp_arena_memory := r.1, locals := [], result := vmValue.zero } :: st.frame_stack }

/-- `vm_pop_frame(vm)`: releases the checkpoint of the most recent frame and
removes the frame. -/
def vm_pop_frame (st : vmState) : Option vmState :=
  match st.frame_stack with
  | [] => none
  | f :: rest =>
      match gb_temp_arena_memory_end f.temp_arena_memory st.stack_arena with
      | none => none
      | some arena => some { st with stack_arena := arena, frame_stack := rest }

/-- The loop `vm_set_value(f, proc->params[i], values[i])` of
`vm_call_procedure` over the parameters. -/
def bind_params : List ssaValue → List vmValue → vmState → Option vmState
  | [], _, st => some st
  | _ :: _, [], _ => none
  | p :: params, v :: values, st =>
      match vm_set_value st p.id v with
      | none => none
      | some st1 => bind_params params values st1

/-- The type `rt` of `vm_call_procedure`: the type of the one variable of the
result tuple, or the tuple itself. -/
def single_result_type : List Ty → Ty
  | [t] => t
  | vars => .Tuple vars

/-- The end of `vm_call_procedure` after its loop: the result is that of the
frame when the procedure type has results (a string result is read as two
components for the printed line), and the frame is popped. -/
def vm_call_result (proc : ssaProcedure) (st : vmState) : Option (vmValue × vmState) :=
  match st.frame_stack with
  | [] => none
  | f :: _ =>
      if 0 < proc_result_count proc.type then
        match proc.type with
        | .Proc _ (some (.Tuple vars)) =>
            if is_type_string (single_result_type vars) ∧ f.result.val_comp.length < 2 then none
            else
              match vm_pop_frame st with
              | none => none
              | some st1 => some (f.result, st1)
        | _ => none
      else
        match vm_pop_frame st with
        | none => none
        | some st1 => some (vmValue.zero, st1)

/-- The state after `f->instr_index++` in the most recent frame `f`. -/
def next_instr (st : vmState) (f : vmFrame) (rest : List vmFrame) : vmState :=
  { st with frame_stack := { f with instr_index := f.instr_index + 1 } :: rest }

/-- The state after the line `call: name` was printed. -/
def record_call (st : vmState) (name : String) (values : List vmValue) : vmState :=
  { st with calls := st.calls ++ [(name, values)] }

mutual

/-- `vm_call_procedure(vm, proc, values)`. -/
def vm_call_procedure (vm : VirtualMachine) (m : ssaModule) :
    Nat → ssaProcedure → List vmValue → vmState → Option (vmValue × vmState)
  | 0, _, _, _ => none
  | fuel + 1, proc, values, st =>
      if proc_param_count proc.type ≠ some values.length then none
      else if proc.body.isNone then none
      else
        match vm_push_frame (record_call st proc.name values) proc with
        | none => none
        | some st1 =>
            match bind_params proc.params values st1 with
            | none => none
            | some st2 =>
                match vm_run vm m fuel st2 with
                | none => none
                | some st3 => vm_call_result proc st3

/-- The loop `while (f->curr_block != NULL)` of `vm_call_procedure`: fetch
`f->curr_block->instrs[f->instr_index++]` and execute it. -/
def vm_run (vm : VirtualMachine) (m : ssaModule) : Nat → vmState → Option vmState
  | 0, _ => none
  | fuel + 1, st =>
      match st.frame_stack with
      | [] => none
      | f :: rest =>
          match f.curr_block with
          | none => some st
          | some b =>
              match f.curr_proc.blocks.get? b with
              | none => none
              | some block =>
                  match block.instrs.get? f.instr_index with
                  | none => none
                  | some curr_instr =>
                      match vm_exec_instr vm m fuel (vm_call_procedure vm m fuel) curr_instr
                          (next_instr st f rest) with
                      | none => none
                      | some st1 => vm_run vm m fuel st1

end
/-! ## Words for the interpreter's round trips -/

/-- Memory holding the text `hi` at address 1000 and zero elsewhere. -/
def memory_hi : Memory := fun a => if a = 1000 then 104 else if a = 1001 then 105 else 0

/-- The string value whose data pointer is 1000 and whose length is 2. -/
def value_hi : vmValue := .mk 0 [vm_make_value_ptr 1000, vm_make_value_int 2]

/-- Memory with every byte 255. -/
def memory_ff : Memory := fun _ => 255

/-- The basic kinds with a scalar representation that `vm_store` writes and
`vm_load` reads back: `bool`, the integer types, `f32`, `f64` and `rawptr`. -/
def is_scalar_kind : BasicKind → Bool
  | .Basic_f32 | .Basic_f64 | .Basic_rawptr => true
  | kind => is_integer_kind kind

/-- The number of bytes `vm_store` writes for a scalar kind: the size of the
type for `bool` and the integer types, four for `f32`, eight for `f64` and
`rawptr`. -/
def stored_bytes (vm : VirtualMachine) : BasicKind → Nat
  | .Basic_f32 => 4
  | .Basic_f64 => 8
  | .Basic_rawptr => 8
  | kind => vm.vm_type_size_of (.Basic kind)

mutual

/-- The number of bytes, counted from its address, within which a value of a
scalar type or of a struct of such types is stored. -/
def store_extent (vm : VirtualMachine) : Ty → Nat
  | .Basic kind => stored_bytes vm kind
  | .Record kind fields => fields_extent vm (.Record kind fields) fields 0
  | _ => 0

/-- The extent of the fields of the record `type` from index `i` on. -/
def fields_extent (vm : VirtualMachine) (type : Ty) : List Ty → Nat → Nat
  | [], _ => 0
  | f :: fields, i =>
      max (vm.vm_type_offset_of type i + store_extent vm f) (fields_extent vm type fields (i + 1))

end

/-- The slot `[lo, lo + len)` is disjoint from the slot of every field of the
record `type` from index `j` on. -/
def slot_clear (vm : VirtualMachine) (type : Ty) (lo len : Nat) : List Ty → Nat → Bool
  | [], _ => true
  | g :: fields, j =>
      (decide (lo + len ≤ vm.vm_type_offset_of type j) ||
        decide (vm.vm_type_offset_of type j + store_extent vm g ≤ lo)) &&
      slot_clear vm type lo len fields (j + 1)

mutual

/-- A type with known field offsets: a scalar type, or a struct whose fields
are such types and occupy pairwise disjoint slots at their offsets. -/
def laid_out (vm : VirtualMachine) : Ty → Bool
  | .Basic kind => is_scalar_kind kind
  | .Record kind fields =>
      decide (kind = .TypeRecord_Struct) && fields_laid_out vm (.Record kind fields) fields 0
  | _ => false

/-- The fields of the record `type` from index `i` on are laid out, each in a
slot disjoint from those of the later fields. -/
def fields_laid_out (vm : VirtualMachine) (type : Ty) : List Ty → Nat → Bool
  | [], _ => true
  | f :: fields, i =>
      laid_out vm f &&
      slot_clear vm type (vm.vm_type_offset_of type i) (store_extent vm f) fields (i + 1) &&
      fields_laid_out vm type fields (i + 1)

end

mutual

/-- A value with one component per field, for a struct type and for each of
its fields in turn; a value of a scalar type is any value. -/
def one_per_field : Ty → vmValue → Bool
  | .Record _ fields, .mk _ comp => each_per_field fields comp
  | _, _ => true

/-- The components are as many as the fields and each has one component per
field of its own. -/
def each_per_field : List Ty → List vmValue → Bool
  | [], [] => true
  | f :: fields, v :: comp => one_per_field f v && each_per_field fields comp
  | _, _ => false

end

mutual

/-- The value `vm_load` gives back for a stored value: a scalar is the stored
bytes of `val_int`, as many as the type has, zero-extended; a struct is the
composite of what its fields give back. -/
def stored_value (vm : VirtualMachine) : Ty → vmValue → vmValue
  | .Basic kind, v => .mk (of_bits64 (bits64 v.val_int % 256 ^ stored_bytes vm kind)) []
  | .Record _ fields, .mk _ comp => .mk 0 (stored_values vm fields comp)
  | _, v => v

/-- The values `vm_load` gives back for the components of a struct. -/
def stored_values (vm : VirtualMachine) : List Ty → List vmValue → List vmValue
  | f :: fields, v :: comp => stored_value vm f v :: stored_values vm fields comp
  | _, _ => []

end

/-- A struct of an `i8` at offset 0, an `i64` at offset 8 and, at offset 16, a
struct of two `u16`. -/
def struct_nested : Ty :=
  .Record .TypeRecord_Struct [.Basic .Basic_i8, .Basic .Basic_i64,
    .Record .TypeRecord_Struct [.Basic .Basic_u16, .Basic .Basic_u16]]

/-- A value of `struct_nested`: -1, 5 and the pair 300, 70000. -/
def value_nested : vmValue :=
  .mk 0 [vm_make_value_int (-1), vm_make_value_int 5,
    .mk 0 [vm_make_value_int 300, vm_make_value_int 70000]]
/-! ## A module for the concrete runs of the interpreter -/

/-- A stand-in for the floating-point unit; the concrete runs use no floats. -/
def toy_float : HostFloat :=
  { f32_of_f64 := fun _ => 0
    f64_of_f32 := fun _ => 0
    u64_of_f64 := fun _ => 0
    u64_of_f32 := fun _ => 0
    i64_of_f64 := fun _ => 0
    i64_of_f32 := fun _ => 0
    f64_of_u64 := fun _ => 0
    f32_of_u64 := fun _ => 0
    f64_of_i64 := fun _ => 0
    f32_of_i64 := fun _ => 0
    f32_binary := fun _ _ _ => 0
    f64_binary := fun _ _ _ => 0 }

/-- The bytes of an ASCII text. -/
def ascii_text (text : String) : List Nat := text.toList.map Char.toNat

/-- The type `string`. -/
def t_string : Ty := .Basic .Basic_string

/-- The parameter `a` of `add`. -/
def param_a : ssaValue := .Param 1 t_int

/-- The parameter `b` of `add`. -/
def param_b : ssaValue := .Param 2 t_int

/-- The instruction `a + b` of `add`. -/
def instr_add : ssaValue := .Instr 3 t_int (.BinaryOp .Token_Add param_a param_b)

/-- The procedure `add(a, b int) int { return a+b; }` in SSA form: one block
that adds the two parameters and returns the sum. -/
def proc_add : ssaProcedure :=
  { name := "add"
    type := .Proc (some (.Tuple [t_int, t_int])) (some (.Tuple [t_int]))
    params := [param_a, param_b]
    blocks := [⟨[instr_add, .Instr 4 t_int (.Return (some instr_add))]⟩]
    body := some (.BlockStmt [])
    local_count := 0 }

/-- A runtime procedure that takes parameters of the given types and returns
at once. -/
def proc_runtime (name : String) (params : List Ty) : ssaProcedure :=
  { name := name
    type := .Proc (some (.Tuple params)) none
    params := (List.range params.length).map (fun i => ssaValue.Param (20 + i) (params.getD i t_int))
    blocks := [⟨[.Instr 30 t_int (.Return none)]⟩]
    body := some (.BlockStmt [])
    local_count := 0 }

/-- The runtime procedure `__bounds_check_error(file, line, column, index, len)`. -/
def proc_bounds_check_error : ssaProcedure :=
  proc_runtime "__bounds_check_error" [t_string, t_int, t_int, t_int, t_int]

/-- The runtime procedure
`__slice_expr_error(file, line, column, low, high, max)`. -/
def proc_slice_expr_error : ssaProcedure :=
  proc_runtime "__slice_expr_error" [t_string, t_int, t_int, t_int, t_int, t_int]

/-- The runtime procedure
`__substring_expr_error(file, line, column, low, high)`. -/
def proc_substring_expr_error : ssaProcedure :=
  proc_runtime "__substring_expr_error" [t_string, t_int, t_int, t_int, t_int]

/-- The struct type of a `string` field and an `int` field. -/
def struct_pair : Ty := .Record .TypeRecord_Struct [t_string, t_int]

/-- A module with `add` at address 100 and the three runtime procedures at
101, 102 and 103; the literal `{"hi", 2}` is at address 500 and the literal
`{"hi", "yo"}` at address 501, and the checker's table gives a literal its
value, as a `string` or an `int`. -/
def toy_module : ssaModule :=
  { procedure := fun address =>
      if address = 100 then some proc_add
      else if address = 101 then some proc_bounds_check_error
      else if address = 102 then some proc_slice_expr_error
      else if address = 103 then some proc_substring_expr_error
      else none
    ssa_lookup_member := fun name =>
      if name = "add" then some (.Proc 100 proc_add.type)
      else if name = "__bounds_check_error" then some (.Proc 101 proc_bounds_check_error.type)
      else if name = "__slice_expr_error" then some (.Proc 102 proc_slice_expr_error.type)
      else if name = "__substring_expr_error" then
        some (.Proc 103 proc_substring_expr_error.type)
      else none
    type_and_value_of_expression := fun e =>
      match e with
      | .BasicLit token =>
          if token.kind = .Token_String then some ⟨t_string, .String token.string⟩
          else some ⟨t_int, .Integer (toy_value token.string)⟩
      | _ => none
    compound_lit := fun address =>
      if address = 500 then
        some (.CompoundLit none [.BasicLit (tok .Token_String "hi" 1 2), lit "2" 1 8])
      else if address = 501 then
        some (.CompoundLit none [.BasicLit (tok .Token_String "hi" 2 2),
          .BasicLit (tok .Token_String "yo" 2 8)])
      else none
    lookup_field := fun _ _ => none
    fields_in_src_order := fun t => List.range (record_fields (some t)).length
    string_text := ascii_text
    float := toy_float }

/-- A machine before any call: zeroed memory, an empty stack arena of 64 KiB at
address 4096, the heap from address 1048576 on. -/
def vm_state0 : vmState :=
  { mem := zero_memory
    stack_arena := { physical_start := 4096, total_size := 65536, total_allocated := 0,
                     temp_count := 0 }
    heap := 1048576
    frame_stack := []
    globals := []
    const_compound_lits := []
    calls := [] }

/-- A machine inside a call whose frame binds the values `a` and `b` to the
SSA values 1 and 2. -/
def operand_state (a b : Int) : vmState :=
  { vm_state0 with
    stack_arena := { physical_start := 4096, total_size := 65536, total_allocated := 0,
                     temp_count := 1 }
    frame_stack := [{ curr_proc := proc_add, curr_block := some 0, instr_index := 0,
                      values := [(1, .mk a []), (2, .mk b [])],
                      temp_arena_memory := ⟨0⟩, locals := [], result := vmValue.zero }] }

/-- The value bound to an SSA value in the most recent frame. -/
def bound_value (st : vmState) (id : Nat) : Option vmValue :=
  match vm_back_frame st with
  | none => none
  | some f => map_get f.values id

/-- The `val_int` bound to the instruction `x op y`, executed in a frame that
binds `a` to `x` and `b` to `y`, both of type `t`; `none` when the execution
stops at a `GB_PANIC`. -/
def binary_op_result (t : Ty) (op : TokenKind) (a b : Int) : Option Int :=
  match vm_exec_instr vm64 toy_module 0 (vm_call_procedure vm64 toy_module 0)
      (.Instr 3 t (.BinaryOp op (.Param 1 t) (.Param 2 t))) (operand_state a b) with
  | none => none
  | some st =>
      match bound_value st 3 with
      | none => none
      | some v => some v.val_int

/-- The `val_int` bound to the conversion of the value `a` from one type to
another. -/
def conv_result (kind : ssaConvKind) (from_type to_type : Ty) (a : Int) : Option Int :=
  match vm_exec_instr vm64 toy_module 0 (vm_call_procedure vm64 toy_module 0)
      (.Instr 3 to_type (.Conv kind (.Param 1 from_type) from_type to_type))
      (operand_state a 0) with
  | none => none
  | some st =>
      match bound_value st 3 with
      | none => none
      | some v => some v.val_int

/-- The calls recorded when a bounds check at `main.odin:3:7` with the given
index and length is executed. -/
def bounds_check_calls (index len : Int) : Option (List (String × List (List Int))) :=
  match vm_exec_instr vm64 toy_module 3 (vm_call_procedure vm64 toy_module 3)
      (.Instr 3 t_int (.BoundsCheck ⟨"main.odin", 3, 7⟩ (.Param 1 t_int) (.Param 2 t_int)))
      (operand_state index len) with
  | none => none
  | some st =>
      some (st.calls.map (fun c => (c.1, c.2.map (fun v =>
        v.val_int :: v.val_comp.map vmValue.val_int))))

/-- The constant `{"hi", 2}` of type `struct_pair`, an SSA value at address
77. -/
def const_pair : ssaValue := .Constant 77 struct_pair (.Compound 500)

/-- The constant `{"hi", "yo"}` of type `[2]string`, an SSA value at address
78. -/
def const_array : ssaValue := .Constant 78 (.Array t_string 2) (.Compound 501)

/-- The scalars of a composite of scalars and strings: for each component its
`val_int` followed by those of its own components. -/
def scalars (v : vmValue) : List (List Int) :=
  v.val_comp.map (fun c => c.val_int :: c.val_comp.map vmValue.val_int)

/-- What materialising a constant twice in a row gives: the first value,
whether the map of compound constants holds an entry for the constant after
the first time, the second value, and the next heap address after each
time. -/
structure Materialised where
  first : List (List Int)
  cached : Bool
  second : List (List Int)
  heap_first : Nat
  heap_second : Nat
deriving DecidableEq, Repr

/-- Materialise an SSA value twice in a row on the machine `vm_state0`. -/
def materialise_twice (value : ssaValue) : Option Materialised :=
  match vm_operand_value toy_module 3 value vm_state0 with
  | none => none
  | some (v1, st1) =>
      match vm_operand_value toy_module 3 value st1 with
      | none => none
      | some (v2, st2) =>
          some { first := scalars v1
                 cached := (map_get st1.const_compound_lits value.id).isSome
                 second := scalars v2
                 heap_first := st1.heap
                 heap_second := st2.heap }

/-- The string value `vm_exact_value` builds for a text whose copy is at the
heap address `text`. -/
def string_value (m : ssaModule) (str : String) (text : Nat) : vmValue :=
  .mk 0 [.mk (of_bits64 text) [], .mk (m.string_text str).length []]

/-- The state after `vm_exact_value` built the string value of a text: the
bytes of the text are copied to the heap. -/
def string_state (m : ssaModule) (str : String) (st : vmState) : vmState :=
  { mem := write_text st.mem st.heap (m.string_text str)
    stack_arena := st.stack_arena
    heap := st.heap + (m.string_text str).length
    frame_stack := st.frame_stack
    globals := st.globals
    const_compound_lits := st.const_compound_lits
    calls := st.calls }

/-- Two states of the stack arena between which no checkpoint was taken or
released: same region, same number of open checkpoints. -/
def ArenaBase (a a1 : gbArena) : Prop :=
  a1.physical_start = a.physical_start ∧ a1.total_size = a.total_size ∧
    a1.temp_count = a.temp_count

/-- What a step inside a frame keeps: the frames under the most recent one,
the checkpoint of the most recent one, and the base of the stack arena. -/
def Steps (st st1 : vmState) : Prop :=
  (∀ f rest, st.frame_stack = f :: rest →
    ∃ f1, st1.frame_stack = f1 :: rest ∧ f1.temp_arena_memory = f.temp_arena_memory) ∧
  ArenaBase st.stack_arena st1.stack_arena

/-- What a call keeps when it returns: the frame stack and the stack arena. -/
def CallKeeps (call : ssaProcedure → List vmValue → vmState → Option (vmValue × vmState)) :
    Prop :=
  ∀ proc values st r st1, call proc values st = some (r, st1) →
    st1.frame_stack = st.frame_stack ∧ st1.stack_arena = st.stack_arena

/-- Two states with the same frame stack and the same stack arena. -/
def Kept (st st1 : vmState) : Prop :=
  st1.frame_stack = st.frame_stack ∧ st1.stack_arena = st.stack_arena

/-- The calls recorded when a slice bounds check at `main.odin:3:7` with the
given indices is executed; `max` is a constant operand. -/
def slice_check_calls (low high max : Int) (is_substring : Bool) :
    Option (List (String × List (List Int))) :=
  match vm_exec_instr vm64 toy_module 3 (vm_call_procedure vm64 toy_module 3)
      (.Instr 3 t_int (.SliceBoundsCheck ⟨"main.odin", 3, 7⟩ (.Param 1 t_int) (.Param 2 t_int)
        (.Constant 9 t_int (.Integer max)) is_substring))
      (operand_state low high) with
  | none => none
  | some st =>
      some (st.calls.map (fun c => (c.1, c.2.map (fun v =>
        v.val_int :: v.val_comp.map vmValue.val_int))))

/-! ## Words for the claims on expression statements and shielded breaks -/

/-- The node is of an expression kind (the kinds listed before `BadStmt`). -/
def AstNode.is_expr : AstNode → Bool
  | .Ident _ => true
  | .BasicLit _ => true
  | .BinaryExpr _ _ _ => true
  | .CallExpr _ _ => true
  | .SelectorExpr _ _ => true
  | .ParenExpr _ => true
  | .FieldValue _ _ => true
  | .CompoundLit _ _ => true
  | _ => false

/-- The expression `no_return()`: a call of the procedure named `no_return`
with no arguments. -/
def call_no_return : AstNode :=
  .CallExpr (.Ident (tok .Token_Ident "no_return" 1 1)) []

/-- The test `n->kind == AstNode_BranchStmt`. -/
def AstNode.is_BranchStmt : AstNode → Bool
  | .BranchStmt _ => true
  | _ => false

/-- The test `n->kind == AstNode_BlockStmt`. -/
def AstNode.is_BlockStmt : AstNode → Bool
  | .BlockStmt _ => true
  | _ => false

/-- The test `n->kind == AstNode_IfStmt`. -/
def AstNode.is_IfStmt : AstNode → Bool
  | .IfStmt _ _ _ _ => true
  | _ => false

mutual

/-- A `break` occurs in the statement outside every `WhenStmt`,
`PushAllocator`, `PushContext` and `DeferStmt`: the search goes down through
every other statement kind that holds statements and stops at those four. -/
def open_break : AstNode → Bool
  | .BranchStmt token => decide (token.kind = TokenKind.Token_break)
  | .BlockStmt stmts => open_break_list stmts
  | .IfStmt init _ body else_stmt =>
      open_break_opt init || open_break body || open_break_opt else_stmt
  | .CaseClause _ _ stmts => open_break_list stmts
  | .TagStmt _ stmt => open_break stmt
  | .ForStmt init _ post body => open_break_opt init || open_break_opt post || open_break body
  | .MatchStmt init _ body => open_break_opt init || open_break body
  | .TypeMatchStmt _ _ body => open_break body
  | .ProcDecl _ _ body => open_break_opt body
  | _ => false

/-- Some statement of the list has an open break. -/
def open_break_list : List AstNode → Bool
  | [] => false
  | stmt :: rest => open_break stmt || open_break_list rest

/-- The optional statement is present and has an open break. -/
def open_break_opt : Option AstNode → Bool
  | none => false
  | some stmt => open_break stmt

end

/-- The identifier `true`. -/
def ident_true : AstNode := .Ident (tok .Token_Ident "true" 1 6)

/-- The body `{ when true { break; } }`. -/
def body_when_break : AstNode :=
  .BlockStmt [.WhenStmt ident_true (some (.BlockStmt [stmt_break 1 13])) none]

/-- The body `{ defer { break; } }`. -/
def body_defer_break : AstNode :=
  .BlockStmt [.DeferStmt (tok .Token_Ident "defer" 1 6) (.BlockStmt [stmt_break 1 13])]

/-- The body `{ push_allocator a { break; } }`. -/
def body_push_allocator_break : AstNode :=
  .BlockStmt [.PushAllocator (.Ident (tok .Token_Ident "a" 1 6)) (.BlockStmt [stmt_break 1 13])]

/-- The body `{ push_context a { break; } }`. -/
def body_push_context_break : AstNode :=
  .BlockStmt [.PushContext (.Ident (tok .Token_Ident "a" 1 6)) (.BlockStmt [stmt_break 1 13])]

/-! ## Collaborators that record scopes and bound variables, for type matches -/

/-- What the scope and entity tables record for the concrete programs: the
scopes opened and closed and the implicit variables bound, in order. -/
inductive Trace where
  | open_scope (pos : TokenPos)
  | close_scope
  | bind_var (type : Ty) (is_union_ptr : Bool)
deriving Repr

/-- The token a scope is recorded under: that of the tag for a match or a type
match, of the condition for an `if`, of the first statement for a block, the
node's own token otherwise. -/
def trace_token : AstNode → Token
  | .TypeMatchStmt tag _ _ => first_token tag
  | .MatchStmt _ (some tag) _ => first_token tag
  | .IfStmt _ cond _ _ => first_token cond
  | .BlockStmt (s :: _) => first_token s
  | n => first_token n

/-- The union type `union { int, f32 }`. -/
def t_union_int_f32 : Ty := .Record .TypeRecord_Union [t_int, .Basic .Basic_f32]

/-- The operand of an expression of the programs with types: `int`, `f32` and
`bool` are types, `v` is a variable of type `any`, `u` a variable of type pointer
to `union { int, f32 }`, `true` and `false` are the boolean constants. -/
def toy_trace_operand (expr : AstNode) : Operand :=
  match expr with
  | .Ident token =>
      if token.string = "int" then
        { mode := .Addressing_Type, type := some t_int, value := .Invalid, expr := expr }
      else if token.string = "f32" then
        { mode := .Addressing_Type, type := some (.Basic .Basic_f32), value := .Invalid,
          expr := expr }
      else if token.string = "bool" then
        { mode := .Addressing_Type, type := some t_bool, value := .Invalid, expr := expr }
      else if token.string = "v" then
        { mode := .Addressing_Variable, type := some (.Basic .Basic_any), value := .Invalid,
          expr := expr }
      else if token.string = "u" then
        { mode := .Addressing_Variable, type := some (.Pointer t_union_int_f32),
          value := .Invalid, expr := expr }
      else toy_bool_operand expr
  | _ => toy_operand expr

/-- A hash of types that tells `int`, `f32` and `bool` apart. -/
def toy_hash_type : Option Ty → Nat
  | some (.Basic .Basic_int) => 1
  | some (.Basic .Basic_f32) => 2
  | some (.Basic .Basic_bool) => 3
  | _ => 0

/-- The stand-in collaborators with types, whose `info` is the record of the
scopes opened and closed and of the variables bound. -/
def toy_trace : Collaborators (List Trace) :=
  { stmt_state_flags := fun _ => 0
    ast_node_token := first_token
    is_ast_node_decl := toy.is_ast_node_decl
    is_type_boolean := toy.is_type_boolean
    is_type_numeric := toy.is_type_numeric
    are_types_identical := toy.are_types_identical
    hash_exact_value := toy_hash
    hash_pointer := toy_hash_type
    t_allocator := .Basic .Basic_rawptr
    t_context := .Basic .Basic_rawptr
    check_scope_decls := fun c _ => c.info
    check_open_scope := fun c node => c.info ++ [.open_scope (trace_token node).pos]
    check_close_scope := fun c => c.info ++ [.close_scope]
    check_expr := fun c e => (c.info, toy_trace_operand e)
    check_expr_base := fun c e => (c.info, toy_trace_operand e, .Expr_Expr)
    check_multi_expr := fun c e => (c.info, toy_trace_operand e)
    check_expr_or_type := fun c e => (c.info, toy_trace_operand e)
    check_binary_expr := fun c _ e => (c.info, toy_trace_operand e)
    check_assignment := fun c o _ _ => (c.info, o)
    add_entity_definition := fun c _ _ => c.info
    entity_flags_used := fun _ _ => false
    or_entity_flags_used := fun info _ _ => info
    convert_to_typed := fun c o t => (c.info, { o with type := t })
    check_comparison := fun c z _ _ => (c.info, { z with type := some t_bool })
    check_init_variables := fun c _ _ _ => c.info
    check_var_decl_node := fun c _ => c.info
    check_proc_decl := fun c _ => c.info
    bind_type_match_var := fun c _ t is_union_ptr => c.info ++ [.bind_var t is_union_ptr]
    context_scope := fun _ => .mk [] none
    set_context_scope := fun info _ => info
    unparen_expr := unparen_expr
    check_selector := fun c _ => (c.info, none)
    Record_fields := fun _ _ => []
    Record_other_fields := fun _ _ => []
    map_scope_get := fun _ _ => none }

/-- A checker inside a procedure without results, with an empty log and an
empty record of scopes. -/
def trace_checker : Checker (List Trace) :=
  { info := [], stmt_state_flags := 0, in_defer := false,
    proc_stack := [.Proc none none], log := [] }

/-- The type name `name` as a case expression. -/
def type_ident (name : String) (line column : Nat) : AstNode :=
  .Ident (tok .Token_Ident name line column)

/-- The type match `match type t : v { case int: return; case int: return;
case f32: return; }` on `v` of type `any`: the second clause names the type of
the first again. -/
def type_match_duplicate : AstNode :=
  .TypeMatchStmt (type_ident "v" 1 16) (type_ident "t" 1 12)
    (.BlockStmt
      [.CaseClause (tok .Token_Ident "case" 2 1) [type_ident "int" 2 6] [stmt_return 2 11],
       .CaseClause (tok .Token_Ident "case" 3 1) [type_ident "int" 3 6] [stmt_return 3 11],
       .CaseClause (tok .Token_Ident "case" 4 1) [type_ident "f32" 4 6] [stmt_return 4 11]])

/-- The calls of `check_stmt` on the statements of the given case clauses,
clause after clause, each statement list checked with `mod_flags`. -/
def type_match_clause_calls (mod_flags : Nat) : List AstNode → List (AstNode × Nat)
  | [] => []
  | cl :: rest =>
      stmt_list_calls cl.clause_stmts mod_flags ++ type_match_clause_calls mod_flags rest

/-- The type match `match type t : v { case int: return; case int: fallthrough;
}` on `v` of type `any`: the clause of the `fallthrough` names `int` again. -/
def type_match_duplicate_fallthrough : AstNode :=
  .TypeMatchStmt (type_ident "v" 1 16) (type_ident "t" 1 12)
    (.BlockStmt
      [.CaseClause (tok .Token_Ident "case" 2 1) [type_ident "int" 2 6] [stmt_return 2 11],
       .CaseClause (tok .Token_Ident "case" 3 1) [type_ident "int" 3 6]
         [stmt_fallthrough 3 11]])

/-- The statement `match x { case 1: fallthrough; case 2: return; }`. -/
def match_x_fallthrough : AstNode :=
  .MatchStmt none (some (type_ident "x" 2 17))
    (.BlockStmt
      [.CaseClause (tok .Token_Ident "case" 3 1) [lit "1" 3 6] [stmt_fallthrough 3 9],
       .CaseClause (tok .Token_Ident "case" 4 1) [lit "2" 4 6] [stmt_return 4 9]])

/-- The type match `match type t : v { case int: match x { case 1: fallthrough;
case 2: return; } }` on `v` of type `any`. -/
def type_match_nested_match : AstNode :=
  .TypeMatchStmt (type_ident "v" 1 16) (type_ident "t" 1 12)
    (.BlockStmt
      [.CaseClause (tok .Token_Ident "case" 2 1) [type_ident "int" 2 6] [match_x_fallthrough]])

/-- The type match `match type t : v { case int: fallthrough; case f32: break;
fallthrough; default: fallthrough; }` on `v` of type `any`. -/
def type_match_branches : AstNode :=
  .TypeMatchStmt (type_ident "v" 1 16) (type_ident "t" 1 12)
    (.BlockStmt
      [.CaseClause (tok .Token_Ident "case" 2 1) [type_ident "int" 2 6]
         [stmt_fallthrough 2 11],
       .CaseClause (tok .Token_Ident "case" 3 1) [type_ident "f32" 3 6]
         [stmt_break 3 11, stmt_fallthrough 3 18],
       .CaseClause (tok .Token_Ident "default" 4 1) [] [stmt_fallthrough 4 10]])

/-- The checker after `type_match_branches` was checked in `trace_checker`:
each of the three clauses was checked, every `fallthrough` is diagnosed and
the `break` is not. -/
def checker_after_type_match_branches : Checker (List Trace) :=
  { trace_checker with
    info := [.open_scope ⟨"main.odin", 1, 16⟩,
             .open_scope ⟨"main.odin", 2, 1⟩, .bind_var t_int false, .close_scope,
             .open_scope ⟨"main.odin", 3, 1⟩, .bind_var (.Basic .Basic_f32) false, .close_scope,
             .open_scope ⟨"main.odin", 4, 1⟩, .close_scope,
             .close_scope]
    log :=
      [Event.stmt (stmt_fallthrough 2 11) 1
         [Event.error ⟨"main.odin", 2, 11⟩ .fallthrough_illegal_position],
       Event.stmt (stmt_break 3 11) 1 [],
       Event.stmt (stmt_fallthrough 3 18) 1
         [Event.error ⟨"main.odin", 3, 18⟩ .fallthrough_illegal_position],
       Event.stmt (stmt_fallthrough 4 10) 1
         [Event.error ⟨"main.odin", 4, 10⟩ .fallthrough_illegal_position]] }

/-- The first clause `case 1: break; continue; fallthrough;` of
`match_branches`. -/
def clause_one_branches : AstNode :=
  .CaseClause (tok .Token_Ident "case" 2 1) [lit "1" 2 6]
    [stmt_break 2 9, stmt_continue 2 16, stmt_fallthrough 2 26]

/-- The second and last clause `case 2: break; fallthrough;` of
`match_branches`. -/
def clause_two_branches : AstNode :=
  .CaseClause (tok .Token_Ident "case" 3 1) [lit "2" 3 6]
    [stmt_break 3 9, stmt_fallthrough 3 16]

/-- The match `match v { case 1: break; continue; fallthrough; case 2: break;
fallthrough; }`. -/
def match_branches : AstNode :=
  .MatchStmt none (some (.Ident (tok .Token_Ident "v" 1 7)))
    (.BlockStmt ([] ++ clause_one_branches :: [clause_two_branches]))

/-- The checker after `match_branches` was checked in `toy_checker` with no
flag: in the first clause the `continue` is diagnosed and the `fallthrough` is
not, in the last clause the `fallthrough` is diagnosed; no `break` is. -/
def checker_after_match_branches : Checker Unit :=
  { toy_checker with log :=
      [Event.stmt (stmt_break 2 9) 1 [],
       Event.stmt (stmt_continue 2 16) 1
         [Event.error ⟨"main.odin", 2, 16⟩ .continue_not_allowed],
       Event.stmt (stmt_fallthrough 2 26) 5 [],
       Event.stmt (stmt_break 3 9) 1 [],
       Event.stmt (stmt_fallthrough 3 16) 1
         [Event.error ⟨"main.odin", 3, 16⟩ .fallthrough_illegal_position]] }

/-! ## Programs for the flags a `when` passes on -/

/-- The statement `when true { fallthrough; }`. -/
def when_true_fallthrough : AstNode :=
  .WhenStmt (type_ident "true" 2 14) (some (.BlockStmt [stmt_fallthrough 2 21])) none

/-- The statement `{ fallthrough; }`. -/
def block_fallthrough : AstNode := .BlockStmt [stmt_fallthrough 2 21]

/-- The statement `if true { fallthrough; }`. -/
def if_true_fallthrough : AstNode :=
  .IfStmt none (type_ident "true" 2 12) (.BlockStmt [stmt_fallthrough 2 21]) none

/-- The match `match x { case 1: s case 2: return; }` with the statement `s` as
the last statement of its first clause. -/
def match_first_clause (s : AstNode) : AstNode :=
  .MatchStmt none (some (type_ident "x" 1 7))
    (.BlockStmt
      [.CaseClause (tok .Token_Ident "case" 2 1) [lit "1" 2 6] [s],
       .CaseClause (tok .Token_Ident "case" 3 1) [lit "2" 3 6] [stmt_return 3 9]])

/-! ## Words for the context flags during a check -/

/-- The loop `for { match v { case 1: fallthrough; case 2: return; } }`. -/
def for_match_fallthrough : AstNode :=
  .ForStmt none none none (.BlockStmt [match_fallthrough_last])

/-! ## A `using` with two colliding exports -/

/-- The entity `bar` defined in `main.odin` at line 1, column 10. -/
def entity_bar_original : Entity :=
  .mk .Entity_Variable (tok .Token_Ident "bar" 1 10) (some t_int) none none []

/-- A current scope that defines `foo`, `bar` and the import name `m`, whose
scope exports `bar` and then `foo`. -/
def scope_foo_bar : Scope :=
  .mk [("foo", entity_foo_original), ("bar", entity_bar_original), ("m", entity_import_m)] none

/-- A checker in the scope `scope_foo_bar`. -/
def checker_foo_bar : Checker Scope :=
  { info := scope_foo_bar, stmt_state_flags := 0, in_defer := false,
    proc_stack := [.Proc none none], log := [] }

/-! # Theorems -/

/-! ## Lemmas on the termination analysis -/

theorem find_none_of_all_empty (l : List AstNode) (h : l.all AstNode.is_EmptyStmt = true) :
    l.reverse.find? (fun s => !s.is_EmptyStmt) = none := by
  rw [List.find?_eq_none]
  intro x hx
  simp only [List.all_eq_true] at h
  have := h x (List.mem_reverse.mp hx)
  simp [this]

theorem find_some_of_not_all_empty (l : List AstNode)
    (h : ¬ l.all AstNode.is_EmptyStmt = true) :
    ∃ x, l.reverse.find? (fun s => !s.is_EmptyStmt) = some x := by
  cases hf : l.reverse.find? (fun s => !s.is_EmptyStmt) with
  | some x => exact ⟨x, rfl⟩
  | none =>
    exfalso; apply h
    rw [List.find?_eq_none] at hf
    simp only [List.all_eq_true]
    intro x hx
    have := hf x (List.mem_reverse.mpr hx)
    simpa using this

theorem check_is_terminating_list_eq (stmts : List AstNode) :
    check_is_terminating_list stmts =
      match last_non_empty stmts with
      | none => some false
      | some s => check_is_terminating s := by
  induction stmts with
  | nil => simp [check_is_terminating_list, last_non_empty]
  | cons s rest ih =>
    rw [check_is_terminating_list]
    unfold last_non_empty at *
    rw [List.reverse_cons, List.find?_append]
    by_cases hall : rest.all AstNode.is_EmptyStmt = true
    · rw [if_pos hall, find_none_of_all_empty rest hall]
      cases hs : s.is_EmptyStmt <;> simp [List.find?, hs]
    · rw [if_neg hall, ih]
      obtain ⟨x, hx⟩ := find_some_of_not_all_empty rest hall
      rw [hx]; rfl

theorem and_then_eq_true (a b : Option Bool) :
    and_then a b = some true ↔ a = some true ∧ b = some true := by
  cases a with
  | none => simp [and_then]
  | some x => cases x <;> simp [and_then]

theorem check_has_break_list_iff (stmts : List AstNode) (implicit : Bool) :
    check_has_break_list stmts implicit = true ↔
      ∃ s ∈ stmts, check_has_break s implicit = true := by
  induction stmts with
  | nil => simp [check_has_break_list]
  | cons s rest ih =>
    rw [check_has_break_list]
    by_cases h : check_has_break s implicit = true
    · simp [h]
    · simp [h, ih]

theorem clause_list_CaseClause (token : Token) (list stmts : List AstNode) :
    (AstNode.CaseClause token list stmts).clause_list = list := rfl

theorem clause_stmts_CaseClause (token : Token) (list stmts : List AstNode) :
    (AstNode.CaseClause token list stmts).clause_stmts = stmts := rfl

theorem check_is_terminating_clauses_iff (stmts : List AstNode)
    (h : ∀ c ∈ stmts, c.is_CaseClause = true) (has_default : Bool) :
    check_is_terminating_clauses stmts has_default = some true ↔
      (has_default = true ∨ ∃ c ∈ stmts, c.clause_list.length = 0) ∧
      ∀ c ∈ stmts, check_is_terminating_list c.clause_stmts = some true ∧
        check_has_break_list c.clause_stmts true = false := by
  induction stmts generalizing has_default with
  | nil => simp [check_is_terminating_clauses]
  | cons c rest ih =>
    have hc := h c (List.mem_cons_self _ _)
    have hrest : ∀ c ∈ rest, c.is_CaseClause = true :=
      fun x hx => h x (List.mem_cons_of_mem _ hx)
    cases c <;> simp [AstNode.is_CaseClause] at hc
    case CaseClause token list stmts =>
      rw [check_is_terminating_clauses]
      simp only [List.mem_cons, forall_eq_or_imp, exists_eq_or_imp, clause_list_CaseClause,
        clause_stmts_CaseClause]
      cases ht : check_is_terminating_list stmts with
      | none => simp
      | some t =>
        cases t with
        | false => simp
        | true =>
          cases hb : check_has_break_list stmts true with
          | true => simp
          | false =>
            simp only [Bool.not_true, Bool.or_self, Bool.false_eq_true, if_false, true_and,
              and_self]
            rw [ih hrest]
            by_cases hl : list.length = 0
            · simp [hl]
            · simp [hl]

theorem check_has_break_reaches_aux (n : Nat) :
    ∀ s : AstNode, sizeOf s ≤ n → check_has_break s true = true → ReachesBreak s := by
  induction n with
  | zero => intro s hsz; cases s <;> simp at hsz
  | succ n ih =>
    intro s hsz h
    cases s <;> simp [check_has_break] at h
    case BranchStmt token => exact .branch token h
    case BlockStmt stmts =>
      obtain ⟨x, hx, hb⟩ := (check_has_break_list_iff stmts true).mp h
      have := List.sizeOf_lt_of_mem hx
      simp at hsz
      exact .block stmts x hx (ih x (by omega) hb)
    case IfStmt init cond body else_stmt =>
      simp at hsz
      rcases h with h | h
      · exact .if_body init cond body else_stmt (ih body (by omega) h)
      · cases else_stmt with
        | none => simp [check_has_break_else] at h
        | some e =>
          simp [check_has_break_else] at h
          simp at hsz
          exact .if_else init cond body e (ih e (by omega) h)
    case CaseClause token list stmts =>
      obtain ⟨x, hx, hb⟩ := (check_has_break_list_iff stmts true).mp h
      have := List.sizeOf_lt_of_mem hx
      simp at hsz
      exact .clause token list stmts x hx (ih x (by omega) hb)

theorem check_has_break_reaches (s : AstNode) (h : check_has_break s true = true) :
    ReachesBreak s :=
  check_has_break_reaches_aux (sizeOf s) s (Nat.le_refl _) h

theorem reaches_check_has_break (s : AstNode) (h : ReachesBreak s) :
    check_has_break s true = true := by
  induction h with
  | branch token h => simp [check_has_break, h]
  | block stmts s hs _ ih =>
    rw [check_has_break]; exact (check_has_break_list_iff stmts true).mpr ⟨s, hs, ih⟩
  | if_body init cond body else_stmt _ ih => simp [check_has_break, ih]
  | if_else init cond body e _ ih => simp [check_has_break, check_has_break_else, ih]
  | clause token list stmts s hs _ ih =>
    rw [check_has_break]; exact (check_has_break_list_iff stmts true).mpr ⟨s, hs, ih⟩

/-! ## Claims on the termination analysis -/

/-- C1: `check_is_terminating` of a `ReturnStmt` is true; of a `BlockStmt` it is
`check_is_terminating` of the last statement that is not an `EmptyStmt`, and
false when there is none; so `block{return x}` terminates. -/
theorem check_is_terminating_return_block :
    (∀ token results, check_is_terminating (.ReturnStmt token results) = some true) ∧
    (∀ stmts, check_is_terminating (.BlockStmt stmts) =
      match last_non_empty stmts with
      | none => some false
      | some s => check_is_terminating s) ∧
    (∀ token x, check_is_terminating (.BlockStmt [.ReturnStmt token [x]]) = some true) := by
  refine ⟨fun _ _ => by simp [check_is_terminating], fun stmts => ?_, fun _ _ => ?_⟩
  · rw [check_is_terminating, check_is_terminating_list_eq]
  · simp [check_is_terminating, check_is_terminating_list, AstNode.is_EmptyStmt]

/-- C2: a `ForStmt` is terminating exactly when it has no condition and
`check_has_break(body, true)` is false; `for{}` terminates, `for{break}` does
not, and a `for` with a condition never does. -/
theorem check_is_terminating_for :
    (∀ init cond post body,
      (check_is_terminating (.ForStmt init cond post body) = some true ↔
        cond = none ∧ check_has_break body true = false) ∧
      (check_is_terminating (.ForStmt init cond post body) = some true ∨
        check_is_terminating (.ForStmt init cond post body) = some false)) ∧
    check_is_terminating (.ForStmt none none none (.BlockStmt [])) = some true ∧
    (∀ token, token.kind = TokenKind.Token_break →
      check_is_terminating (.ForStmt none none none (.BlockStmt [.BranchStmt token]))
        = some false) ∧
    (∀ init c post body,
      check_is_terminating (.ForStmt init (some c) post body) = some false) := by
  refine ⟨fun init cond post body => ?_, by decide, fun token h => ?_, fun _ _ _ _ => ?_⟩
  · rw [check_is_terminating]
    cases cond <;> cases check_has_break body true <;> simp
  · simp [check_is_terminating, check_has_break, check_has_break_list, h]
  · simp [check_is_terminating]

/-- C3: for a `MatchStmt` or `TypeMatchStmt` whose body statements are all case
clauses, `check_is_terminating` is true exactly when some clause has an empty
list and every clause has a terminating statement list without a break seen by
`check_has_break_list(.., true)`. -/
theorem check_is_terminating_match (stmts : List AstNode)
    (h : ∀ c ∈ stmts, c.is_CaseClause = true) :
    (∀ init tag, check_is_terminating (.MatchStmt init tag (.BlockStmt stmts)) = some true ↔
      (∃ c ∈ stmts, c.clause_list.length = 0) ∧
      ∀ c ∈ stmts, check_is_terminating_list c.clause_stmts = some true ∧
        check_has_break_list c.clause_stmts true = false) ∧
    (∀ tag var, check_is_terminating (.TypeMatchStmt tag var (.BlockStmt stmts)) = some true ↔
      (∃ c ∈ stmts, c.clause_list.length = 0) ∧
      ∀ c ∈ stmts, check_is_terminating_list c.clause_stmts = some true ∧
        check_has_break_list c.clause_stmts true = false) := by
  constructor
  · intro init tag
    rw [check_is_terminating, check_is_terminating_clauses_iff stmts h]; simp
  · intro tag var
    rw [check_is_terminating, check_is_terminating_clauses_iff stmts h]; simp

/-- C3 at `match x { case 1: return; case 2: return; }`, which is not
terminating, and at the same match with `default: return;` added, which is. -/
theorem check_is_terminating_match_witness :
    check_is_terminating
      (.MatchStmt none (some (.Ident (tok .Token_Ident "x" 1 7))) (.BlockStmt clauses_no_default))
      = some false ∧
    check_is_terminating
      (.MatchStmt none (some (.Ident (tok .Token_Ident "x" 1 7)))
        (.BlockStmt clauses_with_default)) = some true :=
  ⟨by decide,
   ((check_is_terminating_match clauses_with_default (by decide)).1 none _).mpr (by decide)⟩

/-- C4: an `IfStmt` or `WhenStmt` is terminating exactly when it has an else
branch and both the body and the else branch are terminating; without an else
the result is false. -/
theorem check_is_terminating_if_when :
    (∀ init cond body else_stmt,
      check_is_terminating (.IfStmt init cond body else_stmt) = some true ↔
        ∃ e, else_stmt = some e ∧ check_is_terminating body = some true ∧
          check_is_terminating e = some true) ∧
    (∀ cond body else_stmt,
      check_is_terminating (.WhenStmt cond body else_stmt) = some true ↔
        ∃ b e, body = some b ∧ else_stmt = some e ∧ check_is_terminating b = some true ∧
          check_is_terminating e = some true) ∧
    (∀ init cond body, check_is_terminating (.IfStmt init cond body none) = some false) ∧
    (∀ cond body, check_is_terminating (.WhenStmt cond body none) = some false) := by
  refine ⟨fun init cond body else_stmt => ?_, fun cond body else_stmt => ?_,
    fun _ _ _ => by simp [check_is_terminating], fun _ body => ?_⟩
  · cases else_stmt with
    | none => simp [check_is_terminating]
    | some e => simp [check_is_terminating, and_then_eq_true]
  · cases else_stmt with
    | none => cases body <;> simp [check_is_terminating]
    | some e =>
      cases body with
      | none => simp [check_is_terminating]
      | some b => simp [check_is_terminating, and_then_eq_true]
  · cases body <;> simp [check_is_terminating]

/-- C5: `check_has_break(s, true)` is true exactly when a `break` is reachable
from `s` through block statement lists, `if` bodies and else branches and case
clause statement lists; a `for`, `match` or type match is never descended; for
`for { if cond { break; } }` the body has a break and the loop is not
terminating. -/
theorem check_has_break_iff_reaches :
    (∀ s, check_has_break s true = true ↔ ReachesBreak s) ∧
    (∀ init cond post body implicit,
      check_has_break (.ForStmt init cond post body) implicit = false) ∧
    (∀ init tag body implicit, check_has_break (.MatchStmt init tag body) implicit = false) ∧
    (∀ tag var body implicit,
      check_has_break (.TypeMatchStmt tag var body) implicit = false) ∧
    (∀ cond token, token.kind = TokenKind.Token_break →
      check_has_break
        (.BlockStmt [.IfStmt none cond (.BlockStmt [.BranchStmt token]) none]) true = true ∧
      check_is_terminating
        (.ForStmt none none none
          (.BlockStmt [.IfStmt none cond (.BlockStmt [.BranchStmt token]) none]))
        = some false) := by
  refine ⟨fun s => ⟨check_has_break_reaches s, reaches_check_has_break s⟩,
    fun _ _ _ _ _ => by simp [check_has_break], fun _ _ _ _ => by simp [check_has_break],
    fun _ _ _ _ => by simp [check_has_break], fun cond token h => ?_⟩
  simp [check_is_terminating, check_has_break, check_has_break_list, check_has_break_else, h]

/-! ## Raw memory and the store/load round trip -/

theorem read_write_bytes (mem : Memory) (dst bits n : Nat) :
    ∀ k, k ≤ n → read_bytes (write_bytes mem dst bits n) dst k = bits % 256 ^ k := by
  intro k
  induction k with
  | zero => intro _; simp [read_bytes, Nat.mod_one]
  | succ k ih =>
    intro hk
    rw [read_bytes, ih (by omega), Nat.mod_pow_succ]
    have hw : write_bytes mem dst bits n (dst + k) = bits / 256 ^ k % 256 := by
      unfold write_bytes
      rw [if_pos ⟨by omega, by omega⟩]
      simp
    rw [hw, Nat.mod_mod, Nat.mul_comm]

theorem bits64_lt (i : Int) : bits64 i < 2 ^ 64 := by
  unfold bits64
  have h1 : (0 : Int) ≤ i % 2 ^ 64 := Int.emod_nonneg _ (by norm_num)
  have h2 : i % 2 ^ 64 < 2 ^ 64 := Int.emod_lt_of_pos _ (by norm_num)
  omega

theorem of_bits64_bits64 (i : Int) (h1 : -2 ^ 63 ≤ i) (h2 : i < 2 ^ 63) :
    of_bits64 (bits64 i) = i := by
  unfold of_bits64 bits64
  norm_num at h1 h2 ⊢
  split <;> omega

theorem of_bits64_small (n : Nat) (h : n < 2 ^ 63) : of_bits64 n = (n : Int) := by
  unfold of_bits64
  norm_num at h ⊢
  split <;> omega

theorem bits64_of_nonneg (i : Int) (h1 : 0 ≤ i) (h2 : i < 2 ^ 64) : ((bits64 i : Nat) : Int) = i := by
  unfold bits64
  norm_num at h2 ⊢
  omega

theorem vm_load_after_store_integer (vm : VirtualMachine) (mem : Memory) (dst : Nat)
    (val : vmValue) (kind : BasicKind) (hdst : dst ≠ 0) (hk : is_integer_kind kind = true) :
    vm_load_after_store vm (.Basic kind) mem dst val =
      some (.mk (of_bits64 (bits64 val.val_int % 256 ^ vm.vm_type_size_of (.Basic kind))) []) := by
  cases kind <;> simp [is_integer_kind] at hk <;>
    simp [vm_load_after_store, vm_store, vm_load, vm_store_integer, vm_load_integer, hdst,
      read_write_bytes]

theorem bits64_cast (i : Int) : ((bits64 i : Nat) : Int) = i % 2 ^ 64 := by
  unfold bits64
  exact Int.toNat_of_nonneg (Int.emod_nonneg _ (by norm_num))

theorem pow_256_dvd (s : Nat) (hs : s ≤ 8) : ((256 : Int) ^ s) ∣ 2 ^ 64 := by
  have h : (2 : Int) ^ 64 = 256 ^ s * 256 ^ (8 - s) := by
    rw [← pow_add]
    have : s + (8 - s) = 8 := by omega
    rw [this]
    norm_num
  exact ⟨256 ^ (8 - s), h⟩

theorem of_bits64_mod (i : Int) (s : Nat) (hs : s < 8) :
    of_bits64 (bits64 i % 256 ^ s) = i % 256 ^ s := by
  have hcast : ((bits64 i % 256 ^ s : Nat) : Int) = i % 256 ^ s := by
    rw [Int.natCast_mod, bits64_cast]
    push_cast
    exact Int.emod_emod_of_dvd i (pow_256_dvd s (by omega))
  have hlt : bits64 i % 256 ^ s < 2 ^ 63 := by
    have h1 : bits64 i % 256 ^ s < 256 ^ s := Nat.mod_lt _ (by positivity)
    have h2 : 256 ^ s ≤ 256 ^ 7 := Nat.pow_le_pow_right (by norm_num) (by omega)
    have h3 : 256 ^ 7 < 2 ^ 63 := by norm_num
    omega
  rw [of_bits64_small _ hlt, hcast]

theorem emod_eq_self_iff (i : Int) (m : Int) (hm : 0 < m) : i % m = i ↔ 0 ≤ i ∧ i < m := by
  constructor
  · intro h
    rw [← h]
    exact ⟨Int.emod_nonneg _ (by omega), Int.emod_lt_of_pos _ hm⟩
  · rintro ⟨h0, h1⟩
    exact Int.emod_eq_of_lt h0 h1

/-- C6 (amended): for a primitive type, `vm_load` after `vm_store` at a non-null
address returns a value with no components whose scalar bytes are the low
`size` bytes of the stored value, zero-extended: for an integer type or `bool`
of fewer than eight bytes `val_int` modulo `2^(8*size)`, which is the stored
`val_int` exactly when that lies in `[0, 2^(8*size))`; for an eight-byte
integer type, `f64` and `rawptr` the stored value itself; for `f32` the four
bytes of `val_f32`. -/
theorem vm_load_after_store_primitive (vm : VirtualMachine) (mem : Memory) (dst : Nat)
    (i : Int) (hdst : dst ≠ 0) (hlo : -2 ^ 63 ≤ i) (hhi : i < 2 ^ 63) :
    (∀ kind, is_integer_kind kind = true → vm.vm_type_size_of (.Basic kind) < 8 →
      vm_load_after_store vm (.Basic kind) mem dst (.mk i []) =
        some (.mk (i % 256 ^ vm.vm_type_size_of (.Basic kind)) []) ∧
      (vm_load_after_store vm (.Basic kind) mem dst (.mk i []) = some (.mk i []) ↔
        0 ≤ i ∧ i < 256 ^ vm.vm_type_size_of (.Basic kind))) ∧
    (∀ kind, is_integer_kind kind = true → vm.vm_type_size_of (.Basic kind) = 8 →
      vm_load_after_store vm (.Basic kind) mem dst (.mk i []) = some (.mk i [])) ∧
    vm_load_after_store vm (.Basic .Basic_f32) mem dst (.mk i []) =
      some (.mk ((vmValue.mk i []).val_f32 : Int) []) ∧
    vm_load_after_store vm (.Basic .Basic_f64) mem dst (.mk i []) = some (.mk i []) ∧
    vm_load_after_store vm (.Basic .Basic_rawptr) mem dst (.mk i []) = some (.mk i []) := by
  have h8 : bits64 i % 256 ^ 8 = bits64 i := by
    have := bits64_lt i
    norm_num at this ⊢
    omega
  refine ⟨fun kind hk hs => ?_, fun kind hk hs => ?_, ?_, ?_, ?_⟩
  · have hload := vm_load_after_store_integer vm mem dst (.mk i []) kind hdst hk
    simp only [vmValue.val_int] at hload
    rw [of_bits64_mod i _ hs] at hload
    refine ⟨hload, ?_⟩
    rw [hload]
    simp only [Option.some.injEq, vmValue.mk.injEq, and_true]
    exact emod_eq_self_iff i _ (by positivity)
  · rw [vm_load_after_store_integer vm mem dst _ kind hdst hk, hs]
    simp only [vmValue.val_int]
    rw [h8, of_bits64_bits64 i hlo hhi]
  · simp only [vm_load_after_store, vm_store, vm_load, Option.some_bind,
      read_write_bytes _ _ _ 4 4 (le_refl _), vmValue.val_f32, vmValue.val_int]
    have h4 : bits64 i % 2 ^ 32 % 256 ^ 4 = bits64 i % 2 ^ 32 := by
      norm_num
    have hlt : bits64 i % 2 ^ 32 < 2 ^ 63 := by
      have := Nat.mod_lt (bits64 i) (show 0 < 2 ^ 32 by norm_num)
      norm_num at this ⊢
      omega
    rw [h4, of_bits64_small _ hlt]
  · simp only [vm_load_after_store, vm_store, vm_load, Option.some_bind,
      read_write_bytes _ _ _ 8 8 (le_refl _), vmValue.val_f64, vmValue.val_int, h8,
      of_bits64_bits64 i hlo hhi]
  · simp only [vm_load_after_store, vm_store, vm_load, Option.some_bind,
      read_write_bytes _ _ _ 8 8 (le_refl _), vmValue.val_ptr, vmValue.val_int, h8,
      of_bits64_bits64 i hlo hhi]

/-- C6 on a 64-bit target: storing the `i8` value -1, whose `val_int` is -1, and
loading it back at address 16 gives `val_int` 255; stored as an `f64` bit
pattern the same eight bytes are reproduced. -/
theorem vm_load_after_store_primitive_witness :
    (16 ≠ 0 ∧ -2 ^ 63 ≤ (-1 : Int) ∧ (-1 : Int) < 2 ^ 63) ∧
    vm_load_after_store vm64 (.Basic .Basic_i8) zero_memory 16 (.mk (-1) []) =
      some (.mk 255 []) ∧
    vm_load_after_store vm64 (.Basic .Basic_f64) zero_memory 16 (.mk (-1) []) =
      some (.mk (-1) []) :=
  ⟨by decide,
   (((vm_load_after_store_primitive vm64 zero_memory 16 (-1) (by decide) (by decide)
      (by decide)).1 .Basic_i8 rfl (by decide)).1).trans rfl,
   (vm_load_after_store_primitive vm64 zero_memory 16 (-1) (by decide) (by decide)
      (by decide)).2.2.2.1⟩

/-- C6 as stated fails: on a 64-bit target the `i8` value -1 (`val_int` = -1, as
`vm_exact_value` builds it) stored at address 16 and loaded back has `val_int`
255, which is not the stored value. -/
theorem vm_load_after_store_i8_differs :
    (vm_load_after_store vm64 (.Basic .Basic_i8) zero_memory 16 (vm_make_value_int (-1))).map
      vmValue.val_int = some 255 ∧
    (vm_make_value_int (-1)).val_int = -1 ∧
    (vm_load_after_store vm64 (.Basic .Basic_i8) zero_memory 16 (vm_make_value_int (-1))).map
      vmValue.val_int ≠ some (vm_make_value_int (-1)).val_int := by
  decide

/-! ## Unfolding the checker -/
theorem check_stmt_internal_BranchStmt (C : Collaborators σ) (token : Token) (c : Checker σ)
    (flags : Nat) :
    check_stmt_internal C (.BranchStmt token) c flags = some (check_branch_stmt token c flags) :=
  rfl

theorem check_stmt_internal_BlockStmt (C : Collaborators σ) (stmts : List AstNode)
    (c : Checker σ) (flags : Nat) :
    check_stmt_internal C (.BlockStmt stmts) c flags =
      match check_stmt_list C stmts (check_open_scope C c (.BlockStmt stmts))
          (clear_flag flags Stmt_FallthroughAllowed) with
      | none => none
      | some c => some (check_close_scope C c) :=
  rfl

theorem check_match_clauses_cons (C : Collaborators σ) (x : Operand) (mod_flags count : Nat)
    (token : Token) (list stmts rest : List AstNode) (i : Nat) (seen : MapTypeAndToken)
    (c : Checker σ) :
    check_match_clauses C x mod_flags count (.CaseClause token list stmts :: rest) i seen c =
      match check_stmt_list C stmts
          (check_open_scope C (check_case_exprs C x list (c, seen)).1
            (.CaseClause token list stmts))
          (if i + 1 < count then mod_flags ||| Stmt_FallthroughAllowed else mod_flags) with
      | none => none
      | some c1 =>
          check_match_clauses C x mod_flags count rest (i + 1)
            (check_case_exprs C x list (c, seen)).2 (check_close_scope C c1) :=
  rfl

theorem check_stmt_internal_MatchStmt (C : Collaborators σ) (init tag : Option AstNode)
    (stmts : List AstNode) (c : Checker σ) (flags : Nat) :
    check_stmt_internal C (.MatchStmt init tag (.BlockStmt stmts)) c flags =
      match check_stmt_opt C init
          (check_open_scope C c (.MatchStmt init tag (.BlockStmt stmts))) 0 with
      | none => none
      | some c1 =>
          match check_match_clauses C (check_match_tag C tag (.BlockStmt stmts) c1).2
              (clear_flag flags Stmt_FallthroughAllowed ||| Stmt_BreakAllowed) stmts.length stmts 0
              []
              (check_multiple_defaults C stmts none
                (check_match_tag C tag (.BlockStmt stmts) c1).1) with
          | none => none
          | some c2 => some (check_close_scope C c2) :=
  rfl

theorem check_stmt_opt_some (C : Collaborators σ) (s : AstNode) (c : Checker σ) (flags : Nat) :
    check_stmt_opt C (some s) c flags = check_stmt C s c flags :=
  rfl

theorem check_stmt_opt_none (C : Collaborators σ) (c : Checker σ) (flags : Nat) :
    check_stmt_opt C none c flags = some c :=
  rfl

theorem check_match_clauses_nil (C : Collaborators σ) (x : Operand) (mod_flags count : Nat)
    (i : Nat) (seen : MapTypeAndToken) (c : Checker σ) :
    check_match_clauses C x mod_flags count [] i seen c = some c :=
  rfl

/-! ## Flags -/

theorem clear_flag_and (flags bit other : Nat) :
    clear_flag flags bit &&& other = flags &&& ((0xFFFFFFFF ^^^ bit) &&& other) := by
  unfold clear_flag
  rw [Nat.and_assoc]

theorem clear_fallthrough_and_fallthrough (flags : Nat) :
    clear_flag flags Stmt_FallthroughAllowed &&& Stmt_FallthroughAllowed = 0 := by
  rw [clear_flag_and]
  have : (0xFFFFFFFF ^^^ Stmt_FallthroughAllowed) &&& Stmt_FallthroughAllowed = 0 := by decide
  rw [this, Nat.and_zero]

theorem clear_fallthrough_and_break (flags : Nat) :
    clear_flag flags Stmt_FallthroughAllowed &&& Stmt_BreakAllowed = flags &&& Stmt_BreakAllowed := by
  rw [clear_flag_and]
  have : (0xFFFFFFFF ^^^ Stmt_FallthroughAllowed) &&& Stmt_BreakAllowed = Stmt_BreakAllowed := by
    decide
  rw [this]

theorem clear_fallthrough_and_continue (flags : Nat) :
    clear_flag flags Stmt_FallthroughAllowed &&& Stmt_ContinueAllowed =
      flags &&& Stmt_ContinueAllowed := by
  rw [clear_flag_and]
  have : (0xFFFFFFFF ^^^ Stmt_FallthroughAllowed) &&& Stmt_ContinueAllowed =
      Stmt_ContinueAllowed := by decide
  rw [this]

theorem or_fallthrough_and_fallthrough (g : Nat) :
    (g ||| Stmt_FallthroughAllowed) &&& Stmt_FallthroughAllowed ≠ 0 := by
  intro h
  have h2 := congrArg (fun n => n.testBit 2) h
  have h4 : Nat.testBit Stmt_FallthroughAllowed 2 = true := by decide
  simp [Nat.testBit_and, Nat.testBit_or, h4] at h2

theorem or_fallthrough_and_break (g : Nat) :
    (g ||| Stmt_FallthroughAllowed) &&& Stmt_BreakAllowed = g &&& Stmt_BreakAllowed := by
  rw [Nat.and_distrib_right]
  have : Stmt_FallthroughAllowed &&& Stmt_BreakAllowed = 0 := by decide
  rw [this, Nat.or_zero]

theorem or_fallthrough_and_continue (g : Nat) :
    (g ||| Stmt_FallthroughAllowed) &&& Stmt_ContinueAllowed = g &&& Stmt_ContinueAllowed := by
  rw [Nat.and_distrib_right]
  have : Stmt_FallthroughAllowed &&& Stmt_ContinueAllowed = 0 := by decide
  rw [this, Nat.or_zero]

theorem or_break_and_fallthrough (g : Nat) :
    (g ||| Stmt_BreakAllowed) &&& Stmt_FallthroughAllowed = g &&& Stmt_FallthroughAllowed := by
  rw [Nat.and_distrib_right]
  have : Stmt_BreakAllowed &&& Stmt_FallthroughAllowed = 0 := by decide
  rw [this, Nat.or_zero]

/-- The flags the loop of `check_stmt_list` gives a statement: the fallthrough
bit is set exactly for the last index of a list checked with it, and the break
and continue bits are those of the list's flags. -/
theorem stmt_list_new_flags_bits (flags i count : Nat) :
    (has_flag (stmt_list_new_flags (has_flag flags Stmt_FallthroughAllowed)
        (clear_flag flags Stmt_FallthroughAllowed) i count) Stmt_FallthroughAllowed = true ↔
      has_flag flags Stmt_FallthroughAllowed = true ∧ i + 1 = count) ∧
    stmt_list_new_flags (has_flag flags Stmt_FallthroughAllowed)
        (clear_flag flags Stmt_FallthroughAllowed) i count &&& Stmt_BreakAllowed =
      flags &&& Stmt_BreakAllowed ∧
    stmt_list_new_flags (has_flag flags Stmt_FallthroughAllowed)
        (clear_flag flags Stmt_FallthroughAllowed) i count &&& Stmt_ContinueAllowed =
      flags &&& Stmt_ContinueAllowed := by
  unfold stmt_list_new_flags
  by_cases h : (has_flag flags Stmt_FallthroughAllowed && decide (i + 1 = count)) = true
  · rw [if_pos h]
    simp only [Bool.and_eq_true, decide_eq_true_eq] at h
    refine ⟨?_, ?_, ?_⟩
    · simp only [h, and_self, iff_true]
      simp only [has_flag, bne_iff_ne, ne_eq]
      exact or_fallthrough_and_fallthrough _
    · rw [or_fallthrough_and_break, clear_fallthrough_and_break]
    · rw [or_fallthrough_and_continue, clear_fallthrough_and_continue]
  · rw [if_neg h]
    simp only [Bool.and_eq_true, decide_eq_true_eq] at h
    refine ⟨?_, clear_fallthrough_and_break flags, clear_fallthrough_and_continue flags⟩
    constructor
    · intro h2
      simp [has_flag, clear_fallthrough_and_fallthrough] at h2
    · intro h2; exact absurd h2 h

/-! ## The log of `check_stmt` and `check_stmt_list` -/

theorem own_calls_append (a b : List Event) : own_calls (a ++ b) = own_calls a ++ own_calls b := by
  induction a with
  | nil => rfl
  | cons e rest ih => cases e <;> simp [own_calls, ih]

theorem own_errors_append (a b : List Event) :
    own_errors (a ++ b) = own_errors a ++ own_errors b := by
  induction a with
  | nil => rfl
  | cons e rest ih => cases e <;> simp [own_errors, ih]

theorem check_stmt_with_log (C : Collaborators σ)
    (internal : Checker σ → Nat → Option (Checker σ)) (node : AstNode) (c c1 : Checker σ)
    (flags : Nat) (h : check_stmt_with C internal node c flags = some c1) :
    ∃ events, c1.log = c.log ++ [Event.stmt node flags events] ∧
      c1.stmt_state_flags = c.stmt_state_flags := by
  unfold check_stmt_with at h
  simp only at h
  split at h
  · exact absurd h (by simp)
  · rename_i c2 _
    simp only [Option.some.injEq] at h
    subst h
    exact ⟨c2.log, rfl, rfl⟩

theorem check_stmt_list_loop_log (C : Collaborators σ) (count : Nat) (ft_ok : Bool) (f : Nat) :
    ∀ (rest : List AstNode) (i : Nat) (c c1 : Checker σ),
      check_stmt_list_loop C count rest i ft_ok f c = some c1 →
      own_calls c1.log = own_calls c.log ++ checked_children ft_ok f count rest i ∧
      own_errors c1.log = own_errors c.log := by
  intro rest
  induction rest with
  | nil =>
    intro i c c1 h
    simp only [check_stmt_list_loop, Option.some.injEq] at h
    subst h
    simp [checked_children]
  | cons n rest ih =>
    intro i c c1 h
    rw [check_stmt_list_loop] at h
    by_cases hn : n.is_EmptyStmt = true
    · rw [if_pos hn] at h
      rw [checked_children, if_pos hn]
      exact ih _ _ _ h
    · rw [if_neg hn] at h
      rw [checked_children, if_neg hn]
      simp only at h
      split at h
      · exact absurd h (by simp)
      · rename_i c2 hc2
        obtain ⟨events, hlog, _⟩ := check_stmt_with_log C _ _ _ _ _ hc2
        obtain ⟨h1, h2⟩ := ih _ _ _ h
        rw [h1, h2, hlog, own_calls_append, own_errors_append]
        simp [own_calls, own_errors]

theorem check_stmt_list_log (C : Collaborators σ) (stmts : List AstNode) (c c1 : Checker σ)
    (flags : Nat) (h : check_stmt_list C stmts c flags = some c1) :
    own_calls c1.log = own_calls c.log ++ stmt_list_calls stmts flags ∧
    own_errors c1.log = own_errors c.log := by
  unfold check_stmt_list check_stmt_list_with at h
  unfold stmt_list_calls
  by_cases h0 : stmts.length = 0
  · rw [if_pos h0] at h
    simp only [Option.some.injEq] at h
    subst h
    have : stmts = [] := List.length_eq_zero.mp h0
    subst this
    simp [checked_children]
  · rw [if_neg h0] at h
    exact check_stmt_list_loop_log C _ _ _ _ _ (c.set_info (C.check_scope_decls c stmts)) _ h

/-! ## Claims on the flags of `check_stmt_list` and of branch statements -/

/-- C7 (amended): when `check_stmt_list(stmts, flags)` returns, it has called
`check_stmt` on the statements that are not `EmptyStmt`, in order and on no
other, and has reported nothing itself; the statement at index `i` was given
`FallthroughAllowed` exactly when `flags` has it and `i` is the last index of
the list, and `BreakAllowed` and `ContinueAllowed` exactly as in `flags`. -/
theorem check_stmt_list_flags (C : Collaborators σ) (stmts : List AstNode) (c c1 : Checker σ)
    (flags : Nat) (h : check_stmt_list C stmts c flags = some c1) :
    own_calls c1.log = own_calls c.log ++
      checked_children (has_flag flags Stmt_FallthroughAllowed)
        (clear_flag flags Stmt_FallthroughAllowed) stmts.length stmts 0 ∧
    own_errors c1.log = own_errors c.log ∧
    ∀ i, (has_flag (stmt_list_new_flags (has_flag flags Stmt_FallthroughAllowed)
          (clear_flag flags Stmt_FallthroughAllowed) i stmts.length)
          Stmt_FallthroughAllowed = true ↔
        has_flag flags Stmt_FallthroughAllowed = true ∧ i + 1 = stmts.length) ∧
      stmt_list_new_flags (has_flag flags Stmt_FallthroughAllowed)
          (clear_flag flags Stmt_FallthroughAllowed) i stmts.length &&& Stmt_BreakAllowed =
        flags &&& Stmt_BreakAllowed ∧
      stmt_list_new_flags (has_flag flags Stmt_FallthroughAllowed)
          (clear_flag flags Stmt_FallthroughAllowed) i stmts.length &&& Stmt_ContinueAllowed =
        flags &&& Stmt_ContinueAllowed :=
  ⟨(check_stmt_list_log C stmts c c1 flags h).1, (check_stmt_list_log C stmts c c1 flags h).2,
    fun i => stmt_list_new_flags_bits flags i stmts.length⟩

/-- C9: `check_stmt` on a `break`, `continue` or `fallthrough` statement records
exactly one diagnostic, at the token, when the flag the token needs is not in
`flags`, and none when it is; nothing else of the checker changes. -/
theorem check_stmt_branch (C : Collaborators σ) (token : Token) (c : Checker σ)
    (flags bit : Nat) (h : required_flag token.kind = some bit) :
    ∃ events, check_stmt C (.BranchStmt token) c flags =
        some { c with log := c.log ++ [Event.stmt (.BranchStmt token) flags events] } ∧
      (flags &&& bit ≠ 0 → events = []) ∧
      (flags &&& bit = 0 → ∃ msg, events = [Event.error token.pos msg]) := by
  have key : ∀ msg, (flags &&& bit = 0 →
        check_stmt C (.BranchStmt token) c flags =
          some { c with log := c.log ++
            [Event.stmt (.BranchStmt token) flags [Event.error token.pos msg]] }) →
      (flags &&& bit ≠ 0 →
        check_stmt C (.BranchStmt token) c flags =
          some { c with log := c.log ++ [Event.stmt (.BranchStmt token) flags []] }) →
      ∃ events, check_stmt C (.BranchStmt token) c flags =
        some { c with log := c.log ++ [Event.stmt (.BranchStmt token) flags events] } ∧
      (flags &&& bit ≠ 0 → events = []) ∧
      (flags &&& bit = 0 → ∃ msg, events = [Event.error token.pos msg]) := by
    intro msg h0 h1
    by_cases hf : flags &&& bit = 0
    · exact ⟨_, h0 hf, fun h => absurd hf h, fun _ => ⟨msg, rfl⟩⟩
    · exact ⟨_, h1 hf, fun _ => rfl, fun h => absurd h hf⟩
  cases hk : token.kind <;> rw [hk] at h <;> simp [required_flag] at h <;> subst h
  · refine key .break_not_allowed (fun hf => ?_) (fun hf => ?_) <;>
      simp [check_stmt, check_stmt_with, check_stmt_internal_BranchStmt, check_branch_stmt, hk, hf,
        error]
  · refine key .continue_not_allowed (fun hf => ?_) (fun hf => ?_) <;>
      simp [check_stmt, check_stmt_with, check_stmt_internal_BranchStmt, check_branch_stmt, hk, hf,
        error]
  · refine key .fallthrough_illegal_position (fun hf => ?_) (fun hf => ?_) <;>
      simp [check_stmt, check_stmt_with, check_stmt_internal_BranchStmt, check_branch_stmt, hk, hf,
        error]

/-- C7 at `return; fallthrough;` checked with `FallthroughAllowed`: the return
is given no flag, the fallthrough at the last index `FallthroughAllowed`. -/
theorem check_stmt_list_flags_witness :
    check_stmt_list toy [stmt_return 1 1, stmt_fallthrough 2 1] toy_checker
        Stmt_FallthroughAllowed =
      some { toy_checker with log :=
        [Event.stmt (stmt_return 1 1) 0 [], Event.stmt (stmt_fallthrough 2 1) 4 []] } ∧
    own_calls [Event.stmt (stmt_return 1 1) 0 [], Event.stmt (stmt_fallthrough 2 1) 4 []] =
      [(stmt_return 1 1, 0), (stmt_fallthrough 2 1, 4)] :=
  ⟨rfl,
   (check_stmt_list_flags toy [stmt_return 1 1, stmt_fallthrough 2 1] toy_checker
      { toy_checker with log :=
        [Event.stmt (stmt_return 1 1) 0 [], Event.stmt (stmt_fallthrough 2 1) 4 []] }
      Stmt_FallthroughAllowed rfl).1⟩

/-- C7 as stated fails: in the list `fallthrough; ;` checked with
`FallthroughAllowed` the fallthrough is the last statement that is not an
`EmptyStmt`, yet it is checked with no flag and diagnosed, because it is not at
the last index. -/
theorem check_stmt_list_trailing_empty :
    (check_stmt_list toy [stmt_fallthrough 1 1, .EmptyStmt] toy_checker
        Stmt_FallthroughAllowed).map (fun c => c.log) =
      some [Event.stmt (stmt_fallthrough 1 1) 0
        [Event.error ⟨"main.odin", 1, 1⟩ .fallthrough_illegal_position]] ∧
    last_non_empty [stmt_fallthrough 1 1, .EmptyStmt] = some (stmt_fallthrough 1 1) ∧
    has_flag Stmt_FallthroughAllowed Stmt_FallthroughAllowed = true ∧
    has_flag 0 Stmt_FallthroughAllowed = false :=
  ⟨rfl, rfl, rfl, rfl⟩

/-- C9 at a `break` checked with no flag (one diagnostic at the token) and with
`BreakAllowed` (none). -/
theorem check_stmt_branch_witness :
    required_flag TokenKind.Token_break = some Stmt_BreakAllowed ∧
    check_stmt toy (.BranchStmt (tok .Token_break "break" 1 1)) toy_checker 0 =
      some { toy_checker with log :=
        [Event.stmt (.BranchStmt (tok .Token_break "break" 1 1)) 0
          [Event.error ⟨"main.odin", 1, 1⟩ .break_not_allowed]] } ∧
    check_stmt toy (.BranchStmt (tok .Token_break "break" 1 1)) toy_checker Stmt_BreakAllowed =
      some { toy_checker with log :=
        [Event.stmt (.BranchStmt (tok .Token_break "break" 1 1)) Stmt_BreakAllowed []] } ∧
    (∃ events, check_stmt toy (.BranchStmt (tok .Token_break "break" 1 1)) toy_checker 0 =
        some { toy_checker with log := toy_checker.log ++
          [Event.stmt (.BranchStmt (tok .Token_break "break" 1 1)) 0 events] } ∧
      (0 &&& Stmt_BreakAllowed ≠ 0 → events = []) ∧
      (0 &&& Stmt_BreakAllowed = 0 →
        ∃ msg, events = [Event.error (tok .Token_break "break" 1 1).pos msg])) :=
  ⟨rfl, rfl, rfl,
   check_stmt_branch toy (tok .Token_break "break" 1 1) toy_checker 0 Stmt_BreakAllowed rfl⟩

/-! ## The log of a `MatchStmt` -/

theorem check_case_expr_calls (C : Collaborators σ) (x : Operand) (expr : AstNode)
    (st : Checker σ × MapTypeAndToken) :
    own_calls (check_case_expr C x expr st).1.log = own_calls st.1.log := by
  unfold check_case_expr
  simp only [check_expr, Checker.set_info]
  repeat' split
  all_goals simp [error_node, error, own_calls_append, own_calls]

theorem check_case_exprs_calls (C : Collaborators σ) (x : Operand) (list : List AstNode) :
    ∀ st : Checker σ × MapTypeAndToken,
      own_calls (check_case_exprs C x list st).1.log = own_calls st.1.log := by
  unfold check_case_exprs
  induction list with
  | nil => intro st; rfl
  | cons e rest ih =>
    intro st
    rw [List.foldl_cons, ih, check_case_expr_calls]

theorem check_multiple_defaults_calls (C : Collaborators σ) (stmts : List AstNode) :
    ∀ (first_default : Option AstNode) (c : Checker σ),
      own_calls (check_multiple_defaults C stmts first_default c).log = own_calls c.log := by
  induction stmts with
  | nil => intro _ _; rfl
  | cons s rest ih =>
    intro first_default c
    unfold check_multiple_defaults
    split
    · split
      · split
        · rw [ih]; simp [error_node, error, own_calls_append, own_calls]
        · rw [ih]
      · rw [ih]
    · rw [ih]; simp [error_node, error, own_calls_append, own_calls]

theorem check_match_tag_log (C : Collaborators σ) (tag : Option AstNode) (body : AstNode)
    (c : Checker σ) : (check_match_tag C tag body c).1.log = c.log := by
  cases tag <;> rfl

theorem check_match_clauses_calls (C : Collaborators σ) (x : Operand) (mod_flags count : Nat) :
    ∀ (rest : List AstNode) (i : Nat) (seen : MapTypeAndToken) (c c1 : Checker σ),
      check_match_clauses C x mod_flags count rest i seen c = some c1 →
      own_calls c1.log = own_calls c.log ++ match_clause_calls mod_flags count rest i := by
  intro rest
  induction rest with
  | nil =>
    intro i seen c c1 h
    rw [check_match_clauses_nil] at h
    simp only [Option.some.injEq] at h
    subst h
    simp [match_clause_calls]
  | cons s rest ih =>
    intro i seen c c1 h
    by_cases hs : s.is_CaseClause = true
    · cases s <;> simp [AstNode.is_CaseClause] at hs
      next token list stmts =>
        rw [check_match_clauses_cons] at h
        split at h
        · exact absurd h (by simp)
        · rename_i c2 hc2
          have h1 := (check_stmt_list_log C _ _ _ _ hc2).1
          have h2 := ih _ _ _ _ h
          rw [h2]
          simp only [check_close_scope, check_open_scope, Checker.set_info] at h1 ⊢
          rw [h1, check_case_exprs_calls]
          simp [match_clause_calls, match_ft_flags]
    · have hskip : check_match_clauses C x mod_flags count (s :: rest) i seen c =
          check_match_clauses C x mod_flags count rest (i + 1) seen c := by
        cases s <;> first | rfl | simp [AstNode.is_CaseClause] at hs
      have hcalls : match_clause_calls mod_flags count (s :: rest) i =
          match_clause_calls mod_flags count rest (i + 1) := by
        cases s <;> first | rfl | simp [AstNode.is_CaseClause] at hs
      rw [hskip] at h
      rw [hcalls]
      exact ih _ _ _ _ h

theorem match_ft_flags_fallthrough (flags i count : Nat) :
    has_flag (match_ft_flags (clear_flag flags Stmt_FallthroughAllowed ||| Stmt_BreakAllowed)
      i count) Stmt_FallthroughAllowed = true ↔ i + 1 < count := by
  unfold match_ft_flags
  by_cases h : i + 1 < count
  · rw [if_pos h]
    simp only [has_flag, bne_iff_ne, ne_eq, h, iff_true]
    exact or_fallthrough_and_fallthrough _
  · rw [if_neg h]
    simp [has_flag, or_break_and_fallthrough, clear_fallthrough_and_fallthrough, h]

/-! ## Claims on fallthrough in a `MatchStmt` -/

/-- C8 (amended): when the check of a `MatchStmt` returns, the calls of
`check_stmt` it made are the one on its init statement and those of
`check_stmt_list` on each case clause's statement list; the statement at index
`j` of the list of the clause at index `i` was given `FallthroughAllowed`
exactly when the clause is not the last statement of the match body and `j` is
the last index of its list. -/
theorem check_match_stmt_fallthrough (C : Collaborators σ) (init tag : Option AstNode)
    (stmts : List AstNode) (c c1 : Checker σ) (flags : Nat)
    (h : check_stmt_internal C (.MatchStmt init tag (.BlockStmt stmts)) c flags = some c1) :
    own_calls c1.log = own_calls c.log ++ opt_call init ++
      match_clause_calls (clear_flag flags Stmt_FallthroughAllowed ||| Stmt_BreakAllowed)
        stmts.length stmts 0 ∧
    ∀ i j len,
      has_flag
        (stmt_list_new_flags
          (has_flag (match_ft_flags
            (clear_flag flags Stmt_FallthroughAllowed ||| Stmt_BreakAllowed) i stmts.length)
            Stmt_FallthroughAllowed)
          (clear_flag (match_ft_flags
            (clear_flag flags Stmt_FallthroughAllowed ||| Stmt_BreakAllowed) i stmts.length)
            Stmt_FallthroughAllowed) j len)
        Stmt_FallthroughAllowed = true ↔
      i + 1 < stmts.length ∧ j + 1 = len := by
  constructor
  · rw [check_stmt_internal_MatchStmt] at h
    split at h
    · exact absurd h (by simp)
    · rename_i c2 hc2
      split at h
      · exact absurd h (by simp)
      · rename_i c3 hc3
        simp only [Option.some.injEq] at h
        subst h
        have h3 := check_match_clauses_calls C _ _ _ _ _ _ _ _ hc3
        rw [check_multiple_defaults_calls, check_match_tag_log] at h3
        simp only [check_close_scope, Checker.set_info]
        rw [h3]
        cases init with
        | none =>
          rw [check_stmt_opt_none] at hc2
          simp only [Option.some.injEq] at hc2
          subst hc2
          simp [opt_call, check_open_scope, Checker.set_info]
        | some s =>
          rw [check_stmt_opt_some] at hc2
          obtain ⟨events, hlog, _⟩ := check_stmt_with_log C _ _ _ _ _ hc2
          rw [hlog, own_calls_append]
          simp [opt_call, own_calls, check_open_scope, Checker.set_info]
  · intro i j len
    rw [(stmt_list_new_flags_bits _ j len).1, match_ft_flags_fallthrough]

/-- C8 at `match v { case 1: fallthrough; case 2: return; }`: the fallthrough
is given `BreakAllowed` and `FallthroughAllowed` (flags 5), the return of the
last clause `BreakAllowed` only. -/
theorem check_match_stmt_fallthrough_witness :
    check_stmt_internal toy match_fallthrough_last toy_checker 0 =
      some { toy_checker with log :=
        [Event.stmt (stmt_fallthrough 2 9) 5 [], Event.stmt (stmt_return 3 9) 1 []] } ∧
    own_calls ([] : List Event) ++ opt_call none ++
      match_clause_calls (clear_flag 0 Stmt_FallthroughAllowed ||| Stmt_BreakAllowed) 2
        [.CaseClause (tok .Token_Ident "case" 2 1) [lit "1" 2 6] [stmt_fallthrough 2 9],
         .CaseClause (tok .Token_Ident "case" 3 1) [lit "2" 3 6] [stmt_return 3 9]] 0 =
      [(stmt_fallthrough 2 9, 5), (stmt_return 3 9, 1)] :=
  ⟨rfl,
   ((check_match_stmt_fallthrough toy none (some (.Ident (tok .Token_Ident "v" 1 7))) _
      toy_checker _ 0 (rfl : check_stmt_internal toy match_fallthrough_last toy_checker 0 =
        some { toy_checker with log :=
          [Event.stmt (stmt_fallthrough 2 9) 5 [], Event.stmt (stmt_return 3 9) 1 []] })).1).symm⟩

/-- C8 as stated fails: in `match v { case 1: fallthrough; return; case 2:
return; }` the clause of the fallthrough has a successor, yet the fallthrough
is checked with `BreakAllowed` only (flags 1) and is diagnosed. -/
theorem check_match_stmt_fallthrough_not_last :
    (check_stmt_internal toy match_fallthrough_first toy_checker 0).map (fun c => c.log) =
      some [Event.stmt (stmt_fallthrough 2 9) 1
              [Event.error ⟨"main.odin", 2, 9⟩ .fallthrough_illegal_position],
            Event.stmt (stmt_return 2 22) 5 [],
            Event.stmt (stmt_return 3 9) 1 []] ∧
    has_flag 1 Stmt_FallthroughAllowed = false :=
  ⟨rfl, rfl⟩

/-! ## Duplicate cases of a `MatchStmt` -/

theorem check_stmt_internal_ReturnStmt (C : Collaborators σ) (token : Token)
    (results : List AstNode) (c : Checker σ) (flags : Nat) :
    check_stmt_internal C (.ReturnStmt token results) c flags =
      check_return_stmt C (.ReturnStmt token results) token results c :=
  rfl

theorem check_stmt_internal_AssignStmt (C : Collaborators σ) (op : Token)
    (lhs rhs : List AstNode) (c : Checker σ) (flags : Nat) :
    check_stmt_internal C (.AssignStmt op lhs rhs) c flags = check_assign_stmt C op lhs rhs c :=
  rfl

theorem check_stmt_internal_DeferStmt (C : Collaborators σ) (token : Token) (stmt : AstNode)
    (c : Checker σ) (flags : Nat) :
    check_stmt_internal C (.DeferStmt token stmt) c flags =
      if C.is_ast_node_decl stmt then some (error c token .defer_declaration)
      else
        match check_stmt C stmt { c with in_defer := true } 0 with
        | none => none
        | some c1 => some { c1 with in_defer := c.in_defer } :=
  rfl

theorem check_stmt_internal_ForStmt (C : Collaborators σ) (init cond post : Option AstNode)
    (body : AstNode) (c : Checker σ) (flags : Nat) :
    check_stmt_internal C (.ForStmt init cond post body) c flags =
      match check_stmt_opt C init
          (check_open_scope C c (.ForStmt init cond post body)) 0 with
      | none => none
      | some c1 =>
          match check_stmt_opt C post
              (match cond with
                | some cond =>
                    if (check_expr C c1 cond).2.mode ≠ .Addressing_Invalid ∧
                        !C.is_type_boolean (check_expr C c1 cond).2.type then
                      error_node C (check_expr C c1 cond).1 cond .non_boolean_condition_in_for
                    else (check_expr C c1 cond).1
                | none => c1) 0 with
          | none => none
          | some c2 =>
              match check_stmt C body c2
                  (clear_flag flags Stmt_FallthroughAllowed ||| Stmt_BreakAllowed |||
                    Stmt_ContinueAllowed) with
              | none => none
              | some c3 => some (check_close_scope C c3) :=
  rfl

theorem check_stmt_internal_WhenStmt (C : Collaborators σ) (cond : AstNode)
    (body else_stmt : Option AstNode) (c : Checker σ) (flags : Nat) :
    check_stmt_internal C (.WhenStmt cond body else_stmt) c flags =
      if (check_expr C c cond).2.mode ≠ .Addressing_Constant ∨
          !C.is_type_boolean (check_expr C c cond).2.type then
        some (error_node C (check_expr C c cond).1 cond .non_constant_boolean_when_condition)
      else
        match body with
        | some (.BlockStmt stmts) =>
            if (check_expr C c cond).2.value = .Bool true then
              check_stmt_list C stmts (check_expr C c cond).1 flags
            else
              match else_stmt with
              | none => some (check_expr C c cond).1
              | some (.BlockStmt estmts) => check_stmt_list C estmts (check_expr C c cond).1 flags
              | some (.WhenStmt c2 b2 e2) =>
                  check_stmt_internal C (.WhenStmt c2 b2 e2) (check_expr C c cond).1 flags
              | some e => some (error_node C (check_expr C c cond).1 e .invalid_else_in_when)
        | _ => some (error_node C (check_expr C c cond).1 cond .invalid_body_for_when) := by
  cases body with
  | none => rfl
  | some b =>
    cases b <;> first
      | rfl
      | (cases else_stmt with
          | none => rfl
          | some e => cases e <;> rfl)

theorem check_stmt_internal_TypeMatchStmt (C : Collaborators σ) (tag var : AstNode)
    (stmts : List AstNode) (c : Checker σ) (flags : Nat) :
    check_stmt_internal C (.TypeMatchStmt tag var (.BlockStmt stmts)) c flags =
      (let c0 := check_open_scope C c (.TypeMatchStmt tag var (.BlockStmt stmts))
       let r := check_assignment C (check_expr C c0 tag).1 (check_expr C c0 tag).2 none
         "type match expression"
       if !(check_valid_type_match_type r.2.type).1 then
         some (error_node C r.1 r.2.expr (.invalid_type_match_type r.2.type))
       else if !var.is_Ident then some (check_multiple_defaults C stmts none r.1)
       else
         match check_type_match_clauses C r.2 (check_valid_type_match_type r.2.type).2.1
             (check_valid_type_match_type r.2.type).2.2 var
             (clear_flag flags Stmt_FallthroughAllowed ||| Stmt_BreakAllowed) stmts []
             (check_multiple_defaults C stmts none r.1) with
         | none => none
         | some c2 => some (check_close_scope C c2)) :=
  rfl

theorem check_type_match_clauses_nil (C : Collaborators σ) (x : Operand)
    (is_union_ptr is_any : Bool) (var : AstNode) (mod_flags : Nat) (seen : List Nat)
    (c : Checker σ) :
    check_type_match_clauses C x is_union_ptr is_any var mod_flags [] seen c = some c :=
  rfl

theorem check_type_match_clauses_cons (C : Collaborators σ) (x : Operand)
    (is_union_ptr is_any : Bool) (var : AstNode) (mod_flags : Nat) (token : Token)
    (list stmts rest : List AstNode) (seen : List Nat) (c : Checker σ) :
    check_type_match_clauses C x is_union_ptr is_any var mod_flags
        (.CaseClause token list stmts :: rest) seen c =
      match check_type_case C x is_union_ptr is_any token list seen c with
      | none => none
      | some (c1, seen1, .skip) =>
          check_type_match_clauses C x is_union_ptr is_any var mod_flags rest seen1 c1
      | some (c1, _, .stop) => some c1
      | some (c1, seen1, .check case_type) =>
          match check_stmt_list C stmts
              (match case_type with
                | some t =>
                    (check_open_scope C c1 (.CaseClause token list stmts)).set_info
                      (C.bind_type_match_var (check_open_scope C c1 (.CaseClause token list stmts))
                        var t is_union_ptr)
                | none => check_open_scope C c1 (.CaseClause token list stmts))
              mod_flags with
          | none => none
          | some c2 =>
              check_type_match_clauses C x is_union_ptr is_any var mod_flags rest seen1
                (check_close_scope C c2) :=
  rfl

/-! ## Claims on the context flags of `check_stmt` -/

/-- C13: when `check_stmt` returns, the context's `stmt_state_flags` are what
they were before the call, whatever the node, the flags and the path taken
through `check_stmt_internal`. -/
theorem check_stmt_restores_stmt_state_flags (C : Collaborators σ) (node : AstNode)
    (c c1 : Checker σ) (flags : Nat) (h : check_stmt C node c flags = some c1) :
    c1.stmt_state_flags = c.stmt_state_flags := by
  obtain ⟨_, _, hflags⟩ := check_stmt_with_log C _ _ _ _ _ h
  exact hflags

/-- C13 at an assignment without a left side, which is diagnosed and returned
from early, on a node that carries `no_bounds_check` in a context with
`bounds_check`: the context has `bounds_check` again afterwards. -/
theorem check_stmt_restores_stmt_state_flags_witness :
    check_stmt toy_no_bounds_check stmt_assign_no_lhs toy_checker_bounds_check 0 =
      some { toy_checker_bounds_check with log :=
        [Event.stmt stmt_assign_no_lhs 0 [Event.error ⟨"main.odin", 1, 1⟩ .missing_lhs]] } ∧
    ({ toy_checker_bounds_check with log :=
        [Event.stmt stmt_assign_no_lhs 0 [Event.error ⟨"main.odin", 1, 1⟩ .missing_lhs]] } :
      Checker Unit).stmt_state_flags = StmtStateFlag_bounds_check :=
  ⟨rfl,
   check_stmt_restores_stmt_state_flags toy_no_bounds_check stmt_assign_no_lhs
     toy_checker_bounds_check _ 0 rfl⟩

theorem or_bit_and_self (out bit : Nat) : (out ||| bit) &&& bit = bit := by
  rw [Nat.and_distrib_right, Nat.and_self]
  apply Nat.eq_of_testBit_eq
  intro i
  simp only [Nat.testBit_or, Nat.testBit_and]
  cases out.testBit i <;> cases bit.testBit i <;> rfl

theorem enter_bounds_check (out : Nat) :
    clear_flag (out ||| StmtStateFlag_bounds_check) StmtStateFlag_no_bounds_check &&&
        StmtStateFlag_bounds_check = StmtStateFlag_bounds_check ∧
    clear_flag (out ||| StmtStateFlag_bounds_check) StmtStateFlag_no_bounds_check &&&
        StmtStateFlag_no_bounds_check = 0 := by
  constructor
  · rw [clear_flag_and]
    have : (0xFFFFFFFF ^^^ StmtStateFlag_no_bounds_check) &&& StmtStateFlag_bounds_check =
        StmtStateFlag_bounds_check := by decide
    rw [this, or_bit_and_self]
  · rw [clear_flag_and]
    have : (0xFFFFFFFF ^^^ StmtStateFlag_no_bounds_check) &&& StmtStateFlag_no_bounds_check =
        0 := by decide
    rw [this, Nat.and_zero]

theorem enter_no_bounds_check (out : Nat) :
    clear_flag (out ||| StmtStateFlag_no_bounds_check) StmtStateFlag_bounds_check &&&
        StmtStateFlag_no_bounds_check = StmtStateFlag_no_bounds_check ∧
    clear_flag (out ||| StmtStateFlag_no_bounds_check) StmtStateFlag_bounds_check &&&
        StmtStateFlag_bounds_check = 0 := by
  constructor
  · rw [clear_flag_and]
    have : (0xFFFFFFFF ^^^ StmtStateFlag_bounds_check) &&& StmtStateFlag_no_bounds_check =
        StmtStateFlag_no_bounds_check := by decide
    rw [this, or_bit_and_self]
  · rw [clear_flag_and]
    have : (0xFFFFFFFF ^^^ StmtStateFlag_bounds_check) &&& StmtStateFlag_bounds_check =
        0 := by decide
    rw [this, Nat.and_zero]

/-- C14: `check_stmt` runs the dispatch on the node in a context whose
`stmt_state_flags` are the prior flags with `bounds_check` set and
`no_bounds_check` cleared when the node carries `bounds_check`, otherwise the
prior flags with `no_bounds_check` set and `bounds_check` cleared when the node
carries `no_bounds_check`, otherwise the prior flags; after either update one
of the two bits is set and the other is clear. -/
theorem check_stmt_enters_stmt_state_flags (C : Collaborators σ) (node : AstNode)
    (c : Checker σ) (flags : Nat) :
    (∃ during : Nat,
      check_stmt C node c flags =
        (check_stmt_internal C node { c with stmt_state_flags := during, log := [] } flags).map
          (fun c2 => { c2 with
            stmt_state_flags := c.stmt_state_flags
            log := c.log ++ [Event.stmt node flags c2.log] }) ∧
      (C.stmt_state_flags node &&& StmtStateFlag_bounds_check ≠ 0 →
        during = clear_flag (c.stmt_state_flags ||| StmtStateFlag_bounds_check)
          StmtStateFlag_no_bounds_check ∧
        during &&& StmtStateFlag_bounds_check = StmtStateFlag_bounds_check ∧
        during &&& StmtStateFlag_no_bounds_check = 0) ∧
      (C.stmt_state_flags node &&& StmtStateFlag_bounds_check = 0 →
        C.stmt_state_flags node &&& StmtStateFlag_no_bounds_check ≠ 0 →
        during = clear_flag (c.stmt_state_flags ||| StmtStateFlag_no_bounds_check)
          StmtStateFlag_bounds_check ∧
        during &&& StmtStateFlag_no_bounds_check = StmtStateFlag_no_bounds_check ∧
        during &&& StmtStateFlag_bounds_check = 0) ∧
      (C.stmt_state_flags node &&& StmtStateFlag_bounds_check = 0 →
        C.stmt_state_flags node &&& StmtStateFlag_no_bounds_check = 0 →
        during = c.stmt_state_flags)) := by
  refine ⟨enter_stmt_state_flags (C.stmt_state_flags node) c.stmt_state_flags, ?_, ?_, ?_, ?_⟩
  · unfold check_stmt check_stmt_with
    dsimp only
    cases check_stmt_internal C node
      { c with stmt_state_flags :=
          enter_stmt_state_flags (C.stmt_state_flags node) c.stmt_state_flags, log := [] }
      flags <;> rfl
  · intro hb
    have hne : C.stmt_state_flags node ≠ 0 := by
      intro h0; rw [h0] at hb; simp at hb
    have he : enter_stmt_state_flags (C.stmt_state_flags node) c.stmt_state_flags =
        clear_flag (c.stmt_state_flags ||| StmtStateFlag_bounds_check)
          StmtStateFlag_no_bounds_check := by
      unfold enter_stmt_state_flags
      rw [if_pos hne, if_pos hb]
    rw [he]
    exact ⟨rfl, enter_bounds_check _⟩
  · intro hb hn
    have hne : C.stmt_state_flags node ≠ 0 := by
      intro h0; rw [h0] at hn; simp at hn
    have he : enter_stmt_state_flags (C.stmt_state_flags node) c.stmt_state_flags =
        clear_flag (c.stmt_state_flags ||| StmtStateFlag_no_bounds_check)
          StmtStateFlag_bounds_check := by
      unfold enter_stmt_state_flags
      rw [if_pos hne, if_neg (by simpa using hb), if_pos hn]
    rw [he]
    exact ⟨rfl, enter_no_bounds_check _⟩
  · intro hb hn
    unfold enter_stmt_state_flags
    by_cases hne : C.stmt_state_flags node ≠ 0
    · rw [if_pos hne, if_neg (by simpa using hb), if_neg (by simpa using hn)]
    · rw [if_neg hne]

/-! ## Claims on `return` -/

theorem result_vars_eq (proc_type : Ty) :
    (match proc_type with
      | .Proc _ (some (.Tuple vars)) => vars
      | _ => []) = declared_results proc_type := by
  unfold declared_results
  rfl

theorem check_return_stmt_eq (C : Collaborators σ) (node : AstNode) (token : Token)
    (results : List AstNode) (c : Checker σ) (proc_type : Ty)
    (hdefer : c.in_defer = false) (hproc : c.proc_stack.getLast? = some proc_type) :
    check_return_stmt C node token results c =
      if (declared_results proc_type).length > 0 then
        if results.length = 0 then
          some (error_node C c node (.expected_return_values (declared_results proc_type).length))
        else some (c.set_info (C.check_init_variables c (declared_results proc_type)
          (declared_results proc_type).length results))
      else
        match results with
        | r0 :: _ => some (error_node C c r0 .no_return_values_expected)
        | [] => some c := by
  unfold check_return_stmt
  rw [hproc]
  dsimp only
  rw [if_neg (by rw [hdefer]; decide), result_vars_eq]

/-- C17: a `ReturnStmt` checked outside `defer` in a procedure with `N` declared
results: with `N > 0` and no values exactly "Expected N return values, got 0"
is reported, at the statement; with `N = 0` and a value exactly "No return
values expected" is reported, at the first value; with `N = 0` and no values
nothing changes; with `N > 0` and values they are handed with the `N` result
variables to `check_init_variables` and nothing is reported here. -/
theorem check_stmt_return_results (C : Collaborators σ) (token : Token)
    (results : List AstNode) (c : Checker σ) (flags : Nat) (proc_type : Ty)
    (hdefer : c.in_defer = false) (hproc : c.proc_stack.getLast? = some proc_type) :
    (0 < (declared_results proc_type).length → results = [] →
      check_stmt_internal C (.ReturnStmt token results) c flags =
        some { c with log := c.log ++
          [Event.error (C.ast_node_token (.ReturnStmt token results)).pos
            (.expected_return_values (declared_results proc_type).length)] }) ∧
    ((declared_results proc_type).length = 0 → ∀ r0 rest, results = r0 :: rest →
      check_stmt_internal C (.ReturnStmt token results) c flags =
        some { c with log := c.log ++
          [Event.error (C.ast_node_token r0).pos .no_return_values_expected] }) ∧
    ((declared_results proc_type).length = 0 → results = [] →
      check_stmt_internal C (.ReturnStmt token results) c flags = some c) ∧
    (0 < (declared_results proc_type).length → results ≠ [] →
      check_stmt_internal C (.ReturnStmt token results) c flags =
        some (c.set_info (C.check_init_variables c (declared_results proc_type)
          (declared_results proc_type).length results))) := by
  rw [check_stmt_internal_ReturnStmt, check_return_stmt_eq C _ token results c proc_type hdefer hproc]
  refine ⟨?_, ?_, ?_, ?_⟩
  · intro hn hr
    subst hr
    simp [hn, error_node, error]
  · intro hn r0 rest hr
    subst hr
    simp [hn, error_node, error]
  · intro hn hr
    subst hr
    simp [hn]
  · intro hn hr
    have : results.length ≠ 0 := by
      intro h0
      exact hr (List.length_eq_zero.mp h0)
    simp [hn, this, Checker.set_info]

/-- C17 in a procedure with two `int` results: `return` without values reports
"Expected 2 return values, got 0" at the statement. -/
theorem check_stmt_return_results_witness :
    check_stmt_internal toy (stmt_return 3 1) toy_checker_two_results 0 =
      some { toy_checker_two_results with log :=
        [Event.error ⟨"main.odin", 3, 1⟩ (.expected_return_values 2)] } :=
  ((check_stmt_return_results toy (tok .Token_return "return" 3 1) [] toy_checker_two_results 0
    (.Proc none (some (.Tuple [t_int, t_int]))) rfl rfl).1 (by decide) rfl).trans rfl

/-! ## The record of a check: what every case keeps -/

theorem events_all_stmts_nil (Q : AstNode → Nat → List Event → Prop) :
    events_all_stmts Q [] = True := by
  rw [events_all_stmts]

theorem events_all_stmts_cons (Q : AstNode → Nat → List Event → Prop) (e : Event)
    (rest : List Event) :
    events_all_stmts Q (e :: rest) = (e.all_stmts Q ∧ events_all_stmts Q rest) := by
  rw [events_all_stmts]

theorem all_stmts_error (Q : AstNode → Nat → List Event → Prop) (pos : TokenPos)
    (msg : Message) : (Event.error pos msg).all_stmts Q = True := by
  rw [Event.all_stmts]

theorem all_stmts_stmt (Q : AstNode → Nat → List Event → Prop) (node : AstNode) (flags : Nat)
    (events : List Event) :
    (Event.stmt node flags events).all_stmts Q =
      (Q node flags events ∧ events_all_stmts Q events) := by
  rw [Event.all_stmts]

theorem events_all_stmts_append (Q : AstNode → Nat → List Event → Prop) (a b : List Event) :
    events_all_stmts Q (a ++ b) ↔ events_all_stmts Q a ∧ events_all_stmts Q b := by
  induction a with
  | nil => simp [events_all_stmts_nil]
  | cons e rest ih =>
    rw [List.cons_append, events_all_stmts_cons, events_all_stmts_cons, ih, and_assoc]

theorem events_all_stmts_of_no_calls (Q : AstNode → Nat → List Event → Prop) :
    ∀ evs : List Event, own_calls evs = [] → events_all_stmts Q evs := by
  intro evs
  induction evs with
  | nil => intro _; rw [events_all_stmts_nil]; trivial
  | cons e rest ih =>
    intro h
    cases e with
    | error pos msg =>
      rw [events_all_stmts_cons, all_stmts_error]
      exact ⟨trivial, ih (by simpa [own_calls] using h)⟩
    | stmt node flags events => simp [own_calls] at h

theorem events_all_stmts_own (Q : AstNode → Nat → List Event → Prop) :
    ∀ evs : List Event, events_all_stmts Q evs →
      ∀ s ∈ own_stmts evs, Q s.1 s.2.1 s.2.2 ∧ events_all_stmts Q s.2.2 := by
  intro evs
  induction evs with
  | nil => intro _ s hs; simp [own_stmts] at hs
  | cons e rest ih =>
    intro h s hs
    rw [events_all_stmts_cons] at h
    cases e with
    | error pos msg => exact ih h.2 s (by simpa [own_stmts] using hs)
    | stmt node flags events =>
      simp only [own_stmts, List.mem_cons] at hs
      rcases hs with hs | hs
      · subst hs
        rw [all_stmts_stmt] at h
        exact h.1
      · exact ih h.2 s hs

theorem own_stmts_append (a b : List Event) : own_stmts (a ++ b) = own_stmts a ++ own_stmts b := by
  induction a with
  | nil => rfl
  | cons e rest ih => cases e <;> simp [own_stmts, ih]

theorem own_stmts_calls (evs : List Event) :
    (own_stmts evs).map (fun s => (s.1, s.2.1)) = own_calls evs := by
  induction evs with
  | nil => rfl
  | cons e rest ih => cases e <;> simp [own_stmts, own_calls, ih]

theorem reports_refl (c : Checker σ) : Reports c c :=
  ⟨rfl, rfl, rfl, [], by simp, rfl⟩

theorem reports_trans {c c1 c2 : Checker σ} (h1 : Reports c c1) (h2 : Reports c1 c2) :
    Reports c c2 := by
  obtain ⟨a1, a2, a3, evs1, a4, a5⟩ := h1
  obtain ⟨b1, b2, b3, evs2, b4, b5⟩ := h2
  refine ⟨b1.trans a1, b2.trans a2, b3.trans a3, evs1 ++ evs2, ?_, ?_⟩
  · rw [b4, a4, List.append_assoc]
  · rw [own_calls_append, a5, b5]; rfl

theorem reports_set_info {c c1 : Checker σ} (info : σ) (h : Reports c c1) :
    Reports c (c1.set_info info) := h

theorem reports_error {c c1 : Checker σ} (token : Token) (msg : Message) (h : Reports c c1) :
    Reports c (error c1 token msg) :=
  reports_trans h ⟨rfl, rfl, rfl, [Event.error token.pos msg], rfl, rfl⟩

theorem reports_error_node (C : Collaborators σ) {c c1 : Checker σ} (node : AstNode)
    (msg : Message) (h : Reports c c1) : Reports c (error_node C c1 node msg) :=
  reports_error _ msg h

theorem frame_of_reports (C : Collaborators σ) (d : Bool) {c c1 : Checker σ}
    (h : Reports c c1) : Frame C d c c1 := by
  obtain ⟨a1, a2, a3, evs, a4, a5⟩ := h
  exact ⟨a1, a2, a3, evs, a4, events_all_stmts_of_no_calls _ evs a5⟩

theorem frame_trans (C : Collaborators σ) (d : Bool) {c c1 c2 : Checker σ}
    (h1 : Frame C d c c1) (h2 : Frame C d c1 c2) : Frame C d c c2 := by
  obtain ⟨a1, a2, a3, evs1, a4, a5⟩ := h1
  obtain ⟨b1, b2, b3, evs2, b4, b5⟩ := h2
  refine ⟨b1.trans a1, b2.trans a2, b3.trans a3, evs1 ++ evs2, ?_, ?_⟩
  · rw [b4, a4, List.append_assoc]
  · exact (events_all_stmts_append _ _ _).mpr ⟨a5, b5⟩

theorem reports_check_expr_stmt (C : Collaborators σ) (node expr : AstNode) (c : Checker σ) :
    Reports c (check_expr_stmt C node expr c) := by
  unfold check_expr_stmt
  dsimp only
  repeat' split
  all_goals
    repeat (first
      | exact reports_refl _
      | apply reports_set_info
      | apply reports_error
      | apply reports_error_node)

theorem reports_check_inc_dec_stmt (C : Collaborators σ) (op : Token) (expr : AstNode)
    (c : Checker σ) : Reports c (check_inc_dec_stmt C op expr c) := by
  unfold check_inc_dec_stmt check_expr
  dsimp only
  repeat' split
  all_goals
    repeat (first
      | exact reports_refl _
      | apply reports_set_info
      | apply reports_error
      | apply reports_error_node)

theorem reports_check_branch_stmt (token : Token) (c : Checker σ) (flags : Nat) :
    Reports c (check_branch_stmt token c flags) := by
  unfold check_branch_stmt
  repeat' split
  all_goals
    repeat (first
      | exact reports_refl _
      | apply reports_set_info
      | apply reports_error
      | apply reports_error_node)

theorem reports_check_proc_decl (C : Collaborators σ) (node name : AstNode) (c : Checker σ) :
    Reports c (check_proc_decl C node name c) := by
  unfold check_proc_decl
  repeat' split
  all_goals
    repeat (first
      | exact reports_refl _
      | apply reports_set_info
      | apply reports_error
      | apply reports_error_node)

theorem reports_check_assign_rhs (C : Collaborators σ) :
    ∀ (rhs : List AstNode) (c : Checker σ) (operands : List Operand) (c1 : Checker σ)
      (out : List Operand),
      check_assign_rhs C rhs c operands = some (c1, out) → Reports c c1 := by
  intro rhs
  induction rhs with
  | nil =>
    intro c operands c1 out h
    simp only [check_assign_rhs, Option.some.injEq, Prod.mk.injEq] at h
    rw [← h.1]
    exact reports_refl _
  | cons r rest ih =>
    intro c operands c1 out h
    rw [check_assign_rhs] at h
    try dsimp only at h
    split at h
    · exact absurd h (by simp)
    · exact reports_trans (reports_set_info _ (reports_refl c)) (ih _ _ _ _ h)
    · exact reports_trans (reports_set_info _ (reports_refl c)) (ih _ _ _ _ h)

theorem reports_check_assignable (C : Collaborators σ) (c : Checker σ) (op_b : Operand) :
    Reports c (check_assignable C c op_b) := by
  unfold check_assignable
  split
  · exact reports_refl _
  · dsimp only
    split
    · exact reports_error_node C _ _ (reports_set_info _ (reports_refl c))
    · exact reports_error_node C _ _ (reports_refl c)

theorem reports_check_assignment_variable (C : Collaborators σ) (c : Checker σ)
    (op_a : Operand) (lhs : AstNode) :
    Reports c (check_assignment_variable C c op_a lhs).1 := by
  unfold check_assignment_variable
  dsimp only
  repeat' split
  all_goals
    repeat (first
      | exact reports_refl _
      | refine reports_trans ?_ (reports_check_assignable C _ _)
      | apply reports_set_info)

theorem reports_check_assign_pairs (C : Collaborators σ) :
    ∀ (lhs : List AstNode) (operands : List Operand) (c : Checker σ),
      Reports c (check_assign_pairs C lhs operands c) := by
  intro lhs
  induction lhs with
  | nil => intro operands c; simp only [check_assign_pairs]; exact reports_refl _
  | cons l rest ih =>
    intro operands c
    cases operands with
    | nil => simp only [check_assign_pairs]; exact reports_refl _
    | cons o orest =>
      rw [check_assign_pairs]
      exact reports_trans (reports_check_assignment_variable C c o l) (ih _ _)

theorem reports_check_assign_stmt (C : Collaborators σ) (op : Token) (lhs rhs : List AstNode)
    (c c1 : Checker σ) (h : check_assign_stmt C op lhs rhs c = some c1) : Reports c c1 := by
  unfold check_assign_stmt at h
  split at h
  · split at h
    · simp only [Option.some.injEq] at h
      subst h
      exact reports_error _ _ (reports_refl _)
    · split at h
      · exact absurd h (by simp)
      · rename_i c2 operands hrhs
        have h1 := reports_check_assign_rhs C _ _ _ _ _ hrhs
        have h2 := fun l => reports_trans h1 (reports_check_assign_pairs C l operands c2)
        try dsimp only at h
        split at h
        · simp only [Option.some.injEq] at h
          subst h
          exact reports_error_node C _ _ (h2 _)
        · simp only [Option.some.injEq] at h
          subst h
          exact h2 _
  · split at h
    · split at h
      · simp only [Option.some.injEq] at h
        subst h
        exact reports_error _ _ (reports_refl _)
      · try dsimp only at h
        split at h
        · simp only [Option.some.injEq] at h
          subst h
          exact reports_set_info _ (reports_refl _)
        · simp only [Option.some.injEq] at h
          subst h
          exact reports_trans (reports_set_info _ (reports_refl _))
            (reports_check_assignment_variable C _ _ _)
    · simp only [Option.some.injEq] at h
      subst h
      exact reports_error _ _ (reports_refl _)

theorem reports_check_return_stmt (C : Collaborators σ) (node : AstNode) (token : Token)
    (results : List AstNode) (c c1 : Checker σ)
    (h : check_return_stmt C node token results c = some c1) : Reports c c1 := by
  unfold check_return_stmt at h
  split at h
  · exact absurd h (by simp)
  · try dsimp only at h
    repeat' split at h
    all_goals
      simp only [Option.some.injEq] at h
      subst h
      repeat (first
        | exact reports_refl _
        | apply reports_set_info
        | apply reports_error
        | apply reports_error_node)

theorem reports_insert_in_context_scope (C : Collaborators σ) (c : Checker σ) (entity : Entity) :
    Reports c (insert_in_context_scope C c entity).1 := by
  unfold insert_in_context_scope
  try dsimp only
  split
  · exact reports_refl _
  · exact reports_set_info _ (reports_refl _)

theorem reports_using_type_fields (C : Collaborators σ) (token : Token) (expr : AstNode)
    (e : Entity) : ∀ (fields : List Entity) (c : Checker σ),
      Reports c (using_type_fields C token expr e fields c).1 := by
  intro fields
  induction fields with
  | nil => intro c; rw [using_type_fields]; exact reports_refl _
  | cons f rest ih =>
    intro c
    rw [using_type_fields]
    try dsimp only
    split
    · exact reports_error _ _ (reports_insert_in_context_scope C c _)
    · exact reports_trans (reports_insert_in_context_scope C c _) (ih _)

theorem reports_using_import_entries (C : Collaborators σ) (token : Token) (expr : AstNode) :
    ∀ (entries : List Entity) (c : Checker σ),
      Reports c (using_import_entries C token expr entries c) := by
  intro entries
  induction entries with
  | nil => intro c; rw [using_import_entries]; exact reports_refl _
  | cons f rest ih =>
    intro c
    rw [using_import_entries]
    try dsimp only
    split
    · exact reports_error _ _ (reports_insert_in_context_scope C c _)
    · exact reports_trans (reports_insert_in_context_scope C c _) (ih _)

theorem reports_using_variable_fields (C : Collaborators σ) (token : Token)
    (collision : String → Message) (e : Entity) (using_expr : Option AstNode) :
    ∀ (fields : List Entity) (c : Checker σ),
      Reports c (using_variable_fields C token collision e using_expr fields c).1 := by
  intro fields
  induction fields with
  | nil => intro c; rw [using_variable_fields]; exact reports_refl _
  | cons f rest ih =>
    intro c
    rw [using_variable_fields]
    split
    · try dsimp only
      split
      · exact reports_error _ _ (reports_insert_in_context_scope C c _)
      · exact reports_trans (reports_insert_in_context_scope C c _) (ih _)
    · exact ih _

theorem reports_using_var_decl_names (C : Collaborators σ) (token : Token) :
    ∀ (names : List AstNode) (c c1 : Checker σ),
      using_var_decl_names C token names c = some c1 → Reports c c1 := by
  intro names
  induction names with
  | nil =>
    intro c c1 h
    simp only [using_var_decl_names, Option.some.injEq] at h
    subst h
    exact reports_refl _
  | cons item rest ih =>
    intro c c1 h
    unfold using_var_decl_names at h
    split at h
    · split at h
      · exact absurd h (by simp)
      · try dsimp only at h
        split at h
        · split at h
          · exact absurd h (by simp)
          · split at h
            · simp only [Option.some.injEq] at h
              subst h
              exact reports_using_variable_fields C _ _ _ _ _ _
            · exact reports_trans (reports_using_variable_fields C _ _ _ _ _ _) (ih _ _ h)
        · simp only [Option.some.injEq] at h
          subst h
          exact reports_error _ _ (reports_refl _)
    · exact absurd h (by simp)

theorem reports_using_expr_entity (C : Collaborators σ) (c : Checker σ) (expr : AstNode) :
    Reports c (using_expr_entity C c expr).1 := by
  unfold using_expr_entity
  split
  · exact reports_refl _
  · exact reports_set_info _ (reports_refl _)
  · exact reports_refl _

theorem reports_using_entity (C : Collaborators σ) (token : Token) (expr : AstNode)
    (e : Entity) (is_selector : Bool) (c c1 : Checker σ)
    (h : using_entity C token expr e is_selector c = some c1) : Reports c c1 := by
  unfold using_entity at h
  split at h
  · try dsimp only at h
    split at h
    · simp only [Option.some.injEq] at h
      subst h
      exact reports_using_type_fields C _ _ _ _ _
    · split at h
      · split at h
        · simp only [Option.some.injEq] at h
          subst h
          exact reports_using_type_fields C _ _ _ _ _
        · simp only [Option.some.injEq] at h
          subst h
          exact reports_trans (reports_using_type_fields C _ _ _ _ _)
            (reports_using_type_fields C _ _ _ _ _)
      · simp only [Option.some.injEq] at h
        subst h
        exact reports_refl _
  · simp only [Option.some.injEq] at h
    subst h
    exact reports_using_import_entries C _ _ _ _
  · try dsimp only at h
    split at h
    · split at h
      · exact absurd h (by simp)
      · simp only [Option.some.injEq] at h
        subst h
        exact reports_using_variable_fields C _ _ _ _ _ _
    · simp only [Option.some.injEq] at h
      subst h
      exact reports_error _ _ (reports_refl _)
  all_goals
    simp only [Option.some.injEq] at h
    subst h
    exact reports_error _ _ (reports_refl _)

theorem reports_check_using_stmt (C : Collaborators σ) (token : Token) (node : AstNode)
    (c c1 : Checker σ) (h : check_using_stmt C token node c = some c1) : Reports c c1 := by
  unfold check_using_stmt at h
  split at h
  · try dsimp only at h
    split at h
    · simp only [Option.some.injEq] at h
      subst h
      exact reports_error _ _ (reports_using_expr_entity C _ _)
    · exact reports_trans (reports_using_expr_entity C _ _) (reports_using_entity C _ _ _ _ _ _ h)
  · try dsimp only at h
    refine reports_trans ?_ (reports_using_var_decl_names C _ _ _ _ h)
    apply reports_set_info
    split
    · exact reports_error _ _ (reports_refl _)
    · exact reports_refl _
  · simp only [Option.some.injEq] at h
    subst h
    exact reports_error _ _ (reports_refl _)

theorem reports_check_expr (C : Collaborators σ) (c : Checker σ) (expr : AstNode) :
    Reports c (check_expr C c expr).1 :=
  reports_set_info _ (reports_refl c)

theorem reports_check_assignment (C : Collaborators σ) (c : Checker σ) (operand : Operand)
    (type : Option Ty) (context_name : String) :
    Reports c (check_assignment C c operand type context_name).1 :=
  reports_set_info _ (reports_refl c)

theorem reports_check_open_scope (C : Collaborators σ) (c : Checker σ) (node : AstNode) :
    Reports c (check_open_scope C c node) :=
  reports_set_info _ (reports_refl c)

theorem reports_check_close_scope (C : Collaborators σ) (c : Checker σ) :
    Reports c (check_close_scope C c) :=
  reports_set_info _ (reports_refl c)

theorem reports_check_match_tag (C : Collaborators σ) (tag : Option AstNode) (body : AstNode)
    (c : Checker σ) : Reports c (check_match_tag C tag body c).1 := by
  unfold check_match_tag
  split
  · exact reports_trans (reports_check_expr C c _) (reports_check_assignment C _ _ _ _)
  · exact reports_refl _

theorem reports_check_multiple_defaults (C : Collaborators σ) :
    ∀ (stmts : List AstNode) (first_default : Option AstNode) (c : Checker σ),
      Reports c (check_multiple_defaults C stmts first_default c) := by
  intro stmts
  induction stmts with
  | nil => intro fd c; simp only [check_multiple_defaults]; exact reports_refl _
  | cons stmt rest ih =>
    intro fd c
    unfold check_multiple_defaults
    split
    · split
      · split
        · exact reports_trans (reports_error_node C _ _ (reports_refl c)) (ih _ _)
        · exact ih _ _
      · exact ih _ _
    · exact reports_trans (reports_error_node C _ _ (reports_refl c)) (ih _ _)

theorem reports_check_case_expr (C : Collaborators σ) (x : Operand) (expr : AstNode)
    (st : Checker σ × MapTypeAndToken) : Reports st.1 (check_case_expr C x expr st).1 := by
  unfold check_case_expr check_expr
  try dsimp only
  repeat' split
  all_goals
    repeat (first
      | exact reports_refl _
      | apply reports_set_info
      | apply reports_error
      | apply reports_error_node)

theorem reports_check_case_exprs (C : Collaborators σ) (x : Operand) :
    ∀ (list : List AstNode) (st : Checker σ × MapTypeAndToken),
      Reports st.1 (check_case_exprs C x list st).1 := by
  intro list
  induction list with
  | nil => intro st; exact reports_refl _
  | cons e rest ih =>
    intro st
    have h : check_case_exprs C x (e :: rest) st =
        check_case_exprs C x rest (check_case_expr C x e st) := rfl
    rw [h]
    exact reports_trans (reports_check_case_expr C x e st) (ih _)

theorem reports_check_type_case (C : Collaborators σ) (x : Operand) (is_union_ptr is_any : Bool)
    (token : Token) (list : List AstNode) (seen : List Nat) (c : Checker σ)
    (r : Checker σ × List Nat × TypeCase)
    (h : check_type_case C x is_union_ptr is_any token list seen c = some r) :
    Reports c r.1 := by
  unfold check_type_case at h
  try dsimp only at h
  repeat' split at h
  all_goals
    cases h
    try
      (dsimp only
       repeat (first
        | exact reports_refl _
        | apply reports_set_info
        | apply reports_error
        | apply reports_error_node))

theorem frame_check_stmt_with (C : Collaborators σ) (d : Bool) (node : AstNode)
    (ih : CheckedFrame C d node) (c c1 : Checker σ) (flags : Nat)
    (hd : d = true → c.in_defer = true)
    (h : check_stmt_with C (check_stmt_internal C node) node c flags = some c1) :
    Frame C d c c1 := by
  unfold check_stmt_with at h
  simp only at h
  split at h
  · exact absurd h (by simp)
  · rename_i c2 hc2
    simp only [Option.some.injEq] at h
    subst h
    obtain ⟨a1, a2, _, evs, a4, a5⟩ := ih
      { c with
        stmt_state_flags := enter_stmt_state_flags (C.stmt_state_flags node) c.stmt_state_flags
        log := [] } c2 flags hd hc2
    refine ⟨a1, a2, rfl, [Event.stmt node flags c2.log], rfl, ?_⟩
    rw [events_all_stmts_cons, all_stmts_stmt, events_all_stmts_nil]
    refine ⟨⟨⟨{ c with
        stmt_state_flags := enter_stmt_state_flags (C.stmt_state_flags node) c.stmt_state_flags
        log := [] }, c2, hd, rfl, hc2, rfl⟩, ?_⟩, trivial⟩
    rw [a4]
    exact a5

theorem frame_check_stmt_opt (C : Collaborators σ) (d : Bool) (s : Option AstNode)
    (ih : ∀ n, s = some n → CheckedFrame C d n) (c c1 : Checker σ) (flags : Nat)
    (hd : d = true → c.in_defer = true) (h : check_stmt_opt C s c flags = some c1) :
    Frame C d c c1 := by
  cases s with
  | none =>
    simp only [check_stmt_opt, Option.some.injEq] at h
    subst h
    exact frame_of_reports C d (reports_refl _)
  | some n => exact frame_check_stmt_with C d n (ih n rfl) c c1 flags hd h

theorem frame_check_stmt_list_loop (C : Collaborators σ) (d : Bool) (count : Nat) (ft_ok : Bool)
    (f : Nat) :
    ∀ (rest : List AstNode), (∀ n ∈ rest, CheckedFrame C d n) → ∀ (i : Nat) (c c1 : Checker σ),
      (d = true → c.in_defer = true) →
      check_stmt_list_loop C count rest i ft_ok f c = some c1 → Frame C d c c1 := by
  intro rest
  induction rest with
  | nil =>
    intro _ i c c1 _ h
    simp only [check_stmt_list_loop, Option.some.injEq] at h
    subst h
    exact frame_of_reports C d (reports_refl _)
  | cons n rest ih =>
    intro hall i c c1 hd h
    rw [check_stmt_list_loop] at h
    have hrest : ∀ m ∈ rest, CheckedFrame C d m := fun m hm => hall m (List.mem_cons_of_mem _ hm)
    by_cases hn : n.is_EmptyStmt = true
    · rw [if_pos hn] at h
      exact ih hrest _ _ _ hd h
    · rw [if_neg hn] at h
      simp only at h
      split at h
      · exact absurd h (by simp)
      · rename_i c2 hc2
        have h1 := frame_check_stmt_with C d n (hall n (List.mem_cons_self _ _)) _ _ _ hd hc2
        exact frame_trans C d h1 (ih hrest _ _ _ (fun hdt => h1.1.trans (hd hdt)) h)

theorem frame_check_stmt_list (C : Collaborators σ) (d : Bool) (stmts : List AstNode)
    (hall : ∀ n ∈ stmts, CheckedFrame C d n) (c c1 : Checker σ) (flags : Nat)
    (hd : d = true → c.in_defer = true) (h : check_stmt_list C stmts c flags = some c1) :
    Frame C d c c1 := by
  unfold check_stmt_list check_stmt_list_with at h
  by_cases h0 : stmts.length = 0
  · rw [if_pos h0] at h
    simp only [Option.some.injEq] at h
    subst h
    exact frame_of_reports C d (reports_refl _)
  · rw [if_neg h0] at h
    exact frame_trans C d
      (frame_of_reports C d (reports_set_info (C.check_scope_decls c stmts) (reports_refl c)))
      (frame_check_stmt_list_loop C d _ _ _ stmts hall _
        (c.set_info (C.check_scope_decls c stmts)) _ hd h)

theorem frame_check_match_clauses (C : Collaborators σ) (d : Bool) (x : Operand)
    (mod_flags count : Nat) :
    ∀ (rest : List AstNode), (∀ cl ∈ rest, ∀ n ∈ cl.clause_stmts, CheckedFrame C d n) →
      ∀ (i : Nat) (seen : MapTypeAndToken) (c c1 : Checker σ), (d = true → c.in_defer = true) →
      check_match_clauses C x mod_flags count rest i seen c = some c1 → Frame C d c c1 := by
  intro rest
  induction rest with
  | nil =>
    intro _ i seen c c1 _ h
    rw [check_match_clauses_nil] at h
    cases h
    exact frame_of_reports C d (reports_refl _)
  | cons cl rest ih =>
    intro hall i seen c c1 hd h
    have hrest : ∀ cl ∈ rest, ∀ n ∈ cl.clause_stmts, CheckedFrame C d n :=
      fun m hm => hall m (List.mem_cons_of_mem _ hm)
    cases cl with
    | CaseClause token list stmts =>
      rw [check_match_clauses_cons] at h
      split at h
      · cases h
      · rename_i c2 hc2
        have h0 : Reports c (check_open_scope C (check_case_exprs C x list (c, seen)).1
            (.CaseClause token list stmts)) :=
          reports_trans (reports_check_case_exprs C x list (c, seen))
            (reports_check_open_scope C _ _)
        have h1 := frame_check_stmt_list C d stmts
          (fun n hn => hall _ (List.mem_cons_self _ _) n
            (by rw [clause_stmts_CaseClause]; exact hn)) _ _ _
          (fun hdt => h0.1.trans (hd hdt)) hc2
        have h2 := frame_trans C d (frame_of_reports C d h0) h1
        have h3 := frame_trans C d h2 (frame_of_reports C d (reports_check_close_scope C c2))
        exact frame_trans C d h3 (ih hrest _ _ _ _ (fun hdt => h3.1.trans (hd hdt)) h)
    | _ => exact ih hrest _ _ _ _ hd h

theorem frame_check_type_match_clauses (C : Collaborators σ) (d : Bool) (x : Operand)
    (is_union_ptr is_any : Bool) (var : AstNode) (mod_flags : Nat) :
    ∀ (rest : List AstNode), (∀ cl ∈ rest, ∀ n ∈ cl.clause_stmts, CheckedFrame C d n) →
      ∀ (seen : List Nat) (c c1 : Checker σ), (d = true → c.in_defer = true) →
      check_type_match_clauses C x is_union_ptr is_any var mod_flags rest seen c = some c1 →
      Frame C d c c1 := by
  intro rest
  induction rest with
  | nil =>
    intro _ seen c c1 _ h
    rw [check_type_match_clauses_nil] at h
    cases h
    exact frame_of_reports C d (reports_refl _)
  | cons cl rest ih =>
    intro hall seen c c1 hd h
    have hrest : ∀ cl ∈ rest, ∀ n ∈ cl.clause_stmts, CheckedFrame C d n :=
      fun m hm => hall m (List.mem_cons_of_mem _ hm)
    cases cl with
    | CaseClause token list stmts =>
      rw [check_type_match_clauses_cons] at h
      split at h
      · cases h
      · rename_i ca seen1 hca
        have h0 := reports_check_type_case C _ _ _ _ _ _ _ _ hca
        exact frame_trans C d (frame_of_reports C d h0)
          (ih hrest _ _ _ (fun hdt => h0.1.trans (hd hdt)) h)
      · rename_i ca seen1 hca
        have h0 := reports_check_type_case C _ _ _ _ _ _ _ _ hca
        cases h
        exact frame_of_reports C d h0
      · rename_i ca seen1 case_type hca
        have h0 : Reports c ca := reports_check_type_case C _ _ _ _ _ _ _ _ hca
        cases case_type
        all_goals
          dsimp only at h
          split at h
          · cases h
          · rename_i c2 hc2
            have h1 := frame_check_stmt_list C d stmts
              (fun n hn => hall _ (List.mem_cons_self _ _) n
                (by rw [clause_stmts_CaseClause]; exact hn)) _ _ _
              (by intro hdt; exact h0.1.trans (hd hdt)) hc2
            have h2 : Frame C d c c2 := by
              refine frame_trans C d (frame_of_reports C d (reports_trans h0 ?_)) h1
              first
                | exact reports_check_open_scope C _ _
                | exact reports_set_info _ (reports_check_open_scope C _ _)
            have h3 := frame_trans C d h2 (frame_of_reports C d (reports_check_close_scope C c2))
            exact frame_trans C d h3 (ih hrest _ _ _ (fun hdt => h3.1.trans (hd hdt)) h)
    | _ => exact ih hrest _ _ _ hd h

theorem check_stmt_internal_TagStmt (C : Collaborators σ) (token : Token) (stmt : AstNode)
    (c : Checker σ) (flags : Nat) :
    check_stmt_internal C (.TagStmt token stmt) c flags =
      check_stmt C stmt
        (error_node C c (.TagStmt token stmt) .tag_statements_not_supported) flags :=
  rfl

theorem check_stmt_internal_PushAllocator (C : Collaborators σ) (expr body : AstNode)
    (c : Checker σ) (flags : Nat) :
    check_stmt_internal C (.PushAllocator expr body) c flags =
      check_stmt C body
        (check_assignment C (check_expr C c expr).1 (check_expr C c expr).2 (some C.t_allocator)
          "argument to push_allocator").1
        (clear_flag flags Stmt_FallthroughAllowed) :=
  rfl

theorem check_stmt_internal_PushContext (C : Collaborators σ) (expr body : AstNode)
    (c : Checker σ) (flags : Nat) :
    check_stmt_internal C (.PushContext expr body) c flags =
      check_stmt C body
        (check_assignment C (check_expr C c expr).1 (check_expr C c expr).2 (some C.t_context)
          "argument to push_context").1
        (clear_flag flags Stmt_FallthroughAllowed) :=
  rfl

theorem check_stmt_internal_IfStmt (C : Collaborators σ) (init : Option AstNode)
    (cond body : AstNode) (else_stmt : Option AstNode) (c : Checker σ) (flags : Nat) :
    check_stmt_internal C (.IfStmt init cond body else_stmt) c flags =
      match check_stmt_opt C init
          (check_open_scope C c (.IfStmt init cond body else_stmt)) 0 with
      | none => none
      | some c1 =>
          match check_stmt C body
              (if (check_expr C c1 cond).2.mode ≠ .Addressing_Invalid ∧
                  !C.is_type_boolean (check_expr C c1 cond).2.type then
                error_node C (check_expr C c1 cond).1 cond .non_boolean_condition_in_if
              else (check_expr C c1 cond).1)
              (clear_flag flags Stmt_FallthroughAllowed) with
          | none => none
          | some c2 =>
              match check_if_else C else_stmt c2 (clear_flag flags Stmt_FallthroughAllowed) with
              | none => none
              | some c3 => some (check_close_scope C c3) :=
  rfl

theorem check_if_else_eq (C : Collaborators σ) (else_stmt : Option AstNode) (c : Checker σ)
    (mod_flags : Nat) :
    check_if_else C else_stmt c mod_flags =
      match else_stmt with
      | none => some c
      | some (.IfStmt i2 c2 b2 e2) => check_stmt C (.IfStmt i2 c2 b2 e2) c mod_flags
      | some (.BlockStmt stmts) => check_stmt C (.BlockStmt stmts) c mod_flags
      | some e => some (error_node C c e .invalid_else_in_if) := by
  cases else_stmt with
  | none => rfl
  | some e => cases e <;> rfl

theorem frame_TagStmt (C : Collaborators σ) (d : Bool) (token : Token) (stmt : AstNode)
    (ih : CheckedFrame C d stmt) : CheckedFrame C d (.TagStmt token stmt) := by
  intro c c1 flags hd h
  rw [check_stmt_internal_TagStmt] at h
  exact frame_trans C d (frame_of_reports C d (reports_error_node C _ _ (reports_refl c)))
    (frame_check_stmt_with C d stmt ih _ _ _ (by intro hdt; exact hd hdt) h)

theorem frame_PushAllocator (C : Collaborators σ) (d : Bool) (expr body : AstNode)
    (ih : CheckedFrame C d body) : CheckedFrame C d (.PushAllocator expr body) := by
  intro c c1 flags hd h
  rw [check_stmt_internal_PushAllocator] at h
  exact frame_trans C d
    (frame_of_reports C d
      (reports_trans (reports_check_expr C c expr) (reports_check_assignment C _ _ _ _)))
    (frame_check_stmt_with C d body ih _ _ _ (by intro hdt; exact hd hdt) h)

theorem frame_PushContext (C : Collaborators σ) (d : Bool) (expr body : AstNode)
    (ih : CheckedFrame C d body) : CheckedFrame C d (.PushContext expr body) := by
  intro c c1 flags hd h
  rw [check_stmt_internal_PushContext] at h
  exact frame_trans C d
    (frame_of_reports C d
      (reports_trans (reports_check_expr C c expr) (reports_check_assignment C _ _ _ _)))
    (frame_check_stmt_with C d body ih _ _ _ (by intro hdt; exact hd hdt) h)

theorem frame_BlockStmt (C : Collaborators σ) (d : Bool) (stmts : List AstNode)
    (ih : ∀ n ∈ stmts, CheckedFrame C d n) : CheckedFrame C d (.BlockStmt stmts) := by
  intro c c1 flags hd h
  rw [check_stmt_internal_BlockStmt] at h
  split at h
  · cases h
  · rename_i c2 hc2
    cases h
    exact frame_trans C d
      (frame_trans C d (frame_of_reports C d (reports_check_open_scope C c _))
        (frame_check_stmt_list C d stmts ih _ _ _ (by intro hdt; exact hd hdt) hc2))
      (frame_of_reports C d (reports_check_close_scope C c2))

theorem frame_DeferStmt (C : Collaborators σ) (d : Bool) (token : Token) (stmt : AstNode)
    (ih : CheckedFrame C d stmt) : CheckedFrame C d (.DeferStmt token stmt) := by
  intro c c1 flags hd h
  rw [check_stmt_internal_DeferStmt] at h
  split at h
  · cases h
    exact frame_of_reports C d (reports_error _ _ (reports_refl c))
  · split at h
    · cases h
    · rename_i c2 hc2
      cases h
      obtain ⟨_, a2, a3, evs, a4, a5⟩ :=
        frame_check_stmt_with C d stmt ih { c with in_defer := true } c2 0 (fun _ => rfl) hc2
      exact ⟨rfl, a2, a3, evs, a4, a5⟩

theorem reports_for_cond (C : Collaborators σ) (cond : Option AstNode) (c1 : Checker σ) :
    Reports c1
      (match cond with
        | some cond =>
            if (check_expr C c1 cond).2.mode ≠ .Addressing_Invalid ∧
                !C.is_type_boolean (check_expr C c1 cond).2.type then
              error_node C (check_expr C c1 cond).1 cond .non_boolean_condition_in_for
            else (check_expr C c1 cond).1
        | none => c1) := by
  split
  · split
    · exact reports_error_node C _ _ (reports_check_expr C _ _)
    · exact reports_check_expr C _ _
  · exact reports_refl _

theorem frame_ForStmt (C : Collaborators σ) (d : Bool) (init cond post : Option AstNode)
    (body : AstNode) (ih_init : ∀ n, init = some n → CheckedFrame C d n)
    (ih_post : ∀ n, post = some n → CheckedFrame C d n) (ih_body : CheckedFrame C d body) :
    CheckedFrame C d (.ForStmt init cond post body) := by
  intro c c1 flags hd h
  rw [check_stmt_internal_ForStmt] at h
  split at h
  · cases h
  · rename_i ca hca
    have h1 := frame_trans C d (frame_of_reports C d (reports_check_open_scope C c _))
      (frame_check_stmt_opt C d init ih_init _ _ _ (by intro hdt; exact hd hdt) hca)
    split at h
    · cases h
    · rename_i cb hcb
      have h2 := frame_trans C d h1
        (frame_trans C d (frame_of_reports C d (reports_for_cond C cond ca))
          (frame_check_stmt_opt C d post ih_post _ _ _
            (by intro hdt; exact ((reports_for_cond C cond ca).1.trans (h1.1.trans (hd hdt))))
            hcb))
      split at h
      · cases h
      · rename_i cc hcc
        cases h
        exact frame_trans C d h2
          (frame_trans C d
            (frame_check_stmt_with C d body ih_body _ _ _ (fun hdt => h2.1.trans (hd hdt)) hcc)
            (frame_of_reports C d (reports_check_close_scope C cc)))

theorem reports_if_cond (C : Collaborators σ) (cond : AstNode) (c1 : Checker σ) :
    Reports c1
      (if (check_expr C c1 cond).2.mode ≠ .Addressing_Invalid ∧
          !C.is_type_boolean (check_expr C c1 cond).2.type then
        error_node C (check_expr C c1 cond).1 cond .non_boolean_condition_in_if
      else (check_expr C c1 cond).1) := by
  split
  · exact reports_error_node C _ _ (reports_check_expr C _ _)
  · exact reports_check_expr C _ _

theorem frame_check_if_else (C : Collaborators σ) (d : Bool) (else_stmt : Option AstNode)
    (ih_else : ∀ n, else_stmt = some n → CheckedFrame C d n) (c c1 : Checker σ) (flags : Nat)
    (hd : d = true → c.in_defer = true) (h : check_if_else C else_stmt c flags = some c1) :
    Frame C d c c1 := by
  rw [check_if_else_eq] at h
  split at h
  · cases h
    exact frame_of_reports C d (reports_refl _)
  · exact frame_check_stmt_with C d _ (ih_else _ rfl) _ _ _ hd h
  · exact frame_check_stmt_with C d _ (ih_else _ rfl) _ _ _ hd h
  · cases h
    exact frame_of_reports C d (reports_error_node C _ _ (reports_refl c))

theorem frame_IfStmt (C : Collaborators σ) (d : Bool) (init : Option AstNode)
    (cond body : AstNode) (else_stmt : Option AstNode)
    (ih_init : ∀ n, init = some n → CheckedFrame C d n) (ih_body : CheckedFrame C d body)
    (ih_else : ∀ n, else_stmt = some n → CheckedFrame C d n) :
    CheckedFrame C d (.IfStmt init cond body else_stmt) := by
  intro c c1 flags hd h
  rw [check_stmt_internal_IfStmt] at h
  split at h
  · cases h
  · rename_i ca hca
    have h1 := frame_trans C d (frame_of_reports C d (reports_check_open_scope C c _))
      (frame_check_stmt_opt C d init ih_init _ _ _ (by intro hdt; exact hd hdt) hca)
    split at h
    · cases h
    · rename_i cb hcb
      have h2 := frame_trans C d h1
        (frame_trans C d (frame_of_reports C d (reports_if_cond C cond ca))
          (frame_check_stmt_with C d body ih_body _ _ _
            (by intro hdt; exact ((reports_if_cond C cond ca).1.trans (h1.1.trans (hd hdt))))
            hcb))
      split at h
      · cases h
      · rename_i cc hcc
        cases h
        exact frame_trans C d h2
          (frame_trans C d
            (frame_check_if_else C d else_stmt ih_else _ _ _ (fun hdt => h2.1.trans (hd hdt)) hcc)
            (frame_of_reports C d (reports_check_close_scope C cc)))

theorem check_stmt_internal_MatchStmt_body (C : Collaborators σ) (init tag : Option AstNode)
    (body : AstNode) (c c1 : Checker σ) (flags : Nat)
    (h : check_stmt_internal C (.MatchStmt init tag body) c flags = some c1) :
    ∃ stmts, body = .BlockStmt stmts := by
  cases body with
  | BlockStmt stmts => exact ⟨stmts, rfl⟩
  | _ =>
    exfalso
    have h1 : (match check_stmt_opt C init (check_open_scope C c _) 0 with
      | none => none
      | some _ => (none : Option (Checker σ))) = some c1 := h
    split at h1 <;> cases h1

theorem check_stmt_internal_TypeMatchStmt_body (C : Collaborators σ) (tag var body : AstNode)
    (c c1 : Checker σ) (flags : Nat)
    (h : check_stmt_internal C (.TypeMatchStmt tag var body) c flags = some c1) :
    (∃ stmts, body = .BlockStmt stmts) ∨ Reports c c1 := by
  cases body with
  | BlockStmt stmts => exact Or.inl ⟨stmts, rfl⟩
  | _ =>
    right
    have h1 : (let c0 := check_open_scope C c _
       let r := check_assignment C (check_expr C c0 tag).1 (check_expr C c0 tag).2 none
         "type match expression"
       if !(check_valid_type_match_type r.2.type).1 then
         some (error_node C r.1 r.2.expr (.invalid_type_match_type r.2.type))
       else none) = some c1 := h
    dsimp only at h1
    split at h1
    · cases h1
      exact reports_error_node C _ _
        (reports_trans (reports_check_open_scope C c _)
          (reports_trans (reports_check_expr C _ _) (reports_check_assignment C _ _ _ _)))
    · cases h1

theorem frame_MatchStmt (C : Collaborators σ) (d : Bool) (init tag : Option AstNode)
    (body : AstNode) (ih_init : ∀ n, init = some n → CheckedFrame C d n)
    (ih_body : ∀ stmts, body = .BlockStmt stmts →
      ∀ cl ∈ stmts, ∀ n ∈ cl.clause_stmts, CheckedFrame C d n) :
    CheckedFrame C d (.MatchStmt init tag body) := by
  intro c c1 flags hd h
  obtain ⟨stmts, hb⟩ := check_stmt_internal_MatchStmt_body C init tag body c c1 flags h
  subst hb
  rw [check_stmt_internal_MatchStmt] at h
  split at h
  · cases h
  · rename_i ca hca
    have h1 := frame_trans C d (frame_of_reports C d (reports_check_open_scope C c _))
      (frame_check_stmt_opt C d init ih_init _ _ _ (by intro hdt; exact hd hdt) hca)
    split at h
    · cases h
    · rename_i cb hcb
      cases h
      have h0 : Reports ca (check_multiple_defaults C stmts none
          (check_match_tag C tag (.BlockStmt stmts) ca).1) :=
        reports_trans (reports_check_match_tag C tag _ ca)
          (reports_check_multiple_defaults C stmts none _)
      have h2 := frame_trans C d h1 (frame_of_reports C d h0)
      exact frame_trans C d h2
        (frame_trans C d
          (frame_check_match_clauses C d _ _ _ stmts (ih_body stmts rfl) _ _ _ _
            (fun hdt => h2.1.trans (hd hdt)) hcb)
          (frame_of_reports C d (reports_check_close_scope C cb)))

theorem frame_TypeMatchStmt (C : Collaborators σ) (d : Bool) (tag var body : AstNode)
    (ih_body : ∀ stmts, body = .BlockStmt stmts →
      ∀ cl ∈ stmts, ∀ n ∈ cl.clause_stmts, CheckedFrame C d n) :
    CheckedFrame C d (.TypeMatchStmt tag var body) := by
  intro c c1 flags hd h
  rcases check_stmt_internal_TypeMatchStmt_body C tag var body c c1 flags h with ⟨stmts, hb⟩ | hr
  · subst hb
    rw [check_stmt_internal_TypeMatchStmt] at h
    dsimp only at h
    have h0 : Reports c (check_assignment C
        (check_expr C (check_open_scope C c (.TypeMatchStmt tag var (.BlockStmt stmts))) tag).1
        (check_expr C (check_open_scope C c (.TypeMatchStmt tag var (.BlockStmt stmts))) tag).2
        none "type match expression").1 :=
      reports_trans (reports_check_open_scope C c _)
        (reports_trans (reports_check_expr C _ _) (reports_check_assignment C _ _ _ _))
    split at h
    · cases h
      exact frame_of_reports C d (reports_error_node C _ _ h0)
    · have h1 := reports_trans h0 (reports_check_multiple_defaults C stmts none _)
      split at h
      · cases h
        exact frame_of_reports C d h1
      · split at h
        · cases h
        · rename_i cb hcb
          cases h
          exact frame_trans C d (frame_of_reports C d h1)
            (frame_trans C d
              (frame_check_type_match_clauses C d _ _ _ _ _ stmts (ih_body stmts rfl) _ _ _
                (fun hdt => h1.1.trans (hd hdt)) hcb)
              (frame_of_reports C d (reports_check_close_scope C cb)))
  · exact frame_of_reports C d hr

theorem frame_WhenStmt (C : Collaborators σ) (d : Bool) (cond : AstNode)
    (body else_stmt : Option AstNode)
    (ih_body : ∀ stmts, body = some (.BlockStmt stmts) → ∀ n ∈ stmts, CheckedFrame C d n)
    (ih_else_block : ∀ stmts, else_stmt = some (.BlockStmt stmts) →
      ∀ n ∈ stmts, CheckedFrame C d n)
    (ih_else : ∀ e, else_stmt = some e → CheckedFrame C d e) :
    CheckedFrame C d (.WhenStmt cond body else_stmt) := by
  intro c c1 flags hd h
  rw [check_stmt_internal_WhenStmt] at h
  have h0 := reports_check_expr C c cond
  split at h
  · cases h
    exact frame_of_reports C d (reports_error_node C _ _ h0)
  · split at h
    · split at h
      · exact frame_trans C d (frame_of_reports C d h0)
          (frame_check_stmt_list C d _ (ih_body _ rfl) _ _ _ (fun hdt => h0.1.trans (hd hdt)) h)
      · split at h
        · cases h
          exact frame_of_reports C d h0
        · exact frame_trans C d (frame_of_reports C d h0)
            (frame_check_stmt_list C d _ (ih_else_block _ rfl) _ _ _
              (fun hdt => h0.1.trans (hd hdt)) h)
        · exact frame_trans C d (frame_of_reports C d h0)
            (ih_else _ rfl _ _ _ (fun hdt => h0.1.trans (hd hdt)) h)
        · cases h
          exact frame_of_reports C d (reports_error_node C _ _ h0)
    · cases h
      exact frame_of_reports C d (reports_error_node C _ _ h0)

theorem sizeOf_clause_stmts_lt (cl n : AstNode) (hn : n ∈ cl.clause_stmts) :
    sizeOf n < sizeOf cl := by
  cases cl
  case CaseClause token list stmts =>
    rw [clause_stmts_CaseClause] at hn
    have := List.sizeOf_lt_of_mem hn
    simp
    omega
  all_goals simp [AstNode.clause_stmts] at hn

theorem checked_frame_aux (C : Collaborators σ) (d : Bool) (n : Nat) :
    ∀ s : AstNode, sizeOf s ≤ n → CheckedFrame C d s := by
  induction n with
  | zero => intro s hsz; cases s <;> simp at hsz
  | succ n ih =>
    intro s hsz
    cases s with
    | TagStmt token stmt =>
      simp at hsz
      exact frame_TagStmt C d token stmt (ih stmt (by omega))
    | BlockStmt stmts =>
      simp at hsz
      exact frame_BlockStmt C d stmts (fun m hm => ih m (by
        have := List.sizeOf_lt_of_mem hm
        omega))
    | IfStmt init cond body else_stmt =>
      simp at hsz
      refine frame_IfStmt C d init cond body else_stmt ?_ (ih body (by omega)) ?_
      · intro m hm
        subst hm
        simp at hsz
        exact ih m (by omega)
      · intro m hm
        subst hm
        simp at hsz
        exact ih m (by omega)
    | WhenStmt cond body else_stmt =>
      simp at hsz
      refine frame_WhenStmt C d cond body else_stmt ?_ ?_ ?_
      · intro stmts hb m hm
        subst hb
        simp at hsz
        have := List.sizeOf_lt_of_mem hm
        exact ih m (by omega)
      · intro stmts hb m hm
        subst hb
        simp at hsz
        have := List.sizeOf_lt_of_mem hm
        exact ih m (by omega)
      · intro e he
        subst he
        simp at hsz
        exact ih e (by omega)
    | ForStmt init cond post body =>
      simp at hsz
      refine frame_ForStmt C d init cond post body ?_ ?_ (ih body (by omega))
      · intro m hm
        subst hm
        simp at hsz
        exact ih m (by omega)
      · intro m hm
        subst hm
        simp at hsz
        exact ih m (by omega)
    | MatchStmt init tag body =>
      simp at hsz
      refine frame_MatchStmt C d init tag body ?_ ?_
      · intro m hm
        subst hm
        simp at hsz
        exact ih m (by omega)
      · intro stmts hb cl hcl m hm
        subst hb
        simp at hsz
        have h1 := List.sizeOf_lt_of_mem hcl
        have h2 := sizeOf_clause_stmts_lt cl m hm
        exact ih m (by omega)
    | TypeMatchStmt tag var body =>
      simp at hsz
      refine frame_TypeMatchStmt C d tag var body ?_
      intro stmts hb cl hcl m hm
      subst hb
      simp at hsz
      have h1 := List.sizeOf_lt_of_mem hcl
      have h2 := sizeOf_clause_stmts_lt cl m hm
      exact ih m (by omega)
    | DeferStmt token stmt =>
      simp at hsz
      exact frame_DeferStmt C d token stmt (ih stmt (by omega))
    | PushAllocator expr body =>
      simp at hsz
      exact frame_PushAllocator C d expr body (ih body (by omega))
    | PushContext expr body =>
      simp at hsz
      exact frame_PushContext C d expr body (ih body (by omega))
    | ExprStmt expr =>
      intro c c1 flags _ h
      have h1 : some (check_expr_stmt C (.ExprStmt expr) expr c) = some c1 := h
      cases h1
      exact frame_of_reports C d (reports_check_expr_stmt C _ _ _)
    | IncDecStmt op expr =>
      intro c c1 flags _ h
      have h1 : some (check_inc_dec_stmt C op expr c) = some c1 := h
      cases h1
      exact frame_of_reports C d (reports_check_inc_dec_stmt C _ _ _)
    | AssignStmt op lhs rhs =>
      intro c c1 flags _ h
      exact frame_of_reports C d (reports_check_assign_stmt C op lhs rhs c c1 h)
    | ReturnStmt token results =>
      intro c c1 flags _ h
      exact frame_of_reports C d (reports_check_return_stmt C _ token results c c1 h)
    | BranchStmt token =>
      intro c c1 flags _ h
      have h1 : some (check_branch_stmt token c flags) = some c1 := h
      cases h1
      exact frame_of_reports C d (reports_check_branch_stmt _ _ _)
    | UsingStmt token node =>
      intro c c1 flags _ h
      exact frame_of_reports C d (reports_check_using_stmt C token node c c1 h)
    | VarDecl names type values =>
      intro c c1 flags _ h
      have h1 : some (c.set_info (C.check_var_decl_node c (.VarDecl names type values))) =
        some c1 := h
      cases h1
      exact frame_of_reports C d (reports_set_info _ (reports_refl c))
    | ProcDecl name type body =>
      intro c c1 flags _ h
      have h1 : some (check_proc_decl C (.ProcDecl name type body) name c) = some c1 := h
      cases h1
      exact frame_of_reports C d (reports_check_proc_decl C _ _ _)
    | _ =>
      intro c c1 flags _ h
      have h1 : some c = some c1 := h
      cases h1
      exact frame_of_reports C d (reports_refl _)

theorem checked_frame (C : Collaborators σ) (d : Bool) (s : AstNode) : CheckedFrame C d s :=
  checked_frame_aux C d (sizeOf s) s (Nat.le_refl _)

/-! ## Claims on `for` -/

theorem for_body_flags_bits (flags : Nat) :
    for_body_flags flags &&& Stmt_BreakAllowed = Stmt_BreakAllowed ∧
    for_body_flags flags &&& Stmt_ContinueAllowed = Stmt_ContinueAllowed ∧
    for_body_flags flags &&& Stmt_FallthroughAllowed = 0 := by
  unfold for_body_flags
  refine ⟨?_, ?_, ?_⟩
  · rw [Nat.and_distrib_right, Nat.and_distrib_right]
    have h1 : Stmt_ContinueAllowed &&& Stmt_BreakAllowed = 0 := by decide
    rw [h1, Nat.or_zero, Nat.and_self]
    apply Nat.eq_of_testBit_eq
    intro i
    simp only [Nat.testBit_or, Nat.testBit_and]
    cases (clear_flag flags Stmt_FallthroughAllowed).testBit i <;>
      cases Stmt_BreakAllowed.testBit i <;> rfl
  · rw [Nat.and_distrib_right, Nat.and_distrib_right]
    have h1 : Stmt_BreakAllowed &&& Stmt_ContinueAllowed = 0 := by decide
    rw [h1, Nat.or_zero, Nat.and_self]
    apply Nat.eq_of_testBit_eq
    intro i
    simp only [Nat.testBit_or, Nat.testBit_and]
    cases (clear_flag flags Stmt_FallthroughAllowed).testBit i <;>
      cases Stmt_ContinueAllowed.testBit i <;> rfl
  · rw [Nat.and_distrib_right, Nat.and_distrib_right, clear_fallthrough_and_fallthrough]
    decide

theorem branch_events (token : Token) (c0 : Checker σ) (g : Nat) (hlog : c0.log = [])
    (hb : g &&& Stmt_BreakAllowed ≠ 0) (hc : g &&& Stmt_ContinueAllowed ≠ 0)
    (hf : g &&& Stmt_FallthroughAllowed = 0) :
    branch_in_for token (check_branch_stmt token c0 g).log := by
  unfold branch_in_for check_branch_stmt
  constructor
  · intro hk
    rcases hk with hk | hk
    · simp [hk, hb, hlog]
    · simp [hk, hc, hlog]
  · intro hk
    simp [hk, hf, hlog, error]

theorem checked_children_flags (f count : Nat) :
    ∀ (rest : List AstNode) (i : Nat), ∀ p ∈ checked_children false f count rest i, p.2 = f := by
  intro rest
  induction rest with
  | nil => intro i p hp; simp [checked_children] at hp
  | cons n rest ih =>
    intro i p hp
    rw [checked_children] at hp
    split at hp
    · exact ih _ p hp
    · simp only [List.mem_cons] at hp
      rcases hp with hp | hp
      · subst hp
        simp [stmt_list_new_flags]
      · exact ih _ p hp

theorem stmt_list_calls_flags (stmts : List AstNode) (flags : Nat)
    (hf : flags &&& Stmt_FallthroughAllowed = 0) :
    ∀ p ∈ stmt_list_calls stmts flags, p.2 = clear_flag flags Stmt_FallthroughAllowed := by
  intro p hp
  unfold stmt_list_calls at hp
  have h : has_flag flags Stmt_FallthroughAllowed = false := by
    unfold has_flag
    simp [hf]
  rw [h] at hp
  exact checked_children_flags _ _ _ _ p hp

theorem called_BlockStmt (C : Collaborators σ) (d : Bool) (stmts : List AstNode) (flags : Nat)
    (events : List Event) (h : Called C d (.BlockStmt stmts) flags events) :
    own_calls events = stmt_list_calls stmts (clear_flag flags Stmt_FallthroughAllowed) := by
  obtain ⟨c0, c2, _, hlog, hc, hev⟩ := h
  rw [check_stmt_internal_BlockStmt] at hc
  split at hc
  · cases hc
  · rename_i c3 hc3
    cases hc
    have := (check_stmt_list_log C stmts _ _ _ hc3).1
    rw [← hev]
    change own_calls c3.log = _
    rw [this]
    change own_calls c0.log ++ _ = _
    rw [hlog]
    rfl

theorem called_BranchStmt (C : Collaborators σ) (d : Bool) (token : Token) (g : Nat)
    (events : List Event) (h : Called C d (.BranchStmt token) g events)
    (hb : g &&& Stmt_BreakAllowed ≠ 0) (hc : g &&& Stmt_ContinueAllowed ≠ 0)
    (hf : g &&& Stmt_FallthroughAllowed = 0) : branch_in_for token events := by
  obtain ⟨c0, c2, _, hlog, hcall, hev⟩ := h
  rw [check_stmt_internal_BranchStmt] at hcall
  cases hcall
  rw [← hev]
  exact branch_events token c0 g hlog hb hc hf

/-- C19, amended: when a `ForStmt` checked with `flags` returns, `check_stmt` was called
on the init and post statements with the flags `0` and on the body with `flags`
without `FallthroughAllowed` and with `BreakAllowed` and `ContinueAllowed`, in
that order and on nothing else; so a `break` or `continue` that is the body or
a statement of the body block leaves no diagnostic and a `fallthrough` there
always leaves its diagnostic, whatever `flags` is. -/
theorem check_stmt_for (C : Collaborators σ) (init cond post : Option AstNode) (body : AstNode)
    (c c1 : Checker σ) (flags : Nat)
    (h : check_stmt_internal C (.ForStmt init cond post body) c flags = some c1) :
    own_calls c1.log = own_calls c.log ++
      (opt_call init ++ opt_call post ++ [(body, for_body_flags flags)]) ∧
    for_body_flags flags &&& Stmt_BreakAllowed = Stmt_BreakAllowed ∧
    for_body_flags flags &&& Stmt_ContinueAllowed = Stmt_ContinueAllowed ∧
    for_body_flags flags &&& Stmt_FallthroughAllowed = 0 ∧
    ∃ before events,
      c1.log = c.log ++ before ++ [Event.stmt body (for_body_flags flags) events] ∧
      (∀ token, body = .BranchStmt token → branch_in_for token events) ∧
      (∀ stmts, body = .BlockStmt stmts →
        own_calls events =
          stmt_list_calls stmts (clear_flag (for_body_flags flags) Stmt_FallthroughAllowed) ∧
        ∀ s ∈ own_stmts events, ∀ token, s.1 = .BranchStmt token →
          branch_in_for token s.2.2) := by
  obtain ⟨hbreak, hcont, hft⟩ := for_body_flags_bits flags
  have hbreak0 : for_body_flags flags &&& Stmt_BreakAllowed ≠ 0 := by rw [hbreak]; decide
  have hcont0 : for_body_flags flags &&& Stmt_ContinueAllowed ≠ 0 := by rw [hcont]; decide
  have hframe := checked_frame C false (.ForStmt init cond post body) c c1 flags (by simp) h
  rw [check_stmt_internal_ForStmt] at h
  split at h
  · cases h
  · rename_i ca hca
    split at h
    · cases h
    · rename_i cb hcb
      split at h
      · cases h
      · rename_i cc hcc
        cases h
        have hinit : ∃ ev1, ca.log = c.log ++ ev1 ∧ own_calls ev1 = opt_call init := by
          cases init with
          | none =>
            rw [check_stmt_opt_none] at hca
            cases hca
            exact ⟨[], by simp [check_open_scope, Checker.set_info], rfl⟩
          | some s =>
            obtain ⟨events, hlog, _⟩ := check_stmt_with_log C _ _ _ _ _ hca
            exact ⟨[Event.stmt s 0 events], hlog, rfl⟩
        obtain ⟨ev1, hlog1, hcalls1⟩ := hinit
        obtain ⟨_, _, _, ev2, hlog2, hcalls2⟩ := reports_for_cond C cond ca
        have hpost : ∃ ev3, cb.log = ca.log ++ ev2 ++ ev3 ∧ own_calls ev3 = opt_call post := by
          cases post with
          | none =>
            rw [check_stmt_opt_none] at hcb
            cases hcb
            exact ⟨[], by rw [hlog2]; simp, rfl⟩
          | some s =>
            obtain ⟨events, hlog, _⟩ := check_stmt_with_log C _ _ _ _ _ hcb
            exact ⟨[Event.stmt s 0 events], by rw [hlog, hlog2], rfl⟩
        obtain ⟨ev3, hlog3, hcalls3⟩ := hpost
        obtain ⟨cd, hcd, hcc1⟩ : ∃ cd, check_stmt_internal C body
            { cb with
              stmt_state_flags :=
                enter_stmt_state_flags (C.stmt_state_flags body) cb.stmt_state_flags
              log := [] } (for_body_flags flags) = some cd ∧
            cc.log = cb.log ++ [Event.stmt body (for_body_flags flags) cd.log] := by
          unfold check_stmt check_stmt_with at hcc
          simp only at hcc
          split at hcc
          · cases hcc
          · rename_i cd hcd
            cases hcc
            exact ⟨cd, hcd, rfl⟩
        have hlogc1 : (check_close_scope C cc).log =
            c.log ++ (ev1 ++ ev2 ++ ev3) ++ [Event.stmt body (for_body_flags flags) cd.log] := by
          change cc.log = _
          rw [hcc1, hlog3, hlog1]
          simp
        refine ⟨?_, hbreak, hcont, hft, ev1 ++ ev2 ++ ev3, cd.log, hlogc1, ?_, ?_⟩
        · rw [hlogc1]
          simp only [own_calls_append, hcalls1, hcalls2, hcalls3, own_calls, List.append_nil,
            List.append_assoc, List.nil_append]
        · intro token hb
          subst hb
          rw [check_stmt_internal_BranchStmt] at hcd
          cases hcd
          exact branch_events token _ _ rfl hbreak0 hcont0 hft
        · intro stmts hb
          subst hb
          obtain ⟨_, _, _, evs, hevs, hall⟩ := hframe
          have hevs2 : evs = (ev1 ++ ev2 ++ ev3) ++
              [Event.stmt (.BlockStmt stmts) (for_body_flags flags) cd.log] := by
            have := hevs.symm.trans hlogc1
            rw [List.append_assoc] at this
            exact List.append_cancel_left this
          rw [hevs2, events_all_stmts_append, events_all_stmts_cons, all_stmts_stmt] at hall
          obtain ⟨_, ⟨hcalled, hnested⟩, _⟩ := hall
          have hcalls := called_BlockStmt C false stmts _ _ hcalled
          refine ⟨hcalls, ?_⟩
          intro s hs token hst
          obtain ⟨hq, _⟩ := events_all_stmts_own _ _ hnested s hs
          have hmem : (s.1, s.2.1) ∈ own_calls cd.log := by
            rw [← own_stmts_calls]
            exact List.mem_map.mpr ⟨s, hs, rfl⟩
          rw [hcalls] at hmem
          have hg := stmt_list_calls_flags stmts _ (clear_fallthrough_and_fallthrough _) _ hmem
          simp only at hg
          have hg2 : s.2.1 &&& Stmt_FallthroughAllowed = 0 := by
            rw [hg]; exact clear_fallthrough_and_fallthrough _
          have hg3 : s.2.1 &&& Stmt_BreakAllowed ≠ 0 := by
            rw [hg, clear_fallthrough_and_break, clear_fallthrough_and_break]; exact hbreak0
          have hg4 : s.2.1 &&& Stmt_ContinueAllowed ≠ 0 := by
            rw [hg, clear_fallthrough_and_continue, clear_fallthrough_and_continue]; exact hcont0
          rw [hst] at hq
          exact called_BranchStmt C false token _ _ hq hg3 hg4 hg2

/-- C19 at `for { break; continue; fallthrough; }` checked with
`FallthroughAllowed`: the body is checked with `BreakAllowed` and
`ContinueAllowed` only, and only the `fallthrough` is diagnosed. -/
theorem check_stmt_for_witness :
    check_stmt_internal toy for_with_branches toy_checker Stmt_FallthroughAllowed =
      some checker_after_for ∧
    own_calls checker_after_for.log =
      [(AstNode.BlockStmt [stmt_break 2 1, stmt_continue 3 1, stmt_fallthrough 4 1], 3)] ∧
    for_body_flags Stmt_FallthroughAllowed = 3 :=
  ⟨rfl,
   ((check_stmt_for toy none none none
      (.BlockStmt [stmt_break 2 1, stmt_continue 3 1, stmt_fallthrough 4 1])
      toy_checker checker_after_for Stmt_FallthroughAllowed rfl).1).trans rfl,
   rfl⟩

/-- C19 as stated fails: in `for { match v { case 1: fallthrough; case 2:
return; } }` the `fallthrough` is in the body of the `for`, but it ends a
clause of the `match` that is not the last, gets `FallthroughAllowed` from the
`match` (flags 7) and is not diagnosed. -/
theorem check_stmt_for_nested_match_fallthrough :
    (check_stmt_internal toy for_match_fallthrough toy_checker 0).map (fun c => c.log) =
      some [Event.stmt (.BlockStmt [match_fallthrough_last]) 3
        [Event.stmt match_fallthrough_last 3
          [Event.stmt (stmt_fallthrough 2 9) 7 [], Event.stmt (stmt_return 3 9) 3 []]]] ∧
    has_flag 7 Stmt_FallthroughAllowed = true :=
  ⟨rfl, rfl⟩

/-! ## Claims on `defer` -/

theorem all_stmts_mono_aux (Q R : AstNode → Nat → List Event → Prop)
    (hQR : ∀ node flags events, Q node flags events → R node flags events) (n : Nat) :
    ∀ evs : List Event, sizeOf evs ≤ n → events_all_stmts Q evs → events_all_stmts R evs := by
  induction n with
  | zero => intro evs hsz; cases evs <;> simp at hsz
  | succ n ih =>
    intro evs hsz h
    cases evs with
    | nil => rw [events_all_stmts_nil]; trivial
    | cons e rest =>
      rw [events_all_stmts_cons] at h ⊢
      simp at hsz
      refine ⟨?_, ih rest (by omega) h.2⟩
      cases e with
      | error pos msg => rw [all_stmts_error]; trivial
      | stmt node flags events =>
        rw [all_stmts_stmt]
        have h1 := h.1
        rw [all_stmts_stmt] at h1
        simp at hsz
        exact ⟨hQR _ _ _ h1.1, ih events (by omega) h1.2⟩

theorem events_all_stmts_mono (Q R : AstNode → Nat → List Event → Prop)
    (hQR : ∀ node flags events, Q node flags events → R node flags events) (evs : List Event)
    (h : events_all_stmts Q evs) : events_all_stmts R evs :=
  all_stmts_mono_aux Q R hQR (sizeOf evs) evs (Nat.le_refl _) h

theorem check_return_stmt_in_defer (C : Collaborators σ) (token : Token)
    (results : List AstNode) (c : Checker σ) (flags : Nat) (hd : c.in_defer = true) :
    (c.proc_stack ≠ [] → check_stmt_internal C (.ReturnStmt token results) c flags =
      some (error c token .return_within_defer)) ∧
    ∀ c1, check_stmt_internal C (.ReturnStmt token results) c flags = some c1 →
      c1 = error c token .return_within_defer := by
  rw [check_stmt_internal_ReturnStmt]
  unfold check_return_stmt
  constructor
  · intro hp
    cases hl : c.proc_stack.getLast? with
    | none => exact absurd (List.getLast?_eq_none_iff.mp hl) hp
    | some p => simp [hd]
  · intro c1 h
    cases hl : c.proc_stack.getLast? with
    | none => rw [hl] at h; cases h
    | some p =>
      rw [hl] at h
      simp only [hd, if_true] at h
      cases h
      rfl

theorem called_return_rejected (C : Collaborators σ) (node : AstNode) (flags : Nat)
    (events : List Event) (h : Called C true node flags events) :
    return_rejected node flags events := by
  intro token results hn
  subst hn
  obtain ⟨c0, c2, hd, hlog, hcall, hev⟩ := h
  have := (check_return_stmt_in_defer C token results c0 flags (hd rfl)).2 c2 hcall
  subst this
  rw [← hev]
  change c0.log ++ _ = _
  rw [hlog]
  rfl

/-- C15: a `DeferStmt` on a declaration is diagnosed and nothing is checked.
On any other statement, the statement is checked with the flags `0` in the
context with `in_defer` set and `in_defer` is then put back; when the check
returns, the record has grown by that one call, and every call on a
`ReturnStmt` in it, the deferred statement itself or a statement nested in it
at any depth, has left exactly the diagnostic that `return` is not allowed in
a defer statement.  A `ReturnStmt` checked with `in_defer` set reports the
diagnostic and changes nothing else: its results are not checked. -/
theorem check_stmt_defer (C : Collaborators σ) (token : Token) (stmt : AstNode)
    (c : Checker σ) (flags : Nat) :
    (C.is_ast_node_decl stmt = true →
      check_stmt_internal C (.DeferStmt token stmt) c flags =
        some { c with log := c.log ++ [Event.error token.pos .defer_declaration] }) ∧
    (C.is_ast_node_decl stmt = false →
      check_stmt_internal C (.DeferStmt token stmt) c flags =
        (check_stmt C stmt { c with in_defer := true } 0).map
          (fun c1 => { c1 with in_defer := c.in_defer }) ∧
      ∀ c1, check_stmt_internal C (.DeferStmt token stmt) c flags = some c1 →
        c1.in_defer = c.in_defer ∧
        ∃ events, c1.log = c.log ++ [Event.stmt stmt 0 events] ∧
          (Event.stmt stmt 0 events).all_stmts return_rejected) ∧
    (∀ (rtoken : Token) (results : List AstNode) (cr : Checker σ) (rflags : Nat),
      cr.in_defer = true → cr.proc_stack ≠ [] →
      check_stmt_internal C (.ReturnStmt rtoken results) cr rflags =
        some { cr with log := cr.log ++ [Event.error rtoken.pos .return_within_defer] }) := by
  refine ⟨?_, ?_, ?_⟩
  · intro hdecl
    rw [check_stmt_internal_DeferStmt, if_pos hdecl]
    rfl
  · intro hdecl
    have heq : check_stmt_internal C (.DeferStmt token stmt) c flags =
        (check_stmt C stmt { c with in_defer := true } 0).map
          (fun c1 => { c1 with in_defer := c.in_defer }) := by
      rw [check_stmt_internal_DeferStmt, if_neg (by simp [hdecl])]
      cases check_stmt C stmt { c with in_defer := true } 0 <;> rfl
    refine ⟨heq, ?_⟩
    intro c1 h
    rw [heq] at h
    cases hc : check_stmt C stmt { c with in_defer := true } 0 with
    | none => rw [hc] at h; cases h
    | some c2 =>
      rw [hc] at h
      cases h
      obtain ⟨events, hlog, _⟩ := check_stmt_with_log C _ _ _ _ _ hc
      obtain ⟨_, _, _, evs, hevs, hall⟩ :=
        frame_check_stmt_with C true stmt (checked_frame C true stmt)
          { c with in_defer := true } c2 0 (fun _ => rfl) hc
      have he : evs = [Event.stmt stmt 0 events] :=
        List.append_cancel_left (hevs.symm.trans hlog)
      rw [he, events_all_stmts_cons] at hall
      refine ⟨rfl, events, hlog, ?_⟩
      have hm := events_all_stmts_mono _ _ (called_return_rejected C) _
        ((events_all_stmts_cons _ _ _).mpr ⟨hall.1, hall.2⟩)
      rw [events_all_stmts_cons] at hm
      exact hm.1
  · intro rtoken results cr rflags hd hp
    exact (check_return_stmt_in_defer C rtoken results cr rflags hd).1 hp

/-- C15 at `defer { return; }`: the block is checked with the flags `0`, the
`return` nested in it leaves the diagnostic, and `in_defer` is as before. -/
theorem check_stmt_defer_witness :
    toy.is_ast_node_decl (.BlockStmt [stmt_return 2 3]) = false ∧
    check_stmt_internal toy defer_block_return toy_checker 0 = some checker_after_defer ∧
    checker_after_defer.in_defer = toy_checker.in_defer ∧
    ∃ events, checker_after_defer.log =
        toy_checker.log ++ [Event.stmt (.BlockStmt [stmt_return 2 3]) 0 events] ∧
      (Event.stmt (.BlockStmt [stmt_return 2 3]) 0 events).all_stmts return_rejected :=
  ⟨rfl, rfl,
   ((check_stmt_defer toy (tok .Token_Ident "defer" 1 1) (.BlockStmt [stmt_return 2 3])
      toy_checker 0).2.1 rfl).2 checker_after_defer rfl⟩

/-! ## Claims on the `default` clauses of a match -/

theorem multiple_default_errors_append (a b : List Event) :
    multiple_default_errors (a ++ b) = multiple_default_errors a ++ multiple_default_errors b := by
  unfold multiple_default_errors
  rw [own_errors_append, List.filter_append]

theorem duplicate_case_errors_append (a b : List Event) :
    duplicate_case_errors (a ++ b) = duplicate_case_errors a ++ duplicate_case_errors b := by
  unfold duplicate_case_errors
  rw [own_errors_append, List.filter_append]

theorem check_assign_rhs_eq (C : Collaborators σ) :
    ∀ (rhs : List AstNode) (c : Checker σ) (operands : List Operand),
      (∀ c1 e, e ∈ rhs → (C.check_multi_expr c1 e).2.type ≠ none) →
      check_assign_rhs C rhs c operands =
        some (rhs.foldl
          (fun st e => (st.1.set_info (C.check_multi_expr st.1 e).1,
            st.2 ++ fan_out (C.check_multi_expr st.1 e).2))
          (c, operands)) := by
  intro rhs
  induction rhs with
  | nil => intro c operands _; rfl
  | cons r rest ih =>
    intro c operands hnn
    have hrest : ∀ c1 e, e ∈ rest → (C.check_multi_expr c1 e).2.type ≠ none :=
      fun c1 e he => hnn c1 e (List.mem_cons_of_mem _ he)
    have hr := hnn c r (List.mem_cons_self _ _)
    rw [check_assign_rhs, List.foldl_cons]
    dsimp only
    cases ht : (C.check_multi_expr c r).2.type with
    | none => exact absurd ht hr
    | some t =>
      cases t <;> simp only [fan_out, ht] <;> exact ih _ _ hrest

theorem check_assign_pairs_eq (C : Collaborators σ) :
    ∀ (lhs : List AstNode) (operands : List Operand) (c : Checker σ),
      check_assign_pairs C lhs operands c = assign_variables C (operands.zip lhs) c := by
  intro lhs
  induction lhs with
  | nil => intro operands c; cases operands <;> simp [check_assign_pairs, assign_variables]
  | cons l rest ih =>
    intro operands c
    cases operands with
    | nil => simp [check_assign_pairs, assign_variables]
    | cons o orest =>
      rw [check_assign_pairs, ih]
      rfl

theorem assignment_pairs_eq (lhs : List AstNode) (operands : List Operand) :
    assignment_pairs lhs operands = operands.zip lhs := by
  unfold assignment_pairs
  rw [Nat.min_comm]
  exact (List.zip_eq_zip_take_min operands lhs).symm

theorem fanned_out_operands_log (C : Collaborators σ) :
    ∀ (rhs : List AstNode) (st : Checker σ × List Operand),
      (rhs.foldl
        (fun st e => (st.1.set_info (C.check_multi_expr st.1 e).1,
          st.2 ++ fan_out (C.check_multi_expr st.1 e).2)) st).1.log = st.1.log := by
  intro rhs
  induction rhs with
  | nil => intro st; rfl
  | cons r rest ih =>
    intro st
    rw [List.foldl_cons, ih]
    rfl

theorem check_assignable_log (C : Collaborators σ) (c : Checker σ) (op_b : Operand) :
    ∃ evs, (check_assignable C c op_b).log = c.log ++ evs ∧
      ∀ ev ∈ evs, ev.is_cannot_assign = true := by
  unfold check_assignable
  split
  · exact ⟨[], by simp, by simp⟩
  · dsimp only
    split
    · exact ⟨[_], rfl, by simp [Event.is_cannot_assign]⟩
    · exact ⟨[_], rfl, by simp [Event.is_cannot_assign]⟩

theorem check_assignment_variable_log (C : Collaborators σ) (c : Checker σ) (op_a : Operand)
    (lhs : AstNode) :
    ∃ evs, (check_assignment_variable C c op_a lhs).1.log = c.log ++ evs ∧
      ∀ ev ∈ evs, ev.is_cannot_assign = true := by
  have hnone : ∃ evs : List Event, c.log = c.log ++ evs ∧
      ∀ ev ∈ evs, ev.is_cannot_assign = true := ⟨[], by simp, by simp⟩
  have key : ∀ c0 : Checker σ, c0.log = c.log → ∀ (op_b : Operand) (t : Option Ty)
      (name : String),
      ∃ evs, (check_assignment C (check_assignable C c0 op_b) op_a t name).1.log =
          c.log ++ evs ∧ ∀ ev ∈ evs, ev.is_cannot_assign = true := by
    intro c0 h0 op_b t name
    rw [← h0]
    exact check_assignable_log C c0 op_b
  unfold check_assignment_variable
  dsimp only
  repeat' split
  all_goals first
    | exact hnone
    | exact key _ (by rfl) _ _ _

theorem assign_variables_log (C : Collaborators σ) :
    ∀ (pairs : List (Operand × AstNode)) (c : Checker σ),
      ∃ evs, (assign_variables C pairs c).log = c.log ++ evs ∧
        ∀ ev ∈ evs, ev.is_cannot_assign = true := by
  intro pairs
  induction pairs with
  | nil => intro c; exact ⟨[], by simp [assign_variables], by simp⟩
  | cons p rest ih =>
    intro c
    obtain ⟨evs1, h1, h2⟩ := check_assignment_variable_log C c p.1 p.2
    obtain ⟨evs2, h3, h4⟩ := ih (check_assignment_variable C c p.1 p.2).1
    refine ⟨evs1 ++ evs2, ?_, ?_⟩
    · unfold assign_variables at h3 ⊢
      rw [List.foldl_cons, h3, h1, List.append_assoc]
    · intro ev hev
      rcases List.mem_append.mp hev with h | h
      · exact h2 ev h
      · exact h4 ev h

/-- C16: for an `=` `AssignStmt` with a non-empty left side whose right-hand
expressions all have a type, the check returns; with `rhs_count` the number of
operands after fan-out, `check_assignment_variable` was applied to the pairs
(operand `i`, lhs `i`) for `i < min(lhs_count, rhs_count)`, in order, and to
nothing else; these calls add only "Cannot assign to" diagnostics to the
record, and after them the record grows by the "Assignment count mismatch"
diagnostic at the first left-hand expression when `lhs_count` differs from
`rhs_count`, and by nothing otherwise. -/
theorem check_stmt_assign (C : Collaborators σ) (op : Token) (lhs0 : AstNode)
    (lrest rhs : List AstNode) (c : Checker σ) (flags : Nat) (hop : op.kind = .Token_Eq)
    (hnn : ∀ c1 e, e ∈ rhs → (C.check_multi_expr c1 e).2.type ≠ none) :
    (assignment_pairs (lhs0 :: lrest) (fanned_out_operands C rhs c).2).length =
      min (lhs0 :: lrest).length (fanned_out_operands C rhs c).2.length ∧
    (∀ (i : Nat) (o : Operand) (l : AstNode),
      (fanned_out_operands C rhs c).2[i]? = some o → (lhs0 :: lrest)[i]? = some l →
      (assignment_pairs (lhs0 :: lrest) (fanned_out_operands C rhs c).2)[i]? = some (o, l)) ∧
    ∃ evs : List Event, (∀ ev ∈ evs, ev.is_cannot_assign = true) ∧
      (assign_variables C (assignment_pairs (lhs0 :: lrest) (fanned_out_operands C rhs c).2)
        (fanned_out_operands C rhs c).1).log = c.log ++ evs ∧
      check_stmt_internal C (.AssignStmt op (lhs0 :: lrest) rhs) c flags =
        some { assign_variables C
            (assignment_pairs (lhs0 :: lrest) (fanned_out_operands C rhs c).2)
            (fanned_out_operands C rhs c).1 with
          log := c.log ++ evs ++
            if (lhs0 :: lrest).length ≠ (fanned_out_operands C rhs c).2.length then
              [Event.error (C.ast_node_token lhs0).pos
                (.assignment_count_mismatch (lhs0 :: lrest).length
                  (fanned_out_operands C rhs c).2.length)]
            else [] } := by
  have hrhs : check_assign_rhs C rhs c [] = some (fanned_out_operands C rhs c) :=
    check_assign_rhs_eq C rhs c [] hnn
  have hlog1 : (fanned_out_operands C rhs c).1.log = c.log :=
    fanned_out_operands_log C rhs (c, [])
  rw [assignment_pairs_eq]
  refine ⟨?_, ?_, ?_⟩
  · rw [List.length_zip, Nat.min_comm]
  · intro i o l ho hl
    exact List.getElem?_zip_eq_some.mpr ⟨ho, hl⟩
  · obtain ⟨evs, hlog2, hevs⟩ := assign_variables_log C
      ((fanned_out_operands C rhs c).2.zip (lhs0 :: lrest)) (fanned_out_operands C rhs c).1
    rw [hlog1] at hlog2
    refine ⟨evs, hevs, hlog2, ?_⟩
    rw [check_stmt_internal_AssignStmt]
    unfold check_assign_stmt
    simp only [hop]
    rw [hrhs]
    dsimp only
    rw [check_assign_pairs_eq]
    by_cases hne : (lhs0 :: lrest).length ≠ (fanned_out_operands C rhs c).2.length
    · rw [if_pos hne, if_pos hne]
      simp only [error_node, error, hlog2]
    · rw [if_neg hne, if_neg hne]
      rw [List.append_nil, ← hlog2]

/-- C16 at `a, b = 1;`: one operand for two left-hand expressions, so
`check_assignment_variable` is applied to the pair of `1` and `a` only and the
"Assignment count mismatch `2` = `1`" diagnostic is reported at `a`; and at
`1 = 2;`, where the one call reports "Cannot assign to" at the literal `1` and
the counts agree. -/
theorem check_stmt_assign_witness :
    (fanned_out_operands toy [lit "1" 1 8] toy_checker).2 = [toy_operand (lit "1" 1 8)] ∧
    assignment_pairs [.Ident (tok .Token_Ident "a" 1 1), .Ident (tok .Token_Ident "b" 1 4)]
        [toy_operand (lit "1" 1 8)] =
      [(toy_operand (lit "1" 1 8), .Ident (tok .Token_Ident "a" 1 1))] ∧
    check_stmt_internal toy stmt_assign_two_one toy_checker 0 =
      some { toy_checker with log :=
        [Event.error ⟨"main.odin", 1, 1⟩ (.assignment_count_mismatch 2 1)] } ∧
    check_stmt_internal toy stmt_assign_to_literal toy_checker 0 =
      some { toy_checker with log :=
        [Event.error ⟨"main.odin", 1, 1⟩ (.cannot_assign_to (lit "1" 1 1))] } ∧
    ∃ evs : List Event, (∀ ev ∈ evs, ev.is_cannot_assign = true) ∧
      check_stmt_internal toy stmt_assign_two_one toy_checker 0 =
        some { toy_checker with log := toy_checker.log ++ evs ++
          [Event.error ⟨"main.odin", 1, 1⟩ (.assignment_count_mismatch 2 1)] } :=
  ⟨rfl, rfl, rfl, rfl,
   (check_stmt_assign toy (tok .Token_Eq "=" 1 6) (.Ident (tok .Token_Ident "a" 1 1))
      [.Ident (tok .Token_Ident "b" 1 4)] [lit "1" 1 8] toy_checker 0 rfl
      (fun _ e he => by
        rw [List.mem_singleton.mp he]
        exact Option.some_ne_none _)).2.2.elim fun evs h => ⟨evs, h.1, h.2.2.trans rfl⟩⟩

/-! ## Claims on `when` -/

theorem when_branch_eq (C : Collaborators σ) (cond : AstNode) (body else_stmt : Option AstNode)
    (c : Checker σ) :
    when_branch C (.WhenStmt cond body else_stmt) c =
      if (check_expr C c cond).2.mode = .Addressing_Constant ∧
          C.is_type_boolean (check_expr C c cond).2.type then
        match body with
        | some (.BlockStmt stmts) =>
            if (check_expr C c cond).2.value = .Bool true then stmts
            else
              match else_stmt with
              | some (.BlockStmt estmts) => estmts
              | some (.WhenStmt c2 b2 e2) =>
                  when_branch C (.WhenStmt c2 b2 e2) (check_expr C c cond).1
              | _ => []
        | _ => []
      else [] := by
  cases body with
  | none => rfl
  | some b =>
    cases b <;> first
      | rfl
      | (cases else_stmt with
          | none => rfl
          | some e => cases e <;> rfl)

theorem check_when_stmt_calls_aux (C : Collaborators σ) (flags : Nat) (n : Nat) :
    ∀ (cond : AstNode) (body else_stmt : Option AstNode) (c c1 : Checker σ),
      sizeOf (AstNode.WhenStmt cond body else_stmt) ≤ n →
      check_stmt_internal C (.WhenStmt cond body else_stmt) c flags = some c1 →
      own_calls c1.log = own_calls c.log ++
        stmt_list_calls (when_branch C (.WhenStmt cond body else_stmt) c) flags := by
  induction n with
  | zero => intro cond body else_stmt c c1 hsz; simp at hsz
  | succ n ih =>
    intro cond body else_stmt c c1 hsz h
    rw [check_stmt_internal_WhenStmt] at h
    rw [when_branch_eq]
    have hnil : stmt_list_calls [] flags = [] := rfl
    have herr : ∀ (node : AstNode) (msg : Message),
        own_calls (error_node C (check_expr C c cond).1 node msg).log =
          own_calls c.log ++ [] := by
      intro node msg
      simp [error_node, error, own_calls_append, own_calls, check_expr, Checker.set_info]
    by_cases hc : (check_expr C c cond).2.mode = .Addressing_Constant ∧
        C.is_type_boolean (check_expr C c cond).2.type = true
    · rw [if_pos hc]
      rw [if_neg (by simp [hc.1, hc.2])] at h
      cases body with
      | none =>
        dsimp only at h ⊢
        cases h
        exact herr _ _
      | some b =>
        cases b with
        | BlockStmt stmts =>
          dsimp only at h ⊢
          by_cases hv : (check_expr C c cond).2.value = .Bool true
          · rw [if_pos hv] at h ⊢
            exact (check_stmt_list_log C stmts _ _ _ h).1
          · rw [if_neg hv] at h ⊢
            cases else_stmt with
            | none =>
              dsimp only at h ⊢
              cases h
              rw [hnil, List.append_nil]
              rfl
            | some e =>
              cases e with
              | BlockStmt estmts =>
                dsimp only at h ⊢
                exact (check_stmt_list_log C estmts _ _ _ h).1
              | WhenStmt c2 b2 e2 =>
                dsimp only at h ⊢
                simp at hsz
                exact ih c2 b2 e2 _ _ (by simp; omega) h
              | _ =>
                dsimp only at h ⊢
                cases h
                exact herr _ _
        | _ =>
          dsimp only at h ⊢
          cases h
          exact herr _ _
    · rw [if_neg hc]
      rw [if_pos (by
        by_cases h1 : (check_expr C c cond).2.mode = .Addressing_Constant
        · right
          simpa [h1] using hc
        · left
          exact h1)] at h
      cases h
      exact herr _ _

theorem check_when_stmt_calls (C : Collaborators σ) (cond : AstNode)
    (body else_stmt : Option AstNode) (c c1 : Checker σ) (flags : Nat)
    (h : check_stmt_internal C (.WhenStmt cond body else_stmt) c flags = some c1) :
    own_calls c1.log = own_calls c.log ++
      stmt_list_calls (when_branch C (.WhenStmt cond body else_stmt) c) flags :=
  check_when_stmt_calls_aux C flags _ cond body else_stmt c c1 (Nat.le_refl _) h

/-- C18 (amended): when the check of a `WhenStmt` returns, the calls of
`check_stmt` it made are those of `check_stmt_list` on the statements of the
one branch chosen, and no other: for a constant boolean condition and a body
that is a block, the body when the condition is true, otherwise the `else`
block, or the branch chosen in the same way by the `else` `WhenStmt`.  When
the condition is not a constant boolean, or the body is not a block, the one
diagnostic for it is reported at the condition and nothing is checked. -/
theorem check_when_stmt_branch (C : Collaborators σ) (cond : AstNode)
    (body else_stmt : Option AstNode) (c c1 : Checker σ) (flags : Nat)
    (h : check_when_stmt C cond body else_stmt c flags = some c1) :
    own_calls c1.log = own_calls c.log ++
      stmt_list_calls (when_branch C (.WhenStmt cond body else_stmt) c) flags ∧
    (¬ ((check_expr C c cond).2.mode = .Addressing_Constant ∧
        C.is_type_boolean (check_expr C c cond).2.type = true) →
      when_branch C (.WhenStmt cond body else_stmt) c = [] ∧
      c1 = error_node C (check_expr C c cond).1 cond .non_constant_boolean_when_condition) ∧
    ((check_expr C c cond).2.mode = .Addressing_Constant ∧
        C.is_type_boolean (check_expr C c cond).2.type = true →
      (∀ stmts, body ≠ some (.BlockStmt stmts)) →
      when_branch C (.WhenStmt cond body else_stmt) c = [] ∧
      c1 = error_node C (check_expr C c cond).1 cond .invalid_body_for_when) ∧
    ((check_expr C c cond).2.mode = .Addressing_Constant ∧
        C.is_type_boolean (check_expr C c cond).2.type = true →
      ∀ stmts, body = some (.BlockStmt stmts) →
      ((check_expr C c cond).2.value = .Bool true →
        when_branch C (.WhenStmt cond body else_stmt) c = stmts) ∧
      ((check_expr C c cond).2.value ≠ .Bool true →
        (else_stmt = none → when_branch C (.WhenStmt cond body else_stmt) c = []) ∧
        (∀ estmts, else_stmt = some (.BlockStmt estmts) →
          when_branch C (.WhenStmt cond body else_stmt) c = estmts) ∧
        (∀ c2 b2 e2, else_stmt = some (.WhenStmt c2 b2 e2) →
          when_branch C (.WhenStmt cond body else_stmt) c =
            when_branch C (.WhenStmt c2 b2 e2) (check_expr C c cond).1))) := by
  unfold check_when_stmt at h
  refine ⟨check_when_stmt_calls C cond body else_stmt c c1 flags h, ?_, ?_, ?_⟩
  · intro hc
    rw [when_branch_eq, if_neg hc]
    refine ⟨rfl, ?_⟩
    rw [check_stmt_internal_WhenStmt, if_pos (by
      by_cases h1 : (check_expr C c cond).2.mode = .Addressing_Constant
      · right
        simpa [h1] using hc
      · left
        exact h1)] at h
    cases h
    rfl
  · intro hc hb
    rw [when_branch_eq, if_pos hc]
    rw [check_stmt_internal_WhenStmt, if_neg (by simp [hc.1, hc.2])] at h
    cases body with
    | none =>
      dsimp only at h ⊢
      cases h
      exact ⟨rfl, rfl⟩
    | some b =>
      cases b with
      | BlockStmt stmts => exact absurd rfl (hb stmts)
      | _ =>
        dsimp only at h ⊢
        cases h
        exact ⟨rfl, rfl⟩
  · intro hc stmts hb
    subst hb
    rw [when_branch_eq, if_pos hc]
    dsimp only
    refine ⟨fun hv => by rw [if_pos hv], fun hv => ?_⟩
    rw [if_neg hv]
    refine ⟨fun he => by subst he; rfl, fun estmts he => by subst he; rfl,
      fun c2 b2 e2 he => by subst he; rfl⟩

/-- C18 at `when false { return; } else { return; }`: only the `return` of the
`else` block is checked. -/
theorem check_when_stmt_branch_witness :
    check_when_stmt toy_bool (.Ident (tok .Token_Ident "false" 1 6))
        (some (.BlockStmt [stmt_return 2 3])) (some (.BlockStmt [stmt_return 4 3]))
        toy_checker 0 =
      some { toy_checker with log := [Event.stmt (stmt_return 4 3) 0 []] } ∧
    when_branch toy_bool when_false_else toy_checker = [stmt_return 4 3] ∧
    own_calls [Event.stmt (stmt_return 4 3) 0 []] =
      own_calls toy_checker.log ++
        stmt_list_calls (when_branch toy_bool when_false_else toy_checker) 0 :=
  ⟨rfl, rfl,
   (check_when_stmt_branch toy_bool (.Ident (tok .Token_Ident "false" 1 6))
      (some (.BlockStmt [stmt_return 2 3])) (some (.BlockStmt [stmt_return 4 3]))
      toy_checker { toy_checker with log := [Event.stmt (stmt_return 4 3) 0 []] } 0 rfl).1⟩

/-- C18 as stated fails: a `WhenStmt` with the constant boolean condition
`false`, a body that is not a block and the `else` block `{ return; }` gets the
"Invalid body" diagnostic at the condition and the `else` branch is not
checked. -/
theorem check_when_stmt_invalid_body :
    (toy_bool_operand (.Ident (tok .Token_Ident "false" 1 6))).mode = .Addressing_Constant ∧
    toy_bool.is_type_boolean (toy_bool_operand (.Ident (tok .Token_Ident "false" 1 6))).type =
      true ∧
    check_stmt_internal toy_bool when_false_bad_body toy_checker 0 =
      some { toy_checker with log :=
        [Event.error ⟨"main.odin", 1, 6⟩ .invalid_body_for_when] } ∧
    own_calls [Event.error ⟨"main.odin", 1, 6⟩ .invalid_body_for_when] = [] :=
  ⟨rfl, rfl, rfl, rfl⟩

/-! ## Claims on `using` -/

theorem check_stmt_internal_UsingStmt (C : Collaborators σ) (token : Token) (node : AstNode)
    (c : Checker σ) (flags : Nat) :
    check_stmt_internal C (.UsingStmt token node) c flags = check_using_stmt C token node c :=
  rfl

theorem scope_lookup_entity_mk (elements : List (String × Entity)) (parent : Option Scope)
    (name : String) (e : Entity) (h : map_entity_get elements name = some e) :
    scope_lookup_entity (.mk elements parent) name = some e := by
  rw [scope_lookup_entity, h]

theorem map_entity_get_append_some (elements more : List (String × Entity)) (name : String)
    (e : Entity) (h : map_entity_get elements name = some e) :
    map_entity_get (elements ++ more) name = some e := by
  unfold map_entity_get at h ⊢
  cases hf : elements.find? (fun en => decide (en.1 = name)) with
  | none => rw [hf] at h; cases h
  | some en =>
    rw [hf] at h
    rw [List.find?_append, hf]
    exact h

theorem map_entity_get_append_none (elements : List (String × Entity)) (n name : String)
    (b : Entity) (h : map_entity_get elements name = none) (hn : n ≠ name) :
    map_entity_get (elements ++ [(n, b)]) name = none := by
  unfold map_entity_get at h ⊢
  cases hf : elements.find? (fun en => decide (en.1 = name)) with
  | some en => rw [hf] at h; cases h
  | none =>
    rw [List.find?_append, hf]
    simp [hn]

theorem using_import_entries_before (C : Collaborators σ) (token : Token) (expr : AstNode)
    (hget : ∀ info s, C.context_scope (C.set_context_scope info s) = s) (rest : List Entity) :
    ∀ (before : List Entity) (c : Checker σ),
      (∀ b ∈ before, map_entity_get (C.context_scope c.info).elements b.token.string = none) →
      (before.map (fun b => b.token.string)).Nodup →
      ∃ c2 : Checker σ,
        using_import_entries C token expr (before ++ rest) c =
          using_import_entries C token expr rest c2 ∧
        c2.log = c.log ∧ c2.in_defer = c.in_defer ∧ c2.proc_stack = c.proc_stack ∧
        c2.stmt_state_flags = c.stmt_state_flags ∧
        C.context_scope c2.info =
          .mk ((C.context_scope c.info).elements ++ before.map (fun b => (b.token.string, b)))
            (C.context_scope c.info).parent := by
  intro before
  induction before with
  | nil =>
    intro c _ _
    refine ⟨c, rfl, rfl, rfl, rfl, rfl, ?_⟩
    cases C.context_scope c.info
    simp [Scope.elements, Scope.parent]
  | cons b bs ih =>
    intro c hnone hnodup
    have hb := hnone b (List.mem_cons_self _ _)
    rw [List.map_cons, List.nodup_cons] at hnodup
    have hstep : using_import_entries C token expr (b :: bs ++ rest) c =
        using_import_entries C token expr (bs ++ rest)
          (c.set_info (C.set_context_scope c.info
            (.mk ((C.context_scope c.info).elements ++ [(b.token.string, b)])
              (C.context_scope c.info).parent))) := by
      rw [List.cons_append, using_import_entries]
      simp only [insert_in_context_scope, scope_insert_entity, hb]
    have hscope : C.context_scope (c.set_info (C.set_context_scope c.info
        (.mk ((C.context_scope c.info).elements ++ [(b.token.string, b)])
          (C.context_scope c.info).parent))).info =
        .mk ((C.context_scope c.info).elements ++ [(b.token.string, b)])
          (C.context_scope c.info).parent := hget _ _
    obtain ⟨c2, h1, h2, h3, h4, h5, h6⟩ := ih
      (c.set_info (C.set_context_scope c.info
        (.mk ((C.context_scope c.info).elements ++ [(b.token.string, b)])
          (C.context_scope c.info).parent)))
      (by
        intro b2 hb2
        rw [hscope]
        apply map_entity_get_append_none _ _ _ _ (hnone b2 (List.mem_cons_of_mem _ hb2))
        intro heq
        exact hnodup.1 (List.mem_map.mpr ⟨b2, hb2, heq.symm⟩))
      hnodup.2
    refine ⟨c2, hstep.trans h1, h2, h3, h4, h5, ?_⟩
    rw [h6, hscope]
    simp [Scope.elements, Scope.parent]

theorem using_import_first_collision (C : Collaborators σ) (token : Token)
    (es_expr : AstNode) (c : Checker σ) (flags : Nat) (e decl original : Entity)
    (before after : List Entity)
    (hget : ∀ info s, C.context_scope (C.set_context_scope info s) = s)
    (hentity : (using_expr_entity C c (C.unparen_expr es_expr)).2.1 = some e)
    (hscope : C.context_scope (using_expr_entity C c (C.unparen_expr es_expr)).1.info =
      C.context_scope c.info)
    (hkind : e.kind = .Entity_ImportName)
    (hentries : e.ImportName_scope = before ++ decl :: after)
    (hnames : (before.map (fun b => b.token.string)).Nodup)
    (hbefore : ∀ b ∈ before,
      map_entity_get (C.context_scope c.info).elements b.token.string = none)
    (hdecl : map_entity_get (C.context_scope c.info).elements decl.token.string =
      some original) :
    ∃ c1, check_stmt_internal C (.UsingStmt token (.ExprStmt es_expr)) c flags = some c1 ∧
      c1.log = c.log ++ [Event.error token.pos
        (.namespace_collision_at (C.unparen_expr es_expr) original.token.string
          original.token.pos decl.token.pos)] ∧
      scope_lookup_entity (C.context_scope c1.info) decl.token.string = some original ∧
      ∀ name found, map_entity_get (C.context_scope c.info).elements name = some found →
        scope_lookup_entity (C.context_scope c1.info) name = some found := by
  have hrep := reports_using_expr_entity C c (C.unparen_expr es_expr)
  have hlog0 : (using_expr_entity C c (C.unparen_expr es_expr)).1.log = c.log := by
    unfold using_expr_entity
    split <;> rfl
  obtain ⟨c2, h1, h2, _, _, _, h6⟩ := using_import_entries_before C token
    (C.unparen_expr es_expr) hget (decl :: after) before
    (using_expr_entity C c (C.unparen_expr es_expr)).1
    (by rw [hscope]; exact hbefore) hnames
  rw [hscope] at h6
  have hfound : map_entity_get (C.context_scope c2.info).elements decl.token.string =
      some original := by
    rw [h6]
    exact map_entity_get_append_some _ _ _ _ hdecl
  have hstep : using_import_entries C token (C.unparen_expr es_expr) (decl :: after) c2 =
      error c2 token (.namespace_collision_at (C.unparen_expr es_expr) original.token.string
        original.token.pos decl.token.pos) := by
    rw [using_import_entries]
    simp only [insert_in_context_scope, scope_insert_entity, hfound]
  have hall : ∀ name found, map_entity_get (C.context_scope c.info).elements name = some found →
      scope_lookup_entity (C.context_scope c2.info) name = some found := by
    intro name found hname
    rw [h6]
    exact scope_lookup_entity_mk _ _ _ _ (map_entity_get_append_some _ _ _ _ hname)
  refine ⟨error c2 token (.namespace_collision_at (C.unparen_expr es_expr)
    original.token.string original.token.pos decl.token.pos), ?_, ?_, hall _ _ hdecl, hall⟩
  · rw [check_stmt_internal_UsingStmt]
    unfold check_using_stmt
    simp only [hentity]
    unfold using_entity
    simp only [hkind, hentries]
    rw [h1, hstep]
  · change c2.log ++ _ = _
    rw [h2, hlog0]

theorem first_colliding_split (elements : List (String × Entity)) :
    ∀ entries : List Entity,
      (∃ x ∈ entries, map_entity_get elements x.token.string ≠ none) →
      ∃ before decl after, entries = before ++ decl :: after ∧
        (∀ b ∈ before, map_entity_get elements b.token.string = none) ∧
        map_entity_get elements decl.token.string ≠ none := by
  intro entries
  induction entries with
  | nil => rintro ⟨x, hx, _⟩; cases hx
  | cons a rest ih =>
    rintro ⟨x, hx, hp⟩
    by_cases ha : map_entity_get elements a.token.string = none
    · have hxr : x ∈ rest := by
        rcases List.mem_cons.mp hx with rfl | h
        · exact absurd ha hp
        · exact h
      obtain ⟨before, decl, after, h1, h2, h3⟩ := ih ⟨x, hxr, hp⟩
      refine ⟨a :: before, decl, after, by rw [h1]; rfl, ?_, h3⟩
      intro b hb
      rcases List.mem_cons.mp hb with rfl | h
      · exact ha
      · exact h2 b h
    · exact ⟨[], a, rest, rfl, fun b hb => absurd hb (List.not_mem_nil b), ha⟩

theorem first_colliding_unique (elements : List (String × Entity)) :
    ∀ (before pre : List Entity) (decl foo : Entity) (after post : List Entity),
      before ++ decl :: after = pre ++ foo :: post →
      (∀ b ∈ before, map_entity_get elements b.token.string = none) →
      (∀ b ∈ pre, map_entity_get elements b.token.string = none) →
      map_entity_get elements decl.token.string ≠ none →
      map_entity_get elements foo.token.string ≠ none → decl = foo := by
  intro before
  induction before with
  | nil =>
    intro pre decl foo after post h _ hpre hd _
    cases pre with
    | nil =>
      simp only [List.nil_append, List.cons.injEq] at h
      exact h.1
    | cons x pre =>
      simp only [List.nil_append, List.cons_append, List.cons.injEq] at h
      exact absurd (h.1 ▸ hpre x (List.mem_cons_self _ _)) hd
  | cons b bs ih =>
    intro pre decl foo after post h hb hpre hd hf
    cases pre with
    | nil =>
      simp only [List.nil_append, List.cons_append, List.cons.injEq] at h
      exact absurd (h.1 ▸ hb b (List.mem_cons_self _ _)) hf
    | cons x pre =>
      simp only [List.cons_append, List.cons.injEq] at h
      exact ih pre decl foo after post h.2 (fun y hy => hb y (List.mem_cons_of_mem _ hy))
        (fun y hy => hpre y (List.mem_cons_of_mem _ hy)) hd hf

/-- C20, amended: `using` applied to an expression that resolves to an import
name whose scope exports an entity `foo` under a name the current scope maps to
`original`: the check returns with exactly one diagnostic more, the namespace
collision at the `using` token, which cites the two positions of the first
exported entity `decl`, in the order of the import's scope, whose name the
current scope already defines (the entity `first`); `decl` is `foo`, and the
positions are those of `original` and `foo`, when no entity exported before
`foo` has such a name.  Afterwards every name the current scope defined
resolves to the entity it resolved to, so the name of `foo` to `original`.  The
scope table follows the specification: a lookup of the contents written to the
current scope reads them back, and the import's scope exports each name once. -/
theorem check_stmt_using_import_collision (C : Collaborators σ) (token : Token)
    (es_expr : AstNode) (c : Checker σ) (flags : Nat) (e foo original : Entity)
    (hget : ∀ info s, C.context_scope (C.set_context_scope info s) = s)
    (hentity : (using_expr_entity C c (C.unparen_expr es_expr)).2.1 = some e)
    (hscope : C.context_scope (using_expr_entity C c (C.unparen_expr es_expr)).1.info =
      C.context_scope c.info)
    (hkind : e.kind = .Entity_ImportName)
    (hnames : (e.ImportName_scope.map (fun b => b.token.string)).Nodup)
    (hfoo : foo ∈ e.ImportName_scope)
    (hdef : map_entity_get (C.context_scope c.info).elements foo.token.string =
      some original) :
    ∃ (c1 : Checker σ) (before : List Entity) (decl : Entity) (after : List Entity)
      (first : Entity),
      e.ImportName_scope = before ++ decl :: after ∧
      (∀ b ∈ before,
        map_entity_get (C.context_scope c.info).elements b.token.string = none) ∧
      map_entity_get (C.context_scope c.info).elements decl.token.string = some first ∧
      foo ∈ decl :: after ∧
      check_stmt_internal C (.UsingStmt token (.ExprStmt es_expr)) c flags = some c1 ∧
      c1.log = c.log ++ [Event.error token.pos
        (.namespace_collision_at (C.unparen_expr es_expr) first.token.string
          first.token.pos decl.token.pos)] ∧
      scope_lookup_entity (C.context_scope c1.info) foo.token.string = some original ∧
      (∀ name found, map_entity_get (C.context_scope c.info).elements name = some found →
        scope_lookup_entity (C.context_scope c1.info) name = some found) ∧
      ((∀ pre post, e.ImportName_scope = pre ++ foo :: post →
          ∀ b ∈ pre, map_entity_get (C.context_scope c.info).elements b.token.string = none) →
        decl = foo ∧ first = original) := by
  have hcoll : map_entity_get (C.context_scope c.info).elements foo.token.string ≠ none := by
    rw [hdef]
    exact Option.some_ne_none _
  obtain ⟨before, decl, after, hsplit, hbefore, hdecl⟩ :=
    first_colliding_split (C.context_scope c.info).elements e.ImportName_scope
      ⟨foo, hfoo, hcoll⟩
  obtain ⟨first, hfirst⟩ := Option.ne_none_iff_exists'.mp hdecl
  have hnb : (before.map (fun b => b.token.string)).Nodup := by
    rw [hsplit, List.map_append] at hnames
    exact (List.nodup_append.mp hnames).1
  obtain ⟨c1, h1, h2, _, h4⟩ := using_import_first_collision C token es_expr c flags e decl
    first before after hget hentity hscope hkind hsplit hnb hbefore hfirst
  refine ⟨c1, before, decl, after, first, hsplit, hbefore, hfirst, ?_, h1, h2,
    h4 _ _ hdef, h4, ?_⟩
  · rw [hsplit] at hfoo
    rcases List.mem_append.mp hfoo with h | h
    · exact absurd (hbefore foo h) hcoll
    · exact h
  · intro hpre
    obtain ⟨pre, post, hpp⟩ := List.append_of_mem hfoo
    have hdf : decl = foo := first_colliding_unique (C.context_scope c.info).elements
      before pre decl foo after post (hsplit.symm.trans hpp) hbefore (hpre pre post hpp)
      hdecl hcoll
    refine ⟨hdf, ?_⟩
    rw [hdf, hdef] at hfirst
    exact (Option.some.inj hfirst).symm

/-- C20 at scenario S4: the current scope defines `foo` (line 1) and `m` exports
`bar` and `foo` (`m.odin`, line 2); `using m;` reports one collision citing
both positions, and `foo` still resolves to the original entity. -/
theorem check_stmt_using_import_collision_witness :
    check_stmt_internal toy_scoped stmt_using_m checker_s4 0 = some checker_after_s4 ∧
    scope_lookup_entity checker_after_s4.info "foo" = some entity_foo_original ∧
    checker_after_s4.log = [Event.error ⟨"main.odin", 3, 1⟩
      (.namespace_collision_at (.Ident (tok .Token_Ident "m" 3 7)) "foo"
        ⟨"main.odin", 1, 1⟩ ⟨"m.odin", 2, 1⟩)] ∧
    ∃ (c1 : Checker Scope) (decl first : Entity),
      check_stmt_internal toy_scoped
        (.UsingStmt (tok .Token_Ident "using" 3 1)
          (.ExprStmt (.Ident (tok .Token_Ident "m" 3 7)))) checker_s4 0 = some c1 ∧
      c1.log = checker_s4.log ++ [Event.error (tok .Token_Ident "using" 3 1).pos
        (.namespace_collision_at
          (toy_scoped.unparen_expr (.Ident (tok .Token_Ident "m" 3 7)))
          first.token.string first.token.pos decl.token.pos)] ∧
      scope_lookup_entity (toy_scoped.context_scope c1.info) entity_foo_exported.token.string =
        some entity_foo_original :=
  ⟨rfl, rfl, rfl,
   (check_stmt_using_import_collision toy_scoped (tok .Token_Ident "using" 3 1)
     (.Ident (tok .Token_Ident "m" 3 7)) checker_s4 0 entity_import_m entity_foo_exported
     entity_foo_original (fun _ _ => rfl) rfl rfl rfl (by decide)
     (List.mem_cons_of_mem _ (List.mem_cons_self _ _)) rfl).elim fun c1 h =>
       h.elim fun _ h => h.elim fun decl h => h.elim fun _ h => h.elim fun first h =>
         ⟨c1, decl, first, h.2.2.2.2.1, h.2.2.2.2.2.1, h.2.2.2.2.2.2.1⟩⟩

/-- C20 as stated fails: the current scope defines `foo` (1:1) and `bar`
(1:10), and `m` exports `bar` (`m.odin` 1:1) and then `foo` (`m.odin` 2:1);
`using m;` reports one namespace collision, on `bar` with the positions of the
two definitions of `bar`, and returns: no diagnostic cites the definitions of
`foo`. -/
theorem check_stmt_using_import_earlier_collision :
    scope_lookup_entity scope_foo_bar "foo" = some entity_foo_original ∧
    entity_import_m.ImportName_scope = [entity_bar_exported, entity_foo_exported] ∧
    (check_stmt_internal toy_scoped stmt_using_m checker_foo_bar 0).map (fun c => c.log) =
      some [Event.error ⟨"main.odin", 3, 1⟩
        (.namespace_collision_at (.Ident (tok .Token_Ident "m" 3 7)) "bar"
          ⟨"main.odin", 1, 10⟩ ⟨"m.odin", 1, 1⟩)] ∧
    entity_foo_original.token.pos = ⟨"main.odin", 1, 1⟩ ∧
    entity_foo_exported.token.pos = ⟨"m.odin", 2, 1⟩ :=
  ⟨rfl, rfl, rfl, rfl, rfl⟩
/-! ## The interpreter: struct layout -/

theorem write_bytes_outside (mem : Memory) (dst bits n a : Nat) (h : a < dst ∨ dst + n ≤ a) :
    write_bytes mem dst bits n a = mem a := by
  unfold write_bytes
  rw [if_neg (by omega)]

theorem read_bytes_congr (m1 m2 : Memory) (p : Nat) :
    ∀ n, (∀ a, p ≤ a → a < p + n → m1 a = m2 a) → read_bytes m1 p n = read_bytes m2 p n := by
  intro n
  induction n with
  | zero => intro _; rfl
  | succ n ih =>
    intro h
    rw [read_bytes, read_bytes, ih (fun a h1 h2 => h a h1 (by omega)), h (p + n) (by omega) (by omega)]

theorem vm_store_Record (vm : VirtualMachine) (kind : TypeRecordKind) (fields : List Ty)
    (mem : Memory) (dst : Nat) (val : vmValue) :
    vm_store vm (.Record kind fields) mem dst val =
      if kind = .TypeRecord_Struct then
        if fields.length ≥ val.val_comp.length then
          vm_store_fields vm (.Record kind fields) dst fields val.val_comp 0 mem
        else none
      else some mem := by
  rw [vm_store]

theorem vm_load_Record (vm : VirtualMachine) (kind : TypeRecordKind) (fields : List Ty)
    (mem : Memory) (ptr : Nat) :
    vm_load vm (.Record kind fields) mem ptr =
      if kind = .TypeRecord_Struct then
        match vm_load_fields vm (.Record kind fields) ptr mem fields 0 with
        | none => none
        | some comp => some (.mk 0 comp)
      else some vmValue.zero := by
  rw [vm_load]

theorem vm_store_fields_cons (vm : VirtualMachine) (type : Ty) (dst : Nat) (f : Ty)
    (fields : List Ty) (member : vmValue) (rest : List vmValue) (i : Nat) (mem : Memory) :
    vm_store_fields vm type dst (f :: fields) (member :: rest) i mem =
      match vm_store vm f mem (dst + vm.vm_type_offset_of type i) member with
      | none => none
      | some mem1 => vm_store_fields vm type dst fields rest (i + 1) mem1 := by
  rw [vm_store_fields]

theorem vm_load_fields_cons (vm : VirtualMachine) (type : Ty) (ptr : Nat) (mem : Memory) (f : Ty)
    (fields : List Ty) (i : Nat) :
    vm_load_fields vm type ptr mem (f :: fields) i =
      match vm_load vm f mem (ptr + vm.vm_type_offset_of type i) with
      | none => none
      | some val =>
          match vm_load_fields vm type ptr mem fields (i + 1) with
          | none => none
          | some rest => some (val :: rest) := by
  rw [vm_load_fields]
theorem store_extent_Record (vm : VirtualMachine) (kind : TypeRecordKind) (fields : List Ty) :
    store_extent vm (.Record kind fields) = fields_extent vm (.Record kind fields) fields 0 := by
  rw [store_extent]

theorem fields_extent_cons (vm : VirtualMachine) (type : Ty) (f : Ty) (fields : List Ty) (i : Nat) :
    fields_extent vm type (f :: fields) i =
      max (vm.vm_type_offset_of type i + store_extent vm f)
        (fields_extent vm type fields (i + 1)) := by
  rw [fields_extent]

theorem laid_out_Record (vm : VirtualMachine) (kind : TypeRecordKind) (fields : List Ty) :
    laid_out vm (.Record kind fields) =
      (decide (kind = .TypeRecord_Struct) && fields_laid_out vm (.Record kind fields) fields 0) := by
  rw [laid_out]

theorem fields_laid_out_cons (vm : VirtualMachine) (type : Ty) (f : Ty) (fields : List Ty)
    (i : Nat) :
    fields_laid_out vm type (f :: fields) i =
      (laid_out vm f &&
        slot_clear vm type (vm.vm_type_offset_of type i) (store_extent vm f) fields (i + 1) &&
        fields_laid_out vm type fields (i + 1)) := by
  rw [fields_laid_out]

theorem fields_extent_slot (vm : VirtualMachine) (type : Ty) :
    ∀ (fields : List Ty) (i k : Nat) (g : Ty), fields.get? k = some g →
      vm.vm_type_offset_of type (i + k) + store_extent vm g ≤ fields_extent vm type fields i := by
  intro fields
  induction fields with
  | nil => intro i k g h; simp at h
  | cons f fields ih =>
    intro i k g h
    rw [fields_extent_cons]
    cases k with
    | zero =>
      simp at h
      subst h
      simp
    | succ k =>
      simp at h
      have := ih (i + 1) k g (by simpa using h)
      have e : i + 1 + k = i + (k + 1) := by omega
      rw [e] at this
      omega

theorem slot_clear_get (vm : VirtualMachine) (type : Ty) (lo len : Nat) :
    ∀ (fields : List Ty) (j k : Nat) (g : Ty), slot_clear vm type lo len fields j = true →
      fields.get? k = some g →
      lo + len ≤ vm.vm_type_offset_of type (j + k) ∨
        vm.vm_type_offset_of type (j + k) + store_extent vm g ≤ lo := by
  intro fields
  induction fields with
  | nil => intro j k g _ h; simp at h
  | cons f fields ih =>
    intro j k g hc h
    simp only [slot_clear, Bool.and_eq_true, Bool.or_eq_true, decide_eq_true_eq] at hc
    cases k with
    | zero =>
      simp at h
      subst h
      exact hc.1
    | succ k =>
      have := ih (j + 1) k g hc.2 (by simpa using h)
      have e : j + 1 + k = j + (k + 1) := by omega
      rw [e] at this
      exact this

/-- What a store of a type writes: nothing outside the extent of the type. -/
def StoreFrame (vm : VirtualMachine) (T : Ty) : Prop :=
  ∀ (mem mem1 : Memory) (p : Nat) (v : vmValue), vm_store vm T mem p v = some mem1 →
    ∀ a, a < p ∨ p + store_extent vm T ≤ a → mem1 a = mem a

/-- What a load of a type reads: nothing outside the extent of the type. -/
def LoadLocal (vm : VirtualMachine) (T : Ty) : Prop :=
  ∀ (m1 m2 : Memory) (p : Nat), (∀ a, p ≤ a → a < p + store_extent vm T → m1 a = m2 a) →
    vm_load vm T m1 p = vm_load vm T m2 p

/-- A store at an address that is not `NULL` succeeds and a load from the
address gives the stored value back. -/
def RoundTrip (vm : VirtualMachine) (T : Ty) : Prop :=
  ∀ (mem : Memory) (p : Nat) (v : vmValue), p ≠ 0 → one_per_field T v = true →
    ∃ mem1, vm_store vm T mem p v = some mem1 ∧ vm_load vm T mem1 p = some (stored_value vm T v)

theorem store_frame_Basic (vm : VirtualMachine) (kind : BasicKind)
    (h : is_scalar_kind kind = true) : StoreFrame vm (.Basic kind) := by
  intro mem mem1 p v hs a ha
  have hext : store_extent vm (.Basic kind) = stored_bytes vm kind := by rw [store_extent]
  rw [hext] at ha
  cases kind <;> simp [is_scalar_kind, is_integer_kind] at h <;>
    simp only [vm_store, vm_store_integer, stored_bytes] at hs ha <;>
    first
    | (split at hs
       · exact absurd hs (by simp)
       · simp only [Option.some.injEq] at hs
         rw [← hs]
         exact write_bytes_outside _ _ _ _ _ ha)
    | (simp only [Option.some.injEq] at hs
       rw [← hs]
       exact write_bytes_outside _ _ _ _ _ ha)

theorem load_local_Basic (vm : VirtualMachine) (kind : BasicKind)
    (h : is_scalar_kind kind = true) : LoadLocal vm (.Basic kind) := by
  intro m1 m2 p hm
  have hext : store_extent vm (.Basic kind) = stored_bytes vm kind := by rw [store_extent]
  rw [hext] at hm
  cases kind <;> simp [is_scalar_kind, is_integer_kind] at h <;>
    simp only [vm_load, vm_load_integer, stored_bytes] at hm ⊢ <;>
    rw [read_bytes_congr m1 m2 p _ hm]

theorem round_trip_Basic (vm : VirtualMachine) (kind : BasicKind)
    (h : is_scalar_kind kind = true) : RoundTrip vm (.Basic kind) := by
  intro mem p v hp _
  cases kind <;> simp [is_scalar_kind, is_integer_kind] at h <;>
    simp [vm_store, vm_load, vm_store_integer, vm_load_integer, stored_value, stored_bytes, hp,
      read_write_bytes, vmValue.val_f32, vmValue.val_f64, vmValue.val_ptr]
theorem vm_store_fields_nil (vm : VirtualMachine) (type : Ty) (dst : Nat)
    (comp : List vmValue) (i : Nat) (mem : Memory) :
    vm_store_fields vm type dst [] comp i mem = some mem := by
  cases comp <;> simp [vm_store_fields]

theorem vm_store_fields_no_comp (vm : VirtualMachine) (type : Ty) (dst : Nat)
    (fields : List Ty) (i : Nat) (mem : Memory) :
    vm_store_fields vm type dst fields [] i mem = some mem := by
  cases fields <;> simp [vm_store_fields]

theorem each_per_field_nil_cons (v : vmValue) (comp : List vmValue) :
    each_per_field [] (v :: comp) = false := by
  simp [each_per_field]

theorem each_per_field_cons_nil (f : Ty) (fields : List Ty) :
    each_per_field (f :: fields) [] = false := by
  simp [each_per_field]

theorem store_fields_frame (vm : VirtualMachine) (type : Ty) (dst : Nat) :
    ∀ (fields : List Ty) (comp : List vmValue) (i : Nat) (mem mem1 : Memory),
      (∀ f, f ∈ fields → StoreFrame vm f) →
      vm_store_fields vm type dst fields comp i mem = some mem1 →
      ∀ a, (∀ k g, fields.get? k = some g →
          a < dst + vm.vm_type_offset_of type (i + k) ∨
            dst + vm.vm_type_offset_of type (i + k) + store_extent vm g ≤ a) →
        mem1 a = mem a := by
  intro fields
  induction fields with
  | nil =>
    intro comp i mem mem1 _ hs a _
    rw [vm_store_fields_nil] at hs
    simp only [Option.some.injEq] at hs
    rw [hs]
  | cons f fields ih =>
    intro comp i mem mem1 hf hs a ha
    cases comp with
    | nil =>
      rw [vm_store_fields_no_comp] at hs
      simp only [Option.some.injEq] at hs
      rw [hs]
    | cons member rest =>
      rw [vm_store_fields_cons] at hs
      cases hst : vm_store vm f mem (dst + vm.vm_type_offset_of type i) member with
      | none => rw [hst] at hs; exact absurd hs (by simp)
      | some mem2 =>
        rw [hst] at hs
        have h1 : mem1 a = mem2 a := by
          apply ih rest (i + 1) mem2 mem1 (fun g hg => hf g (List.mem_cons_of_mem _ hg)) hs a
          intro k g hk
          have := ha (k + 1) g (by simpa using hk)
          have e : i + 1 + k = i + (k + 1) := by omega
          rw [e]
          exact this
        have h2 : mem2 a = mem a := by
          apply hf f (List.mem_cons_self _ _) mem mem2 _ member hst a
          have := ha 0 f (by simp)
          simp only [Nat.add_zero] at this
          omega
        rw [h1, h2]

theorem load_fields_local (vm : VirtualMachine) (type : Ty) (ptr : Nat) (m1 m2 : Memory) :
    ∀ (fields : List Ty) (i : Nat),
      (∀ f, f ∈ fields → LoadLocal vm f) →
      (∀ k g, fields.get? k = some g → ∀ a, ptr + vm.vm_type_offset_of type (i + k) ≤ a →
          a < ptr + vm.vm_type_offset_of type (i + k) + store_extent vm g → m1 a = m2 a) →
      vm_load_fields vm type ptr m1 fields i = vm_load_fields vm type ptr m2 fields i := by
  intro fields
  induction fields with
  | nil => intro i _ _; rw [vm_load_fields, vm_load_fields]
  | cons f fields ih =>
    intro i hf hm
    rw [vm_load_fields_cons, vm_load_fields_cons]
    have h1 : vm_load vm f m1 (ptr + vm.vm_type_offset_of type i) =
        vm_load vm f m2 (ptr + vm.vm_type_offset_of type i) := by
      apply hf f (List.mem_cons_self _ _)
      intro a ha1 ha2
      exact hm 0 f (by simp) a (by simpa using ha1) (by simpa using ha2)
    have h2 : vm_load_fields vm type ptr m1 fields (i + 1) =
        vm_load_fields vm type ptr m2 fields (i + 1) := by
      apply ih (i + 1) (fun g hg => hf g (List.mem_cons_of_mem _ hg))
      intro k g hk a ha1 ha2
      have e : i + 1 + k = i + (k + 1) := by omega
      rw [e] at ha1 ha2
      exact hm (k + 1) g (by simpa using hk) a ha1 ha2
    rw [h1, h2]

theorem each_per_field_cons (f : Ty) (fields : List Ty) (v : vmValue) (comp : List vmValue) :
    each_per_field (f :: fields) (v :: comp) = (one_per_field f v && each_per_field fields comp) := by
  rw [each_per_field]

theorem each_per_field_length :
    ∀ (fields : List Ty) (comp : List vmValue), each_per_field fields comp = true →
      comp.length = fields.length := by
  intro fields
  induction fields with
  | nil =>
    intro comp h
    cases comp with
    | nil => rfl
    | cons v comp => rw [each_per_field_nil_cons] at h; exact absurd h (by simp)
  | cons f fields ih =>
    intro comp h
    cases comp with
    | nil => rw [each_per_field_cons_nil] at h; exact absurd h (by simp)
    | cons v comp =>
      rw [each_per_field_cons] at h
      simp only [Bool.and_eq_true] at h
      simp [ih comp h.2]

theorem stored_values_cons (vm : VirtualMachine) (f : Ty) (fields : List Ty) (v : vmValue)
    (comp : List vmValue) :
    stored_values vm (f :: fields) (v :: comp) =
      stored_value vm f v :: stored_values vm fields comp := by
  rw [stored_values]

theorem round_trip_fields (vm : VirtualMachine) (type : Ty) (dst : Nat) (hdst : dst ≠ 0) :
    ∀ (fields : List Ty) (comp : List vmValue) (i : Nat) (mem : Memory),
      (∀ f, f ∈ fields → StoreFrame vm f ∧ LoadLocal vm f ∧ RoundTrip vm f) →
      fields_laid_out vm type fields i = true → each_per_field fields comp = true →
      ∃ mem1, vm_store_fields vm type dst fields comp i mem = some mem1 ∧
        vm_load_fields vm type dst mem1 fields i = some (stored_values vm fields comp) := by
  intro fields
  induction fields with
  | nil =>
    intro comp i mem _ _ hc
    cases comp with
    | nil =>
      refine ⟨mem, vm_store_fields_nil _ _ _ _ _ _, ?_⟩
      simp [vm_load_fields, stored_values]
    | cons v comp => rw [each_per_field_nil_cons] at hc; exact absurd hc (by simp)
  | cons f fields ih =>
    intro comp i mem hf hl hc
    cases comp with
    | nil => rw [each_per_field_cons_nil] at hc; exact absurd hc (by simp)
    | cons v comp =>
      rw [each_per_field_cons] at hc
      rw [fields_laid_out_cons] at hl
      simp only [Bool.and_eq_true] at hc hl
      obtain ⟨hsf, hll, hrt⟩ := hf f (List.mem_cons_self _ _)
      obtain ⟨mem2, hs2, hl2⟩ := hrt mem (dst + vm.vm_type_offset_of type i) v (by omega) hc.1
      obtain ⟨mem1, hs1, hl1⟩ := ih comp (i + 1) mem2
        (fun g hg => hf g (List.mem_cons_of_mem _ hg)) hl.2 hc.2
      refine ⟨mem1, ?_, ?_⟩
      · rw [vm_store_fields_cons, hs2]
        exact hs1
      · rw [vm_load_fields_cons, stored_values_cons]
        have hsame : vm_load vm f mem1 (dst + vm.vm_type_offset_of type i) =
            vm_load vm f mem2 (dst + vm.vm_type_offset_of type i) := by
          apply hll
          intro a ha1 ha2
          apply store_fields_frame vm type dst fields comp (i + 1) mem2 mem1
            (fun g hg => (hf g (List.mem_cons_of_mem _ hg)).1) hs1 a
          intro k g hk
          have := slot_clear_get vm type _ _ fields (i + 1) k g hl.1.2 hk
          omega
        rw [hsame, hl2, hl1]
theorem fields_laid_out_mem (vm : VirtualMachine) (type : Ty) :
    ∀ (fields : List Ty) (i : Nat), fields_laid_out vm type fields i = true →
      ∀ f, f ∈ fields → laid_out vm f = true := by
  intro fields
  induction fields with
  | nil => intro i _ f hf; simp at hf
  | cons g fields ih =>
    intro i h f hf
    rw [fields_laid_out_cons] at h
    simp only [Bool.and_eq_true] at h
    rcases List.mem_cons.1 hf with rfl | hf
    · exact h.1.1
    · exact ih (i + 1) h.2 f hf

theorem laid_out_store_load (vm : VirtualMachine) :
    ∀ (n : Nat) (T : Ty), sizeOf T ≤ n → laid_out vm T = true →
      StoreFrame vm T ∧ LoadLocal vm T ∧ RoundTrip vm T := by
  intro n
  induction n with
  | zero =>
    intro T hT
    cases T <;> simp at hT
  | succ n ih =>
    intro T hT hl
    cases T with
    | Basic kind =>
      have hk : is_scalar_kind kind = true := by rw [laid_out] at hl; exact hl
      exact ⟨store_frame_Basic vm kind hk, load_local_Basic vm kind hk, round_trip_Basic vm kind hk⟩
    | Record kind fields =>
      rw [laid_out_Record] at hl
      simp only [Bool.and_eq_true, decide_eq_true_eq] at hl
      obtain ⟨hkind, hfl⟩ := hl
      have hfields : ∀ f, f ∈ fields → StoreFrame vm f ∧ LoadLocal vm f ∧ RoundTrip vm f := by
        intro f hf
        apply ih f _ (fields_laid_out_mem vm _ fields 0 hfl f hf)
        have := List.sizeOf_lt_of_mem hf
        simp at hT
        omega
      refine ⟨?_, ?_, ?_⟩
      · intro mem mem1 p v hs a ha
        rw [vm_store_Record, if_pos hkind] at hs
        split at hs
        · apply store_fields_frame vm _ p fields v.val_comp 0 mem mem1
            (fun f hf => (hfields f hf).1) hs a
          intro k g hk
          have := fields_extent_slot vm (.Record kind fields) fields 0 k g hk
          rw [store_extent_Record] at ha
          omega
        · exact absurd hs (by simp)
      · intro m1 m2 p hm
        rw [vm_load_Record, vm_load_Record, if_pos hkind, if_pos hkind]
        rw [load_fields_local vm _ p m1 m2 fields 0 (fun f hf => (hfields f hf).2.1)]
        intro k g hk a ha1 ha2
        apply hm a (by omega)
        have := fields_extent_slot vm (.Record kind fields) fields 0 k g hk
        rw [store_extent_Record]
        omega
      · intro mem p v hp hv
        cases v with
        | mk x comp =>
          have hc : each_per_field fields comp = true := by
            rw [one_per_field] at hv
            exact hv
          obtain ⟨mem1, hs, hld⟩ := round_trip_fields vm (.Record kind fields) p hp fields comp 0
            mem hfields hfl hc
          refine ⟨mem1, ?_, ?_⟩
          · rw [vm_store_Record, if_pos hkind]
            have hlen := each_per_field_length fields comp hc
            rw [if_pos (by simp [vmValue.val_comp, hlen])]
            exact hs
          · rw [vm_load_Record, if_pos hkind, hld, stored_value]
    | _ => simp [laid_out] at hl

theorem stored_values_get (vm : VirtualMachine) :
    ∀ (fields : List Ty) (comp : List vmValue) (i : Nat) (f : Ty) (v : vmValue),
      fields.get? i = some f → comp.get? i = some v →
      (stored_values vm fields comp).get? i = some (stored_value vm f v) := by
  intro fields
  induction fields with
  | nil => intro comp i f v h; simp at h
  | cons g fields ih =>
    intro comp i f v hf hv
    cases comp with
    | nil => simp at hv
    | cons w comp =>
      rw [stored_values_cons]
      cases i with
      | zero =>
        simp at hf hv
        subst hf; subst hv
        simp
      | succ i =>
        simp at hf hv
        simpa using ih comp i f v (by simpa using hf) (by simpa using hv)
theorem load_fields_get (vm : VirtualMachine) (type : Ty) (ptr : Nat) (mem : Memory) :
    ∀ (fields : List Ty) (i : Nat) (loaded : List vmValue),
      vm_load_fields vm type ptr mem fields i = some loaded →
      loaded.length = fields.length ∧
      ∀ k f, fields.get? k = some f →
        (vm_load vm f mem (ptr + vm.vm_type_offset_of type (i + k))).bind (fun v => some v) =
          loaded.get? k := by
  intro fields
  induction fields with
  | nil =>
    intro i loaded h
    simp [vm_load_fields] at h
    subst h
    simp
  | cons g fields ih =>
    intro i loaded h
    rw [vm_load_fields_cons] at h
    cases h1 : vm_load vm g mem (ptr + vm.vm_type_offset_of type i) with
    | none => rw [h1] at h; exact absurd h (by simp)
    | some val =>
      rw [h1] at h
      cases h2 : vm_load_fields vm type ptr mem fields (i + 1) with
      | none => rw [h2] at h; exact absurd h (by simp)
      | some rest =>
        rw [h2] at h
        simp only [Option.some.injEq] at h
        subst h
        obtain ⟨hlen, hget⟩ := ih (i + 1) rest h2
        refine ⟨by simp [hlen], ?_⟩
        intro k f hk
        cases k with
        | zero =>
          simp at hk
          subst hk
          simp [h1]
        | succ k =>
          have := hget k f (by simpa using hk)
          have e : i + 1 + k = i + (k + 1) := by omega
          rw [e] at this
          simpa using this

theorem stored_value_self (vm : VirtualMachine) (kind : BasicKind) (x : Int)
    (hlo : -2 ^ 63 ≤ x) (hhi : x < 2 ^ 63)
    (h : (0 ≤ x ∧ x < 256 ^ stored_bytes vm kind) ∨ 8 ≤ stored_bytes vm kind) :
    stored_value vm (.Basic kind) (.mk x []) = .mk x [] := by
  rw [stored_value]
  simp only [vmValue.val_int]
  congr 1
  rcases h with ⟨h0, h1⟩ | h8
  · have hb : ((bits64 x : Nat) : Int) = x := bits64_of_nonneg x h0 (by omega)
    have hlt : bits64 x < 256 ^ stored_bytes vm kind := by
      have : ((bits64 x : Nat) : Int) < ((256 ^ stored_bytes vm kind : Nat) : Int) := by
        rw [hb]; push_cast; exact h1
      exact_mod_cast this
    rw [Nat.mod_eq_of_lt hlt]
    exact of_bits64_bits64 x hlo hhi
  · have hlt : bits64 x < 256 ^ stored_bytes vm kind := by
      have h1 := bits64_lt x
      have h2 : 256 ^ 8 ≤ 256 ^ stored_bytes vm kind := Nat.pow_le_pow_right (by norm_num) h8
      have h3 : (256 : Nat) ^ 8 = 2 ^ 64 := by norm_num
      omega
    rw [Nat.mod_eq_of_lt hlt]
    exact of_bits64_bits64 x hlo hhi

/-- C22 (amended): for every struct type whose fields are scalar types (`bool`,
integer, float, `rawptr`) or structs of such, in pairwise disjoint slots at
their offsets, and every composite value with one component per field,
`vm_store` at a non-null `dst` succeeds and writes nothing outside the extent
of the struct; afterwards the bytes at `dst + offset_of(type, i)` read as field
`i`'s type are component `i` reduced to the bytes of that type and
zero-extended, and `vm_load` of the struct from `dst` returns a composite with
one component per field whose component `i` is that value: the stored
component itself when it is a scalar in `[0, 2^(8*size))`, or any `i64` for a
type of eight bytes. -/
theorem vm_load_after_store_struct (vm : VirtualMachine) (fields : List Ty) (mem : Memory)
    (dst : Nat) (val : vmValue) (hdst : dst ≠ 0)
    (hlaid : laid_out vm (.Record .TypeRecord_Struct fields) = true)
    (hval : one_per_field (.Record .TypeRecord_Struct fields) val = true) :
    ∃ mem1 loaded,
      vm_store vm (.Record .TypeRecord_Struct fields) mem dst val = some mem1 ∧
      vm_load vm (.Record .TypeRecord_Struct fields) mem1 dst = some loaded ∧
      (∀ a, a < dst ∨ dst + store_extent vm (.Record .TypeRecord_Struct fields) ≤ a →
        mem1 a = mem a) ∧
      loaded.val_comp.length = fields.length ∧
      ∀ i f v, fields.get? i = some f → val.val_comp.get? i = some v →
        vm_load vm f mem1 (dst + vm.vm_type_offset_of (.Record .TypeRecord_Struct fields) i) =
          some (stored_value vm f v) ∧
        loaded.val_comp.get? i = some (stored_value vm f v) ∧
        (∀ kind x, f = .Basic kind → v = .mk x [] → -2 ^ 63 ≤ x → x < 2 ^ 63 →
          ((0 ≤ x ∧ x < 256 ^ stored_bytes vm kind) ∨ 8 ≤ stored_bytes vm kind) →
          loaded.val_comp.get? i = some v) := by
  obtain ⟨hframe, _, hround⟩ := laid_out_store_load vm _ _ (le_refl _) hlaid
  obtain ⟨mem1, hs, hl⟩ := hround mem dst val hdst hval
  cases val with
  | mk x comp =>
    refine ⟨mem1, _, hs, hl, hframe mem mem1 dst _ hs, ?_, ?_⟩
    · have hc : each_per_field fields comp = true := by
        rw [one_per_field] at hval
        exact hval
      rw [vm_load_Record, if_pos rfl] at hl
      cases hlf : vm_load_fields vm (.Record .TypeRecord_Struct fields) dst mem1 fields 0 with
      | none => rw [hlf] at hl; exact absurd hl (by simp)
      | some loaded =>
        rw [hlf] at hl
        simp only [Option.some.injEq] at hl
        rw [← hl]
        exact (load_fields_get vm _ dst mem1 fields 0 loaded hlf).1
    · intro i f v hf hv
      have hget : (stored_value vm (.Record .TypeRecord_Struct fields) (.mk x comp)).val_comp.get? i =
          some (stored_value vm f v) := by
        rw [stored_value]
        exact stored_values_get vm fields comp i f v hf hv
      refine ⟨?_, hget, ?_⟩
      · rw [vm_load_Record, if_pos rfl] at hl
        cases hlf : vm_load_fields vm (.Record .TypeRecord_Struct fields) dst mem1 fields 0 with
        | none => rw [hlf] at hl; exact absurd hl (by simp)
        | some loaded =>
          rw [hlf] at hl
          simp only [Option.some.injEq] at hl
          have h1 := (load_fields_get vm _ dst mem1 fields 0 loaded hlf).2 i f hf
          rw [← hl] at hget
          simp only [vmValue.val_comp] at hget
          rw [hget] at h1
          simp only [Nat.zero_add] at h1
          cases h2 : vm_load vm f mem1
              (dst + vm.vm_type_offset_of (.Record .TypeRecord_Struct fields) i) with
          | none => rw [h2] at h1; exact absurd h1 (by simp)
          | some w => rw [h2] at h1; simpa using h1
      · intro kind y hfk hvk hlo hhi hr
        rw [hget, hfk, hvk, stored_value_self vm kind y hlo hhi hr]

/-- C22 on a 64-bit target: the struct of an `i8`, an `i64` and a struct of two
`u16`, stored at address 16 with the components -1, 5 and (300, 70000): the
load returns three components, and the bytes at offset 8 read as `i64` are the
stored 5. -/
theorem vm_load_after_store_struct_witness :
    (16 ≠ 0 ∧ laid_out vm64 struct_nested = true ∧
      one_per_field struct_nested value_nested = true) ∧
    ∃ mem1 loaded,
      vm_store vm64 struct_nested zero_memory 16 value_nested = some mem1 ∧
      vm_load vm64 struct_nested mem1 16 = some loaded ∧
      loaded.val_comp.length = 3 ∧
      vm_load vm64 (.Basic .Basic_i64) mem1 (16 + 8) = some (vm_make_value_int 5) ∧
      loaded.val_comp.get? 1 = some (vm_make_value_int 5) :=
  ⟨by decide,
   (vm_load_after_store_struct vm64 _ zero_memory 16 value_nested (by decide) (by decide)
      (by decide)).imp fun _ h => h.imp fun _ h =>
        ⟨h.1, h.2.1, h.2.2.2.1,
          ((h.2.2.2.2 1 (.Basic .Basic_i64) (vm_make_value_int 5) rfl rfl).1).trans
            (congrArg some (stored_value_self vm64 .Basic_i64 5 (by decide) (by decide)
              (Or.inr (by decide)))),
          (h.2.2.2.2 1 (.Basic .Basic_i64) (vm_make_value_int 5) rfl rfl).2.2 .Basic_i64 5 rfl rfl
            (by decide) (by decide) (Or.inr (by decide))⟩⟩

/-- C22 as stated fails: on a 64-bit target the struct of one `i8` field stored
at address 16 with the component -1 is loaded back with the component 255,
which is not the stored component. -/
theorem vm_load_after_store_struct_i8_differs :
    laid_out vm64 (.Record .TypeRecord_Struct [.Basic .Basic_i8]) = true ∧
    (vm_load_after_store vm64 (.Record .TypeRecord_Struct [.Basic .Basic_i8]) zero_memory 16
        (.mk 0 [vm_make_value_int (-1)])).map (fun v => v.val_comp.map vmValue.val_int) =
      some [255] ∧
    (vmValue.mk 0 [vm_make_value_int (-1)]).val_comp.map vmValue.val_int = [-1] ∧
    (vm_load_after_store vm64 (.Record .TypeRecord_Struct [.Basic .Basic_i8]) zero_memory 16
        (.mk 0 [vm_make_value_int (-1)])).map (fun v => v.val_comp.map vmValue.val_int) ≠
      some ((vmValue.mk 0 [vm_make_value_int (-1)]).val_comp.map vmValue.val_int) := by
  decide

/-! ## The interpreter: strings and arrays in memory -/

/-- C21: on a 64-bit target, `vm_store` of the string value with data pointer
1000 and length 2 at address 2000, in a memory that holds the text `hi` at
1000, writes the first eight bytes of the text (the number 26984), not the
pointer 1000, into the first word, and the length 2 into the second word;
`vm_load` from 2000 then takes the first word as the data pointer and reads the
length at that pointer plus eight: it returns the pointer 26984 and the length
0, not the stored pointer 1000 and length 2. -/
theorem vm_store_string_copies_text :
    (vm_store vm64 (.Basic .Basic_string) memory_hi 2000 value_hi).map
        (fun m => (read_bytes m 2000 8, read_bytes m 2008 8)) = some (26984, 2) ∧
    (vm_load_after_store vm64 (.Basic .Basic_string) memory_hi 2000 value_hi).map
        (fun v => v.val_comp.map vmValue.val_int) = some [26984, 0] ∧
    value_hi.val_comp.map vmValue.val_int = [1000, 2] := by
  decide

/-- C23: on a 64-bit target, `vm_store` of a composite with the one component 7
as a `[4]u8` at address 1000, in a memory whose bytes are all 255, leaves the
bytes from 1000 on as 7, 0, 0, 0, 0, 0, 0, 0, 255, 255: the eight-byte write
of 123 that precedes the store of the element changes the three remaining
elements of the array and the four bytes past its end. -/
theorem vm_store_array_writes_past_element :
    (vm_store vm64 (.Array (.Basic .Basic_u8) 4) memory_ff 1000
        (.mk 0 [vm_make_value_int 7])).map
        (fun m => (List.range 10).map (fun k => m (1000 + k))) =
      some [7, 0, 0, 0, 0, 0, 0, 0, 255, 255] ∧
    (List.range 10).map (fun k => memory_ff (1000 + k)) =
      [255, 255, 255, 255, 255, 255, 255, 255, 255, 255] := by
  decide
/-! ## The interpreter: instructions -/

theorem position_args_succ (m : ssaModule) (fuel : Nat) (pos : TokenPos) (st : vmState) :
    position_args m (fuel + 1) pos st =
      some ([string_value m pos.file st.heap, .mk pos.line [], .mk pos.column []],
        string_state m pos.file st) := by
  rfl

/-- C24: in a frame that binds any two values `a` and `b` of type `int`, each
of the six comparison instructions binds the `int64` 1 to the instruction,
whatever `a` and `b` are: `2 < 1` and `1 == 2` bind 1, not 0. -/
theorem vm_exec_instr_comparison_binds_one (a b : Int) :
    binary_op_result t_int .Token_CmpEq a b = some 1 ∧
    binary_op_result t_int .Token_NotEq a b = some 1 ∧
    binary_op_result t_int .Token_Lt a b = some 1 ∧
    binary_op_result t_int .Token_Gt a b = some 1 ∧
    binary_op_result t_int .Token_LtEq a b = some 1 ∧
    binary_op_result t_int .Token_GtEq a b = some 1 :=
  ⟨rfl, rfl, rfl, rfl, rfl, rfl⟩

/-- C25: the instruction `a >> 1` on operands of type `u64`, with `a` the
value whose eight bytes are the unsigned number 18446744073709551614 (`val_int`
-2), binds `val_int` -1, the bytes of 18446744073709551615: the shift is that
of the signed `i64`, where the logical shift gives 9223372036854775807. -/
theorem vm_exec_instr_shr_unsigned :
    binary_op_result (.Basic .Basic_u64) .Token_Shr (-2) 1 = some (-1) ∧
    bits64 (-2) = 18446744073709551614 ∧
    bits64 (-2) / 2 ^ 1 = 9223372036854775807 ∧
    bits64 (-1) = 18446744073709551615 := by
  decide

/-- C26: in a frame that binds any two values `a` and `b` of type `int`, the
instructions `a / b` and `a % b` stop at a `GB_PANIC`: no value is bound. -/
theorem vm_exec_instr_quo_mod_stop (a b : Int) :
    binary_op_result t_int .Token_Quo a b = none ∧
    binary_op_result t_int .Token_Mod a b = none :=
  ⟨rfl, rfl⟩
theorem bits64_of_bits64 (n : Nat) (h : n < 2 ^ 64) : bits64 (of_bits64 n) = n := by
  unfold bits64 of_bits64
  rw [Nat.mod_eq_of_lt h]
  split
  · have : ((n : Nat) : Int) % 2 ^ 64 = n := Int.emod_eq_of_lt (by omega) (by exact_mod_cast h)
    rw [this]
    simp
  · have h1 : (((n : Nat) : Int) - 2 ^ 64) % 2 ^ 64 = n := by
      rw [Int.sub_emod, Int.emod_self, sub_zero, Int.emod_emod_of_dvd _ (dvd_refl _)]
      exact Int.emod_eq_of_lt (by omega) (by exact_mod_cast h)
    rw [h1]
    simp

theorem pow_256_eq (n : Nat) : (256 : Nat) ^ n = 2 ^ (8 * n) := by
  rw [pow_mul]
  norm_num

theorem copy_low_bytes_eq (src : vmValue) (n : Nat) (h : n ≤ 8) :
    copy_low_bytes src n = some (.mk (of_bits64 (bits64 src.val_int % 256 ^ n)) []) := by
  unfold copy_low_bytes
  rw [if_pos h]

theorem copy_low_bytes_bits (x : Int) (n : Nat) :
    bits64 (of_bits64 (bits64 x % 256 ^ n)) = bits64 x % 2 ^ (8 * n) := by
  rw [bits64_of_bits64, pow_256_eq]
  exact lt_of_le_of_lt (Nat.mod_le _ _) (bits64_lt x)

theorem copy_low_bytes_fits (x : Int) (n : Nat) (hlo : -2 ^ 63 ≤ x) (hhi : x < 2 ^ 63)
    (hfit : bits64 x < 2 ^ (8 * n)) : of_bits64 (bits64 x % 256 ^ n) = x := by
  rw [pow_256_eq, Nat.mod_eq_of_lt hfit]
  exact of_bits64_bits64 x hlo hhi

/-- C27: when the operand of a conversion evaluates to `src` and the two types
have at most eight bytes, `trunc` binds to the instruction a scalar whose
eight bytes are those of `src.val_int` modulo `2^(8*to_size)` (the low
`to_size` bytes, the bytes above zero), and `zext` one whose eight bytes are
those of `src.val_int` modulo `2^(8*from_size)`; a source value that fits in
`from_size` bytes is bound unchanged by `zext`, and `trunc` from the wider type
back to the narrower one gives that source value again. -/
theorem vm_exec_instr_conv_trunc_zext (vm : VirtualMachine) (m : ssaModule) (fuel : Nat)
    (call : ssaProcedure → List vmValue → vmState → Option (vmValue × vmState))
    (id : Nat) (type : Ty) (v : ssaValue) (from_type to_type : Ty) (st st1 : vmState)
    (src : vmValue) (hop : vm_operand_value m fuel v st = some (src, st1))
    (hfrom : vm.vm_type_size_of from_type ≤ 8) (hto : vm.vm_type_size_of to_type ≤ 8) :
    ∃ truncated extended : vmValue,
      vm_exec_instr vm m fuel call
          (.Instr id type (.Conv .ssaConv_trunc v from_type to_type)) st =
        vm_set_value st1 id truncated ∧
      vm_exec_instr vm m fuel call
          (.Instr id type (.Conv .ssaConv_zext v from_type to_type)) st =
        vm_set_value st1 id extended ∧
      truncated.val_comp = [] ∧ extended.val_comp = [] ∧
      bits64 truncated.val_int = bits64 src.val_int % 2 ^ (8 * vm.vm_type_size_of to_type) ∧
      bits64 extended.val_int = bits64 src.val_int % 2 ^ (8 * vm.vm_type_size_of from_type) ∧
      ∀ x : Int, src = .mk x [] → -2 ^ 63 ≤ x → x < 2 ^ 63 →
        bits64 x < 2 ^ (8 * vm.vm_type_size_of from_type) →
        extended = src ∧
        vm_conv m .ssaConv_trunc to_type from_type (vm.vm_type_size_of to_type)
          (vm.vm_type_size_of from_type) extended = some src := by
  refine ⟨.mk (of_bits64 (bits64 src.val_int % 256 ^ vm.vm_type_size_of to_type)) [],
    .mk (of_bits64 (bits64 src.val_int % 256 ^ vm.vm_type_size_of from_type)) [],
    ?_, ?_, rfl, rfl, copy_low_bytes_bits _ _, copy_low_bytes_bits _ _, ?_⟩
  · simp only [vm_exec_instr, hop, vm_conv, copy_low_bytes_eq src _ hto]
  · simp only [vm_exec_instr, hop, vm_conv, copy_low_bytes_eq src _ hfrom]
  · intro x hx hlo hhi hfit
    subst hx
    have hself : of_bits64 (bits64 x % 256 ^ vm.vm_type_size_of from_type) = x :=
      copy_low_bytes_fits x _ hlo hhi hfit
    simp only [vmValue.val_int, hself, vm_conv, copy_low_bytes_eq _ _ hfrom, and_self]

/-- C27 on a 64-bit target: the value 4660 (`0x1234`) in a frame, converted
between `u16` and `u8`: `trunc` to `u8` binds 52 (`0x34`), `zext` from `u16`
binds 4660 itself, and truncating that back to `u16` gives 4660. -/
theorem vm_exec_instr_conv_trunc_zext_witness :
    (vm_operand_value toy_module 0 (.Param 1 (.Basic .Basic_u16)) (operand_state 4660 0) =
        some (.mk 4660 [], operand_state 4660 0) ∧
      vm64.vm_type_size_of (.Basic .Basic_u16) ≤ 8 ∧ vm64.vm_type_size_of (.Basic .Basic_u8) ≤ 8) ∧
    ∃ truncated extended : vmValue,
      vm_exec_instr vm64 toy_module 0 (vm_call_procedure vm64 toy_module 0)
          (.Instr 3 (.Basic .Basic_u8) (.Conv .ssaConv_trunc (.Param 1 (.Basic .Basic_u16))
            (.Basic .Basic_u16) (.Basic .Basic_u8))) (operand_state 4660 0) =
        vm_set_value (operand_state 4660 0) 3 truncated ∧
      bits64 truncated.val_int = 52 ∧
      extended = .mk 4660 [] ∧
      vm_conv toy_module .ssaConv_trunc (.Basic .Basic_u8) (.Basic .Basic_u16) 1 2 extended =
        some (.mk 4660 []) :=
  ⟨⟨rfl, by decide, by decide⟩,
   (vm_exec_instr_conv_trunc_zext vm64 toy_module 0 (vm_call_procedure vm64 toy_module 0) 3
      (.Basic .Basic_u8) (.Param 1 (.Basic .Basic_u16)) (.Basic .Basic_u16) (.Basic .Basic_u8)
      (operand_state 4660 0) (operand_state 4660 0) (.mk 4660 []) rfl (by decide)
      (by decide)).imp fun _ h => h.imp fun _ h =>
        ⟨h.1, h.2.2.2.2.1.trans (by decide),
          (h.2.2.2.2.2.2 4660 rfl (by decide) (by decide) (by decide)).1,
          (h.2.2.2.2.2.2 4660 rfl (by decide) (by decide) (by decide)).2⟩⟩
/-- C30: with fuel for the three position constants, when the array of
arguments is allocated, the two or three index operands evaluate and the
runtime procedure is a member of the module, a `BoundsCheck` is one call of
`__bounds_check_error` with the five arguments file, line, column, index, len
in that order, a `SliceBoundsCheck` that is not a substring is one call of
`__slice_expr_error` with file, line, column, low, high, max, and one that is
a substring is one call of `__substring_expr_error` with file, line, column,
low, high; the call is made for every value of the indices, and the state the
call returns is the state after the instruction. -/
theorem vm_exec_instr_bounds_check (vm : VirtualMachine) (m : ssaModule) (fuel : Nat)
    (call : ssaProcedure → List vmValue → vmState → Option (vmValue × vmState))
    (id : Nat) (type : Ty) (pos : TokenPos) (st st0 : vmState) (proc : ssaProcedure) :
    (∀ (index len : ssaValue) (i n : vmValue) (st2 st3 : vmState),
      array_init_stack st 5 = some st0 →
      vm_operand_value m (fuel + 1) index (string_state m pos.file st0) = some (i, st2) →
      vm_operand_value m (fuel + 1) len st2 = some (n, st3) →
      vm_lookup_procedure m "__bounds_check_error" = some proc →
      vm_exec_instr vm m (fuel + 1) call (.Instr id type (.BoundsCheck pos index len)) st =
        (call proc [string_value m pos.file st0.heap, .mk pos.line [], .mk pos.column [], i, n]
          st3).map Prod.snd) ∧
    (∀ (low high max : ssaValue) (l h x : vmValue) (st2 st3 st4 : vmState),
      array_init_stack st 7 = some st0 →
      vm_operand_value m (fuel + 1) low (string_state m pos.file st0) = some (l, st2) →
      vm_operand_value m (fuel + 1) high st2 = some (h, st3) →
      vm_operand_value m (fuel + 1) max st3 = some (x, st4) →
      vm_lookup_procedure m "__slice_expr_error" = some proc →
      vm_exec_instr vm m (fuel + 1) call
          (.Instr id type (.SliceBoundsCheck pos low high max false)) st =
        (call proc [string_value m pos.file st0.heap, .mk pos.line [], .mk pos.column [], l, h, x]
          st4).map Prod.snd) ∧
    (∀ (low high max : ssaValue) (l h : vmValue) (st2 st3 : vmState),
      array_init_stack st 7 = some st0 →
      vm_operand_value m (fuel + 1) low (string_state m pos.file st0) = some (l, st2) →
      vm_operand_value m (fuel + 1) high st2 = some (h, st3) →
      vm_lookup_procedure m "__substring_expr_error" = some proc →
      vm_exec_instr vm m (fuel + 1) call
          (.Instr id type (.SliceBoundsCheck pos low high max true)) st =
        (call proc [string_value m pos.file st0.heap, .mk pos.line [], .mk pos.column [], l, h]
          st3).map Prod.snd) := by
  refine ⟨?_, ?_, ?_⟩
  · intro index len i n st2 st3 h0 hi hn hp
    simp only [vm_exec_instr, h0, position_args_succ, vm_operand_values, hi, hn, hp,
      List.cons_append, List.nil_append]
    cases call proc [string_value m pos.file st0.heap, .mk pos.line [], .mk pos.column [], i, n]
      st3 <;> rfl
  · intro low high max l h x st2 st3 st4 h0 hl hh hx hp
    simp only [vm_exec_instr, h0, position_args_succ, vm_operand_values, hl, hh, hx, hp,
      List.cons_append, List.nil_append, Bool.false_eq_true, if_false]
    cases call proc
      [string_value m pos.file st0.heap, .mk pos.line [], .mk pos.column [], l, h, x] st4 <;> rfl
  · intro low high max l h st2 st3 h0 hl hh hp
    simp only [vm_exec_instr, h0, position_args_succ, vm_operand_values, hl, hh, hp,
      List.cons_append, List.nil_append, if_true]
    cases call proc [string_value m pos.file st0.heap, .mk pos.line [], .mk pos.column [], l, h]
      st3 <;> rfl

/-- C30 on a 64-bit target: a bounds check at `main.odin:3:7` of the index 1
against the length 3, which is in range, is the call of
`__bounds_check_error` with the file name (nine bytes, copied to the heap),
3, 7, 1 and 3; the record of calls holds that call and no other, as it does
for the index 5, which is out of range; a slice check of 1, 2, 4 records one
call of `__slice_expr_error` with six arguments, or of
`__substring_expr_error` with five. -/
theorem vm_exec_instr_bounds_check_witness :
    (array_init_stack (operand_state 1 3) 5 =
        some (gb_arena_alloc (operand_state 1 3) 200 16).2 ∧
      vm_lookup_procedure toy_module "__bounds_check_error" = some proc_bounds_check_error) ∧
    vm_exec_instr vm64 toy_module 3 (vm_call_procedure vm64 toy_module 3)
        (.Instr 3 t_int (.BoundsCheck ⟨"main.odin", 3, 7⟩ (.Param 1 t_int) (.Param 2 t_int)))
        (operand_state 1 3) =
      (vm_call_procedure vm64 toy_module 3 proc_bounds_check_error
        [string_value toy_module "main.odin" 1048576, .mk 3 [], .mk 7 [], .mk 1 [], .mk 3 []]
        (string_state toy_module "main.odin"
          (gb_arena_alloc (operand_state 1 3) 200 16).2)).map Prod.snd ∧
    bounds_check_calls 1 3 =
      some [("__bounds_check_error", [[0, 1048576, 9], [3], [7], [1], [3]])] ∧
    bounds_check_calls 5 3 =
      some [("__bounds_check_error", [[0, 1048576, 9], [3], [7], [5], [3]])] ∧
    slice_check_calls 1 2 4 false =
      some [("__slice_expr_error", [[0, 1048576, 9], [3], [7], [1], [2], [4]])] ∧
    slice_check_calls 1 2 4 true =
      some [("__substring_expr_error", [[0, 1048576, 9], [3], [7], [1], [2]])] :=
  ⟨⟨rfl, rfl⟩,
   (vm_exec_instr_bounds_check vm64 toy_module 2 (vm_call_procedure vm64 toy_module 3) 3 t_int
      ⟨"main.odin", 3, 7⟩ (operand_state 1 3) (gb_arena_alloc (operand_state 1 3) 200 16).2
      proc_bounds_check_error).1 (.Param 1 t_int) (.Param 2 t_int) (.mk 1 []) (.mk 3 []) _ _
      rfl rfl rfl rfl,
   by decide, by decide, by decide, by decide⟩
/-! ## The interpreter: frames and the stack arena -/

theorem steps_refl (st : vmState) : Steps st st :=
  ⟨fun f _ h => ⟨f, h, rfl⟩, rfl, rfl, rfl⟩

theorem steps_trans {st st1 st2 : vmState} (h1 : Steps st st1) (h2 : Steps st1 st2) :
    Steps st st2 := by
  refine ⟨?_, ?_⟩
  · intro f rest hf
    obtain ⟨f1, hf1, ht1⟩ := h1.1 f rest hf
    obtain ⟨f2, hf2, ht2⟩ := h2.1 f1 rest hf1
    exact ⟨f2, hf2, ht2.trans ht1⟩
  · obtain ⟨a1, a2, a3⟩ := h1.2
    obtain ⟨b1, b2, b3⟩ := h2.2
    exact ⟨b1.trans a1, b2.trans a2, b3.trans a3⟩

theorem steps_of_kept {st st1 : vmState} (hf : st1.frame_stack = st.frame_stack)
    (ha : st1.stack_arena = st.stack_arena) : Steps st st1 := by
  refine ⟨?_, ?_⟩
  · intro f rest h
    exact ⟨f, by rw [hf, h], rfl⟩
  · rw [ha]
    exact ⟨rfl, rfl, rfl⟩

theorem kept_refl (st : vmState) : Kept st st := ⟨rfl, rfl⟩

theorem kept_trans {st st1 st2 : vmState} (h1 : Kept st st1) (h2 : Kept st1 st2) : Kept st st2 :=
  ⟨h2.1.trans h1.1, h2.2.trans h1.2⟩

theorem kept_remember_lit {st st1 : vmState} (ptr : Nat) (v : vmValue) (h : Kept st st1) :
    Kept st (remember_lit st1 ptr v) := h

theorem steps_kept {st st1 : vmState} (h : Kept st st1) : Steps st st1 :=
  steps_of_kept h.1 h.2

theorem exact_array_elems_kept (m : ssaModule)
    (exact : ExactValue → Ty → vmState → Option (vmValue × vmState))
    (hexact : ∀ value t st v st1, exact value t st = some (v, st1) → Kept st st1) :
    ∀ (elems : List AstNode) (i : Nat) (comp : List vmValue) (st : vmState)
      (comp1 : List vmValue) (st1 : vmState),
      exact_array_elems m exact elems i comp st = some (comp1, st1) →
      Kept st st1 := by
  intro elems
  induction elems with
  | nil =>
    intro i comp st comp1 st1 h
    simp only [exact_array_elems, Option.some.injEq, Prod.mk.injEq] at h
    rw [← h.2]
    exact kept_refl _
  | cons e rest ih =>
    intro i comp st comp1 st1 h
    simp only [exact_array_elems] at h
    split at h
    · exact absurd h (by simp)
    · split at h
      · exact absurd h (by simp)
      · rename_i tav _ elem st2 he
        split at h
        · exact kept_trans (hexact _ _ _ _ _ he) (ih _ _ _ _ _ h)
        · exact absurd h (by simp)

theorem exact_struct_named_kept (m : ssaModule)
    (exact : ExactValue → Ty → vmState → Option (vmValue × vmState))
    (hexact : ∀ value t st v st1, exact value t st = some (v, st1) → Kept st st1)
    (t : Ty) (fields : List Ty) :
    ∀ (elems : List AstNode) (comp : List vmValue) (st : vmState)
      (comp1 : List vmValue) (st1 : vmState),
      exact_struct_named m exact t fields elems comp st = some (comp1, st1) →
      Kept st st1 := by
  intro elems
  induction elems with
  | nil =>
    intro comp st comp1 st1 h
    simp only [exact_struct_named, Option.some.injEq, Prod.mk.injEq] at h
    rw [← h.2]
    exact kept_refl _
  | cons e rest ih =>
    intro comp st comp1 st1 h
    cases e with
    | FieldValue field value =>
      cases field with
      | Ident name =>
        simp only [exact_struct_named] at h
        repeat' split at h
        all_goals first
          | cases h
          | (rename_i he _
             exact kept_trans (hexact _ _ _ _ _ he) (ih _ _ _ _ h))
      | _ => simp [exact_struct_named] at h
    | _ => simp [exact_struct_named] at h
theorem exact_struct_positional_kept (m : ssaModule)
    (exact : ExactValue → Ty → vmState → Option (vmValue × vmState))
    (hexact : ∀ value t st v st1, exact value t st = some (v, st1) → Kept st st1)
    (t : Ty) (fields : List Ty) (elems : List AstNode) :
    ∀ (n i : Nat) (comp : List vmValue) (st : vmState) (comp1 : List vmValue) (st1 : vmState),
      exact_struct_positional m exact t fields elems n i comp st = some (comp1, st1) →
      Kept st st1 := by
  intro n
  induction n with
  | zero =>
    intro i comp st comp1 st1 h
    simp only [exact_struct_positional, Option.some.injEq, Prod.mk.injEq] at h
    rw [← h.2]
    exact kept_refl _
  | succ n ih =>
    intro i comp st comp1 st1 h
    simp only [exact_struct_positional] at h
    repeat' split at h
    all_goals first
      | cases h
      | (rename_i he _
         exact kept_trans (hexact _ _ _ _ _ he) (ih _ _ _ _ _ h))

theorem vm_exact_value_kept (m : ssaModule) :
    ∀ (fuel : Nat) (ptr : Option Nat) (value : ExactValue) (t : Ty) (st : vmState) (v : vmValue)
      (st1 : vmState), vm_exact_value m fuel ptr value t st = some (v, st1) →
      Kept st st1 := by
  intro fuel
  induction fuel with
  | zero => intro ptr value t st v st1 h; simp [vm_exact_value] at h
  | succ fuel ih =>
    intro ptr value t st v st1 h
    have hrec := ih none
    simp only [vm_exact_value] at h
    repeat' split at h
    all_goals cases h <;> first
      | exact kept_refl _
      | exact kept_remember_lit _ _ (kept_refl _)
      | exact exact_array_elems_kept m _ hrec _ _ _ _ _ _ ‹_›
      | exact kept_remember_lit _ _ (exact_array_elems_kept m _ hrec _ _ _ _ _ _ ‹_›)
      | exact exact_struct_named_kept m _ hrec _ _ _ _ _ _ _ ‹_›
      | exact exact_struct_positional_kept m _ hrec _ _ _ _ _ _ _ _ _ ‹_›
theorem vm_operand_value_kept (m : ssaModule) (fuel : Nat) :
    ∀ (value : ssaValue) (st : vmState) (v : vmValue) (st1 : vmState),
      vm_operand_value m fuel value st = some (v, st1) → Kept st st1
  | .Constant id type value, st, v, st1, h => by
      simp only [vm_operand_value] at h
      exact vm_exact_value_kept m fuel _ _ _ _ _ _ h
  | .ConstantSlice _ _ backing_array count, st, v, st1, h => by
      simp only [vm_operand_value] at h
      split at h
      · cases h
      · rename_i data st2 he
        cases h
        exact vm_operand_value_kept m fuel backing_array st data _ he
  | .Nil _ _, st, v, st1, h => by simp [vm_operand_value] at h
  | .TypeName _ _, st, v, st1, h => by simp [vm_operand_value] at h
  | .Global id _, st, v, st1, h => by
      simp only [vm_operand_value] at h
      split at h <;> cases h
      exact kept_refl _
  | .Param id _, st, v, st1, h => by
      simp only [vm_operand_value] at h
      repeat' split at h
      all_goals cases h
      exact kept_refl _
  | .Proc id _, st, v, st1, h => by
      simp only [vm_operand_value] at h
      cases h
      exact kept_refl _
  | .Block _, st, v, st1, h => by simp [vm_operand_value] at h
  | .Instr id _ _, st, v, st1, h => by
      simp only [vm_operand_value] at h
      repeat' split at h
      all_goals cases h
      all_goals exact kept_refl _

theorem vm_operand_values_kept (m : ssaModule) (fuel : Nat) :
    ∀ (values : List ssaValue) (st : vmState) (vs : List vmValue) (st1 : vmState),
      vm_operand_values m fuel values st = some (vs, st1) → Kept st st1 := by
  intro values
  induction values with
  | nil =>
    intro st vs st1 h
    simp only [vm_operand_values] at h
    cases h
    exact kept_refl _
  | cons a rest ih =>
    intro st vs st1 h
    simp only [vm_operand_values] at h
    split at h
    · cases h
    · rename_i v st2 he
      split at h
      · cases h
      · rename_i vs2 st3 hr
        cases h
        exact kept_trans (vm_operand_value_kept m fuel a st v st2 he) (ih _ _ _ hr)

theorem position_args_kept (m : ssaModule) (fuel : Nat) (pos : TokenPos) (st : vmState)
    (vs : List vmValue) (st1 : vmState) (h : position_args m fuel pos st = some (vs, st1)) :
    Kept st st1 := by
  simp only [position_args] at h
  repeat' split at h
  all_goals cases h
  rename_i h1 _ _ _ h2 _ _ h3
  exact kept_trans (kept_trans (vm_exact_value_kept m fuel _ _ _ _ _ _ h1)
    (vm_exact_value_kept m fuel _ _ _ _ _ _ h2)) (vm_exact_value_kept m fuel _ _ _ _ _ _ h3)

theorem steps_operand_then {m : ssaModule} {fuel : Nat} {value : ssaValue}
    {st st0 st1 : vmState} {v : vmValue}
    (h : vm_operand_value m fuel value st0 = some (v, st1)) (hs : Steps st st0) :
    Steps st st1 :=
  steps_trans hs (steps_kept (vm_operand_value_kept m fuel value st0 v st1 h))

theorem steps_operands_then {m : ssaModule} {fuel : Nat} {values : List ssaValue}
    {st st0 st1 : vmState} {vs : List vmValue}
    (h : vm_operand_values m fuel values st0 = some (vs, st1)) (hs : Steps st st0) :
    Steps st st1 :=
  steps_trans hs (steps_kept (vm_operand_values_kept m fuel values st0 vs st1 h))

theorem steps_position_then {m : ssaModule} {fuel : Nat} {pos : TokenPos}
    {st st0 st1 : vmState} {vs : List vmValue}
    (h : position_args m fuel pos st0 = some (vs, st1)) (hs : Steps st st0) :
    Steps st st1 :=
  steps_trans hs (steps_kept (position_args_kept m fuel pos st0 vs st1 h))

theorem steps_set_value_then {st st0 st1 : vmState} {id : Nat} {v : vmValue}
    (h : vm_set_value st0 id v = some st1) (hs : Steps st st0) : Steps st st1 := by
  refine steps_trans hs ?_
  unfold vm_set_value at h
  split at h
  · cases h
  · rename_i f rest hf
    cases h
    exact ⟨fun g rest1 hg => ⟨_, by rw [hf] at hg; cases hg; rfl, by rw [hf] at hg; cases hg; rfl⟩,
      rfl, rfl, rfl⟩

theorem steps_update_then {st st0 st1 : vmState} {g : vmFrame → vmFrame}
    (h : update_back_frame st0 g = some st1)
    (hg : ∀ f, (g f).temp_arena_memory = f.temp_arena_memory) (hs : Steps st st0) :
    Steps st st1 := by
  refine steps_trans hs ?_
  unfold update_back_frame at h
  split at h
  · cases h
  · rename_i f rest hf
    cases h
    exact ⟨fun k rest1 hk => ⟨_, by rw [hf] at hk; cases hk; rfl,
      by rw [hf] at hk; cases hk; exact hg _⟩, rfl, rfl, rfl⟩

theorem steps_alloc (st : vmState) (size alignment : Nat) :
    Steps st (gb_arena_alloc st size alignment).2 := by
  unfold gb_arena_alloc
  dsimp only
  split
  · exact steps_refl _
  · exact ⟨fun f rest hf => ⟨f, hf, rfl⟩, rfl, rfl, rfl⟩

theorem steps_array_init_then {st st0 st1 : vmState} {capacity : Nat}
    (h : array_init_stack st0 capacity = some st1) (hs : Steps st st0) : Steps st st1 := by
  refine steps_trans hs ?_
  unfold array_init_stack at h
  dsimp only at h
  split at h
  · cases h
  · cases h
    exact steps_alloc _ _ _

theorem steps_call_then {call : ssaProcedure → List vmValue → vmState → Option (vmValue × vmState)}
    (hcall : CallKeeps call) {proc : ssaProcedure} {values : List vmValue}
    {st st0 st1 : vmState} {r : vmValue}
    (h : call proc values st0 = some (r, st1)) (hs : Steps st st0) : Steps st st1 :=
  steps_trans hs (steps_kept (hcall proc values st0 r st1 h))

theorem steps_mem (st : vmState) (mem : Memory) : Steps st { st with mem := mem } :=
  ⟨fun f _ hf => ⟨f, hf, rfl⟩, rfl, rfl, rfl⟩
theorem vm_exec_instr_steps (vm : VirtualMachine) (m : ssaModule) (fuel : Nat)
    (call : ssaProcedure → List vmValue → vmState → Option (vmValue × vmState))
    (hcall : CallKeeps call) (value : ssaValue) (st st1 : vmState)
    (h : vm_exec_instr vm m fuel call value st = some st1) : Steps st st1 := by
  cases value with
  | Instr id type instr =>
    cases instr <;> simp only [vm_exec_instr] at h <;> (repeat' split at h) <;>
      (try cases h) <;> (try (refine steps_trans ?_ (steps_mem _ _))) <;>
      repeat (first
        | exact steps_refl _
        | exact steps_alloc _ _ _
        | refine steps_set_value_then ‹_› ?_
        | (refine steps_update_then ‹_› ?_ ?_ <;> try (intro _; rfl))
        | refine steps_call_then hcall ‹_› ?_
        | refine steps_operand_then ‹_› ?_
        | refine steps_operands_then ‹_› ?_
        | refine steps_position_then ‹_› ?_
        | refine steps_array_init_then ‹_› ?_)
  | _ => simp [vm_exec_instr] at h
theorem vm_run_succ (vm : VirtualMachine) (m : ssaModule) (fuel : Nat) (st : vmState) :
    vm_run vm m (fuel + 1) st =
      match st.frame_stack with
      | [] => none
      | f :: rest =>
          match f.curr_block with
          | none => some st
          | some b =>
              match f.curr_proc.blocks.get? b with
              | none => none
              | some block =>
                  match block.instrs.get? f.instr_index with
                  | none => none
                  | some curr_instr =>
                      match vm_exec_instr vm m fuel (vm_call_procedure vm m fuel) curr_instr
                          (next_instr st f rest) with
                      | none => none
                      | some st1 => vm_run vm m fuel st1 := by
  rfl

theorem vm_call_procedure_succ (vm : VirtualMachine) (m : ssaModule) (fuel : Nat)
    (proc : ssaProcedure) (values : List vmValue) (st : vmState) :
    vm_call_procedure vm m (fuel + 1) proc values st =
      if proc_param_count proc.type ≠ some values.length then none
      else if proc.body.isNone then none
      else
        match vm_push_frame (record_call st proc.name values) proc with
        | none => none
        | some st1 =>
            match bind_params proc.params values st1 with
            | none => none
            | some st2 =>
                match vm_run vm m fuel st2 with
                | none => none
                | some st3 => vm_call_result proc st3 := by
  rfl

theorem bind_params_steps :
    ∀ (params : List ssaValue) (values : List vmValue) (st st1 : vmState),
      bind_params params values st = some st1 → Steps st st1 := by
  intro params
  induction params with
  | nil =>
    intro values st st1 h
    simp only [bind_params] at h
    cases h
    exact steps_refl _
  | cons p params ih =>
    intro values st st1 h
    cases values with
    | nil => simp [bind_params] at h
    | cons v values =>
      simp only [bind_params] at h
      split at h
      · cases h
      · rename_i st2 hs
        exact steps_trans (steps_set_value_then hs (steps_refl _)) (ih _ _ _ h)

theorem vm_push_frame_eq (st st1 : vmState) (proc : ssaProcedure)
    (h : vm_push_frame st proc = some st1) :
    ∃ f, st1.frame_stack = f :: st.frame_stack ∧
      f.temp_arena_memory = ⟨st.stack_arena.total_allocated⟩ ∧
      st1.stack_arena = { st.stack_arena with temp_count := st.stack_arena.temp_count + 1 } := by
  unfold vm_push_frame at h
  split at h
  · cases h
  · cases h
    exact ⟨_, rfl, rfl, rfl⟩

theorem vm_call_result_pop (proc : ssaProcedure) (st : vmState) (r : vmValue) (st1 : vmState)
    (h : vm_call_result proc st = some (r, st1)) : vm_pop_frame st = some st1 := by
  unfold vm_call_result at h
  split at h
  · cases h
  · split at h
    · split at h
      · split at h
        · cases h
        · split at h
          · cases h
          · rename_i hp
            cases h
            exact hp
      · cases h
    · split at h
      · cases h
      · rename_i hp
        cases h
        exact hp

theorem vm_pop_frame_eq (st st1 : vmState) (f : vmFrame) (rest : List vmFrame)
    (hf : st.frame_stack = f :: rest) (h : vm_pop_frame st = some st1) :
    st1.frame_stack = rest ∧
      st1.stack_arena = { st.stack_arena with
        total_allocated := f.temp_arena_memory.original_count
        temp_count := st.stack_arena.temp_count - 1 } := by
  unfold vm_pop_frame at h
  rw [hf] at h
  dsimp only at h
  cases he : gb_temp_arena_memory_end f.temp_arena_memory st.stack_arena with
  | none => rw [he] at h; cases h
  | some arena =>
    rw [he] at h
    cases h
    unfold gb_temp_arena_memory_end at he
    split at he
    · cases he
    · split at he
      · cases he
      · cases he
        exact ⟨rfl, rfl⟩

theorem gbArena_ext (a b : gbArena) (h1 : a.physical_start = b.physical_start)
    (h2 : a.total_size = b.total_size) (h3 : a.total_allocated = b.total_allocated)
    (h4 : a.temp_count = b.temp_count) : a = b := by
  cases a
  cases b
  simp only at h1 h2 h3 h4
  subst h1; subst h2; subst h3; subst h4
  rfl

theorem vm_call_run_keeps (vm : VirtualMachine) (m : ssaModule) :
    ∀ fuel, CallKeeps (vm_call_procedure vm m fuel) ∧
      ∀ st st1, vm_run vm m fuel st = some st1 → Steps st st1 := by
  intro fuel
  induction fuel with
  | zero =>
    refine ⟨?_, ?_⟩
    · intro proc values st r st1 h
      simp [vm_call_procedure] at h
    · intro st st1 h
      simp [vm_run] at h
  | succ fuel ih =>
    obtain ⟨ihcall, ihrun⟩ := ih
    refine ⟨?_, ?_⟩
    · intro proc values st r st1 h
      rw [vm_call_procedure_succ] at h
      repeat' split at h
      all_goals first
        | cases h
        | skip
      rename_i st2 hpush _ st3 hbind _ st4 hrun
      obtain ⟨f, hf, hft, harena⟩ := vm_push_frame_eq _ _ _ hpush
      have hsteps : Steps st2 st4 := steps_trans (bind_params_steps _ _ _ _ hbind) (ihrun _ _ hrun)
      obtain ⟨f4, hf4, hft4⟩ := hsteps.1 f _ hf
      obtain ⟨hb1, hb2, hb3⟩ := hsteps.2
      obtain ⟨hp1, hp2⟩ := vm_pop_frame_eq st4 st1 f4 _ hf4 (vm_call_result_pop _ _ _ _ h)
      refine ⟨hp1, ?_⟩
      rw [harena] at hb1 hb2 hb3
      have hc1 : st4.stack_arena.physical_start = st.stack_arena.physical_start := hb1
      have hc2 : st4.stack_arena.total_size = st.stack_arena.total_size := hb2
      have hc3 : st4.stack_arena.temp_count = st.stack_arena.temp_count + 1 := hb3
      have hc4 : f4.temp_arena_memory.original_count = st.stack_arena.total_allocated := by
        rw [hft4, hft]
        rfl
      rw [hp2]
      apply gbArena_ext
      · exact hc1
      · exact hc2
      · exact hc4
      · show st4.stack_arena.temp_count - 1 = st.stack_arena.temp_count
        omega
    · intro st st1 h
      rw [vm_run_succ] at h
      repeat' split at h
      all_goals first
        | (cases h; exact steps_refl _)
        | cases h
        | skip
      · rename_i f rest hf _ b hb _ block hblock _ instr hinstr _ st2 hexec
        have h1 : Steps st (next_instr st f rest) :=
          ⟨fun g rest1 hg => ⟨_, by rw [hf] at hg; cases hg; rfl, by rw [hf] at hg; cases hg; rfl⟩,
            rfl, rfl, rfl⟩
        exact steps_trans h1 (steps_trans (vm_exec_instr_steps vm m fuel _ ihcall _ _ _ hexec)
          (ihrun _ _ h))
/-! ## The interpreter: calls and constants -/

theorem vm_call_procedure_add (vm : VirtualMachine) (m : ssaModule) (fuel : Nat) (a b : vmValue)
    (st : vmState) :
    ∃ st1, vm_call_procedure vm m (fuel + 4) proc_add [a, b] st =
        some (.mk (wrap64 (a.val_int + b.val_int)) [], st1) ∧
      st1.calls = st.calls ++ [("add", [a, b])] ∧ st1.mem = st.mem := by
  have h3 : fuel + 4 = (fuel + 3) + 1 := rfl
  have h2 : fuel + 3 = (fuel + 2) + 1 := rfl
  have h1 : fuel + 2 = (fuel + 1) + 1 := rfl
  rw [h3, vm_call_procedure_succ]
  simp [proc_add, proc_param_count, vm_push_frame, record_call, bind_params, vm_set_value,
    param_a, param_b, ssaValue.id, map_set, gb_temp_arena_memory_begin]
  rw [h2, vm_run_succ]
  simp [next_instr, instr_add, vm_exec_instr, ssa_type, param_a, param_b, is_comparison_op,
    vm_operand_value, vm_back_frame, map_get, binary_op_value, is_type_integer, t_int,
    binary_op_integer, vm_set_value, map_set]
  rw [h1, vm_run_succ]
  simp [next_instr, instr_add, vm_exec_instr, ssa_type, param_a, param_b, is_comparison_op,
    vm_operand_value, vm_back_frame, map_get, update_back_frame]
  rw [vm_run_succ]
  simp [vm_call_result, proc_result_count, single_result_type, is_type_string, vm_pop_frame,
    gb_temp_arena_memory_end, t_int, vmValue.val_int]

theorem wrap64_in_range (i : Int) (hlo : -2 ^ 63 ≤ i) (hhi : i < 2 ^ 63) : wrap64 i = i :=
  of_bits64_bits64 i hlo hhi

theorem bind_params_add (a b : vmValue) (st : vmState) :
    ∃ st2, (vm_push_frame (record_call st proc_add.name [a, b]) proc_add).bind
        (bind_params proc_add.params [a, b]) = some st2 ∧
      bound_value st2 param_a.id = some a ∧ bound_value st2 param_b.id = some b := by
  simp [proc_add, vm_push_frame, record_call, bind_params, vm_set_value, param_a, param_b,
    ssaValue.id, map_set, gb_temp_arena_memory_begin, bound_value, vm_back_frame, map_get]

/-- C28: with fuel for its two instructions, `vm_call_procedure` on
`add(a, b int) int { return a+b; }` with the arguments `(a, b)` binds `a` to
the first parameter and `b` to the second and returns the `int64` sum `a + b`
(with two's complement wrap-around; the sum itself when it is in the range of
`i64`), having recorded the call; and every call of `vm_call_procedure` that
returns leaves the frame stack, hence its depth, and the stack arena, hence
the level of its checkpoints, as they were before the call. -/
theorem vm_call_procedure_add_and_frames (vm : VirtualMachine) (m : ssaModule) :
    (∀ (fuel : Nat) (a b : vmValue) (st : vmState),
      (∃ st2, (vm_push_frame (record_call st proc_add.name [a, b]) proc_add).bind
          (bind_params proc_add.params [a, b]) = some st2 ∧
        bound_value st2 param_a.id = some a ∧ bound_value st2 param_b.id = some b) ∧
      (∃ st1, vm_call_procedure vm m (fuel + 4) proc_add [a, b] st =
          some (.mk (wrap64 (a.val_int + b.val_int)) [], st1) ∧
        st1.calls = st.calls ++ [("add", [a, b])] ∧ st1.mem = st.mem) ∧
      (-2 ^ 63 ≤ a.val_int + b.val_int → a.val_int + b.val_int < 2 ^ 63 →
        wrap64 (a.val_int + b.val_int) = a.val_int + b.val_int)) ∧
    (∀ (fuel : Nat) (proc : ssaProcedure) (values : List vmValue) (st : vmState) (r : vmValue)
      (st1 : vmState), vm_call_procedure vm m fuel proc values st = some (r, st1) →
      st1.frame_stack.length = st.frame_stack.length ∧
      st1.stack_arena.total_allocated = st.stack_arena.total_allocated ∧
      st1.frame_stack = st.frame_stack ∧ st1.stack_arena = st.stack_arena) := by
  refine ⟨fun fuel a b st => ⟨bind_params_add a b st, vm_call_procedure_add vm m fuel a b st,
    wrap64_in_range _⟩, ?_⟩
  intro fuel proc values st r st1 h
  obtain ⟨h1, h2⟩ := (vm_call_run_keeps vm m fuel).1 proc values st r st1 h
  exact ⟨by rw [h1], by rw [h2], h1, h2⟩

/-- C28 on a 64-bit target, scenario S6: `add` called with `(5, 37)` on a
machine without frames returns the `int64` 42, and afterwards the frame stack
is empty and the level of the stack arena is 0, as before the call. -/
theorem vm_call_procedure_add_and_frames_witness :
    ∃ st1, vm_call_procedure vm64 toy_module 4 proc_add [.mk 5 [], .mk 37 []] vm_state0 =
        some (.mk 42 [], st1) ∧
      st1.frame_stack.length = 0 ∧ st1.stack_arena.total_allocated = 0 :=
  (((vm_call_procedure_add_and_frames vm64 toy_module).1 0 (.mk 5 []) (.mk 37 [])
      vm_state0).2.1).imp fun _ h =>
    ⟨h.1,
      ((vm_call_procedure_add_and_frames vm64 toy_module).2 4 proc_add [.mk 5 [], .mk 37 []]
        vm_state0 _ _ h.1).1,
      ((vm_call_procedure_add_and_frames vm64 toy_module).2 4 proc_add [.mk 5 [], .mk 37 []]
        vm_state0 _ _ h.1).2.1⟩

/-- C29: on the machine `vm_state0`, the struct constant `{"hi", 2}` (the SSA
value at address 77) materialised twice in a row: after the first time the
map `const_compound_lits` holds no entry for it, and the second time the
composite is built again, with a new copy of the text `hi` at the next heap
address (1048578 after 1048576).  The array constant `{"hi", "yo"}`
materialised twice has its entry after the first time, and the second time
the same composite comes back while the heap stays as it is. -/
theorem vm_exact_value_struct_not_memoised :
    materialise_twice const_pair =
      some { first := [[0, 1048576, 2], [2]], cached := false,
             second := [[0, 1048578, 2], [2]], heap_first := 1048578, heap_second := 1048580 } ∧
    materialise_twice const_array =
      some { first := [[0, 1048576, 2], [0, 1048578, 2]], cached := true,
             second := [[0, 1048576, 2], [0, 1048578, 2]], heap_first := 1048580,
             heap_second := 1048580 } := by
  decide

/-! ## Expression statements and shielded breaks -/

theorem check_is_terminating_expr (expr : AstNode) (h : expr.is_expr = true) :
    check_is_terminating expr = some false := by
  cases expr <;> first | rfl | cases h

/-- C31 fails at `no_return();`: the expression statement wraps a call, and
`check_is_terminating` has no case for a call expression, so the statement is
not terminating. -/
theorem check_is_terminating_call_no_return :
    call_no_return.is_CallExpr = true ∧
    check_is_terminating (.ExprStmt call_no_return) = some false := by
  decide

/-- C31, amended: `check_is_terminating` of an `ExprStmt` equals
`check_is_terminating` of the wrapped node, and that is false whenever the
wrapped node is of an expression kind, a call included. -/
theorem check_is_terminating_expr_stmt (expr : AstNode) :
    check_is_terminating (.ExprStmt expr) = check_is_terminating expr ∧
    (expr.is_expr = true → check_is_terminating (.ExprStmt expr) = some false) := by
  refine ⟨by rw [check_is_terminating], fun h => ?_⟩
  rw [check_is_terminating]
  exact check_is_terminating_expr expr h

/-- C31 at `no_return();`. -/
theorem check_is_terminating_expr_stmt_witness :
    call_no_return.is_expr = true ∧
    check_is_terminating (.ExprStmt call_no_return) = some false :=
  ⟨rfl, (check_is_terminating_expr_stmt call_no_return).2 rfl⟩

theorem open_break_list_of_mem (stmts : List AstNode) (s : AstNode) (hs : s ∈ stmts)
    (h : open_break s = true) : open_break_list stmts = true := by
  induction stmts with
  | nil => cases hs
  | cons a rest ih =>
    rw [open_break_list]
    rcases List.mem_cons.mp hs with rfl | hm
    · rw [h]; rfl
    · rw [ih hm]; simp

theorem open_break_of_reaches (s : AstNode) (h : ReachesBreak s) : open_break s = true := by
  induction h with
  | branch token h => simp [open_break, h]
  | block stmts s hs _ ih =>
    rw [open_break]
    exact open_break_list_of_mem stmts s hs ih
  | if_body init cond body else_stmt _ ih =>
    rw [open_break, ih]; simp
  | if_else init cond body e _ ih =>
    rw [open_break, open_break_opt, ih]; simp
  | clause token list stmts s hs _ ih =>
    rw [open_break]
    exact open_break_list_of_mem stmts s hs ih

/-- C35: `check_has_break` is false for every node kind other than
`BranchStmt`, `BlockStmt`, `IfStmt` and `CaseClause`; so for a `ForStmt`
without a condition whose body has every `break` inside a `WhenStmt`,
`PushAllocator`, `PushContext` or `DeferStmt`, `check_has_break(body, true)` is
false and the `for` is terminating. -/
theorem check_has_break_shielded :
    (∀ (s : AstNode) (implicit : Bool), s.is_BranchStmt = false → s.is_BlockStmt = false →
      s.is_IfStmt = false → s.is_CaseClause = false → check_has_break s implicit = false) ∧
    (∀ (init post : Option AstNode) (body : AstNode), open_break body = false →
      check_has_break body true = false ∧
      check_is_terminating (.ForStmt init none post body) = some true) := by
  refine ⟨fun s implicit h1 h2 h3 h4 => ?_, fun init post body h => ?_⟩
  · cases s <;> first
      | rfl
      | exact Bool.noConfusion h1
      | exact Bool.noConfusion h2
      | exact Bool.noConfusion h3
      | exact Bool.noConfusion h4
  · have hb : check_has_break body true = false := by
      cases hc : check_has_break body true with
      | false => rfl
      | true =>
        rw [open_break_of_reaches body (check_has_break_reaches body hc)] at h
        cases h
    refine ⟨hb, ?_⟩
    rw [check_is_terminating, hb]
    rfl

/-- C35 at `for { when true { break; } }`, and with the `break` inside a
`defer`, a `push_allocator` and a `push_context` instead. -/
theorem check_has_break_shielded_witness :
    check_has_break (.WhenStmt ident_true (some (.BlockStmt [stmt_break 1 13])) none) true
      = false ∧
    (check_has_break body_when_break true = false ∧
      check_is_terminating (.ForStmt none none none body_when_break) = some true) ∧
    (check_has_break body_defer_break true = false ∧
      check_is_terminating (.ForStmt none none none body_defer_break) = some true) ∧
    (check_has_break body_push_allocator_break true = false ∧
      check_is_terminating (.ForStmt none none none body_push_allocator_break) = some true) ∧
    (check_has_break body_push_context_break true = false ∧
      check_is_terminating (.ForStmt none none none body_push_context_break) = some true) :=
  ⟨check_has_break_shielded.1 _ true rfl rfl rfl rfl,
   check_has_break_shielded.2 none none body_when_break (by decide),
   check_has_break_shielded.2 none none body_defer_break (by decide),
   check_has_break_shielded.2 none none body_push_allocator_break (by decide),
   check_has_break_shielded.2 none none body_push_context_break (by decide)⟩

/-! ## Integer arithmetic and integer stores -/

theorem of_bits64_range (n : Nat) : -2 ^ 63 ≤ of_bits64 n ∧ of_bits64 n < 2 ^ 63 := by
  unfold of_bits64
  have h : n % 2 ^ 64 < 2 ^ 64 := Nat.mod_lt _ (by norm_num)
  norm_num at h ⊢
  split <;> constructor <;> omega

theorem wrap64_range (x : Int) : -2 ^ 63 ≤ wrap64 x ∧ wrap64 x < 2 ^ 63 := by
  unfold wrap64 of_bits64
  have h := bits64_lt x
  rw [Nat.mod_eq_of_lt h]
  norm_num at h ⊢
  split <;> constructor <;> omega

theorem wrap64_emod (x : Int) : wrap64 x % 2 ^ 64 = x % 2 ^ 64 := by
  unfold wrap64 of_bits64
  have h := bits64_lt x
  rw [Nat.mod_eq_of_lt h, bits64_cast]
  split
  · exact Int.emod_emod_of_dvd _ (dvd_refl _)
  · rw [Int.sub_emod, Int.emod_self, sub_zero, Int.emod_emod_of_dvd _ (dvd_refl _),
      Int.emod_emod_of_dvd _ (dvd_refl _)]

theorem binary_op_value_integer (m : ssaModule) (t : Ty) (op : TokenKind) (l r : vmValue)
    (i : Int) (ht : is_type_integer t = true)
    (h : binary_op_integer op l.val_int r.val_int = some i) :
    binary_op_value m t op l r = some (.mk i []) := by
  unfold binary_op_value
  rw [if_pos ht, h]

theorem vm_exec_instr_binary_op (vm : VirtualMachine) (m : ssaModule) (fuel : Nat)
    (call : ssaProcedure → List vmValue → vmState → Option (vmValue × vmState))
    (id : Nat) (type : Ty) (op : TokenKind) (left right : ssaValue) (t : Ty)
    (st st1 st2 : vmState) (l r : vmValue) (i : Int)
    (ht : ssa_type left = some t) (hint : is_type_integer t = true)
    (hl : vm_operand_value m fuel left st = some (l, st1))
    (hr : vm_operand_value m fuel right st1 = some (r, st2))
    (hc : is_comparison_op op = false)
    (h : binary_op_integer op l.val_int r.val_int = some i) :
    vm_exec_instr vm m fuel call (.Instr id type (.BinaryOp op left right)) st =
      vm_set_value st2 id (.mk i []) := by
  simp only [vm_exec_instr, ht, hc, hl, hr, binary_op_value_integer m t op l r i hint h]
  rfl

theorem testBit_and_not_64 (a b k : Nat) (hb : b < 2 ^ 64) (hk : k < 64) :
    (a &&& (2 ^ 64 - 1 - b)).testBit k = (a.testBit k && !b.testBit k) := by
  have h : 2 ^ 64 - 1 - b = 2 ^ 64 - (b + 1) := by omega
  rw [Nat.testBit_and, h, Nat.testBit_two_pow_sub_succ hb]
  simp [hk]

/-- C33: for a left operand of any integer type, when the two operands
evaluate to `l` and `r`, `Add`, `Sub` and `Mul` bind the 64-bit two's complement
wrap-around of the exact sum, difference and product of the `val_int`s (the
`i64` congruent to it modulo `2^64`), `And`, `Or` and `Xor` bind the value whose
bits are the bitwise and, or and exclusive or of the operands' 64 bits, and
`AndNot` the bits of `l` that are not in `r`; the operand type's size does not
enter. -/
theorem vm_exec_instr_binary_op_integer (vm : VirtualMachine) (m : ssaModule) (fuel : Nat)
    (call : ssaProcedure → List vmValue → vmState → Option (vmValue × vmState))
    (id : Nat) (type : Ty) (left right : ssaValue) (t : Ty)
    (st st1 st2 : vmState) (l r : vmValue)
    (ht : ssa_type left = some t) (hint : is_type_integer t = true)
    (hl : vm_operand_value m fuel left st = some (l, st1))
    (hr : vm_operand_value m fuel right st1 = some (r, st2)) :
    (∀ x : Int, (-2 ^ 63 ≤ wrap64 x ∧ wrap64 x < 2 ^ 63) ∧ wrap64 x % 2 ^ 64 = x % 2 ^ 64) ∧
    vm_exec_instr vm m fuel call (.Instr id type (.BinaryOp .Token_Add left right)) st =
      vm_set_value st2 id (.mk (wrap64 (l.val_int + r.val_int)) []) ∧
    vm_exec_instr vm m fuel call (.Instr id type (.BinaryOp .Token_Sub left right)) st =
      vm_set_value st2 id (.mk (wrap64 (l.val_int - r.val_int)) []) ∧
    vm_exec_instr vm m fuel call (.Instr id type (.BinaryOp .Token_Mul left right)) st =
      vm_set_value st2 id (.mk (wrap64 (l.val_int * r.val_int)) []) ∧
    ∃ a o x n : Int,
      vm_exec_instr vm m fuel call (.Instr id type (.BinaryOp .Token_And left right)) st =
        vm_set_value st2 id (.mk a []) ∧
      vm_exec_instr vm m fuel call (.Instr id type (.BinaryOp .Token_Or left right)) st =
        vm_set_value st2 id (.mk o []) ∧
      vm_exec_instr vm m fuel call (.Instr id type (.BinaryOp .Token_Xor left right)) st =
        vm_set_value st2 id (.mk x []) ∧
      vm_exec_instr vm m fuel call (.Instr id type (.BinaryOp .Token_AndNot left right)) st =
        vm_set_value st2 id (.mk n []) ∧
      (-2 ^ 63 ≤ a ∧ a < 2 ^ 63) ∧ (-2 ^ 63 ≤ o ∧ o < 2 ^ 63) ∧
      (-2 ^ 63 ≤ x ∧ x < 2 ^ 63) ∧ (-2 ^ 63 ≤ n ∧ n < 2 ^ 63) ∧
      ∀ k : Nat, k < 64 →
        (bits64 a).testBit k = ((bits64 l.val_int).testBit k && (bits64 r.val_int).testBit k) ∧
        (bits64 o).testBit k = ((bits64 l.val_int).testBit k || (bits64 r.val_int).testBit k) ∧
        (bits64 x).testBit k = ((bits64 l.val_int).testBit k ^^ (bits64 r.val_int).testBit k) ∧
        (bits64 n).testBit k =
          ((bits64 l.val_int).testBit k && !(bits64 r.val_int).testBit k) := by
  have hL := bits64_lt l.val_int
  have hR := bits64_lt r.val_int
  have ha : bits64 l.val_int &&& bits64 r.val_int < 2 ^ 64 := Nat.and_lt_two_pow _ hR
  have ho : bits64 l.val_int ||| bits64 r.val_int < 2 ^ 64 := Nat.or_lt_two_pow hL hR
  have hx : bits64 l.val_int ^^^ bits64 r.val_int < 2 ^ 64 := Nat.xor_lt_two_pow hL hR
  have hn : bits64 l.val_int &&& (2 ^ 64 - 1 - bits64 r.val_int) < 2 ^ 64 :=
    Nat.and_lt_two_pow _ (by omega)
  refine ⟨fun x => ⟨wrap64_range x, wrap64_emod x⟩,
    vm_exec_instr_binary_op vm m fuel call id type _ left right t st st1 st2 l r _ ht hint hl hr
      rfl rfl,
    vm_exec_instr_binary_op vm m fuel call id type _ left right t st st1 st2 l r _ ht hint hl hr
      rfl rfl,
    vm_exec_instr_binary_op vm m fuel call id type _ left right t st st1 st2 l r _ ht hint hl hr
      rfl rfl,
    of_bits64 (bits64 l.val_int &&& bits64 r.val_int),
    of_bits64 (bits64 l.val_int ||| bits64 r.val_int),
    of_bits64 (bits64 l.val_int ^^^ bits64 r.val_int),
    of_bits64 (bits64 l.val_int &&& (2 ^ 64 - 1 - bits64 r.val_int)),
    vm_exec_instr_binary_op vm m fuel call id type _ left right t st st1 st2 l r _ ht hint hl hr
      rfl rfl,
    vm_exec_instr_binary_op vm m fuel call id type _ left right t st st1 st2 l r _ ht hint hl hr
      rfl rfl,
    vm_exec_instr_binary_op vm m fuel call id type _ left right t st st1 st2 l r _ ht hint hl hr
      rfl rfl,
    vm_exec_instr_binary_op vm m fuel call id type _ left right t st st1 st2 l r _ ht hint hl hr
      rfl rfl,
    of_bits64_range _, of_bits64_range _, of_bits64_range _, of_bits64_range _, ?_⟩
  intro k hk
  rw [bits64_of_bits64 _ ha, bits64_of_bits64 _ ho, bits64_of_bits64 _ hx, bits64_of_bits64 _ hn]
  exact ⟨Nat.testBit_and _ _ _, Nat.testBit_or _ _ _, Nat.testBit_xor _ _ _,
    testBit_and_not_64 _ _ k hR hk⟩

/-- C33 on `u8` operands: `255 + 1` binds 256, and `12 &~ 10` binds 4. -/
theorem vm_exec_instr_binary_op_integer_witness :
    (ssa_type (.Param 1 (.Basic .Basic_u8)) = some (.Basic .Basic_u8) ∧
     is_type_integer (.Basic .Basic_u8) = true ∧
     vm_operand_value toy_module 0 (.Param 1 (.Basic .Basic_u8)) (operand_state 255 1) =
       some (.mk 255 [], operand_state 255 1) ∧
     vm_operand_value toy_module 0 (.Param 2 (.Basic .Basic_u8)) (operand_state 255 1) =
       some (.mk 1 [], operand_state 255 1)) ∧
    vm_exec_instr vm64 toy_module 0 (vm_call_procedure vm64 toy_module 0)
        (.Instr 3 (.Basic .Basic_u8)
          (.BinaryOp .Token_Add (.Param 1 (.Basic .Basic_u8)) (.Param 2 (.Basic .Basic_u8))))
        (operand_state 255 1) =
      vm_set_value (operand_state 255 1) 3 (.mk 256 []) ∧
    binary_op_result (.Basic .Basic_u8) .Token_Add 255 1 = some 256 ∧
    binary_op_result (.Basic .Basic_u8) .Token_AndNot 12 10 = some 4 :=
  ⟨⟨rfl, rfl, rfl, rfl⟩,
   (vm_exec_instr_binary_op_integer vm64 toy_module 0 (vm_call_procedure vm64 toy_module 0) 3
      (.Basic .Basic_u8) (.Param 1 (.Basic .Basic_u8)) (.Param 2 (.Basic .Basic_u8))
      (.Basic .Basic_u8) (operand_state 255 1) (operand_state 255 1) (operand_state 255 1)
      (.mk 255 []) (.mk 1 []) rfl rfl rfl rfl).2.1.trans
     (congrArg (fun v => vm_set_value (operand_state 255 1) 3 (.mk v []))
       (by decide : wrap64 (255 + 1) = 256)),
   by decide, by decide⟩

theorem vm_store_integer_some (mem : Memory) (dst : Nat) (val : vmValue) (n : Nat)
    (hdst : dst ≠ 0) :
    vm_store_integer mem dst val n = some (write_bytes mem dst (bits64 val.val_int) n) := by
  unfold vm_store_integer
  rw [if_neg hdst]

/-- C34: for a store width `n` of 1, 2, 4 or 8 bytes, a non-null `dst` and a
value whose `val_int` is `v`, `vm_store_integer` returns, changes no byte
outside `[dst, dst + n)`, and `vm_load_integer(dst, n)` afterwards returns the
scalar whose eight bytes are those of `v` modulo `2^(8n)`, so the bytes above
`n` are zero: for `n < 8` that is the non-negative number `v mod 2^(8n)`
(no sign extension), for `n = 8` it is `v` itself. -/
theorem vm_load_integer_after_store_integer (mem : Memory) (dst n : Nat) (val : vmValue)
    (hdst : dst ≠ 0) (hn : n = 1 ∨ n = 2 ∨ n = 4 ∨ n = 8)
    (hlo : -2 ^ 63 ≤ val.val_int) (hhi : val.val_int < 2 ^ 63) :
    ∃ mem1, vm_store_integer mem dst val n = some mem1 ∧
      (∀ a, a < dst ∨ dst + n ≤ a → mem1 a = mem a) ∧
      (vm_load_integer mem1 dst n).val_comp = [] ∧
      bits64 (vm_load_integer mem1 dst n).val_int = bits64 val.val_int % 2 ^ (8 * n) ∧
      bits64 (vm_load_integer mem1 dst n).val_int / 2 ^ (8 * n) = 0 ∧
      (n < 8 → (vm_load_integer mem1 dst n).val_int = val.val_int % 2 ^ (8 * n) ∧
        0 ≤ (vm_load_integer mem1 dst n).val_int) ∧
      (n = 8 → (vm_load_integer mem1 dst n).val_int = val.val_int) := by
  refine ⟨_, vm_store_integer_some mem dst val n hdst,
    fun a ha => write_bytes_outside mem dst _ n a ha, rfl, ?_⟩
  have hload : (vm_load_integer (write_bytes mem dst (bits64 val.val_int) n) dst n).val_int =
      of_bits64 (bits64 val.val_int % 256 ^ n) := by
    unfold vm_load_integer
    rw [read_write_bytes mem dst _ n n (Nat.le_refl n)]
    rfl
  rw [hload]
  have hbits := copy_low_bytes_bits val.val_int n
  refine ⟨hbits, ?_, ?_, ?_⟩
  · rw [hbits]
    exact Nat.div_eq_of_lt (Nat.mod_lt _ (by positivity))
  · intro h8
    have hm := of_bits64_mod val.val_int n h8
    have hp : ((256 : Int) ^ n) = 2 ^ (8 * n) := by
      rw [pow_mul]
      norm_num
    rw [hm, hp]
    exact ⟨rfl, Int.emod_nonneg _ (by positivity)⟩
  · intro h8
    subst h8
    exact copy_low_bytes_fits val.val_int 8 hlo hhi (bits64_lt _)

/-- C34 at the value -1 stored with one byte at address 16: the byte at 16
is written, the byte at 17 stays, and the load returns 255; stored with eight
bytes it is loaded back as -1. -/
theorem vm_load_integer_after_store_integer_witness :
    (16 ≠ 0 ∧ (1 = 1 ∨ 1 = 2 ∨ 1 = 4 ∨ 1 = 8) ∧
      -2 ^ 63 ≤ (vmValue.mk (-1) []).val_int ∧ (vmValue.mk (-1) []).val_int < 2 ^ 63) ∧
    (∃ mem1, vm_store_integer zero_memory 16 (.mk (-1) []) 1 = some mem1 ∧
      mem1 17 = 0 ∧ (vm_load_integer mem1 16 1).val_int = 255) ∧
    (∃ mem1, vm_store_integer zero_memory 16 (.mk (-1) []) 8 = some mem1 ∧
      (vm_load_integer mem1 16 8).val_int = -1) :=
  ⟨⟨by decide, by decide, by decide, by decide⟩,
   (vm_load_integer_after_store_integer zero_memory 16 1 (.mk (-1) []) (by decide)
      (by decide) (by decide) (by decide)).elim fun mem1 h =>
       ⟨mem1, h.1, (h.2.1 17 (by decide)).trans rfl,
         ((h.2.2.2.2.2.1 (by decide)).1).trans (by decide)⟩,
   (vm_load_integer_after_store_integer zero_memory 16 8 (.mk (-1) []) (by decide)
      (by decide) (by decide) (by decide)).elim fun mem1 h =>
       ⟨mem1, h.1, h.2.2.2.2.2.2 rfl⟩⟩

/-! ## Duplicate and unknown case types of a `TypeMatchStmt` -/

/-- C38: in `match type t : v { case int: return; case int: return; case f32:
return; }` the first clause (token at 2:1) names `int` and the second (token at
3:1) names it again; the "Duplicate type case" diagnostic, placed at the second
`int` (3:6), gives as the previous type case the position 3:1 of the second
clause itself, not the position 2:1 of the first. -/
theorem check_type_match_duplicate_previous_position :
    (check_stmt_internal toy_trace type_match_duplicate trace_checker 0).map
        (fun c => own_errors c.log) =
      some [(⟨"main.odin", 3, 6⟩,
        .duplicate_type_case (type_ident "int" 3 6) ⟨"main.odin", 3, 1⟩)] ∧
    (tok .Token_Ident "case" 2 1).pos = ⟨"main.odin", 2, 1⟩ ∧
    (tok .Token_Ident "case" 3 1).pos = ⟨"main.odin", 3, 1⟩ :=
  ⟨rfl, rfl, rfl⟩

theorem reports_own_calls {c c1 : Checker σ} (h : Reports c c1) :
    own_calls c1.log = own_calls c.log := by
  obtain ⟨_, _, _, evs, h1, h2⟩ := h
  rw [h1, own_calls_append, h2, List.append_nil]

theorem called_branch (C : Collaborators σ) (d : Bool) (token : Token) (g : Nat)
    (events : List Event) (h : Called C d (.BranchStmt token) g events) :
    (token.kind = .Token_break →
      events = if g &&& Stmt_BreakAllowed = 0 then [Event.error token.pos .break_not_allowed]
        else []) ∧
    (token.kind = .Token_continue →
      events = if g &&& Stmt_ContinueAllowed = 0 then
          [Event.error token.pos .continue_not_allowed]
        else []) ∧
    (token.kind = .Token_fallthrough →
      events = if g &&& Stmt_FallthroughAllowed = 0 then
          [Event.error token.pos .fallthrough_illegal_position]
        else []) := by
  obtain ⟨c0, c2, _, hlog, hcall, hev⟩ := h
  rw [check_stmt_internal_BranchStmt] at hcall
  cases hcall
  rw [← hev]
  unfold check_branch_stmt
  refine ⟨fun hk => ?_, fun hk => ?_, fun hk => ?_⟩ <;> rw [hk] <;> dsimp only <;>
    split <;> simp [error, hlog]

theorem type_match_clause_calls_flags (mod_flags : Nat)
    (hf : mod_flags &&& Stmt_FallthroughAllowed = 0) :
    ∀ (checked : List AstNode), ∀ p ∈ type_match_clause_calls mod_flags checked,
      p.2 = clear_flag mod_flags Stmt_FallthroughAllowed := by
  intro checked
  induction checked with
  | nil => intro p hp; simp [type_match_clause_calls] at hp
  | cons cl rest ih =>
    intro p hp
    rw [type_match_clause_calls, List.mem_append] at hp
    rcases hp with hp | hp
    · exact stmt_list_calls_flags _ _ hf p hp
    · exact ih p hp

theorem check_type_match_clauses_calls (C : Collaborators σ) (x : Operand)
    (is_union_ptr is_any : Bool) (var : AstNode) (mod_flags : Nat) :
    ∀ (rest : List AstNode) (seen : List Nat) (c c1 : Checker σ),
      check_type_match_clauses C x is_union_ptr is_any var mod_flags rest seen c = some c1 →
      ∃ checked : List AstNode, checked.Sublist rest ∧
        own_calls c1.log = own_calls c.log ++ type_match_clause_calls mod_flags checked := by
  intro rest
  induction rest with
  | nil =>
    intro seen c c1 h
    rw [check_type_match_clauses_nil] at h
    cases h
    exact ⟨[], List.Sublist.refl _, by simp [type_match_clause_calls]⟩
  | cons cl rest ih =>
    intro seen c c1 h
    cases cl with
    | CaseClause token list stmts =>
      rw [check_type_match_clauses_cons] at h
      split at h
      · cases h
      · rename_i ca seen1 hca
        have h0 := reports_own_calls (reports_check_type_case C _ _ _ _ _ _ _ _ hca)
        obtain ⟨checked, hs, hc⟩ := ih _ _ _ h
        exact ⟨checked, hs.cons _, by rw [hc]; exact congrArg (· ++ _) h0⟩
      · rename_i ca seen1 hca
        have h0 := reports_own_calls (reports_check_type_case C _ _ _ _ _ _ _ _ hca)
        cases h
        exact ⟨[], List.nil_sublist _, by simp [type_match_clause_calls]; exact h0⟩
      · rename_i ca seen1 case_type hca
        have h0 := reports_own_calls (reports_check_type_case C _ _ _ _ _ _ _ _ hca)
        split at h
        · cases h
        · rename_i c2 hc2
          obtain ⟨checked, hs, hc⟩ := ih _ _ _ h
          have h1 := (check_stmt_list_log C stmts _ _ _ hc2).1
          have h2 : own_calls c2.log = own_calls c.log ++ stmt_list_calls stmts mod_flags := by
            rw [h1, ← h0]
            cases case_type <;> rfl
          refine ⟨.CaseClause token list stmts :: checked, hs.cons₂ _, ?_⟩
          rw [hc]
          change own_calls c2.log ++ _ = _
          rw [h2, type_match_clause_calls, clause_stmts_CaseClause, List.append_assoc]
    | _ =>
      obtain ⟨checked, hs, hc⟩ := ih _ _ _ h
      exact ⟨checked, hs.cons _, hc⟩

theorem check_type_match_stmt_calls (C : Collaborators σ) (tag var : AstNode)
    (stmts : List AstNode) (c c1 : Checker σ) (flags : Nat)
    (h : check_stmt_internal C (.TypeMatchStmt tag var (.BlockStmt stmts)) c flags = some c1) :
    ∃ checked : List AstNode, checked.Sublist stmts ∧
      own_calls c1.log = own_calls c.log ++
        type_match_clause_calls (clear_flag flags Stmt_FallthroughAllowed ||| Stmt_BreakAllowed)
          checked := by
  rw [check_stmt_internal_TypeMatchStmt] at h
  dsimp only at h
  have hpre : Reports c (check_assignment C
      (check_expr C (check_open_scope C c (.TypeMatchStmt tag var (.BlockStmt stmts))) tag).1
      (check_expr C (check_open_scope C c (.TypeMatchStmt tag var (.BlockStmt stmts))) tag).2
      none "type match expression").1 :=
    reports_trans (reports_trans (reports_check_open_scope C c _) (reports_check_expr C _ tag))
      (reports_check_assignment C _ _ _ _)
  split at h
  · cases h
    exact ⟨[], List.nil_sublist _, by
      rw [reports_own_calls (reports_error_node C _ _ hpre)]
      simp [type_match_clause_calls]⟩
  · split at h
    · cases h
      exact ⟨[], List.nil_sublist _, by
        rw [reports_own_calls (reports_trans hpre (reports_check_multiple_defaults C _ _ _))]
        simp [type_match_clause_calls]⟩
    · split at h
      · cases h
      · rename_i c2 hc2
        cases h
        obtain ⟨checked, hs, hc⟩ := check_type_match_clauses_calls C _ _ _ _ _ _ _ _ _ hc2
        refine ⟨checked, hs, ?_⟩
        change own_calls c2.log = _
        rw [hc, reports_own_calls (reports_trans hpre (reports_check_multiple_defaults C _ _ _))]

theorem type_match_flags_bits (flags : Nat) :
    (clear_flag flags Stmt_FallthroughAllowed ||| Stmt_BreakAllowed) &&&
        Stmt_FallthroughAllowed = 0 ∧
    clear_flag (clear_flag flags Stmt_FallthroughAllowed ||| Stmt_BreakAllowed)
        Stmt_FallthroughAllowed &&& Stmt_FallthroughAllowed = 0 ∧
    clear_flag (clear_flag flags Stmt_FallthroughAllowed ||| Stmt_BreakAllowed)
        Stmt_FallthroughAllowed &&& Stmt_BreakAllowed = Stmt_BreakAllowed := by
  refine ⟨?_, clear_fallthrough_and_fallthrough _, ?_⟩
  · rw [or_break_and_fallthrough, clear_fallthrough_and_fallthrough]
  · rw [clear_fallthrough_and_break, or_bit_and_self]

/-- C37 as stated fails: in `match type t : v { case int: return; case int:
fallthrough; }` the clause of the `fallthrough` names `int` again, the loop
stops at it and the `fallthrough` is never checked, so it is not diagnosed; and
in `match type t : v { case int: match x { case 1: fallthrough; case 2: return;
} }` the `fallthrough` inside the type-match clause ends a clause of the inner
match that is not the last and is accepted. -/
theorem check_type_match_fallthrough_not_diagnosed :
    (check_stmt_internal toy_trace type_match_duplicate_fallthrough trace_checker 0).map
        (fun c => c.log) =
      some [Event.stmt (stmt_return 2 11) 1 [],
            Event.error ⟨"main.odin", 3, 6⟩
              (.duplicate_type_case (type_ident "int" 3 6) ⟨"main.odin", 3, 1⟩)] ∧
    (check_stmt_internal toy_trace type_match_nested_match trace_checker 0).map
        (fun c => c.log) =
      some [Event.stmt match_x_fallthrough 1
              [Event.stmt (stmt_fallthrough 3 9) 5 [], Event.stmt (stmt_return 4 9) 1 []]] :=
  ⟨rfl, rfl⟩

/-- C37, amended: when the check of a `TypeMatchStmt` returns, the calls of
`check_stmt` it made are those of `check_stmt_list` on the statement lists of
the clauses it checked, each list with the same flags, `FallthroughAllowed`
cleared and `BreakAllowed` set, whatever the position of the clause; every
statement so called got flags without `FallthroughAllowed` and with
`BreakAllowed`, so a `fallthrough` directly in a checked clause is diagnosed
and a `break` directly in it is not. -/
theorem check_type_match_stmt_flags (C : Collaborators σ) (tag var : AstNode)
    (stmts : List AstNode) (c c1 : Checker σ) (flags : Nat)
    (h : check_stmt_internal C (.TypeMatchStmt tag var (.BlockStmt stmts)) c flags = some c1) :
    ∃ (evs : List Event) (checked : List AstNode), c1.log = c.log ++ evs ∧
      checked.Sublist stmts ∧
      own_calls evs =
        type_match_clause_calls (clear_flag flags Stmt_FallthroughAllowed ||| Stmt_BreakAllowed)
          checked ∧
      ∀ s ∈ own_stmts evs,
        has_flag s.2.1 Stmt_FallthroughAllowed = false ∧
        has_flag s.2.1 Stmt_BreakAllowed = true ∧
        ∀ token, s.1 = .BranchStmt token →
          (token.kind = .Token_fallthrough →
            s.2.2 = [Event.error token.pos .fallthrough_illegal_position]) ∧
          (token.kind = .Token_break → s.2.2 = []) := by
  obtain ⟨_, _, _, evs, hlog, hall⟩ :=
    checked_frame C false _ c c1 flags (fun hd => Bool.noConfusion hd) h
  obtain ⟨checked, hsub, hcalls⟩ := check_type_match_stmt_calls C tag var stmts c c1 flags h
  rw [hlog, own_calls_append] at hcalls
  have hcalls := List.append_cancel_left hcalls
  refine ⟨evs, checked, hlog, hsub, hcalls, fun s hs => ?_⟩
  obtain ⟨hb1, hb2, hb3⟩ := type_match_flags_bits flags
  have hmem : (s.1, s.2.1) ∈ own_calls evs := by
    rw [← own_stmts_calls]
    exact List.mem_map.mpr ⟨s, hs, rfl⟩
  rw [hcalls] at hmem
  have hflag : s.2.1 = clear_flag (clear_flag flags Stmt_FallthroughAllowed ||| Stmt_BreakAllowed)
      Stmt_FallthroughAllowed := type_match_clause_calls_flags _ hb1 checked _ hmem
  have hcalled := (events_all_stmts_own _ evs hall s hs).1
  refine ⟨?_, ?_, fun token hn => ?_⟩
  · rw [hflag]
    simp [has_flag, hb2]
  · rw [hflag]
    unfold has_flag
    rw [hb3]
    rfl
  · rw [hn] at hcalled
    obtain ⟨hbr, _, hft⟩ := called_branch C false token _ _ hcalled
    constructor
    · intro hk
      rw [hft hk, hflag, if_pos hb2]
    · intro hk
      rw [hbr hk, hflag, hb3]
      rfl

/-- C37 at `match type t : v { case int: fallthrough; case f32: break;
fallthrough; default: fallthrough; }`: in the first, the middle and the last
clause alike the `fallthrough` is diagnosed, and the `break` is not. -/
theorem check_type_match_stmt_flags_witness :
    check_stmt_internal toy_trace type_match_branches trace_checker 0 =
      some checker_after_type_match_branches ∧
    ∃ (evs : List Event) (checked : List AstNode),
      checker_after_type_match_branches.log = trace_checker.log ++ evs ∧
      own_calls evs = type_match_clause_calls 1 checked ∧
      ∀ s ∈ own_stmts evs,
        has_flag s.2.1 Stmt_FallthroughAllowed = false ∧
        has_flag s.2.1 Stmt_BreakAllowed = true ∧
        ∀ token, s.1 = .BranchStmt token →
          (token.kind = .Token_fallthrough →
            s.2.2 = [Event.error token.pos .fallthrough_illegal_position]) ∧
          (token.kind = .Token_break → s.2.2 = []) :=
  ⟨rfl,
   (check_type_match_stmt_flags toy_trace (type_ident "v" 1 16) (type_ident "t" 1 12) _
      trace_checker checker_after_type_match_branches 0
      (rfl : check_stmt_internal toy_trace type_match_branches trace_checker 0 =
        some checker_after_type_match_branches)).elim fun evs h =>
        h.elim fun checked h => ⟨evs, checked, h.1, h.2.2.1, h.2.2.2⟩⟩

/-! ## Branch statements in the clauses of a `MatchStmt` -/

theorem frame_own_calls {c c1 : Checker σ} (evs : List Event)
    (hlog : c1.log = c.log ++ evs) (L : List (AstNode × Nat))
    (h : own_calls c1.log = own_calls c.log ++ L) : own_calls evs = L := by
  rw [hlog, own_calls_append] at h
  exact List.append_cancel_left h

theorem frame_own_errors {c c1 : Checker σ} (evs : List Event)
    (hlog : c1.log = c.log ++ evs) (h : own_errors c1.log = own_errors c.log) :
    own_errors evs = [] := by
  rw [hlog, own_errors_append] at h
  exact List.append_right_eq_self.mp h

theorem check_match_clauses_split (C : Collaborators σ) (x : Operand) (mod_flags count : Nat) :
    ∀ (before rest : List AstNode) (i : Nat) (seen : MapTypeAndToken) (c c1 : Checker σ),
      check_match_clauses C x mod_flags count (before ++ rest) i seen c = some c1 →
      ∃ (c2 : Checker σ) (seen2 : MapTypeAndToken) (evs : List Event),
        c2.log = c.log ++ evs ∧
        own_calls evs = match_clause_calls mod_flags count before i ∧
        check_match_clauses C x mod_flags count rest (i + before.length) seen2 c2 = some c1 := by
  intro before
  induction before with
  | nil =>
    intro rest i seen c c1 h
    exact ⟨c, seen, [], by simp, rfl, h⟩
  | cons cl before ih =>
    intro rest i seen c c1 h
    cases cl with
    | CaseClause token list stmts =>
      rw [List.cons_append, check_match_clauses_cons] at h
      split at h
      · cases h
      · rename_i c3 hc3
        obtain ⟨c2, seen2, evs, hlog, hcalls, hrest⟩ := ih _ _ _ _ _ h
        have h0 : Reports c (check_open_scope C (check_case_exprs C x list (c, seen)).1
            (.CaseClause token list stmts)) :=
          reports_trans (reports_check_case_exprs C x list (c, seen))
            (reports_check_open_scope C _ _)
        obtain ⟨_, _, _, evs0, hlog0, hcalls0⟩ := h0
        obtain ⟨_, _, _, evs1, hlog1, _⟩ := frame_check_stmt_list C false stmts
          (fun n _ => checked_frame C false n) _ _ _ (fun hd => Bool.noConfusion hd) hc3
        have hc1 := frame_own_calls evs1 hlog1 _ (check_stmt_list_log C _ _ _ _ hc3).1
        refine ⟨c2, seen2, evs0 ++ evs1 ++ evs, ?_, ?_, ?_⟩
        · rw [hlog]
          change c3.log ++ evs = _
          rw [hlog1, hlog0]
          simp
        · rw [own_calls_append, own_calls_append, hcalls0, hc1, hcalls, match_clause_calls]
          rfl
        · rw [List.length_cons, ← Nat.add_assoc, Nat.add_right_comm]
          exact hrest
    | _ =>
      obtain ⟨c2, seen2, evs, hlog, hcalls, hrest⟩ := ih rest (i + 1) seen c c1 h
      refine ⟨c2, seen2, evs, hlog, hcalls, ?_⟩
      rw [List.length_cons, ← Nat.add_assoc, Nat.add_right_comm]
      exact hrest

theorem checked_children_append_last (ft_ok : Bool) (f count : Nat) (n : AstNode)
    (hn : n.is_EmptyStmt = false) :
    ∀ (pre : List AstNode) (i : Nat),
      checked_children ft_ok f count (pre ++ [n]) i =
        checked_children ft_ok f count pre i ++
          [(n, stmt_list_new_flags ft_ok f (i + pre.length) count)] := by
  intro pre
  induction pre with
  | nil =>
    intro i
    simp [checked_children, hn]
  | cons a pre ih =>
    intro i
    rw [List.cons_append, checked_children, checked_children, ih]
    have : i + 1 + pre.length = i + (a :: pre).length := by
      rw [List.length_cons]; omega
    rw [this]
    split <;> simp

theorem checked_children_bits (flags count : Nat) :
    ∀ (rest : List AstNode) (i : Nat),
      ∀ p ∈ checked_children (has_flag flags Stmt_FallthroughAllowed)
          (clear_flag flags Stmt_FallthroughAllowed) count rest i,
        p.2 &&& Stmt_BreakAllowed = flags &&& Stmt_BreakAllowed ∧
        p.2 &&& Stmt_ContinueAllowed = flags &&& Stmt_ContinueAllowed := by
  intro rest
  induction rest with
  | nil => intro i p hp; simp [checked_children] at hp
  | cons n rest ih =>
    intro i p hp
    rw [checked_children] at hp
    split at hp
    · exact ih _ p hp
    · simp only [List.mem_cons] at hp
      rcases hp with hp | hp
      · subst hp
        exact (stmt_list_new_flags_bits flags i count).2
      · exact ih _ p hp

theorem or_break_and_continue (g : Nat) :
    (g ||| Stmt_BreakAllowed) &&& Stmt_ContinueAllowed = g &&& Stmt_ContinueAllowed := by
  rw [Nat.and_distrib_right]
  have : Stmt_BreakAllowed &&& Stmt_ContinueAllowed = 0 := by decide
  rw [this, Nat.or_zero]

theorem match_ft_flags_bits (flags i count : Nat) :
    match_ft_flags (clear_flag flags Stmt_FallthroughAllowed ||| Stmt_BreakAllowed) i count &&&
        Stmt_BreakAllowed = Stmt_BreakAllowed ∧
    match_ft_flags (clear_flag flags Stmt_FallthroughAllowed ||| Stmt_BreakAllowed) i count &&&
        Stmt_ContinueAllowed = flags &&& Stmt_ContinueAllowed := by
  unfold match_ft_flags
  split
  · rw [or_fallthrough_and_break, or_fallthrough_and_continue, or_bit_and_self,
      or_break_and_continue, clear_fallthrough_and_continue]
    exact ⟨rfl, rfl⟩
  · rw [or_bit_and_self, or_break_and_continue, clear_fallthrough_and_continue]
    exact ⟨rfl, rfl⟩

theorem own_stmts_last (evs : List Event) (L : List (AstNode × Nat)) (n : AstNode) (g : Nat)
    (h : own_calls evs = L ++ [(n, g)]) :
    ∃ (S : List (AstNode × Nat × List Event)) (events : List Event),
      own_stmts evs = S ++ [(n, g, events)] := by
  rw [← own_stmts_calls] at h
  obtain ⟨l1, l2, h1, _, h3⟩ := List.map_eq_append_iff.mp h
  match l2, h3 with
  | [s], h3 =>
    simp only [List.map_cons, List.map_nil, List.cons.injEq, and_true] at h3
    refine ⟨l1, s.2.2, ?_⟩
    rw [h1]
    have : s = (n, g, s.2.2) := by
      rcases s with ⟨a, b, e⟩
      simp only [Prod.mk.injEq] at h3
      rw [h3.1, h3.2]
    rw [← this]

theorem check_stmt_opt_calls (C : Collaborators σ) (s : Option AstNode) (c c1 : Checker σ)
    (h : check_stmt_opt C s c 0 = some c1) :
    ∃ evs, c1.log = c.log ++ evs ∧ own_calls evs = opt_call s := by
  cases s with
  | none =>
    rw [check_stmt_opt_none] at h
    cases h
    exact ⟨[], by simp, rfl⟩
  | some n =>
    rw [check_stmt_opt_some] at h
    obtain ⟨events, hlog, _⟩ := check_stmt_with_log C _ _ _ _ _ h
    exact ⟨_, hlog, rfl⟩

theorem stmt_list_calls_bits (stmts : List AstNode) (flags : Nat) :
    ∀ p ∈ stmt_list_calls stmts flags,
      p.2 &&& Stmt_BreakAllowed = flags &&& Stmt_BreakAllowed ∧
      p.2 &&& Stmt_ContinueAllowed = flags &&& Stmt_ContinueAllowed :=
  checked_children_bits flags stmts.length stmts 0

theorem stmt_list_calls_last (pre : List AstNode) (n : AstNode) (flags : Nat)
    (hn : n.is_EmptyStmt = false) :
    ∃ (L : List (AstNode × Nat)) (g : Nat),
      stmt_list_calls (pre ++ [n]) flags = L ++ [(n, g)] ∧
      (has_flag g Stmt_FallthroughAllowed = true ↔
        has_flag flags Stmt_FallthroughAllowed = true) := by
  refine ⟨_, _, checked_children_append_last _ _ _ n hn pre 0, ?_⟩
  rw [(stmt_list_new_flags_bits flags (0 + pre.length) (pre ++ [n]).length).1]
  simp

/-- C32: when the check of a `MatchStmt` returns, its record is that of what
came before the clause, then the calls of `check_stmt_list` on the clause's
statement list, then the clauses after it.  A `fallthrough` that is the last
element of the clause's statement list leaves no diagnostic exactly when the
clause is not the last statement of the match body, and the "illegal position"
diagnostic when it is the last; a `break` directly in the clause leaves no
diagnostic; a `continue` directly in the clause leaves none exactly when
`ContinueAllowed` is in the flags the match was checked with. -/
theorem check_match_stmt_branches (C : Collaborators σ) (init tag : Option AstNode)
    (before after : List AstNode) (token : Token) (list body : List AstNode)
    (c c1 : Checker σ) (flags : Nat)
    (h : check_stmt_internal C
      (.MatchStmt init tag (.BlockStmt (before ++ .CaseClause token list body :: after)))
      c flags = some c1) :
    ∃ E1 E2 E3 : List Event, c1.log = c.log ++ (E1 ++ E2 ++ E3) ∧
      own_calls E1 = opt_call init ++
        match_clause_calls (clear_flag flags Stmt_FallthroughAllowed ||| Stmt_BreakAllowed)
          (before ++ .CaseClause token list body :: after).length before 0 ∧
      own_calls E2 = stmt_list_calls body
        (match_ft_flags (clear_flag flags Stmt_FallthroughAllowed ||| Stmt_BreakAllowed)
          before.length (before ++ .CaseClause token list body :: after).length) ∧
      own_errors E2 = [] ∧
      own_calls E3 =
        match_clause_calls (clear_flag flags Stmt_FallthroughAllowed ||| Stmt_BreakAllowed)
          (before ++ .CaseClause token list body :: after).length after (before.length + 1) ∧
      (∀ pre ft, body = pre ++ [.BranchStmt ft] → ft.kind = .Token_fallthrough →
        ∃ S g events, own_stmts E2 = S ++ [(.BranchStmt ft, g, events)] ∧
          (events = [] ↔ after ≠ []) ∧
          (after = [] → events = [Event.error ft.pos .fallthrough_illegal_position])) ∧
      (∀ s ∈ own_stmts E2, ∀ tok, s.1 = .BranchStmt tok →
        (tok.kind = .Token_break → s.2.2 = []) ∧
        (tok.kind = .Token_continue →
          (s.2.2 = [] ↔ has_flag flags Stmt_ContinueAllowed = true))) := by
  rw [check_stmt_internal_MatchStmt] at h
  split at h
  · cases h
  · rename_i ci hci
    split at h
    · cases h
    · rename_i cm hcm
      cases h
      obtain ⟨evi, hlogi, hcallsi⟩ := check_stmt_opt_calls C init _ _ hci
      have hpre := reports_trans (reports_check_match_tag C tag
          (.BlockStmt (before ++ .CaseClause token list body :: after)) ci)
        (reports_check_multiple_defaults C
          (before ++ .CaseClause token list body :: after) none _)
      obtain ⟨_, _, _, ev0, hlog0, hcalls0⟩ := hpre
      generalize (check_match_tag C tag
        (.BlockStmt (before ++ .CaseClause token list body :: after)) ci).2 = x at hcm
      obtain ⟨c2, seen2, evb, hlogb, hcallsb, hrest⟩ :=
        check_match_clauses_split C x _ _ before _ 0 [] _ _ hcm
      rw [Nat.zero_add, check_match_clauses_cons] at hrest
      split at hrest
      · cases hrest
      · rename_i c3 hc3
        have hopen : Reports c2 (check_open_scope C (check_case_exprs C x list (c2, seen2)).1
            (.CaseClause token list body)) :=
          reports_trans (reports_check_case_exprs C x list (c2, seen2))
            (reports_check_open_scope C _ _)
        obtain ⟨_, _, _, evc, hlogc, hcallsc⟩ := hopen
        obtain ⟨_, _, _, E2, hlog2, hall2⟩ := frame_check_stmt_list C false body
          (fun n _ => checked_frame C false n) _ _ _ (fun hd => Bool.noConfusion hd) hc3
        have hlist := check_stmt_list_log C _ _ _ _ hc3
        have hcalls2 : own_calls E2 = stmt_list_calls body
            (match_ft_flags (clear_flag flags Stmt_FallthroughAllowed ||| Stmt_BreakAllowed)
              before.length (before ++ .CaseClause token list body :: after).length) :=
          frame_own_calls E2 hlog2 _ hlist.1
        have herrs2 := frame_own_errors E2 hlog2 hlist.2
        obtain ⟨_, _, _, E3, hlog3, _⟩ := frame_check_match_clauses C false _ _ _ after
          (fun cl _ n _ => checked_frame C false n) _ _ _ _ (fun hd => Bool.noConfusion hd) hrest
        have hcalls3 := frame_own_calls E3 hlog3 _
          (check_match_clauses_calls C _ _ _ _ _ _ _ _ hrest)
        refine ⟨evi ++ ev0 ++ evb ++ evc, E2, E3, ?_, ?_, hcalls2, herrs2, hcalls3, ?_, ?_⟩
        · change cm.log = _
          rw [hlog3]
          change c3.log ++ E3 = _
          rw [hlog2, hlogc, hlogb, hlog0, hlogi]
          change c.log ++ _ ++ _ ++ _ ++ _ ++ _ ++ _ = _
          simp
        · rw [own_calls_append, own_calls_append, own_calls_append, hcallsi, hcalls0, hcallsb,
            hcallsc]
          simp
        · intro pre ft hbody hk
          subst hbody
          obtain ⟨L, g, hL, hg⟩ := stmt_list_calls_last pre (.BranchStmt ft)
            (match_ft_flags (clear_flag flags Stmt_FallthroughAllowed ||| Stmt_BreakAllowed)
              before.length (before ++ .CaseClause token list (pre ++ [.BranchStmt ft]) ::
                after).length) rfl
          rw [hL] at hcalls2
          obtain ⟨S, events, hS⟩ := own_stmts_last E2 L _ g hcalls2
          have hcalled := (events_all_stmts_own _ E2 hall2 (.BranchStmt ft, g, events)
            (by rw [hS]; simp)).1
          have hev := (called_branch C false ft g events hcalled).2.2 hk
          have hft : has_flag g Stmt_FallthroughAllowed = true ↔ after ≠ [] := by
            rw [hg, match_ft_flags_fallthrough]
            cases after <;> simp
          refine ⟨S, g, events, hS, ?_, ?_⟩
          · rw [← hft, hev]
            unfold has_flag
            by_cases h0 : g &&& Stmt_FallthroughAllowed = 0
            · simp [h0]
            · simp [h0]
          · intro ha
            have h0 : g &&& Stmt_FallthroughAllowed = 0 := by
              by_contra hne
              exact (hft.mp (by unfold has_flag; simpa using hne)) ha
            rw [hev, if_pos h0]
        · intro s hs tok hn
          have hmem : (s.1, s.2.1) ∈ own_calls E2 := by
            rw [← own_stmts_calls]
            exact List.mem_map.mpr ⟨s, hs, rfl⟩
          rw [hcalls2] at hmem
          obtain ⟨hb, hc⟩ := stmt_list_calls_bits _ _ _ hmem
          obtain ⟨hmb, hmc⟩ := match_ft_flags_bits flags before.length
            (before ++ .CaseClause token list body :: after).length
          rw [hmb] at hb
          rw [hmc] at hc
          have hcalled := (events_all_stmts_own _ E2 hall2 s hs).1
          rw [hn] at hcalled
          obtain ⟨hbr, hco, _⟩ := called_branch C false tok _ _ hcalled
          dsimp only at hb hc
          constructor
          · intro hk
            rw [hbr hk, hb]
            rfl
          · intro hk
            rw [hco hk, hc]
            unfold has_flag
            by_cases h0 : flags &&& Stmt_ContinueAllowed = 0
            · simp [h0]
            · simp [h0]

/-- C32 at `match v { case 1: break; continue; fallthrough; case 2: break;
fallthrough; }` checked with no flag: the `fallthrough` that ends the first
clause leaves no diagnostic, the one that ends the last clause is diagnosed. -/
theorem check_match_stmt_branches_witness :
    check_stmt_internal toy match_branches toy_checker 0 = some checker_after_match_branches ∧
    (∃ E1 E2 E3 : List Event,
      checker_after_match_branches.log = toy_checker.log ++ (E1 ++ E2 ++ E3) ∧
      own_calls E2 =
        [(stmt_break 2 9, 1), (stmt_continue 2 16, 1), (stmt_fallthrough 2 26, 5)] ∧
      ∃ S g events, own_stmts E2 = S ++ [(stmt_fallthrough 2 26, g, events)] ∧ events = []) ∧
    (∃ E1 E2 E3 : List Event,
      checker_after_match_branches.log = toy_checker.log ++ (E1 ++ E2 ++ E3) ∧
      own_calls E2 = [(stmt_break 3 9, 1), (stmt_fallthrough 3 16, 1)] ∧
      ∃ S g events, own_stmts E2 = S ++ [(stmt_fallthrough 3 16, g, events)] ∧
        events = [Event.error ⟨"main.odin", 3, 16⟩ .fallthrough_illegal_position]) :=
  ⟨rfl,
   (check_match_stmt_branches toy none (some (.Ident (tok .Token_Ident "v" 1 7))) []
      [clause_two_branches] (tok .Token_Ident "case" 2 1) [lit "1" 2 6]
      [stmt_break 2 9, stmt_continue 2 16, stmt_fallthrough 2 26] toy_checker
      checker_after_match_branches 0 rfl).elim fun E1 h => h.elim fun E2 h => h.elim fun E3 h =>
        ⟨E1, E2, E3, h.1, h.2.2.1.trans rfl,
          (h.2.2.2.2.2.1 [stmt_break 2 9, stmt_continue 2 16]
            (tok .Token_fallthrough "fallthrough" 2 26) rfl rfl).elim fun S h2 =>
              h2.elim fun g h3 => h3.elim fun events h4 =>
                ⟨S, g, events, h4.1, h4.2.1.mpr (List.cons_ne_nil _ _)⟩⟩,
   (check_match_stmt_branches toy none (some (.Ident (tok .Token_Ident "v" 1 7)))
      [clause_one_branches] [] (tok .Token_Ident "case" 3 1) [lit "2" 3 6]
      [stmt_break 3 9, stmt_fallthrough 3 16] toy_checker
      checker_after_match_branches 0 rfl).elim fun E1 h => h.elim fun E2 h => h.elim fun E3 h =>
        ⟨E1, E2, E3, h.1, h.2.2.1.trans rfl,
          (h.2.2.2.2.2.1 [stmt_break 3 9]
            (tok .Token_fallthrough "fallthrough" 3 16) rfl rfl).elim fun S h2 =>
              h2.elim fun g h3 => h3.elim fun events h4 =>
                ⟨S, g, events, h4.1, h4.2.2 rfl⟩⟩⟩

/-! ## The flags a `WhenStmt`, a `BlockStmt` and an `IfStmt` pass on -/

theorem last_fallthrough_events (C : Collaborators σ) (d : Bool) (evs : List Event)
    (pre : List AstNode) (ft : Token) (flags : Nat)
    (hcalls : own_calls evs = stmt_list_calls (pre ++ [.BranchStmt ft]) flags)
    (hall : events_all_stmts (Called C d) evs) (hk : ft.kind = .Token_fallthrough) :
    ∃ S g events, own_stmts evs = S ++ [(.BranchStmt ft, g, events)] ∧
      (events = [] ↔ has_flag flags Stmt_FallthroughAllowed = true) ∧
      (has_flag flags Stmt_FallthroughAllowed = false →
        events = [Event.error ft.pos .fallthrough_illegal_position]) := by
  obtain ⟨L, g, hL, hg⟩ := stmt_list_calls_last pre (.BranchStmt ft) flags rfl
  rw [hL] at hcalls
  obtain ⟨S, events, hS⟩ := own_stmts_last evs L _ g hcalls
  have hcalled := (events_all_stmts_own _ evs hall (.BranchStmt ft, g, events)
    (by rw [hS]; simp)).1
  have hev := (called_branch C d ft g events hcalled).2.2 hk
  refine ⟨S, g, events, hS, ?_, ?_⟩
  · rw [← hg, hev]
    unfold has_flag
    by_cases h0 : g &&& Stmt_FallthroughAllowed = 0
    · simp [h0]
    · simp [h0]
  · intro hf
    have h0 : g &&& Stmt_FallthroughAllowed = 0 := by
      by_contra hne
      have : has_flag g Stmt_FallthroughAllowed = true := by
        unfold has_flag
        simpa using hne
      rw [hg, hf] at this
      cases this
    rw [hev, if_pos h0]

theorem has_flag_clear_fallthrough (flags : Nat) :
    has_flag (clear_flag flags Stmt_FallthroughAllowed) Stmt_FallthroughAllowed = false := by
  unfold has_flag
  rw [clear_fallthrough_and_fallthrough]
  rfl

theorem check_stmt_called (C : Collaborators σ) (node : AstNode) (c c1 : Checker σ)
    (flags : Nat) (h : check_stmt C node c flags = some c1) :
    ∃ events, c1.log = c.log ++ [Event.stmt node flags events] ∧
      Called C false node flags events ∧ events_all_stmts (Called C false) events := by
  obtain ⟨events, hlog, _⟩ := check_stmt_with_log C _ _ _ _ _ h
  obtain ⟨_, _, _, evs, hlog2, hall⟩ := frame_check_stmt_with C false node
    (checked_frame C false node) c c1 flags (fun hd => Bool.noConfusion hd) h
  rw [hlog] at hlog2
  have := List.append_cancel_left hlog2
  rw [← this, events_all_stmts_cons, all_stmts_stmt] at hall
  exact ⟨events, hlog, hall.1.1, hall.1.2⟩

theorem frame_log {C : Collaborators σ} {d : Bool} {c c1 : Checker σ} (h : Frame C d c c1) :
    ∃ evs, c1.log = c.log ++ evs :=
  h.2.2.2.elim fun evs h => ⟨evs, h.1⟩

theorem reports_log {c c1 : Checker σ} (h : Reports c c1) : ∃ evs, c1.log = c.log ++ evs :=
  h.2.2.2.elim fun evs h => ⟨evs, h.1⟩

/-- C40: a `WhenStmt` with a constant boolean condition and a block body is the
call of `check_stmt_list` on the statements of its chosen branch, with the flags
the `WhenStmt` was checked with and in the checker the condition left (no scope
is opened); so when its check returns, a `fallthrough` that is the last
statement of the chosen branch leaves no diagnostic exactly when
`FallthroughAllowed` is in those flags.  A `BlockStmt` checks its statements
with `FallthroughAllowed` cleared, and an `IfStmt` its body, so the same
`fallthrough` as the last statement of a block, or of the block body of an
`if`, is diagnosed whatever the flags are. -/
theorem check_when_stmt_flags_unmasked (C : Collaborators σ) (cond : AstNode)
    (body else_stmt : Option AstNode) (stmts : List AstNode) (c : Checker σ) (flags : Nat) :
    ((check_expr C c cond).2.mode = .Addressing_Constant →
      C.is_type_boolean (check_expr C c cond).2.type = true →
      ((check_expr C c cond).2.value = .Bool true →
        check_when_stmt C cond (some (.BlockStmt stmts)) else_stmt c flags =
          check_stmt_list C stmts (check_expr C c cond).1 flags) ∧
      ((check_expr C c cond).2.value ≠ .Bool true →
        (∀ estmts, check_when_stmt C cond (some (.BlockStmt stmts)) (some (.BlockStmt estmts))
            c flags = check_stmt_list C estmts (check_expr C c cond).1 flags) ∧
        (∀ c2 b2 e2, check_when_stmt C cond (some (.BlockStmt stmts))
            (some (.WhenStmt c2 b2 e2)) c flags =
          check_when_stmt C c2 b2 e2 (check_expr C c cond).1 flags))) ∧
    (∀ c1, check_when_stmt C cond body else_stmt c flags = some c1 →
      ∃ evs, c1.log = c.log ++ evs ∧
        own_calls evs =
          stmt_list_calls (when_branch C (.WhenStmt cond body else_stmt) c) flags ∧
        ∀ pre ft, when_branch C (.WhenStmt cond body else_stmt) c = pre ++ [.BranchStmt ft] →
          ft.kind = .Token_fallthrough →
          ∃ S g events, own_stmts evs = S ++ [(.BranchStmt ft, g, events)] ∧
            (events = [] ↔ has_flag flags Stmt_FallthroughAllowed = true)) ∧
    (∀ c1, check_stmt_internal C (.BlockStmt stmts) c flags = some c1 →
      ∃ evs, c1.log = c.log ++ evs ∧
        own_calls evs = stmt_list_calls stmts (clear_flag flags Stmt_FallthroughAllowed) ∧
        ∀ pre ft, stmts = pre ++ [.BranchStmt ft] → ft.kind = .Token_fallthrough →
          ∃ S g events, own_stmts evs = S ++ [(.BranchStmt ft, g, events)] ∧
            events = [Event.error ft.pos .fallthrough_illegal_position]) ∧
    (∀ init icond else_if c1,
      check_stmt_internal C (.IfStmt init icond (.BlockStmt stmts) else_if) c flags = some c1 →
      ∃ evs body_events, c1.log = c.log ++ evs ∧
        (.BlockStmt stmts, clear_flag flags Stmt_FallthroughAllowed, body_events) ∈
          own_stmts evs ∧
        ∀ pre ft, stmts = pre ++ [.BranchStmt ft] → ft.kind = .Token_fallthrough →
          ∃ S g events, own_stmts body_events = S ++ [(.BranchStmt ft, g, events)] ∧
            events = [Event.error ft.pos .fallthrough_illegal_position]) := by
  refine ⟨fun hm hb => ⟨fun hv => ?_, fun hv => ⟨fun estmts => ?_, fun c2 b2 e2 => ?_⟩⟩,
    fun c1 h => ?_, fun c1 h => ?_, fun init icond else_if c1 h => ?_⟩
  · unfold check_when_stmt
    rw [check_stmt_internal_WhenStmt, if_neg (by simp [hm, hb])]
    dsimp only
    rw [if_pos hv]
  · unfold check_when_stmt
    rw [check_stmt_internal_WhenStmt, if_neg (by simp [hm, hb])]
    dsimp only
    rw [if_neg hv]
  · unfold check_when_stmt
    rw [check_stmt_internal_WhenStmt, if_neg (by simp [hm, hb])]
    dsimp only
    rw [if_neg hv]
  · unfold check_when_stmt at h
    obtain ⟨_, _, _, evs, hlog, hall⟩ :=
      checked_frame C false _ c c1 flags (fun hd => Bool.noConfusion hd) h
    have hcalls := frame_own_calls evs hlog _ (check_when_stmt_calls C _ _ _ _ _ _ h)
    refine ⟨evs, hlog, hcalls, fun pre ft hbr hk => ?_⟩
    rw [hbr] at hcalls
    obtain ⟨S, g, events, hS, hiff, _⟩ := last_fallthrough_events C false evs pre ft flags
      hcalls hall hk
    exact ⟨S, g, events, hS, hiff⟩
  · obtain ⟨_, _, _, evs, hlog, hall⟩ :=
      checked_frame C false _ c c1 flags (fun hd => Bool.noConfusion hd) h
    have hcalls : own_calls evs =
        stmt_list_calls stmts (clear_flag flags Stmt_FallthroughAllowed) := by
      refine frame_own_calls evs hlog _ ?_
      rw [check_stmt_internal_BlockStmt] at h
      split at h
      · cases h
      · rename_i c3 hc3
        cases h
        exact (check_stmt_list_log C stmts _ _ _ hc3).1
    refine ⟨evs, hlog, hcalls, fun pre ft hbr hk => ?_⟩
    rw [hbr] at hcalls
    obtain ⟨S, g, events, hS, _, hno⟩ := last_fallthrough_events C false evs pre ft _
      hcalls hall hk
    exact ⟨S, g, events, hS, hno (has_flag_clear_fallthrough flags)⟩
  · rw [check_stmt_internal_IfStmt] at h
    split at h
    · cases h
    · rename_i ca hca
      split at h
      · cases h
      · rename_i cb hcb
        split at h
        · cases h
        · rename_i cc hcc
          cases h
          obtain ⟨ev1, hlog1⟩ := frame_log (frame_check_stmt_opt C false init
            (fun n _ => checked_frame C false n) _ _ _ (fun hd => Bool.noConfusion hd) hca)
          obtain ⟨ev2, hlog2⟩ := reports_log (reports_if_cond C icond ca)
          obtain ⟨body_events, hlog3, hcalled, hall⟩ := check_stmt_called C _ _ _ _ hcb
          obtain ⟨ev4, hlog4⟩ := frame_log (frame_check_if_else C false else_if
            (fun n _ => checked_frame C false n) _ _ _ (fun hd => Bool.noConfusion hd) hcc)
          refine ⟨ev1 ++ ev2 ++
            [Event.stmt (.BlockStmt stmts) (clear_flag flags Stmt_FallthroughAllowed)
              body_events] ++ ev4, body_events, ?_, ?_, fun pre ft hbr hk => ?_⟩
          · change cc.log = _
            rw [hlog4, hlog3, hlog2, hlog1]
            change c.log ++ _ ++ _ ++ _ ++ _ = _
            simp
          · rw [own_stmts_append, own_stmts_append]
            simp [own_stmts]
          · subst hbr
            have hcalls := called_BlockStmt C false _ _ _ hcalled
            obtain ⟨S, g, events, hS, _, hno⟩ := last_fallthrough_events C false body_events
              pre ft _ hcalls hall hk
            exact ⟨S, g, events, hS, hno (has_flag_clear_fallthrough _)⟩

/-- C40 at `match x { case 1: s case 2: return; }` with `s` the last statement
of the first clause, checked with `FallthroughAllowed` (flags 5): for `when
true { fallthrough; }` the `fallthrough` gets the flags 5 and no diagnostic,
and the `when` opens no scope; for `{ fallthrough; }` and for `if true {
fallthrough; }` the `fallthrough` gets the flags 1 and is diagnosed. -/
theorem check_when_stmt_flags_unmasked_witness :
    ((check_expr toy_trace trace_checker (type_ident "true" 2 14)).2.mode =
        .Addressing_Constant ∧
      toy_trace.is_type_boolean
        (check_expr toy_trace trace_checker (type_ident "true" 2 14)).2.type = true ∧
      (check_expr toy_trace trace_checker (type_ident "true" 2 14)).2.value = .Bool true) ∧
    check_when_stmt toy_trace (type_ident "true" 2 14)
        (some (.BlockStmt [stmt_fallthrough 2 21])) none trace_checker 5 =
      check_stmt_list toy_trace [stmt_fallthrough 2 21] trace_checker 5 ∧
    (check_stmt_internal toy_trace (match_first_clause when_true_fallthrough) trace_checker
        0).map (fun c => (c.log, c.info)) =
      some ([Event.stmt when_true_fallthrough 5 [Event.stmt (stmt_fallthrough 2 21) 5 []],
             Event.stmt (stmt_return 3 9) 1 []],
            [.open_scope ⟨"main.odin", 1, 7⟩, .open_scope ⟨"main.odin", 2, 1⟩, .close_scope,
             .open_scope ⟨"main.odin", 3, 1⟩, .close_scope, .close_scope]) ∧
    (check_stmt_internal toy_trace (match_first_clause block_fallthrough) trace_checker
        0).map (fun c => (c.log, c.info)) =
      some ([Event.stmt block_fallthrough 5
               [Event.stmt (stmt_fallthrough 2 21) 1
                 [Event.error ⟨"main.odin", 2, 21⟩ .fallthrough_illegal_position]],
             Event.stmt (stmt_return 3 9) 1 []],
            [.open_scope ⟨"main.odin", 1, 7⟩, .open_scope ⟨"main.odin", 2, 1⟩,
             .open_scope ⟨"main.odin", 2, 21⟩, .close_scope, .close_scope,
             .open_scope ⟨"main.odin", 3, 1⟩, .close_scope, .close_scope]) ∧
    (check_stmt_internal toy_trace (match_first_clause if_true_fallthrough) trace_checker
        0).map (fun c => (c.log, c.info)) =
      some ([Event.stmt if_true_fallthrough 5
               [Event.stmt block_fallthrough 1
                 [Event.stmt (stmt_fallthrough 2 21) 1
                   [Event.error ⟨"main.odin", 2, 21⟩ .fallthrough_illegal_position]]],
             Event.stmt (stmt_return 3 9) 1 []],
            [.open_scope ⟨"main.odin", 1, 7⟩, .open_scope ⟨"main.odin", 2, 1⟩,
             .open_scope ⟨"main.odin", 2, 12⟩, .open_scope ⟨"main.odin", 2, 21⟩, .close_scope,
             .close_scope, .close_scope,
             .open_scope ⟨"main.odin", 3, 1⟩, .close_scope, .close_scope]) :=
  ⟨⟨rfl, rfl, rfl⟩,
   ((check_when_stmt_flags_unmasked toy_trace (type_ident "true" 2 14) none none
      [stmt_fallthrough 2 21] trace_checker 5).1 rfl rfl).1 rfl,
   rfl, rfl, rfl⟩

/-! ## The context flags during a check -/

end Odin
